import Mathlib

/-!
# TR level viewer: loader and animation runtime

A shallow embedding of `tr_loader.cpp` and `tr_types.cpp`.

Conventions of the embedding:

* machine integers are `Nat`/`Int`; every C++ conversion to a narrower or unsigned type
  is an explicit `%` (see `u8`, `u16`, `u32`, `i16`, `i32`);
* `long` and `size_t` are 64 bits wide and the host is little-endian, as `fread` into an
  integer variable presupposes;
* `assert` is active; a failed `assert`, a thrown exception and an operation whose
  behaviour the language leaves undefined (unchecked access outside a vector, `back()` of
  an empty vector, a null dereference, division by zero) all end the call, as a `failure`;
* `float` arithmetic is idealised as exact arithmetic over `ℚ`; the `glm` library
  functions that are not rational (sine, cosine, spherical interpolation) are parameters;
* pointers into the vectors of a `level` are indices, or copies of the immutable record
  they point to.
-/

namespace tr

/-! ## Failures and machine integers -/

/-- The ways a call can end without returning. -/
inductive failure where
  /-- A failed `assert`. -/
  | assertion_failed
  /-- A thrown `std::runtime_error`. -/
  | runtime_error
  /-- A thrown `std::logic_error`. -/
  | logic_error
  /-- A thrown `std::out_of_range`, from `std::vector::at`. -/
  | out_of_range
  /-- An operation with undefined behaviour. -/
  | undefined_behaviour
  /-- A thrown `std::length_error`, from `std::vector::resize`. -/
  | length_error
deriving DecidableEq, Repr

/-- Conversion to `uint8_t`. -/
def u8 (x : Int) : Nat := (x % 256).toNat

/-- Conversion to `uint16_t` (`ushort`). -/
def u16 (x : Int) : Nat := (x % 65536).toNat

/-- Conversion to `uint32_t`. -/
def u32 (x : Int) : Nat := (x % 4294967296).toNat

/-- Conversion to `int8_t`. -/
def i8 (x : Int) : Int := (x + 128) % 256 - 128

/-- Conversion to `int16_t`. -/
def i16 (x : Int) : Int := (x + 32768) % 65536 - 32768

/-- Conversion to `int32_t` (`int`); also the value a wrapped `int` product takes. -/
def i32 (x : Int) : Int := (x + 2147483648) % 4294967296 - 2147483648

/-- The `version` enumeration. -/
inductive version where
  | version_invalid
  | version_tr1
  | version_tr2
deriving DecidableEq, Repr

/-! ## Files -/

/-- The contents of a file opened for reading: its size in bytes and the byte at each
offset below the size. -/
structure file where
  size : Nat
  byte : Nat → Nat

/-- The state of an open `FILE*` over fixed contents: the position and the end-of-file
indicator. The error indicator is never set, no read of given contents failing. -/
structure cursor where
  pos : Int
  eof : Bool
deriving DecidableEq, Repr

/-- A computation on an open file. -/
abbrev file_m := StateM cursor

/-- Little-endian value of a list of bytes. -/
def le_value : List Nat → Nat
  | [] => 0
  | b :: bs => b % 256 + 256 * le_value bs

/-- The call `fread(&value, size, 1, fp)` into a zero-initialised `value`: the bytes that
are there are copied, the position moves past them, and a short read sets the end-of-file
indicator. The result is the unsigned value. -/
def fread_value (fp : file) (size : Nat) : file_m Nat := fun c =>
  let avail := fp.size - c.pos.toNat
  let k := min size avail
  (le_value ((List.range k).map fun i => fp.byte (c.pos.toNat + i)),
    { pos := c.pos + k, eof := c.eof || decide (k < size) })

/-- The helper `read8`. -/
def read8 (fp : file) : file_m Int := do
  let v ← fread_value fp 1
  pure (i8 v)

/-- The helper `read16`. -/
def read16 (fp : file) : file_m Int := do
  let v ← fread_value fp 2
  pure (i16 v)

/-- The helper `read32`. -/
def read32 (fp : file) : file_m Int := do
  let v ← fread_value fp 4
  pure (i32 v)

/-- The call `ftell(fp)`. -/
def ftell : file_m Int := do
  let c ← get
  pure c.pos

/-- The call `fseek(fp, off, SEEK_CUR)`: a move to a negative position fails and leaves
the file as it is; a move that succeeds clears the end-of-file indicator. -/
def fseek_cur (off : Int) : file_m Unit :=
  modify fun c => if c.pos + off < 0 then c else { pos := c.pos + off, eof := false }

/-- The call `fseek(fp, off, SEEK_SET)`. -/
def fseek_set (off : Int) : file_m Unit :=
  modify fun c => if off < 0 then c else { pos := off, eof := false }

/-- The call `fseek(fp, 0, SEEK_END)`. -/
def fseek_end (fp : file) : file_m Unit :=
  modify fun _ => { pos := fp.size, eof := false }

/-- The call `feof(fp)`. -/
def feof : file_m Bool := do
  let c ← get
  pure c.eof

/-- The call `ferror(fp)`: no read of given contents fails. -/
def ferror : file_m Bool := pure false

/-! ## The level directory -/

/-- The offsets and counts `tr::loader` keeps between the directory scan and the section
decoders. -/
structure directory where
  palette8_offset : Int
  palette16_offset : Int
  num_texpages : Int
  texpages8_offset : Int
  texpages16_offset : Int
  num_texinfos : Int
  texinfos_offset : Int
  num_texanimchain_data_words : Int
  texanimchain_data_offset : Int
  num_mesh_data_words : Int
  mesh_data_offset : Int
  num_mesh_pointers : Int
  mesh_pointers_offset : Int
  num_animations : Int
  animations_offset : Int
  num_anim_structs : Int
  anim_structs_offset : Int
  num_anim_ranges : Int
  anim_ranges_offset : Int
  num_anim_command_data_words : Int
  anim_command_data_offset : Int
  num_anim_frame_data_words : Int
  anim_frame_data_offset : Int
  num_bone_data_dwords : Int
  bone_data_offset : Int
  num_models : Int
  models_offset : Int
  num_sprites : Int
  sprites_offset : Int
  num_sprite_sequences : Int
  sprite_sequences_offset : Int
  num_rooms : Int
  rooms_offset : Int
  num_static_meshes : Int
  static_meshes_offset : Int
  num_objects : Int
  objects_offset : Int

/-- One iteration of the room loop of `build_tr1_level_directory`. -/
def skip_tr1_room (fp : file) : file_m Unit := do
  -- room info
  fseek_cur 16
  -- room data
  let num_room_data_words := u32 (← read32 fp)
  fseek_cur (u32 (num_room_data_words * 2))
  -- portals
  let num_portals := u16 (← read16 fp)
  fseek_cur (num_portals * 32)
  -- sectors
  let num_z_sectors := u16 (← read16 fp)
  let num_x_sectors := u16 (← read16 fp)
  fseek_cur (i32 (num_z_sectors * num_x_sectors * 8))
  -- ambient light intensity
  fseek_cur 2
  -- room lights
  let num_room_lights := u16 (← read16 fp)
  fseek_cur (num_room_lights * 18)
  -- room static meshes
  let num_room_static_meshes := u16 (← read16 fp)
  fseek_cur (num_room_static_meshes * 18)
  -- alternate room
  fseek_cur 2
  -- flags
  fseek_cur 2

/-- One iteration of the room loop of `build_tr2_level_directory`. -/
def skip_tr2_room (fp : file) : file_m Unit := do
  -- room info
  fseek_cur 16
  -- room data
  let num_room_data_words := u32 (← read32 fp)
  fseek_cur (u32 (num_room_data_words * 2))
  -- portals
  let num_portals := u16 (← read16 fp)
  fseek_cur (num_portals * 32)
  -- sectors
  let num_z_sectors := u16 (← read16 fp)
  let num_x_sectors := u16 (← read16 fp)
  fseek_cur (i32 (num_z_sectors * num_x_sectors * 8))
  -- ambient light intensity, ambient light intensity 2, light mode
  fseek_cur 2
  fseek_cur 2
  fseek_cur 2
  -- room lights
  let num_room_lights := u16 (← read16 fp)
  fseek_cur (num_room_lights * 24)
  -- room static meshes
  let num_room_static_meshes := u16 (← read16 fp)
  fseek_cur (num_room_static_meshes * 20)
  -- alternate room
  fseek_cur 2
  -- flags
  fseek_cur 2

/-- The loop `for (long i = 0; i < num_rooms; ++i)` around a room skip. -/
def skip_rooms (skip : file_m Unit) : Nat → file_m Unit
  | 0 => pure ()
  | n + 1 => do
    skip
    skip_rooms skip n

/-- The body of `build_tr1_level_directory` up to its sanity check: every section's count
is read, its offset recorded, and its payload skipped. -/
def scan_tr1_level_directory (fp : file) : file_m directory := do
  fseek_set 0
  -- version
  fseek_cur 4
  -- texpages
  let num_texpages ← read32 fp
  let texpages8_offset ← ftell
  fseek_cur (num_texpages * 256 * 256)
  let texpages16_offset : Int := -1
  -- unused
  fseek_cur 4
  -- rooms
  let num_rooms ← read16 fp
  let rooms_offset ← ftell
  skip_rooms (skip_tr1_room fp) num_rooms.toNat
  -- floor data
  let num_floor_data_words := u32 (← read32 fp)
  fseek_cur (u32 (num_floor_data_words * 2))
  -- mesh data
  let num_mesh_data_words ← read32 fp
  let mesh_data_offset ← ftell
  fseek_cur (num_mesh_data_words * 2)
  -- mesh pointers
  let num_mesh_pointers ← read32 fp
  let mesh_pointers_offset ← ftell
  fseek_cur (num_mesh_pointers * 4)
  -- animations
  let num_animations ← read32 fp
  let animations_offset ← ftell
  fseek_cur (num_animations * 32)
  -- anim structs
  let num_anim_structs ← read32 fp
  let anim_structs_offset ← ftell
  fseek_cur (num_anim_structs * 6)
  -- anim ranges
  let num_anim_ranges ← read32 fp
  let anim_ranges_offset ← ftell
  fseek_cur (num_anim_ranges * 8)
  -- anim command data
  let num_anim_command_data_words ← read32 fp
  let anim_command_data_offset ← ftell
  fseek_cur (num_anim_command_data_words * 2)
  -- bone data
  let num_bone_data_dwords ← read32 fp
  let bone_data_offset ← ftell
  fseek_cur (num_bone_data_dwords * 4)
  -- anim frame data
  let num_anim_frame_data_words ← read32 fp
  let anim_frame_data_offset ← ftell
  fseek_cur (num_anim_frame_data_words * 2)
  -- models
  let num_models ← read32 fp
  let models_offset ← ftell
  fseek_cur (num_models * 18)
  -- static meshes
  let num_static_meshes ← read32 fp
  let static_meshes_offset ← ftell
  fseek_cur (num_static_meshes * 32)
  -- texinfos
  let num_texinfos ← read32 fp
  let texinfos_offset ← ftell
  fseek_cur (num_texinfos * 20)
  -- sprites
  let num_sprites ← read32 fp
  let sprites_offset ← ftell
  fseek_cur (num_sprites * 16)
  -- sprite sequences
  let num_sprite_sequences ← read32 fp
  let sprite_sequences_offset ← ftell
  fseek_cur (num_sprite_sequences * 8)
  -- cameras
  let num_cameras := u32 (← read32 fp)
  fseek_cur (u32 (num_cameras * 16))
  -- sound sources
  let num_sound_sources := u32 (← read32 fp)
  fseek_cur (u32 (num_sound_sources * 16))
  -- boxes
  let num_boxes := u32 (← read32 fp)
  fseek_cur (u32 (num_boxes * 20))
  -- overlap data
  let num_overlap_data_words := u32 (← read32 fp)
  fseek_cur (u32 (num_overlap_data_words * 2))
  -- zones
  fseek_cur (u32 (num_boxes * 12))
  -- texanimchain data
  let num_texanimchain_data_words ← read32 fp
  let texanimchain_data_offset ← ftell
  fseek_cur (num_texanimchain_data_words * 2)
  -- objects
  let num_objects ← read32 fp
  let objects_offset ← ftell
  fseek_cur (num_objects * 22)
  -- light map
  fseek_cur (32 * 256)
  -- palette
  let palette8_offset ← ftell
  fseek_cur (256 * 3)
  let palette16_offset : Int := -1
  -- cinematic frames
  let num_cinematic_frames := u16 (← read16 fp)
  fseek_cur (num_cinematic_frames * 16)
  -- demo data
  let num_demo_data_bytes := u16 (← read16 fp)
  fseek_cur num_demo_data_bytes
  -- sound map
  fseek_cur (256 * 2)
  -- sound details
  let num_sound_details := u32 (← read32 fp)
  fseek_cur (u32 (num_sound_details * 8))
  -- samples
  let num_samples := u32 (← read32 fp)
  fseek_cur num_samples
  -- sample indices
  let num_sample_indices := u32 (← read32 fp)
  fseek_cur (u32 (num_sample_indices * 4))
  pure {
    palette8_offset, palette16_offset, num_texpages, texpages8_offset, texpages16_offset,
    num_texinfos, texinfos_offset, num_texanimchain_data_words, texanimchain_data_offset,
    num_mesh_data_words, mesh_data_offset, num_mesh_pointers, mesh_pointers_offset,
    num_animations, animations_offset, num_anim_structs, anim_structs_offset,
    num_anim_ranges, anim_ranges_offset, num_anim_command_data_words,
    anim_command_data_offset, num_anim_frame_data_words, anim_frame_data_offset,
    num_bone_data_dwords, bone_data_offset, num_models, models_offset, num_sprites,
    sprites_offset, num_sprite_sequences, sprite_sequences_offset, num_rooms, rooms_offset,
    num_static_meshes, static_meshes_offset, num_objects, objects_offset }

/-- The body of `build_tr2_level_directory` up to its sanity check. -/
def scan_tr2_level_directory (fp : file) : file_m directory := do
  fseek_set 0
  -- version
  fseek_cur 4
  -- palette
  let palette8_offset ← ftell
  fseek_cur (256 * 3)
  let palette16_offset ← ftell
  fseek_cur (256 * 4)
  -- texpages
  let num_texpages ← read32 fp
  let texpages8_offset ← ftell
  fseek_cur (num_texpages * 256 * 256)
  let texpages16_offset ← ftell
  fseek_cur (num_texpages * 256 * 256 * 2)
  -- unused
  fseek_cur 4
  -- rooms
  let num_rooms ← read16 fp
  let rooms_offset ← ftell
  skip_rooms (skip_tr2_room fp) num_rooms.toNat
  -- floor data
  let num_floor_data_words := u32 (← read32 fp)
  fseek_cur (u32 (num_floor_data_words * 2))
  -- mesh data
  let num_mesh_data_words ← read32 fp
  let mesh_data_offset ← ftell
  fseek_cur (num_mesh_data_words * 2)
  -- mesh pointers
  let num_mesh_pointers ← read32 fp
  let mesh_pointers_offset ← ftell
  fseek_cur (num_mesh_pointers * 4)
  -- animations
  let num_animations ← read32 fp
  let animations_offset ← ftell
  fseek_cur (num_animations * 32)
  -- anim structs
  let num_anim_structs ← read32 fp
  let anim_structs_offset ← ftell
  fseek_cur (num_anim_structs * 6)
  -- anim ranges
  let num_anim_ranges ← read32 fp
  let anim_ranges_offset ← ftell
  fseek_cur (num_anim_ranges * 8)
  -- anim command data
  let num_anim_command_data_words ← read32 fp
  let anim_command_data_offset ← ftell
  fseek_cur (num_anim_command_data_words * 2)
  -- bones
  let num_bone_data_dwords ← read32 fp
  let bone_data_offset ← ftell
  fseek_cur (num_bone_data_dwords * 4)
  -- anim frame data
  let num_anim_frame_data_words ← read32 fp
  let anim_frame_data_offset ← ftell
  fseek_cur (num_anim_frame_data_words * 2)
  -- models
  let num_models ← read32 fp
  let models_offset ← ftell
  fseek_cur (num_models * 18)
  -- static meshes
  let num_static_meshes ← read32 fp
  let static_meshes_offset ← ftell
  fseek_cur (num_static_meshes * 32)
  -- texinfos
  let num_texinfos ← read32 fp
  let texinfos_offset ← ftell
  fseek_cur (num_texinfos * 20)
  -- sprites
  let num_sprites ← read32 fp
  let sprites_offset ← ftell
  fseek_cur (num_sprites * 16)
  -- sprite sequences
  let num_sprite_sequences ← read32 fp
  let sprite_sequences_offset ← ftell
  fseek_cur (num_sprite_sequences * 8)
  -- cameras
  let num_cameras := u32 (← read32 fp)
  fseek_cur (u32 (num_cameras * 16))
  -- sound sources
  let num_sound_sources := u32 (← read32 fp)
  fseek_cur (u32 (num_sound_sources * 16))
  -- boxes
  let num_boxes := u32 (← read32 fp)
  fseek_cur (u32 (num_boxes * 8))
  -- overlap data
  let num_overlap_data_words := u32 (← read32 fp)
  fseek_cur (u32 (num_overlap_data_words * 2))
  -- zones
  fseek_cur (u32 (num_boxes * 20))
  -- texanimchain data
  let num_texanimchain_data_words ← read32 fp
  let texanimchain_data_offset ← ftell
  fseek_cur (num_texanimchain_data_words * 2)
  -- objects
  let num_objects ← read32 fp
  let objects_offset ← ftell
  fseek_cur (num_objects * 24)
  -- light map
  fseek_cur (32 * 256)
  -- cinematic frames
  let num_cinematic_frames := u16 (← read16 fp)
  fseek_cur (num_cinematic_frames * 16)
  -- demo data
  let num_demo_data_bytes := u16 (← read16 fp)
  fseek_cur num_demo_data_bytes
  -- sound map
  fseek_cur (370 * 2)
  -- sound details
  let num_sound_details := u32 (← read32 fp)
  fseek_cur (u32 (num_sound_details * 8))
  -- sample indices
  let num_sample_indices := u32 (← read32 fp)
  fseek_cur (u32 (num_sample_indices * 4))
  pure {
    palette8_offset, palette16_offset, num_texpages, texpages8_offset, texpages16_offset,
    num_texinfos, texinfos_offset, num_texanimchain_data_words, texanimchain_data_offset,
    num_mesh_data_words, mesh_data_offset, num_mesh_pointers, mesh_pointers_offset,
    num_animations, animations_offset, num_anim_structs, anim_structs_offset,
    num_anim_ranges, anim_ranges_offset, num_anim_command_data_words,
    anim_command_data_offset, num_anim_frame_data_words, anim_frame_data_offset,
    num_bone_data_dwords, bone_data_offset, num_models, models_offset, num_sprites,
    sprites_offset, num_sprite_sequences, sprite_sequences_offset, num_rooms, rooms_offset,
    num_static_meshes, static_meshes_offset, num_objects, objects_offset }

/-- The sanity check that ends both directory scans: the position the scan reached is
compared with the position of the end of the file. -/
def directory_sanity_check (fp : file) (d : directory) :
    file_m (Except failure directory) := do
  let end_offset ← ftell
  fseek_end fp
  let real_end_offset ← ftell
  let at_eof ← feof
  let err ← ferror
  if !at_eof && !err && end_offset == real_end_offset then
    pure (.ok d)
  else
    pure (.error .assertion_failed)

/-- The sanity check run on the result of a scan: the directory and the state of the
file the scan ends with. -/
def finish_directory (fp : file) (r : directory × cursor) : Except failure directory :=
  ((directory_sanity_check fp r.1).run r.2).1

/-- The position a scan ends at: the `end_offset` of the sanity check. -/
def scan_end_offset (r : directory × cursor) : Int := r.2.pos

/-- The function `tr::loader::build_tr1_level_directory`, on a file just opened. -/
def build_tr1_level_directory (fp : file) : Except failure directory :=
  finish_directory fp ((scan_tr1_level_directory fp).run ⟨0, false⟩)

/-- The function `tr::loader::build_tr2_level_directory`, on a file just opened. -/
def build_tr2_level_directory (fp : file) : Except failure directory :=
  finish_directory fp ((scan_tr2_level_directory fp).run ⟨0, false⟩)

/-- The byte offset `build_tr1_level_directory` has reached after skipping the last
section (its `end_offset`). -/
def tr1_end_offset (fp : file) : Int :=
  scan_end_offset ((scan_tr1_level_directory fp).run ⟨0, false⟩)

/-- The byte offset `build_tr2_level_directory` has reached after skipping the last
section (its `end_offset`). -/
def tr2_end_offset (fp : file) : Int :=
  scan_end_offset ((scan_tr2_level_directory fp).run ⟨0, false⟩)

/-! ## Animations: the loader -/

/-- A loop over the records of a section, in order, that ends at the first failure. -/
def for_each {α β : Type} (f : α → Except failure β) : List α → Except failure (List β)
  | [] => .ok []
  | a :: l =>
    match f a with
    | .error e => .error e
    | .ok b =>
      match for_each f l with
      | .error e => .error e
      | .ok bs => .ok (b :: bs)

/-- The checked access `v.at(i)` of a `std::vector`. -/
def vector_at {α : Type} (v : List α) (i : Nat) : Except failure α :=
  match v[i]? with
  | some x => .ok x
  | none => .error .out_of_range

/-- The fields of one 32-byte animation header of the file, as `read32`, `read8` and
`read16` return them to `load_animations`. -/
structure d_animation where
  frame_offset : Int
  ticks_per_frame : Int
  frame_size : Int
  state_id : Int
  first_tick : Int
  last_tick : Int
  next_anim : Int
  next_anim_tick : Int
  num_anim_structs : Int
  anim_struct_offset : Int
  num_anim_commands : Int
  anim_command_offset : Int
deriving DecidableEq, Repr

/-- The struct `tr::animation`; every field but `frame_offset` is a `ushort`. -/
structure animation where
  state_id : Nat
  ticks_per_frame : Nat
  first_tick : Nat
  last_tick : Nat
  next_anim : Nat
  next_anim_tick : Nat
  frame_offset : Nat
  num_anim_structs : Nat
  anim_struct_offset : Nat
  num_anim_commands : Nat
  anim_command_offset : Nat
deriving DecidableEq, Repr

/-- The local struct `d_anim_extra` of `load_animations`: the raw frame offset in bytes
(`uint32_t`) and the frame size in words (`uint8_t`). -/
structure d_anim_extra where
  frame_offset : Nat
  frame_size : Nat
deriving DecidableEq, Repr

/-- One iteration of the header loop of `load_animations`, with its two assertions. The
field `frame_offset` of the animation is assigned by the conversion loop. -/
def read_animation (v : version) (d : d_animation) :
    Except failure (animation × d_anim_extra) := do
  let frame_offset := u32 d.frame_offset
  if frame_offset % 2 ≠ 0 then throw .assertion_failed
  let ticks_per_frame := u16 d.ticks_per_frame
  let frame_size := u8 d.frame_size
  if ¬ ((v = .version_tr1 ∧ frame_size = 0) ∨ (v = .version_tr2 ∧ frame_size ≠ 0)) then
    throw .assertion_failed
  pure ({ state_id := u16 d.state_id,
          ticks_per_frame := ticks_per_frame,
          first_tick := u16 d.first_tick,
          last_tick := u16 d.last_tick,
          next_anim := u16 d.next_anim,
          next_anim_tick := u16 d.next_anim_tick,
          frame_offset := 0,
          num_anim_structs := u16 d.num_anim_structs,
          anim_struct_offset := u16 d.anim_struct_offset,
          num_anim_commands := u16 d.num_anim_commands,
          anim_command_offset := u16 d.anim_command_offset },
        { frame_offset := frame_offset, frame_size := frame_size })

/-- The angle-set loop of `emit_anim_frame_tr1`: the two words of each set are appended
in swapped order. -/
def emit_anglesets (rawdata : List Nat) :
    Nat → Nat → List Nat → Except failure (Nat × List Nat)
  | 0, offset, out => pure (offset, out)
  | n + 1, offset, out => do
    let tmp1 ← vector_at rawdata offset
    let tmp2 ← vector_at rawdata (offset + 1)
    emit_anglesets rawdata n (offset + 2) (out ++ [tmp2, tmp1])

/-- The loop of `emit_anim_frame_tr1` that copies the 9 header words. -/
def emit_header (rawdata : List Nat) (offset : Nat) :
    Nat → List Nat → Except failure (List Nat)
  | 0, out => pure out
  | k + 1, out => do
    let out ← emit_header rawdata offset k out
    let w ← vector_at rawdata (offset + k)
    pure (out ++ [w])

/-- The function `tr::loader::emit_anim_frame_tr1`: `out` is `level->anim_frame_data`;
the result is the raw offset behind the frame and the extended buffer. The length pushed
is converted to the element type `ushort` of the buffer. -/
def emit_anim_frame_tr1 (rawdata : List Nat) (offset : Nat) (out : List Nat) :
    Except failure (Nat × List Nat) := do
  if rawdata.length < offset + 10 then throw .runtime_error
  let num_anglesets ← vector_at rawdata (offset + 9)
  if rawdata.length < offset + 10 + num_anglesets * 2 then throw .runtime_error
  let out := out ++ [u16 (9 + num_anglesets * 2)]
  let out ← emit_header rawdata offset 9 out
  emit_anglesets rawdata num_anglesets (offset + 10) out

/-- The copy loop of `emit_anim_frame_tr2`. -/
def emit_words (rawdata : List Nat) : Nat → Nat → List Nat → Except failure (Nat × List Nat)
  | 0, offset, out => pure (offset, out)
  | n + 1, offset, out => do
    let w ← vector_at rawdata offset
    emit_words rawdata n (offset + 1) (out ++ [w])

/-- The function `tr::loader::emit_anim_frame_tr2`. -/
def emit_anim_frame_tr2 (rawdata : List Nat) (offset stride : Nat) (out : List Nat) :
    Except failure (Nat × List Nat) := do
  if rawdata.length < offset + stride then throw .runtime_error
  let out := out ++ [u16 stride]
  emit_words rawdata stride offset out

/-- The body of the `while` loop of `load_animations`: one frame is emitted for the
version, and the offset returned is stored in the `uint32_t frame_offset`. -/
def emit_anim_frame (v : version) (rawdata : List Nat) (frame_size : Nat)
    (frame_offset : Nat) (out : List Nat) : Except failure (Nat × List Nat) :=
  match v with
  | .version_tr1 => do
    let (o, out) ← emit_anim_frame_tr1 rawdata frame_offset out
    pure (u32 o, out)
  | .version_tr2 => do
    let (o, out) ← emit_anim_frame_tr2 rawdata frame_offset frame_size out
    pure (u32 o, out)
  | .version_invalid => throw .logic_error

/-- The loop `while (frame_offset < next_anim_frame_offset)` of `load_animations`, run
for at most `fuel` iterations; `none` when that many iterations do not end it. -/
def emit_anim_frames (v : version) (rawdata : List Nat) (frame_size next : Nat) :
    Nat → Nat → List Nat → Option (Except failure (Nat × List Nat))
  | fuel, frame_offset, out =>
    if frame_offset < next then
      match fuel with
      | 0 => none
      | fuel + 1 =>
        match emit_anim_frame v rawdata frame_size frame_offset out with
        | .ok (o, out) => emit_anim_frames v rawdata frame_size next fuel o out
        | .error e => some (.error e)
    else some (.ok (frame_offset, out))

/-- The local `uint32_t next_anim_frame_offset` of the conversion loop, for an animation
followed by the animations `rest`: the raw frame offset of the next animation in words,
or the size of the raw frame data for the last animation. -/
def next_anim_frame_offset (rawdata : List Nat) : List (animation × d_anim_extra) → Nat
  | [] => u32 rawdata.length
  | (_, e) :: _ => u32 ((e.frame_offset / 2 : Nat) : Int)

/-- The loop of `load_animations` that converts the frames of every animation to the
common format: `frame_offset` is the raw offset in words reached so far and `out` is
`level->anim_frame_data`. Each `while` loop is given `rawdata.length + 1` iterations. -/
def convert_anim_frames (v : version) (rawdata : List Nat) :
    List (animation × d_anim_extra) → Nat → List Nat →
      Option (Except failure (List animation × List Nat))
  | [], _, out => some (.ok ([], out))
  | (a, anim_extra) :: rest, frame_offset, out =>
    let a := { a with frame_offset := out.length }
    if u32 (frame_offset * 2) ≠ anim_extra.frame_offset then
      some (.error .assertion_failed)
    else
      let next := next_anim_frame_offset rawdata rest
      match emit_anim_frames v rawdata anim_extra.frame_size next
          (rawdata.length + 1) frame_offset out with
      | none => none
      | some (.error e) => some (.error e)
      | some (.ok (frame_offset, out)) =>
        if frame_offset ≠ next then some (.error .assertion_failed)
        else
          match convert_anim_frames v rawdata rest frame_offset out with
          | none => none
          | some (.error e) => some (.error e)
          | some (.ok (as, out)) => some (.ok (a :: as, out))

/-- The function `tr::loader::load_animations`, from the raw frame words `frame_data` and
the animation headers of the file to `level->animations` and `level->anim_frame_data`.
The tables it copies without a check (command data, ranges, structs) are left out. The
result is `none` when a `while` loop does not end within its iterations. -/
def load_animations (v : version) (frame_data : List Nat) (headers : List d_animation) :
    Option (Except failure (List animation × List Nat)) :=
  match for_each (read_animation v) headers with
  | .error e => some (.error e)
  | .ok anims => convert_anim_frames v frame_data anims 0 []

/-! ## Models and the animation runtime -/

/-- The type `glm::vec3`. -/
structure vec3 where
  x : ℚ
  y : ℚ
  z : ℚ
deriving DecidableEq

/-- The type `glm::quat`, its fields in the order of the constructor `glm::quat(w, x, y, z)`. -/
structure quat where
  w : ℚ
  x : ℚ
  y : ℚ
  z : ℚ
deriving DecidableEq

/-- The type `glm::mat4`; `glm::mat4()` is the identity `1` and `*` the matrix product. -/
abbrev mat4 := Matrix (Fin 4) (Fin 4) ℚ

/-- The functions of the `glm` library the runtime and the loader call. The library is not
part of the repository: its functions are parameters. -/
structure glm_lib where
  /-- The constant `glm::pi<float>()`. -/
  pi : ℚ
  /-- The function `glm::sin`. -/
  sin : ℚ → ℚ
  /-- The function `glm::cos`. -/
  cos : ℚ → ℚ
  /-- The function `glm::mix` on `vec3`. -/
  mix : vec3 → vec3 → ℚ → vec3
  /-- The function `glm::slerp`. -/
  slerp : quat → quat → ℚ → quat
  /-- The function `glm::translate`. -/
  translate : mat4 → vec3 → mat4
  /-- The function `glm::rotate`. -/
  rotate : mat4 → ℚ → vec3 → mat4
  /-- The function `glm::mat4_cast`. -/
  mat4_cast : quat → mat4

/-- The static function `AxisAngleToQuaternion`. -/
def AxisAngleToQuaternion (g : glm_lib) (axis : vec3) (angle : ℚ) : quat :=
  let s := g.sin (angle / 2)
  let c := g.cos (angle / 2)
  ⟨c, s * axis.x, s * axis.y, s * axis.z⟩

/-- The static function `EulerAnglesToQuaternion`. -/
def EulerAnglesToQuaternion (g : glm_lib) (angles : vec3) : quat :=
  let sx := g.sin (angles.x / 2)
  let sy := g.sin (angles.y / 2)
  let sz := g.sin (angles.z / 2)
  let cx := g.cos (angles.x / 2)
  let cy := g.cos (angles.y / 2)
  let cz := g.cos (angles.z / 2)
  let sxsy := sx * sy
  let cxcy := cx * cy
  let sxcy := sx * cy
  let cxsy := cx * sy
  ⟨sxsy * sz + cxcy * cz, sxcy * cz + cxsy * sz, cxsy * cz - sxcy * sz, cxcy * sz - sxsy * cz⟩

/-- The struct `tr::anim_frame`; `rotation` holds the entries of the array `rotation[32]`
assigned so far, in index order. -/
structure anim_frame where
  translation : vec3
  rotation : List quat
deriving DecidableEq

/-- The struct `tr::model_node`; `mesh` is the index into `level->meshes`. -/
structure model_node where
  parent : Int
  offset : vec3
  mesh : Nat
deriving DecidableEq

/-- The struct `tr::model`; `animation` is the index into `level->animations`, or `none`
for `nullptr`. -/
structure model where
  id : Nat
  nodes : List model_node
  animation : Option Nat
deriving DecidableEq

/-- The struct `tr::model_object`. The records `model` and `animation` point to are
copied; `room` is the index into `level->rooms`. The pointer `level` is used for
`level->anim_frame_data` only, which the methods take as an argument. -/
structure model_object where
  model : model
  node_transforms : List mat4
  room : Nat
  transform : mat4
  light_intensity : ℚ
  animation : animation
  anim_tick : Nat
  anim_tick_time : ℚ
deriving DecidableEq

/-- A computation that reads `level->anim_frame_data` through `at`: it is given the
indices read before it, and returns its result with the indices read up to its end, the
one that made `at` throw included. -/
def frame_reader (α : Type) : Type := List Nat → Except failure α × List Nat

/-- Sequencing of frame readers: a failure ends the computation. -/
def frame_reader.bind {α β : Type} (m : frame_reader α) (f : α → frame_reader β) :
    frame_reader β := fun log =>
  match m log with
  | (.ok a, log) => f a log
  | (.error e, log) => (.error e, log)

instance : Monad frame_reader where
  pure a := fun log => (.ok a, log)
  bind := frame_reader.bind

instance : MonadExcept failure frame_reader where
  throw e := fun log => (.error e, log)
  tryCatch m _ := m

/-- The read `level->anim_frame_data.at(i)`. -/
def frame_at (anim_frame_data : List Nat) (i : Nat) : frame_reader Nat := fun log =>
  (vector_at anim_frame_data i, log ++ [i])

/-- The result of a frame reader started with no index read. -/
def frame_reader.result {α : Type} (m : frame_reader α) : Except failure α := (m []).1

/-- The indices a frame reader reads, in order. -/
def frame_reader.reads {α : Type} (m : frame_reader α) : List Nat := (m []).2

/-- The constant `CONVERSION_FACTOR` of `parse_anim_frame`. -/
def CONVERSION_FACTOR (g : glm_lib) : ℚ := g.pi / 2 / 256

/-- The node loop of `parse_anim_frame`, from node `i` on: `nodes` are the nodes left,
`rot` the rotations assigned so far. It returns the rotations with the values of the
locals `offset` and `frame_size` at its end. A write to `af.rotation[i]` with `i` not
below 32 is outside the array. -/
def parse_rotations (g : glm_lib) (anim_frame_data : List Nat) :
    List model_node → Nat → Nat → Int → List quat → frame_reader (List quat × Nat × Int)
  | [], _, offset, frame_size, rot => pure (rot, offset, frame_size)
  | _ :: nodes, i, offset, frame_size, rot => do
    if ¬ frame_size > 0 then throw .assertion_failed
    let tmp1 ← frame_at anim_frame_data offset
    let offset := offset + 1
    let frame_size := frame_size - 1
    if tmp1 &&& 0xC000 = 0 then
      if ¬ frame_size > 0 then throw .assertion_failed
      let tmp2 ← frame_at anim_frame_data offset
      let offset := offset + 1
      let frame_size := frame_size - 1
      let c := CONVERSION_FACTOR g
      let angles : vec3 :=
        ⟨c * (((tmp1 &&& 0x3ff0) >>> 4 : Nat) : ℚ),
         c * (((((tmp1 &&& 0x000f) <<< 6) ||| ((tmp2 &&& 0xfc00) >>> 10) : Nat)) : ℚ),
         c * ((tmp2 &&& 0x03ff : Nat) : ℚ)⟩
      if 32 ≤ i then throw .undefined_behaviour
      parse_rotations g anim_frame_data nodes (i + 1) offset frame_size
        (rot ++ [EulerAnglesToQuaternion g angles])
    else
      let axis : vec3 :=
        ⟨if tmp1 &&& 0xC000 = 0x4000 then 1 else 0,
         if tmp1 &&& 0xC000 = 0x8000 then 1 else 0,
         if tmp1 &&& 0xC000 = 0xC000 then 1 else 0⟩
      let angle := CONVERSION_FACTOR g * ((tmp1 &&& 0x03FF : Nat) : ℚ)
      if 32 ≤ i then throw .undefined_behaviour
      parse_rotations g anim_frame_data nodes (i + 1) offset frame_size
        (rot ++ [AxisAngleToQuaternion g axis angle])

/-- The body of `tr::model_object::parse_anim_frame`, returning with the frame the values
of its locals `offset` and `frame_size` at the end. -/
def parse_anim_frame_locals (g : glm_lib) (anim_frame_data : List Nat) (m : model)
    (offset : Nat) : frame_reader (anim_frame × Nat × Int) := do
  let frame_size : Int := ((← frame_at anim_frame_data offset) : Nat)
  let offset := offset + 1
  -- skip bounding box
  let offset := offset + 6
  let frame_size := frame_size - 6
  let x := i16 (← frame_at anim_frame_data offset)
  let y := i16 (← frame_at anim_frame_data (offset + 1))
  let z := i16 (← frame_at anim_frame_data (offset + 2))
  let offset := offset + 3
  let frame_size := frame_size - 3
  let (rot, offset, frame_size) ←
    parse_rotations g anim_frame_data m.nodes 0 offset frame_size []
  pure (⟨⟨x, y, z⟩, rot⟩, offset, frame_size)

/-- The method `tr::model_object::parse_anim_frame`. -/
def parse_anim_frame (g : glm_lib) (anim_frame_data : List Nat) (m : model)
    (offset : Nat) : frame_reader anim_frame := do
  let (af, _, _) ← parse_anim_frame_locals g anim_frame_data m offset
  pure af

/-- The loop `for (int i = 0; i < frame; ++i) offset += anim_frame_data.at(offset) + 1` of
`smooth_anim_frame`. -/
def skip_frames (anim_frame_data : List Nat) : Nat → Nat → frame_reader Nat
  | 0, offset => pure offset
  | n + 1, offset => do
    let w ← frame_at anim_frame_data offset
    skip_frames anim_frame_data n (offset + (w + 1))

/-- The method `tr::model_object::smooth_anim_frame`, on the fields it reads. The integer
divisions are those of `int`, rounding towards zero; a zero `ticks_per_frame` is a
division by zero. -/
def smooth_anim_frame (g : glm_lib) (anim_frame_data : List Nat) (m : model)
    (a : animation) (anim_tick : Nat) (anim_tick_time : ℚ) : frame_reader anim_frame := do
  if a.ticks_per_frame = 0 then throw .undefined_behaviour
  let frame : Int := Int.tdiv ((anim_tick : Int) - a.first_tick) a.ticks_per_frame
  let num_frames : Int := Int.tdiv ((a.last_tick : Int) - a.first_tick) a.ticks_per_frame + 1
  let offset := a.frame_offset
  let offset ← skip_frames anim_frame_data frame.toNat offset
  let af0 ← parse_anim_frame g anim_frame_data m offset
  let offset := offset + ((← frame_at anim_frame_data offset) + 1)
  let offset := if frame ≥ num_frames - 1 then a.frame_offset else offset
  let af1 ← parse_anim_frame g anim_frame_data m offset
  let cur_frame_tick := u16 (Int.tmod ((anim_tick : Int) - a.first_tick) a.ticks_per_frame)
  let alpha : ℚ := (cur_frame_tick + anim_tick_time * 30) / a.ticks_per_frame
  pure ⟨g.mix af0.translation af1.translation alpha,
    List.zipWith (fun q0 q1 => g.slerp q0 q1 alpha) af0.rotation af1.rotation⟩

/-- The conversion of an `int` to `size_t`. -/
def size_t (x : Int) : Nat := (x % 18446744073709551616).toNat

/-- The node loop of `update_node_transforms`, from node `i` on, `node_transforms` holding
the entries pushed so far. -/
def node_transforms_from (g : glm_lib) (af : anim_frame) :
    List model_node → Nat → List mat4 → Except failure (List mat4)
  | [], _, node_transforms => pure node_transforms
  | node :: nodes, i, node_transforms => do
    let transform ←
      if i = 0 then pure (g.translate 1 af.translation)
      else vector_at node_transforms (size_t node.parent)
    let translation := g.translate 1 node.offset
    let transform := transform * translation
    let q ← match af.rotation[i]? with
      | some q => pure q
      | none => throw .undefined_behaviour
    let rotation := g.mat4_cast q
    let transform := transform * rotation
    node_transforms_from g af nodes (i + 1) (node_transforms ++ [transform])

/-- The method `tr::model_object::update_node_transforms`. -/
def update_node_transforms (g : glm_lib) (anim_frame_data : List Nat) (o : model_object) :
    frame_reader model_object := do
  let af ← smooth_anim_frame g anim_frame_data o.model o.animation o.anim_tick
    o.anim_tick_time
  match node_transforms_from g af o.model.nodes 0 [] with
  | .ok node_transforms => pure { o with node_transforms := node_transforms }
  | .error e => throw e

/-- The statements of `tr::model_object::tick` before its call of `update_node_transforms`:
the time is accumulated and the `ushort` tick advanced. -/
def advance_tick (o : model_object) (dt : ℚ) : model_object :=
  let anim_tick_time := o.anim_tick_time + dt
  if anim_tick_time ≥ 1 / 30 then
    let anim_tick_time := anim_tick_time - 1 / 30
    let anim_tick := u16 (o.anim_tick + 1)
    if anim_tick > o.animation.last_tick then
      { o with anim_tick_time := anim_tick_time, anim_tick := o.animation.first_tick }
    else
      { o with anim_tick_time := anim_tick_time, anim_tick := anim_tick }
  else
    { o with anim_tick_time := anim_tick_time }

/-- The method `tr::model_object::tick`. -/
def tick (g : glm_lib) (anim_frame_data : List Nat) (o : model_object) (dt : ℚ) :
    frame_reader model_object :=
  update_node_transforms g anim_frame_data (advance_tick o dt)

/-- The constructor `tr::model_object::model_object`, given `level->animations` and
`level->anim_frame_data`. The members it leaves unset are given as `room`, `transform`
and `light_intensity`; a model without animation makes it dereference `nullptr`. -/
def new_model_object (g : glm_lib) (animations : List animation)
    (anim_frame_data : List Nat) (m : model) (room : Nat) (transform : mat4)
    (light_intensity : ℚ) : frame_reader model_object :=
  match m.animation.bind (animations[·]?) with
  | none => throw .undefined_behaviour
  | some a =>
    update_node_transforms g anim_frame_data
      { model := m, node_transforms := [], room := room, transform := transform,
        light_intensity := light_intensity, animation := a, anim_tick := a.first_tick,
        anim_tick_time := 0 }

/-! ## Models: the loader -/

/-- The local struct `d_model` of `load_models`, its fields as `read32` and `read16`
return them. -/
structure d_model where
  id : Int
  num_meshes : Int
  first_mesh : Int
  bone_data_offset : Int
  frame_data_offset : Int
  animation : Int
deriving DecidableEq, Repr

/-- The unchecked access `v[i]` of a `std::vector`: outside the vector its behaviour is
undefined. -/
def vector_index {α : Type} (v : List α) (i : Nat) : Except failure α :=
  match v[i]? with
  | some x => .ok x
  | none => .error .undefined_behaviour

/-- The node loop `for (uint16_t j = 0; j < dmodel.num_meshes; ++j)` of `load_models`,
with `count` iterations left from node `j` on. The vector `node_stack` is a list whose
head is `node_stack.back()`; `num_level_meshes` is `level->meshes.size()`. -/
def load_model_nodes (bone_data : List Int) (num_level_meshes : Nat) (first_mesh : Nat)
    (bone_data_offset : Nat) :
    Nat → Nat → List Int → List model_node → Except failure (List model_node)
  | 0, _, _, nodes => pure nodes
  | count + 1, j, node_stack, nodes => do
    let parent : Int := (j : Int) - 1
    if ¬ first_mesh + j < num_level_meshes then throw .out_of_range
    let mesh := first_mesh + j
    if j ≠ 0 then
      let base := ((j : Int) - 1) * 4
      let bone_op := u32 (← vector_index bone_data (u32 (bone_data_offset + base)))
      let bone_x ← vector_index bone_data (u32 (bone_data_offset + base + 1))
      let bone_y ← vector_index bone_data (u32 (bone_data_offset + base + 2))
      let bone_z ← vector_index bone_data (u32 (bone_data_offset + base + 3))
      let (parent, node_stack) ←
        if bone_op &&& 0x01 ≠ 0 then
          match node_stack with
          | [] => throw .undefined_behaviour
          | top :: node_stack => pure (top, node_stack)
        else pure (parent, node_stack)
      let node_stack := if bone_op &&& 0x02 ≠ 0 then parent :: node_stack else node_stack
      load_model_nodes bone_data num_level_meshes first_mesh bone_data_offset count (j + 1)
        node_stack (nodes ++ [⟨parent, ⟨bone_x, bone_y, bone_z⟩, mesh⟩])
    else
      load_model_nodes bone_data num_level_meshes first_mesh bone_data_offset count (j + 1)
        node_stack (nodes ++ [⟨parent, ⟨0, 0, 0⟩, mesh⟩])

/-- One iteration of the model loop of `load_models`; `num_animations` is
`level->animations.size()`. -/
def load_model (bone_data : List Int) (num_level_meshes num_animations : Nat)
    (d : d_model) : Except failure model := do
  let id := u32 d.id
  let num_meshes := u16 d.num_meshes
  let first_mesh := u16 d.first_mesh
  let bone_data_offset := u32 d.bone_data_offset
  let anim := u16 d.animation
  let animation ←
    if anim ≠ 65535 then
      if anim < num_animations then pure (some anim) else throw .out_of_range
    else pure none
  let nodes ← load_model_nodes bone_data num_level_meshes first_mesh bone_data_offset
    num_meshes 0 [] []
  pure ⟨id, nodes, animation⟩

/-- The function `tr::loader::load_models`. -/
def load_models (bone_data : List Int) (num_level_meshes num_animations : Nat)
    (models : List d_model) : Except failure (List model) :=
  for_each (load_model bone_data num_level_meshes num_animations) models

/-! ## Texture infos and texture animation chains -/

/-- The struct `tr::texinfo`; `texanimchain` is the index into `level->texinfos`, or
`none` for `nullptr`. -/
structure texinfo where
  texcoord : List (ℚ × ℚ)
  texpage : Nat
  texalphamode : Nat
  texanimchain : Option Nat
deriving DecidableEq

/-- The texinfos `load_palette` appends to the empty `level->texinfos`. -/
def load_palette_texinfos : List texinfo :=
  (List.range 256).map fun (i : Nat) =>
    ⟨List.replicate 4 (((i : ℚ) + 1 / 2) / 256, (1 / 2 : ℚ) / 256), 0, 0, none⟩

/-- One 20-byte texinfo record of the file: the results of the two `read16` and, for each
of the four corners, of the two `read8` that are kept. -/
structure d_texinfo where
  texalphamode : Int
  texpage : Int
  texcoord : List (Int × Int)
deriving DecidableEq, Repr

/-- One iteration of the first loop of `load_texinfos`; the sum `(uint16_t)read16(fp) + 1`
is stored in the `ushort` member `texpage`. -/
def load_texinfo (d : d_texinfo) : texinfo :=
  ⟨d.texcoord.map fun c => ((((u8 c.1 : Nat) : ℚ) + 1 / 2) / 256,
      (((u8 c.2 : Nat) : ℚ) + 1 / 2) / 256),
    u16 ((u16 d.texpage + 1 : Nat) : Int), u16 d.texalphamode, none⟩

/-- One texture animation chain of the file, as `read16` returns its words: the stored
count, and the texinfo index at each position. -/
structure d_texanimchain where
  num_texinfos : Int
  texinfos : Nat → Int

/-- The local `uint32_t num_texinfos` of the chain loop of `load_texinfos`: the stored
count plus one. -/
def texanimchain_length (d : d_texanimchain) : Nat := u32 (d.num_texinfos + 1)

/-- The local vector `texinfos` of the chain loop of `load_texinfos`, once filled. -/
def texanimchain_texinfos (d : d_texanimchain) : List Nat :=
  (List.range (texanimchain_length d)).map fun j => u16 (d.texinfos j + 256)

/-- The assignment `level->texinfos.at(src).texanimchain = &level->texinfos.at(dest)`. -/
def set_texanimchain (texinfos : List texinfo) (src dest : Nat) :
    Except failure (List texinfo) := do
  let t ← vector_at texinfos src
  let _ ← vector_at texinfos dest
  pure (texinfos.set src { t with texanimchain := some dest })

/-- The second inner loop of the chain loop of `load_texinfos`, over the positions
`js` of the chain `chain`. -/
def link_texanimchain (chain : List Nat) :
    List Nat → List texinfo → Except failure (List texinfo)
  | [], texinfos => pure texinfos
  | j :: js, texinfos => do
    let src := chain.getD j 0
    let dest := chain.getD ((j + 1) % chain.length) 0
    let texinfos ← set_texanimchain texinfos src dest
    link_texanimchain chain js texinfos

/-- The chain loop of `load_texinfos`. -/
def link_texanimchains : List d_texanimchain → List texinfo → Except failure (List texinfo)
  | [], texinfos => pure texinfos
  | d :: ds, texinfos => do
    let chain := texanimchain_texinfos d
    let texinfos ← link_texanimchain chain (List.range chain.length) texinfos
    link_texanimchains ds texinfos

/-- The function `tr::loader::load_texinfos`, on the texinfos `load_palette` left. -/
def load_texinfos (texinfos : List texinfo) (records : List d_texinfo)
    (chains : List d_texanimchain) : Except failure (List texinfo) :=
  if texinfos.length ≠ 256 then throw .assertion_failed
  else link_texanimchains chains (texinfos ++ records.map load_texinfo)

/-- The next-reference of texinfo `i`: the texinfo its `texanimchain` points to. -/
def texanimchain_next (texinfos : List texinfo) (i : Nat) : Option Nat :=
  texinfos[i]?.bind (·.texanimchain)

/-- The texinfo reached from texinfo `i` by following the next-reference `k` times, if
every texinfo on the way has one. -/
def follow_texanimchain (texinfos : List texinfo) : Nat → Nat → Option Nat
  | 0, i => some i
  | k + 1, i => (texanimchain_next texinfos i).bind (follow_texanimchain texinfos k)

/-! ## Texture pages -/

/-- The struct `tr::texpage`: `pixels i j k` is the byte `pixels[i][j][k]`. -/
structure texpage where
  pixels : Nat → Nat → Nat → Nat

/-- The texture page `load_palette` appends to the empty `level->texpages`, from the array
`palette[256][3]` that `fread` has filled: a page of zeros but for its row 0, whose column
`j` holds the three products `palette[j][k] * 4`, each stored in a `uchar`, and then 0 for
column 0 and 255 for the other columns. -/
def load_palette_texpage (palette : Nat → Nat → Nat) : texpage :=
  ⟨fun i j k =>
    if i = 0 ∧ j < 256 then
      if k < 3 then u8 ((palette j k * 4 : Nat) : Int)
      else if k = 3 then (if j = 0 then 0 else 255)
      else 0
    else 0⟩

/-- The function `tr::loader::load_palette`, on the texture pages and the number of
texinfos of the level it is called with; the texinfos it appends are
`load_palette_texinfos`. -/
def load_palette (palette : Nat → Nat → Nat) (texpages : List texpage)
    (num_texinfos : Nat) : Except failure (List texpage) :=
  if ¬ texpages.isEmpty ∨ num_texinfos ≠ 0 then throw .assertion_failed
  else pure (texpages ++ [load_palette_texpage palette])

/-- One iteration of the page loop of `load_texpages`, on the array `pixels[256][256]`
of `uint8_t` that `fread` has filled: each texel is a copy of the four bytes of row 0 of
`level->texpages.front()`, at the column the array gives. -/
def load_texpage (front : texpage) (pixels : Nat → Nat → Nat) : texpage :=
  ⟨fun i j k =>
    if i < 256 ∧ j < 256 ∧ k < 4 then front.pixels 0 (pixels i j % 256) k else 0⟩

/-- The function `tr::loader::load_texpages`, on `level->texpages` as `load_palette` left
it and the `num_texpages` arrays of the file: the assertion holds for a vector of one
page, which stays `level->texpages.front()` during the loop. -/
def load_texpages (texpages : List texpage) (pages : List (Nat → Nat → Nat)) :
    Except failure (List texpage) :=
  match texpages with
  | [front] => .ok (front :: pages.map (load_texpage front))
  | _ => .error .assertion_failed

/-! ## Meshes, sprites and rooms -/

/-- The enumeration `tr::mesh_lightmode`. -/
inductive mesh_lightmode where
  | mesh_lightmode_internal
  | mesh_lightmode_external
deriving DecidableEq, Repr

/-- The struct `tr::mesh_vert`. -/
structure mesh_vert where
  position : vec3
  lightattrib : vec3
deriving DecidableEq

/-- The struct `tr::mesh_poly`; `verts` holds the entries of the array `verts[4]` and
`texinfo` is the index into `level->texinfos`. -/
structure mesh_poly where
  verts : List Nat
  texinfo : Nat
deriving DecidableEq

/-- The struct `tr::mesh`. -/
structure mesh where
  id : Nat
  lightmode : mesh_lightmode
  verts : List mesh_vert
  polys : List mesh_poly
deriving DecidableEq

/-- One polygon record of a mesh of the file, as `read16` returns its words: the vertex
index at each position, and the word of the texinfo. -/
structure d_mesh_poly where
  verts : Nat → Int
  texinfo : Int

/-- The data of one mesh of the file after its bounding sphere, as `read16` returns its
words: each of the six counts, the word at each position after the count of vertices and
after the count of light attributes, and the polygon record at each position after each
of the four polygon counts. -/
structure d_mesh where
  num_verts : Int
  positions : Nat → Int
  num_lightattribs : Int
  lightattribs : Nat → Int
  num_textured_quads : Int
  textured_quads : Nat → d_mesh_poly
  num_textured_tris : Int
  textured_tris : Nat → d_mesh_poly
  num_colored_quads : Int
  colored_quads : Nat → d_mesh_poly
  num_colored_tris : Int
  colored_tris : Nat → d_mesh_poly

/-- The values `j` takes in a loop `for (int16_t j = 0; j < n; ++j)` of `load_meshes`,
for a bound `n` that an `int16_t` can hold: none when `n` is not positive. -/
def mesh_loop (n : Int) : List Nat := List.range n.toNat

/-- The three words read at position `j` of a loop that reads three words each time, as
the floats of a `glm::vec3`. -/
def mesh_vec3 (words : Nat → Int) (j : Nat) : vec3 :=
  ⟨(i16 (words (3 * j)) : Int), (i16 (words (3 * j + 1)) : Int),
    (i16 (words (3 * j + 2)) : Int)⟩

/-- The local `float lightintensity` of `load_meshes` for the word read. -/
def mesh_lightintensity (raw : Int) : ℚ := 1 - ((i16 raw : Int) : ℚ) / 8191

/-- The branch on `num_lightattribs` of `load_meshes`: the light mode of the mesh and the
`lightattrib` written for the vertices `j` of the loop, `num_verts` being the local of
that name. Past the assertion the bound of the loop is `num_verts`, which an `int16_t`
holds. -/
def load_mesh_lightattribs (d : d_mesh) (num_verts : Int) :
    Except failure (mesh_lightmode × List vec3) :=
  let num_lightattribs := i16 d.num_lightattribs
  if num_lightattribs > 0 then
    if num_lightattribs ≠ num_verts then .error .assertion_failed
    else .ok (.mesh_lightmode_external,
      (mesh_loop num_lightattribs).map (mesh_vec3 d.lightattribs))
  else
    if -num_lightattribs ≠ num_verts then .error .assertion_failed
    else .ok (.mesh_lightmode_internal,
      (mesh_loop (-num_lightattribs)).map fun j =>
        let lightintensity := mesh_lightintensity (d.lightattribs j)
        ⟨lightintensity, lightintensity, lightintensity⟩)

/-- The argument of `level->texinfos.at` for a textured polygon,
`(read16(fp) & 0x7FFF) + 256`: the mask keeps the low 15 bits of the word. -/
def textured_texinfo (raw : Int) : Nat := (u16 raw &&& 0x7FFF) + 256

/-- The argument of `level->texinfos.at` for a colored polygon, `read16(fp) & 0xFF`:
the mask keeps the low 8 bits of the word. -/
def colored_texinfo (raw : Int) : Nat := u16 raw &&& 0xFF

/-- One iteration of a quad loop of `load_meshes`; `index` gives the argument of
`level->texinfos.at` from the word read. -/
def load_mesh_quad (texinfos : List texinfo) (index : Int → Nat) (p : d_mesh_poly) :
    Except failure mesh_poly :=
  match vector_at texinfos (index p.texinfo) with
  | .error e => .error e
  | .ok _ => .ok ⟨(List.range 4).map fun k => u16 (p.verts k), index p.texinfo⟩

/-- One iteration of a triangle loop of `load_meshes`: `poly.verts[3] = -1` is stored in
a `ushort`. -/
def load_mesh_tri (texinfos : List texinfo) (index : Int → Nat) (p : d_mesh_poly) :
    Except failure mesh_poly :=
  match vector_at texinfos (index p.texinfo) with
  | .error e => .error e
  | .ok _ => .ok ⟨((List.range 3).map fun k => u16 (p.verts k)) ++ [u16 (-1)], index p.texinfo⟩

/-- The four polygon loops of `load_meshes`: the vector `mesh.polys` they fill. -/
def load_mesh_polys (texinfos : List texinfo) (d : d_mesh) :
    Except failure (List mesh_poly) :=
  match for_each (load_mesh_quad texinfos textured_texinfo)
      ((mesh_loop (i16 d.num_textured_quads)).map d.textured_quads) with
  | .error e => .error e
  | .ok textured_quads =>
    match for_each (load_mesh_tri texinfos textured_texinfo)
        ((mesh_loop (i16 d.num_textured_tris)).map d.textured_tris) with
    | .error e => .error e
    | .ok textured_tris =>
      match for_each (load_mesh_quad texinfos colored_texinfo)
          ((mesh_loop (i16 d.num_colored_quads)).map d.colored_quads) with
      | .error e => .error e
      | .ok colored_quads =>
        match for_each (load_mesh_tri texinfos colored_texinfo)
            ((mesh_loop (i16 d.num_colored_tris)).map d.colored_tris) with
        | .error e => .error e
        | .ok colored_tris =>
          .ok (textured_quads ++ textured_tris ++ colored_quads ++ colored_tris)

/-- One iteration of the mesh loop of `load_meshes`, at index `i`. A negative `num_verts`
is converted to a `size_t` above the largest size of a vector, which `resize` refuses;
the vertex `j` gets the position and the light attribute of the iteration `j` of the two
loops, which have `num_verts` iterations each when the assertion holds. -/
def load_mesh (texinfos : List texinfo) (i : Nat) (d : d_mesh) : Except failure mesh :=
  let num_verts := i16 d.num_verts
  if num_verts < 0 then .error .length_error
  else
    let positions := (mesh_loop num_verts).map (mesh_vec3 d.positions)
    match load_mesh_lightattribs d num_verts with
    | .error e => .error e
    | .ok (lightmode, lightattribs) =>
      match load_mesh_polys texinfos d with
      | .error e => .error e
      | .ok polys => .ok ⟨i, lightmode, List.zipWith mesh_vert.mk positions lightattribs, polys⟩

/-- The function `tr::loader::load_meshes`, on the mesh data at each of the
`num_mesh_pointers` mesh pointers; `texinfos` is `level->texinfos`. -/
def load_meshes (texinfos : List texinfo) (records : List d_mesh) :
    Except failure (List mesh) :=
  for_each (fun p => load_mesh texinfos p.1 p.2) records.enum

/-- The struct `tr::sprite`; `position` and `texcoord` hold the four rows of the arrays
`position[4][2]` and `texcoord[4][2]`. -/
structure sprite where
  id : Nat
  position : List (ℚ × ℚ)
  texcoord : List (ℚ × ℚ)
  texpage : Nat
deriving DecidableEq

/-- One 16-byte sprite record of the file, its fields as `read16` and `read8` return
them. -/
structure d_sprite where
  texpage : Int
  x : Int
  y : Int
  w : Int
  h : Int
  left : Int
  top : Int
  right : Int
  bottom : Int
deriving DecidableEq, Repr

/-- One iteration of the loop of `load_sprites`, at index `i`. The fields of the local
`dsprite` are the values read, converted to the types of the fields: `uint16_t texpage`,
`uint8_t x, y`, `uint16_t w, h` and `int16_t left, top, right, bottom`. -/
def load_sprite (i : Nat) (d : d_sprite) : sprite :=
  let texpage : Nat := u16 d.texpage
  let x : ℚ := (u8 d.x : Nat)
  let y : ℚ := (u8 d.y : Nat)
  let w : ℚ := (u16 d.w : Nat)
  let h : ℚ := (u16 d.h : Nat)
  let left : Int := i16 d.left
  let top : Int := i16 d.top
  let right : Int := i16 d.right
  let bottom : Int := i16 d.bottom
  { id := i
    texpage := u16 ((texpage + 1 : Nat) : Int)
    texcoord :=
      [((x + 1 / 2) / 256, (y + 1 / 2 + (h - 255) / 256) / 256),
       ((x + 1 / 2) / 256, (y + 1 / 2) / 256),
       ((x + 1 / 2 + (w - 255) / 256) / 256, (y + 1 / 2) / 256),
       ((x + 1 / 2 + (w - 255) / 256) / 256, (y + 1 / 2 + (h - 255) / 256) / 256)]
    position :=
      [((left : ℚ), ((-bottom : Int) : ℚ)),
       ((left : ℚ), ((-top : Int) : ℚ)),
       ((right : ℚ), ((-top : Int) : ℚ)),
       ((right : ℚ), ((-bottom : Int) : ℚ))] }

/-- The function `tr::loader::load_sprites`: the vector `level->sprites` it fills. -/
def load_sprites (records : List d_sprite) : List sprite :=
  records.enum.map fun p => load_sprite p.1 p.2

/-- The struct `tr::room_light`. -/
structure room_light where
  position : vec3
  intensity : ℚ
  falloff : ℚ
deriving DecidableEq

/-- The struct `tr::room_static_mesh`; `mesh` is the index into `level->meshes`. -/
structure room_static_mesh where
  mesh : Nat
  transform : mat4
  light_intensity : ℚ
deriving DecidableEq

/-- The struct `tr::room_static_sprite`; `sprite` is the index into `level->sprites`. -/
structure room_static_sprite where
  sprite : Nat
  position : vec3
  light_intensity : ℚ
deriving DecidableEq

/-- The struct `tr::room`. -/
structure room where
  id : Nat
  geometry : mesh
  ambient_light_intensity : ℚ
  lights : List room_light
  static_meshes : List room_static_mesh
  static_sprites : List room_static_sprite
  altroom : Nat
  flags : Nat
deriving DecidableEq

/-- The struct `tr::room_loader::d_room_vertex`, as `read_room_vertex` fills it; here and
in the structs below a field of an unsigned type is a natural number. -/
structure d_room_vertex where
  position : vec3
  lighting1 : Nat
  attributes : Nat
  lighting2 : Nat
deriving DecidableEq

/-- The struct `tr::room_loader::d_room_polygon`, as `read_room_polygon` fills it. -/
structure d_room_polygon where
  vertices : List Nat
  texinfo : Nat
deriving DecidableEq

/-- The struct `tr::room_loader::d_room_static_sprite`. -/
structure d_room_static_sprite where
  vertex : Nat
  sprite : Nat
deriving DecidableEq

/-- The struct `tr::room_loader::d_room_light`. -/
structure d_room_light where
  position : vec3
  intensity1 : Int
  intensity2 : Int
  falloff1 : Int
  falloff2 : Int
deriving DecidableEq

/-- The struct `tr::room_loader::d_room_static_mesh`. -/
structure d_room_static_mesh where
  position : vec3
  orientation : Nat
  lighting1 : Nat
  lighting2 : Nat
  static_mesh_id : Nat
deriving DecidableEq

/-- The struct `tr::room_loader::d_room`, as `read_room` fills it. -/
structure d_room where
  x : Int
  z : Int
  y_bottom : Int
  y_top : Int
  vertices : List d_room_vertex
  quads : List d_room_polygon
  tris : List d_room_polygon
  static_sprites : List d_room_static_sprite
  ambient_lighting1 : Int
  ambient_lighting2 : Int
  light_mode : Nat
  lights : List d_room_light
  static_meshes : List d_room_static_mesh
  alternate_room : Nat
  flags : Nat
deriving DecidableEq

/-- The struct `tr::room_loader::d_static_mesh`, as `read_static_mesh` fills it; `aabb`
holds the four corners of the array `aabb[2][2]`. -/
structure d_static_mesh where
  id : Nat
  mesh : Nat
  aabb : List vec3
  flags : Nat
deriving DecidableEq

/-! ## Placed objects -/

/-- The struct `tr::sprite_sequence`; `sprites` are indices into `level->sprites`. -/
structure sprite_sequence where
  id : Nat
  sprites : List Nat
deriving DecidableEq, Repr

/-- One 8-byte sprite sequence record of the file, as `read32` and `read16` return its
fields. -/
structure d_sprite_sequence where
  id : Int
  num_frames : Int
  first_frame : Int
deriving DecidableEq, Repr

/-- One iteration of the loop of `load_sprite_sequences`. The fields of the local
`dspritesequence` are converted to their types: `uint32_t id`, `uint16_t num_frames` for
the negated word and `uint16_t first_frame`; `sprites` is `level->sprites`. -/
def load_sprite_sequence (sprites : List sprite) (d : d_sprite_sequence) :
    Except failure sprite_sequence :=
  let id := u32 d.id
  let num_frames := u16 (-(i16 d.num_frames))
  let first_frame := u16 d.first_frame
  match for_each (fun j =>
      match vector_at sprites (first_frame + j) with
      | .error e => .error e
      | .ok _ => .ok (first_frame + j)) (List.range num_frames) with
  | .error e => .error e
  | .ok refs => .ok ⟨id, refs⟩

/-- The function `tr::loader::load_sprite_sequences`. -/
def load_sprite_sequences (sprites : List sprite) (records : List d_sprite_sequence) :
    Except failure (List sprite_sequence) :=
  for_each (load_sprite_sequence sprites) records

/-- The struct `tr::sprite_object`; `sequence` and `room` are indices into
`level->sprite_sequences` and `level->rooms`. -/
structure sprite_object where
  sequence : Nat
  frame : Nat
  room : Nat
  position : vec3
  light_intensity : ℚ
deriving DecidableEq

/-- One object record of the file, its fields as `read16` and `read32` return them. -/
structure d_object where
  id : Int
  room : Int
  x : Int
  y : Int
  z : Int
  orientation : Int
  light_intensity : Int
  flags : Int
deriving DecidableEq, Repr

/-- The light intensity `load_objects` gives an instance, from the `uint16_t` raw
value. -/
def object_light_intensity (light_intensity : Nat) : ℚ :=
  if light_intensity = 0xFFFF then 1 else 1 - (light_intensity : ℚ) / 8191

/-- The part of a `tr::level` the decoders below fill or read. -/
structure level where
  rooms : List room
  texpages : List texpage
  texinfos : List texinfo
  meshes : List mesh
  models : List model
  sprites : List sprite
  sprite_sequences : List sprite_sequence
  animations : List animation
  anim_frame_data : List Nat
  model_objects : List model_object
  sprite_objects : List sprite_object

/-- The transform `load_objects` gives the instance of an object record. -/
def object_transform (g : glm_lib) (d : d_object) : mat4 :=
  g.translate 1 ⟨d.x, d.y, d.z⟩ *
    g.rotate 1 ((((u16 d.orientation >>> 14) &&& 0xFF : Nat) : ℚ) * g.pi / 2) ⟨0, 1, 0⟩

/-- The first inner loop of `load_objects`: the first model with the id of the record, if
any, is instantiated and bound to the room of the record. -/
def load_model_object (g : glm_lib) (lvl : level) (num_rooms : Nat) (d : d_object) :
    Except failure (Option model_object) :=
  match lvl.models.find? (fun m => m.id = u16 d.id) with
  | none => pure none
  | some m => do
    let transform := object_transform g d
    let o ← (new_model_object g lvl.animations lvl.anim_frame_data m 0 transform 0).result
    if ¬ u16 d.room < num_rooms then throw .out_of_range
    pure (some { o with room := u16 d.room,
                        light_intensity := object_light_intensity (u16 d.light_intensity) })

/-- The second inner loop of `load_objects`: the first sprite sequence with the id of the
record, if any, is instantiated. -/
def load_sprite_object (lvl : level) (num_rooms : Nat) (d : d_object) :
    Except failure (Option sprite_object) :=
  match lvl.sprite_sequences.findIdx? (fun q => q.id = u16 d.id) with
  | none => pure none
  | some i => do
    if ¬ u16 d.room < num_rooms then throw .out_of_range
    pure (some ⟨i, 0, u16 d.room, ⟨d.x, d.y, d.z⟩,
      object_light_intensity (u16 d.light_intensity)⟩)

/-- The function `tr::loader::load_objects`; `num_rooms` is `level->rooms.size()`. -/
def load_objects (g : glm_lib) (num_rooms : Nat) : List d_object → level → Except failure level
  | [], lvl => pure lvl
  | d :: ds, lvl => do
    let mo ← load_model_object g lvl num_rooms d
    let so ← load_sprite_object lvl num_rooms d
    load_objects g num_rooms ds
      { lvl with model_objects := lvl.model_objects ++ mo.toList,
                 sprite_objects := lvl.sprite_objects ++ so.toList }

/-! ## Rooms: the loader -/

/-- The sum `position + glm::vec3(droom.x, 0.0f, droom.z)` of `room_loader::load`. -/
def room_position (droom : d_room) (position : vec3) : vec3 :=
  ⟨position.x + droom.x, position.y + 0, position.z + droom.z⟩

/-- One iteration of the vertex loop of `room_loader::load`. -/
def load_room_vertex (droom : d_room) (drv : d_room_vertex) : mesh_vert :=
  let l : ℚ := 1 - (drv.lighting1 : ℚ) / 8191
  ⟨room_position droom drv.position, ⟨l, l, l⟩⟩

/-- One iteration of the two polygon loops of `room_loader::load`. -/
def load_room_polygon (lvl : level) (drp : d_room_polygon) : Except failure mesh_poly := do
  let texinfo := (drp.texinfo &&& 0x7FFF) + 256
  let _ ← vector_at lvl.texinfos texinfo
  pure ⟨drp.vertices, texinfo⟩

/-- One iteration of the static sprite loop of `room_loader::load`; the vertex is taken
with the unchecked `droom.vertices[drss.vertex]`. -/
def load_room_static_sprite (lvl : level) (droom : d_room) (drss : d_room_static_sprite) :
    Except failure room_static_sprite := do
  let v ← vector_index droom.vertices drss.vertex
  let position := room_position droom v.position
  let light_intensity : ℚ := 1 - (v.lighting1 : ℚ) / 8191
  let _ ← vector_at lvl.sprites drss.sprite
  pure ⟨drss.sprite, position, light_intensity⟩

/-- One iteration of the light loop of `room_loader::load`. -/
def load_room_light (drl : d_room_light) : room_light :=
  ⟨drl.position, if drl.intensity1 ≥ 0 then 1 - (drl.intensity1 : ℚ) / 8191 else 0,
    drl.falloff1⟩

/-- The transform `room_loader::load` gives a static mesh placement. -/
def room_static_mesh_transform (g : glm_lib) (drsm : d_room_static_mesh) : mat4 :=
  g.translate 1 drsm.position *
    g.rotate 1 ((((drsm.orientation >>> 14) &&& 0x03 : Nat) : ℚ) * g.pi / 2) ⟨0, 1, 0⟩

/-- The statements `static_mesh.mesh = nullptr; for (const d_static_mesh& dsm :
static_meshes) ...; assert(static_mesh.mesh);` of `room_loader::load`: the pointer the
placement is bound to, as the index into `level->meshes` with the mesh it points to. -/
def bind_static_mesh (meshes : List mesh) (static_meshes : List d_static_mesh)
    (drsm : d_room_static_mesh) : Except failure (Nat × mesh) :=
  match static_meshes.find? (fun dsm => dsm.id = drsm.static_mesh_id) with
  | some dsm => do
    let m ← vector_at meshes dsm.mesh
    pure (dsm.mesh, m)
  | none => throw .assertion_failed

/-- The static mesh loop of `room_loader::load`, over the placements left, with
`room.static_meshes` as filled so far: an entry is appended for the placement, and removed
again with `pop_back` when the mesh it is bound to is externally lit. -/
def load_room_static_meshes (g : glm_lib) (meshes : List mesh)
    (static_meshes : List d_static_mesh) :
    List d_room_static_mesh → List room_static_mesh → Except failure (List room_static_mesh)
  | [], room_static_meshes => pure room_static_meshes
  | drsm :: rest, room_static_meshes => do
    let transform := room_static_mesh_transform g drsm
    let light_intensity : ℚ := 1 - (drsm.lighting1 : ℚ) / 8191
    let (mesh, m) ← bind_static_mesh meshes static_meshes drsm
    let room_static_meshes := room_static_meshes ++ [⟨mesh, transform, light_intensity⟩]
    let room_static_meshes :=
      if m.lightmode = .mesh_lightmode_external then room_static_meshes.dropLast
      else room_static_meshes
    load_room_static_meshes g meshes static_meshes rest room_static_meshes

/-- One iteration of the room loop of `room_loader::load`, on the struct `read_room` has
filled. -/
def load_room (g : glm_lib) (lvl : level) (static_meshes : List d_static_mesh)
    (room_idx : Nat) (droom : d_room) : Except failure room := do
  let verts := droom.vertices.map (load_room_vertex droom)
  let quads ← for_each (load_room_polygon lvl) droom.quads
  let tris ← for_each (load_room_polygon lvl) droom.tris
  let static_sprites ← for_each (load_room_static_sprite lvl droom) droom.static_sprites
  let ambient_light_intensity : ℚ := 1 - (droom.ambient_lighting1 : ℚ) / 8191
  let lights := droom.lights.map load_room_light
  let room_static_meshes ←
    load_room_static_meshes g lvl.meshes static_meshes droom.static_meshes []
  pure { id := room_idx
         geometry := ⟨room_idx, .mesh_lightmode_internal, verts, quads ++ tris⟩
         ambient_light_intensity := ambient_light_intensity
         lights := lights
         static_meshes := room_static_meshes
         static_sprites := static_sprites
         altroom := droom.alternate_room
         flags := droom.flags }

/-- The function `tr::room_loader::load`, on the static mesh descriptors and the rooms its
calls of `read_static_mesh` and `read_room` take out of the file. -/
def room_loader.load (g : glm_lib) (static_meshes : List d_static_mesh)
    (rooms : List d_room) (lvl : level) : Except failure level := do
  let rooms ← for_each (fun p => load_room g lvl static_meshes p.1 p.2) rooms.enum
  pure { lvl with rooms := rooms }

/-- The function `tr::loader::load_rooms`. -/
def load_rooms (g : glm_lib) (static_meshes : List d_static_mesh) (rooms : List d_room)
    (lvl : level) : Except failure level :=
  room_loader.load g static_meshes rooms lvl

/-! ## The whole load -/

/-- The sections of a file the decoders below read, at the offsets and with the counts
of the directory: `palette` is the array `palette[256][3]` of `load_palette` and
`texpages` are the arrays `pixels[256][256]` of `load_texpages`, as `fread` fills them. -/
structure sections where
  palette : Nat → Nat → Nat
  texpages : List (Nat → Nat → Nat)
  texinfos : List d_texinfo
  texanimchains : List d_texanimchain
  meshes : List d_mesh
  frame_data : List Nat
  animations : List d_animation
  bone_data : List Int
  models : List d_model
  sprites : List d_sprite
  sprite_sequences : List d_sprite_sequence
  static_meshes : List d_static_mesh
  rooms : List d_room
  objects : List d_object

/-- The level `tr::loader::load` has filled when it calls `load_rooms`: the vector of
rooms, of model objects and of sprite objects are empty. -/
def level_before_rooms (texpages : List texpage) (texinfos : List texinfo)
    (meshes : List mesh) (animations : List animation) (anim_frame_data : List Nat)
    (models : List model) (sprites : List sprite) (sprite_sequences : List sprite_sequence) :
    level :=
  { rooms := [], texpages := texpages, texinfos := texinfos, meshes := meshes,
    models := models, sprites := sprites, sprite_sequences := sprite_sequences,
    animations := animations, anim_frame_data := anim_frame_data,
    model_objects := [], sprite_objects := [] }

/-- The texture pages of the level after the calls of `load_palette`, on the empty
level, and of `load_texpages`. -/
def decode_texpages (s : sections) : Except failure (List texpage) :=
  match load_palette s.palette [] 0 with
  | .error e => .error e
  | .ok texpages => load_texpages texpages s.texpages

/-- The decoder calls of `tr::loader::load`, in its order: `load_palette`,
`load_texpages`, `load_texinfos`, `load_meshes`, `load_animations`, `load_models`,
`load_sprites`, `load_sprite_sequences`, `load_rooms`, `load_objects`. The result is
`none` when a loop of `load_animations` does not end within its iterations. -/
def decode_sections (g : glm_lib) (v : version) (s : sections) :
    Option (Except failure level) :=
  match decode_texpages s with
  | .error e => some (.error e)
  | .ok texpages =>
  match load_texinfos load_palette_texinfos s.texinfos s.texanimchains with
  | .error e => some (.error e)
  | .ok texinfos =>
  match load_meshes texinfos s.meshes with
  | .error e => some (.error e)
  | .ok meshes =>
    match load_animations v s.frame_data s.animations with
    | none => none
    | some (.error e) => some (.error e)
    | some (.ok (animations, anim_frame_data)) =>
      match load_models s.bone_data meshes.length animations.length s.models with
      | .error e => some (.error e)
      | .ok models =>
      match load_sprite_sequences (load_sprites s.sprites) s.sprite_sequences with
      | .error e => some (.error e)
      | .ok sprite_sequences =>
        match load_rooms g s.static_meshes s.rooms
          (level_before_rooms texpages texinfos meshes animations anim_frame_data models
            (load_sprites s.sprites) sprite_sequences) with
        | .error e => some (.error e)
        | .ok lvl => some (load_objects g lvl.rooms.length s.objects lvl)

/-- The `switch (version)` of `tr::loader::load`. -/
def build_level_directory (v : version) (fp : file) : Except failure directory :=
  match v with
  | .version_tr1 => build_tr1_level_directory fp
  | .version_tr2 => build_tr2_level_directory fp
  | .version_invalid => .error .logic_error

/-- The decoder calls of `tr::loader::load` after the directory scan, which they follow
only if it returns; `read` stands for the reads that take the sections out of the file at
the offsets of the directory. -/
def decode_with_directory (g : glm_lib) (v : version) (read : file → directory → sections)
    (fp : file) : Except failure directory → Option (Except failure level)
  | .error e => some (.error e)
  | .ok d => decode_sections g v (read fp d)

/-- The function `tr::loader::load`: `opened` is the contents of the file if `fopen`
succeeds. -/
def load (g : glm_lib) (opened : Option file) (v : version)
    (read : file → directory → sections) : Option (Except failure level) :=
  match opened with
  | none => some (.error .runtime_error)
  | some fp => decode_with_directory g v read fp (build_level_directory v fp)

/-! ## Frame spans, as the specification words them -/

/-- The raw offset, in words, behind the raw frame that starts at `offset`, if the frame
lies inside the raw frame data: a V1 frame has 10 words and two more for each angle set
counted in its tenth word, a V2 frame has `frame_size` words. -/
def raw_frame_end (v : version) (rawdata : List Nat) (frame_size offset : Nat) : Option Nat :=
  match v with
  | .version_tr1 =>
    if offset + 10 ≤ rawdata.length then
      let num_anglesets := rawdata.getD (offset + 9) 0
      if offset + 10 + num_anglesets * 2 ≤ rawdata.length then
        some (offset + 10 + num_anglesets * 2)
      else none
    else none
  | .version_tr2 =>
    if offset + frame_size ≤ rawdata.length then some (offset + frame_size) else none
  | .version_invalid => none

/-- Emitting raw frames one after another from `offset` ends exactly on `target`: every
frame lies inside the raw frame data and starts before `target`, and the last one ends on
`target`. -/
inductive raw_frames_span (v : version) (rawdata : List Nat) (frame_size : Nat) :
    Nat → Nat → Prop where
  | done (target : Nat) : raw_frames_span v rawdata frame_size target target
  | frame (offset next target : Nat) :
      offset < target → raw_frame_end v rawdata frame_size offset = some next →
      raw_frames_span v rawdata frame_size next target →
      raw_frames_span v rawdata frame_size offset target

/-- The raw frame start of an animation, in words: its byte offset, a `uint32_t`, halved. -/
def raw_frame_start (d : d_animation) : Nat := u32 d.frame_offset / 2

/-- Where the raw frames of animation `i` have to end: the raw frame start of the next
animation, or the end of the raw frame data for the last one. -/
def raw_frame_next (rawdata : List Nat) (headers : List d_animation) (i : Nat) : Nat :=
  match headers[i + 1]? with
  | some d => raw_frame_start d
  | none => rawdata.length

/-- Walking the canonical frame buffer from `pos`, each step advancing by the declared
length of the record plus one, lands exactly on `target` within `fuel` steps, without
stepping over it. -/
def walk_lands (anim_frame_data : List Nat) (target : Nat) : Nat → Nat → Bool
  | fuel, pos =>
    if pos = target then true
    else if target < pos then false
    else
      match fuel with
      | 0 => false
      | fuel + 1 =>
        match anim_frame_data[pos]? with
        | some w => walk_lands anim_frame_data target fuel (pos + (w + 1))
        | none => false

/-- Walking the canonical frame buffer from `start` lands exactly on `target`; a step
advances by one word at least, so `target - start` steps are enough. -/
def lands_exactly (anim_frame_data : List Nat) (start target : Nat) : Bool :=
  walk_lands anim_frame_data target (target - start) start

/-- Where the canonical frames of animation `i` have to end: the frame offset of the next
animation, or the end of the buffer for the last one. -/
def frame_offset_next (animations : List animation) (anim_frame_data : List Nat)
    (i : Nat) : Nat :=
  match animations[i + 1]? with
  | some a => a.frame_offset
  | none => anim_frame_data.length

/-- The words of the angle sets as `emit_anim_frame_tr1` appends them: the two words of
each set swapped. -/
def swap_pairs : List Nat → List Nat
  | tmp1 :: tmp2 :: rest => tmp2 :: tmp1 :: swap_pairs rest
  | rest => rest

/-- The raw offset, in words, the frames of entry `i` of the header list have to end on. -/
def extra_next (rawdata : List Nat) (anims : List (animation × d_anim_extra)) (i : Nat) :
    Nat :=
  match anims[i + 1]? with
  | some p => p.2.frame_offset / 2
  | none => rawdata.length

/-! ## Properties the proofs carry through loops -/

/-- What the node loop of `load_models` keeps true: the root has parent -1, and a later
node has an earlier node as parent. -/
def nodes_ok (nodes : List model_node) : Prop :=
  ∀ (i : Nat) (n : model_node), nodes[i]? = some n →
    (i = 0 → n.parent = -1) ∧ (0 < i → 0 ≤ n.parent ∧ n.parent < (i : Int))

/-- The reads of a frame reader are checked against the buffer: run after reads that were
all inside the buffer, it either ends in the out-of-range fault or has read inside the
buffer only. -/
def reads_checked {α : Type} (anim_frame_data : List Nat) (m : frame_reader α) : Prop :=
  ∀ log : List Nat, (∀ i ∈ log, i < anim_frame_data.length) →
    (m log).1 = .error .out_of_range ∨ ∀ i ∈ (m log).2, i < anim_frame_data.length

/-! ## Concrete inputs -/

/-- A rational stand-in for the library, to run the embedding on concrete inputs: `mix`,
`translate` and `mat4_cast` are the formulas of the library, the transcendental functions
are truncated series and `slerp` interpolates linearly. -/
def glm_rational : glm_lib where
  pi := 355 / 113
  sin := fun x => x - x ^ 3 / 6
  cos := fun x => 1 - x ^ 2 / 2
  mix := fun a b t =>
    ⟨a.x * (1 - t) + b.x * t, a.y * (1 - t) + b.y * t, a.z * (1 - t) + b.z * t⟩
  slerp := fun a b t =>
    ⟨a.w * (1 - t) + b.w * t, a.x * (1 - t) + b.x * t, a.y * (1 - t) + b.y * t,
      a.z * (1 - t) + b.z * t⟩
  translate := fun m v => m * !![1, 0, 0, v.x; 0, 1, 0, v.y; 0, 0, 1, v.z; 0, 0, 0, 1]
  rotate := fun m angle axis =>
    let c := 1 - angle ^ 2 / 2
    let s := angle - angle ^ 3 / 6
    let t := 1 - c
    m * !![c + t * axis.x * axis.x, t * axis.x * axis.y - s * axis.z,
             t * axis.x * axis.z + s * axis.y, 0;
           t * axis.x * axis.y + s * axis.z, c + t * axis.y * axis.y,
             t * axis.y * axis.z - s * axis.x, 0;
           t * axis.x * axis.z - s * axis.y, t * axis.y * axis.z + s * axis.x,
             c + t * axis.z * axis.z, 0;
           0, 0, 0, 1]
  mat4_cast := fun q =>
    !![1 - 2 * (q.y * q.y + q.z * q.z), 2 * (q.x * q.y - q.w * q.z),
         2 * (q.x * q.z + q.w * q.y), 0;
       2 * (q.x * q.y + q.w * q.z), 1 - 2 * (q.x * q.x + q.z * q.z),
         2 * (q.y * q.z - q.w * q.x), 0;
       2 * (q.x * q.z - q.w * q.y), 2 * (q.y * q.z + q.w * q.x),
         1 - 2 * (q.x * q.x + q.y * q.y), 0;
       0, 0, 0, 1]

/-- A file of `size` zero bytes. -/
def zero_file (size : Nat) : file := ⟨size, fun _ => 0⟩

/-- A mesh without vertices, internally lit. -/
def sample_mesh : mesh := ⟨0, .mesh_lightmode_internal, [], []⟩

/-- A room without vertices, lights or placements. -/
def sample_d_room : d_room :=
  { x := 0, z := 0, y_bottom := 0, y_top := 0, vertices := [], quads := [], tris := [],
    static_sprites := [], ambient_lighting1 := 0, ambient_lighting2 := 0, light_mode := 0,
    lights := [], static_meshes := [], alternate_room := 0, flags := 0 }

/-- The room `room_loader::load` makes of `sample_d_room` at index 0. -/
def sample_room : room :=
  { id := 0, geometry := ⟨0, .mesh_lightmode_internal, [], []⟩,
    ambient_light_intensity := 1 - ((0 : Int) : ℚ) / 8191, lights := [],
    static_meshes := [], static_sprites := [], altroom := 0, flags := 0 }

/-- A polygon record of zeros. -/
def zero_d_mesh_poly : d_mesh_poly := ⟨fun _ => 0, 0⟩

/-- The data of a mesh without vertices and without polygons: six counts of zero. -/
def sample_d_mesh : d_mesh :=
  { num_verts := 0, positions := fun _ => 0, num_lightattribs := 0,
    lightattribs := fun _ => 0,
    num_textured_quads := 0, textured_quads := fun _ => zero_d_mesh_poly,
    num_textured_tris := 0, textured_tris := fun _ => zero_d_mesh_poly,
    num_colored_quads := 0, colored_quads := fun _ => zero_d_mesh_poly,
    num_colored_tris := 0, colored_tris := fun _ => zero_d_mesh_poly }

/-- Sections without any record, with a palette and no texture page. -/
def empty_sections : sections where
  palette := fun _ _ => 0
  texpages := []
  texinfos := []
  texanimchains := []
  meshes := []
  frame_data := []
  animations := []
  bone_data := []
  models := []
  sprites := []
  sprite_sequences := []
  static_meshes := []
  rooms := []
  objects := []

/-- Bone data of a sample model with five nodes: node 1 has opcode 0, node 2 opcode 2
(push), node 3 opcode 1 (pop) and node 4 opcode 0. -/
def sample_bone_data : List Int := [0, 1, 2, 3, 2, 1, 1, 1, 1, 0, 0, 0, 0, 5, 5, 5]

/-- The record of a sample model with five meshes from mesh 0 on and animation 0. -/
def sample_d_model : d_model := ⟨5, 5, 0, 0, 0, 0⟩

/-- An animation header with ticks 0 to 2, one tick per frame, and the raw frame offset
(in bytes) and frame size given. -/
def sample_header (frame_offset frame_size : Int) : d_animation :=
  ⟨frame_offset, 1, frame_size, 0, 0, 2, 0, 0, 0, 0, 0, 0⟩

/-- Raw V1 frame data of 65538 words holding one frame with 32764 angle sets: the header
words are zero but for the second, and the words of the angle sets are zero but for the
last set. -/
def long_frame_data : List Nat :=
  [0, 65534, 0, 0, 0, 0, 0, 0, 0] ++ 32764 :: (List.replicate (32763 * 2) 0 ++ [1, 0])

/-- A texinfo record with page 0 and all coordinates 0. -/
def sample_d_texinfo : d_texinfo := ⟨0, 0, [(0, 0), (0, 0), (0, 0), (0, 0)]⟩

/-- The texture animation chain with the stored count and the stored indices given. -/
def sample_texanimchain (num_texinfos : Int) (texinfos : List Int) : d_texanimchain :=
  ⟨num_texinfos, fun j => texinfos.getD j 0⟩


/-- Canonical frame data of three records, each with one rotation about one axis. -/
def sample_frame_data : List Nat :=
  [10, 0, 0, 0, 0, 0, 0, 1, 2, 3, 0x4010,
   10, 0, 0, 0, 0, 0, 0, 4, 5, 6, 0x8020,
   10, 0, 0, 0, 0, 0, 0, 7, 8, 9, 0xC030]

/-- A model with a single node and animation 0. -/
def sample_model : model := ⟨5, [⟨-1, ⟨0, 0, 0⟩, 0⟩], some 0⟩

/-- An animation at frame offset 0 with the tick range and the ticks per frame given. -/
def sample_animation (first_tick last_tick ticks_per_frame : Nat) : animation :=
  ⟨0, ticks_per_frame, first_tick, last_tick, 0, 0, 0, 0, 0, 0, 0⟩

/-- The object the constructor starts from: the tick at `anim_tick`, no transforms yet. -/
def sample_object (a : animation) (anim_tick : Nat) (anim_tick_time : ℚ) : model_object :=
  { model := sample_model, node_transforms := [], room := 0, transform := 1,
    light_intensity := 1, animation := a, anim_tick := anim_tick,
    anim_tick_time := anim_tick_time }

/-- The failure a call ends with, if it does not return. -/
def failure_of {α : Type} : Except failure α → Option failure
  | .ok _ => none
  | .error e => some e

/-- A run of `n` successive calls `tick(dt)`, which ends with the first call that does not
return. -/
def ticks (g : glm_lib) (anim_frame_data : List Nat) (dt : ℚ) :
    Nat → model_object → Except failure model_object
  | 0, o => .ok o
  | n + 1, o =>
    match (tick g anim_frame_data o dt).result with
    | .ok o' => ticks g anim_frame_data dt n o'
    | .error e => .error e

/-- The object `o` with the cursor at the start of tick `t` and no transforms: what
`update_node_transforms` is run on to give the state at that cursor. -/
def at_tick (o : model_object) (t : Nat) : model_object :=
  { o with anim_tick := t, anim_tick_time := 0, node_transforms := [] }

/-- The sections of a V2 file with one model of one node, placed once, whose animation has
ticks 0 to 2 and one tick per frame, so three frames are addressed, while the raw frame
data holds two frames of 10 words. -/
def short_animation_sections : sections where
  palette := fun _ _ => 0
  texpages := []
  texinfos := []
  texanimchains := []
  meshes := [sample_d_mesh]
  frame_data := [0, 0, 0, 0, 0, 0, 1, 2, 3, 0x4010, 0, 0, 0, 0, 0, 0, 4, 5, 6, 0x8020]
  animations := [sample_header 0 10]
  bone_data := []
  models := [⟨5, 1, 0, 0, 0, 0⟩]
  sprites := []
  sprite_sequences := []
  static_meshes := []
  rooms := [sample_d_room]
  objects := [⟨5, 0, 100, 200, 300, 0, 0, 0⟩]

/-- The sections of a V2 file with one model of one node, placed once, whose animation has
two frames of 12 words: 9 header words, one rotation code of one word, and two words of
padding. -/
def padded_frame_sections : sections where
  palette := fun _ _ => 0
  texpages := []
  texinfos := []
  texanimchains := []
  meshes := [sample_d_mesh]
  frame_data := [0, 0, 0, 0, 0, 0, 1, 2, 3, 0x4010, 0, 0, 0, 0, 0, 0, 0, 0, 4, 5, 6, 0x8020, 0, 0]
  animations := [⟨0, 1, 12, 0, 0, 1, 0, 0, 0, 0, 0, 0⟩]
  bone_data := []
  models := [⟨5, 1, 0, 0, 0, 0⟩]
  sprites := []
  sprite_sequences := []
  static_meshes := []
  rooms := [sample_d_room]
  objects := [⟨5, 0, 100, 200, 300, 0, 0, 0⟩]

/-- A model with a root and one child, both with a mesh. -/
def two_node_model : model := ⟨6, [⟨-1, ⟨0, 0, 0⟩, 0⟩, ⟨0, ⟨10, 20, 30⟩, 1⟩], some 0⟩

/-- Canonical frame data of two records with two rotation codes each. -/
def two_node_frame_data : List Nat :=
  [11, 0, 0, 0, 0, 0, 0, 1, 2, 3, 0x4010, 0x8020,
   11, 0, 0, 0, 0, 0, 0, 4, 5, 6, 0x8020, 0xC030]

/-- An object of the model with two nodes at the start of tick `anim_tick`. -/
def two_node_object (anim_tick : Nat) : model_object :=
  { model := two_node_model, node_transforms := [], room := 0, transform := 1,
    light_intensity := 1, animation := sample_animation 0 1 1, anim_tick := anim_tick,
    anim_tick_time := 0 }

/-! ## Spherical interpolation, as the specification words it -/

/-- The dot product of two quaternions, `glm::dot`. -/
def quat_dot (x y : quat) : ℚ := x.w * y.w + x.x * y.x + x.y * y.y + x.z * y.z

/-- The negation `-q` of a quaternion: the other quaternion of the same rotation. -/
def quat_neg (q : quat) : quat := ⟨-q.w, -q.x, -q.y, -q.z⟩

/-- Modelled from the spec: `glm::slerp`, a function of the glm library, which is not under
`src/`. The spec has each rotation interpolated spherically along the shortest arc: the
second quaternion is negated when its dot product with the first is negative, and the two
are combined with the weights `sin((1 - a) θ) / sin θ` and `sin(a θ) / sin θ`, where `θ` is
the angle between them; where the cosine of the angle is above `1 - epsilon`, so that the
sine is too small to divide by, the interpolation is linear. The functions `sin` and `acos`
and the threshold `epsilon` are those of the library. -/
def slerp (sin acos : ℚ → ℚ) (epsilon : ℚ) (x y : quat) (a : ℚ) : quat :=
  let cosTheta := quat_dot x y
  let z := if cosTheta < 0 then quat_neg y else y
  let cosTheta := if cosTheta < 0 then -cosTheta else cosTheta
  if cosTheta > 1 - epsilon then
    ⟨x.w * (1 - a) + z.w * a, x.x * (1 - a) + z.x * a, x.y * (1 - a) + z.y * a,
      x.z * (1 - a) + z.z * a⟩
  else
    let angle := acos cosTheta
    let s0 := sin ((1 - a) * angle)
    let s1 := sin (a * angle)
    ⟨(s0 * x.w + s1 * z.w) / sin angle, (s0 * x.x + s1 * z.x) / sin angle,
      (s0 * x.y + s1 * z.y) / sin angle, (s0 * x.z + s1 * z.z) / sin angle⟩

/-- A rational stand-in for the arc cosine of the library: the line through its values at
0 and at 1. -/
def rational_acos (c : ℚ) : ℚ := 355 / 226 * (1 - c)

/-- The quaternion `slerp` interpolates to: the second one, negated when the dot product of
the two is negative. -/
def slerp_target (x y : quat) : quat := if quat_dot x y < 0 then quat_neg y else y

/-- The cosine of the angle `slerp` interpolates over. -/
def slerp_cos (x y : quat) : ℚ := if quat_dot x y < 0 then -quat_dot x y else quat_dot x y

/-! ## Concrete inputs: a level with objects -/

/-- A level with one room, the sample model with its animation, and one sprite sequence
with id 9, before any object is placed. -/
def sample_level : level :=
  { rooms := [sample_room], texpages := [], texinfos := [], meshes := [sample_mesh],
    models := [sample_model],
    sprites := [], sprite_sequences := [⟨9, []⟩], animations := [sample_animation 0 2 1],
    anim_frame_data := sample_frame_data, model_objects := [], sprite_objects := [] }

/-- Three object records in room 0: the sample model with raw light intensity 8191, the
sprite sequence 9 with the raw value 0xFFFF, and the sample model with the raw value 0. -/
def sample_objects : List d_object :=
  [⟨5, 0, 100, 200, 300, 0, 8191, 0⟩, ⟨9, 0, 1, 2, 3, 0, 65535, 0⟩, ⟨5, 0, 0, 0, 0, 0, 0, 0⟩]

/-! ## Concrete inputs: a sprite -/

/-- The sprite record of the scenario of the specification: page 0, x = 10, y = 20,
w = h = 256, left = -50, top = 100, right = 50, bottom = 0. -/
def sample_d_sprite : d_sprite := ⟨0, 10, 20, 256, 256, -50, 100, 50, 0⟩

/-! ## Static mesh placements, as the specification words them, and sample rooms -/

/-- The mesh a static mesh placement resolves to, if any: the mesh at the index given by
the first descriptor that has the id of the placement, together with that index. -/
def resolved_mesh (meshes : List mesh) (static_meshes : List d_static_mesh)
    (p : d_room_static_mesh) : Option (Nat × mesh) :=
  match static_meshes.find? (fun dsm => dsm.id = p.static_mesh_id) with
  | some dsm => meshes[dsm.mesh]?.map fun m => (dsm.mesh, m)
  | none => none

/-- Whether a static mesh placement resolves to an internally lit mesh. -/
def internally_lit (meshes : List mesh) (static_meshes : List d_static_mesh)
    (p : d_room_static_mesh) : Bool :=
  match resolved_mesh meshes static_meshes p with
  | some (_, m) => m.lightmode = .mesh_lightmode_internal
  | none => false

/-- The entry of `room.static_meshes` for a static mesh placement: the mesh it resolves
to, with the transform and the light intensity of the placement. -/
def placed_static_mesh (g : glm_lib) (meshes : List mesh)
    (static_meshes : List d_static_mesh) (p : d_room_static_mesh) : room_static_mesh :=
  ⟨((resolved_mesh meshes static_meshes p).map (·.1)).getD 0,
    room_static_mesh_transform g p, 1 - (p.lighting1 : ℚ) / 8191⟩

/-- An id that is the id of no static mesh descriptor, on a placement of one of the
rooms. -/
def unknown_static_mesh_id (static_meshes : List d_static_mesh) (rooms : List d_room) :
    Prop :=
  ∃ droom ∈ rooms, ∃ p ∈ droom.static_meshes,
    ∀ dsm ∈ static_meshes, dsm.id ≠ p.static_mesh_id

/-- Two meshes: mesh 0 is internally lit and mesh 1 externally lit. -/
def sample_meshes : List mesh :=
  [⟨0, .mesh_lightmode_internal, [], []⟩, ⟨1, .mesh_lightmode_external, [], []⟩]

/-- Three static mesh descriptors: id 7 for mesh 0, id 8 for mesh 1, and id 7 again, for
mesh 1. -/
def sample_static_meshes : List d_static_mesh := [⟨7, 0, [], 0⟩, ⟨8, 1, [], 0⟩, ⟨7, 1, [], 0⟩]

/-- A room without vertices whose static mesh placements have the ids given. -/
def sample_d_room_with (ids : List Nat) : d_room :=
  { x := 0, z := 0, y_bottom := 0, y_top := 0, vertices := [], quads := [], tris := [],
    static_sprites := [], ambient_lighting1 := 0, ambient_lighting2 := 0, light_mode := 0,
    lights := [], static_meshes := ids.map fun id => ⟨⟨0, 0, 0⟩, 0, 0, 0, id⟩,
    alternate_room := 0, flags := 0 }

/-- A level with the two sample meshes and nothing else. -/
def sample_mesh_level : level :=
  { rooms := [], texpages := [], texinfos := [], meshes := sample_meshes, models := [],
    sprites := [],
    sprite_sequences := [], animations := [], anim_frame_data := [], model_objects := [],
    sprite_objects := [] }

/-- Sections with two meshes without vertices, the sample descriptors and one room whose
placements have the ids given. -/
def sample_room_sections (ids : List Nat) : sections :=
  { palette := fun _ _ => 0, texpages := [], texinfos := [], texanimchains := [],
    meshes := [sample_d_mesh, sample_d_mesh], frame_data := [],
    animations := [], bone_data := [], models := [], sprites := [], sprite_sequences := [],
    static_meshes := sample_static_meshes, rooms := [sample_d_room_with ids], objects := [] }

/-! ## Object records, as the specification words them, and sample sections -/

/-- Whether a load has returned a level. -/
def returns_level : Option (Except failure level) → Bool
  | some (.ok _) => true
  | _ => false

/-- Sections whose only record is an object record with id 77, the id of no model and of
no sprite sequence, and room index 5; there is no room. -/
def unplaced_object_sections : sections :=
  { palette := fun _ _ => 0, texpages := [], texinfos := [], texanimchains := [],
    meshes := [], frame_data := [], animations := [], bone_data := [], models := [],
    sprites := [], sprite_sequences := [], static_meshes := [], rooms := [],
    objects := [⟨77, 5, 0, 0, 0, 0, 0, 0⟩] }

/-- An object record of the sections with a room index that is the index of no room of
the file, and with the id of a model record or of a sprite sequence. -/
def object_with_bad_room (s : sections) : Prop :=
  ∃ d ∈ s.objects, ¬ u16 d.room < s.rooms.length ∧
    ((∃ dm ∈ s.models, u32 dm.id = u16 d.id) ∨
      (∃ q ∈ s.sprite_sequences, u32 q.id = u16 d.id))

/-! ## Texinfos without their next-reference -/

/-- A texinfo without its next-reference: what the chain loop of `load_texinfos` leaves of
a texinfo as it was. -/
def without_texanimchain (t : texinfo) : texinfo := { t with texanimchain := none }

/-! ## Concrete inputs: texture pages -/

/-- Sections with a palette whose entry `j` has the three bytes `j`, `j + 1` and `j + 2`,
one texture page whose index at `(i, j)` is the low byte of `i + j`, and one texinfo
record, with page 0. -/
def sample_texture_sections : sections :=
  { palette := fun j k => (j + k) % 256, texpages := [fun i j => (i + j) % 256],
    texinfos := [sample_d_texinfo], texanimchains := [], meshes := [], frame_data := [],
    animations := [], bone_data := [], models := [], sprites := [], sprite_sequences := [],
    static_meshes := [], rooms := [], objects := [] }

/-! ## Concrete inputs: meshes -/

/-- The data of a mesh with the vertices and the light attributes given and no polygon. -/
def sample_d_mesh_with (num_verts : Int) (positions : List Int) (num_lightattribs : Int)
    (lightattribs : List Int) : d_mesh :=
  { sample_d_mesh with
    num_verts := num_verts, positions := fun k => positions.getD k 0,
    num_lightattribs := num_lightattribs, lightattribs := fun k => lightattribs.getD k 0 }

/-- Two meshes of a file: one vertex with a normal, and two vertices with the baked
intensities of the raw values 0 and 8191. -/
def sample_lit_meshes : List d_mesh :=
  [sample_d_mesh_with 1 [1, 2, 3] 1 [0, 0, 16384],
   sample_d_mesh_with 2 [1, 2, 3, 4, 5, 6] (-2) [0, 8191]]

/-! ## Concrete inputs: the polygons of a mesh -/

/-- A polygon record with the vertex indices and the texinfo word given. -/
def sample_d_mesh_poly (verts : List Int) (texinfo : Int) : d_mesh_poly :=
  ⟨fun k => verts.getD k 0, texinfo⟩

/-- The data of a mesh with four vertices and one polygon of each kind: a textured quad
whose texinfo word has the tag bit set, a textured triangle, a colored quad whose texinfo
word is 0x1234, and a colored triangle. -/
def sample_d_mesh_polys : d_mesh :=
  { num_verts := 4, positions := fun _ => 0, num_lightattribs := -4,
    lightattribs := fun _ => 0,
    num_textured_quads := 1,
    textured_quads := fun _ => sample_d_mesh_poly [0, 1, 2, 3] (-32768),
    num_textured_tris := 1, textured_tris := fun _ => sample_d_mesh_poly [0, 1, 2] 0,
    num_colored_quads := 1, colored_quads := fun _ => sample_d_mesh_poly [3, 2, 1, 0] 0x1234,
    num_colored_tris := 1, colored_tris := fun _ => sample_d_mesh_poly [1, 2, 3] 7 }

/-- The texinfos of a level whose file has one texinfo record. -/
def sample_texinfos : List texinfo := load_palette_texinfos ++ [load_texinfo sample_d_texinfo]

/-! ## Concrete inputs: models and sprite sequences with one id -/

/-- A level with one room, two models with the id 5 and two sprite sequences with the
id 9, before any object is placed. -/
def sample_level_of_pairs : level :=
  { rooms := [sample_room], texpages := [], texinfos := [], meshes := [sample_mesh],
    models := [sample_model, ⟨5, [⟨-1, ⟨1, 1, 1⟩, 0⟩], some 0⟩],
    sprites := [load_sprite 0 sample_d_sprite],
    sprite_sequences := [⟨9, []⟩, ⟨9, [0]⟩], animations := [sample_animation 0 2 1],
    anim_frame_data := sample_frame_data, model_objects := [], sprite_objects := [] }

/-- Three object records in room 0: one with the id of the models, one with an id of
neither a model nor a sprite sequence, and one with the id of the sprite sequences. -/
def sample_objects_of_pairs : List d_object :=
  [⟨5, 0, 100, 200, 300, 0, 0, 0⟩, ⟨77, 0, 0, 0, 0, 0, 0, 0⟩, ⟨9, 0, 1, 2, 3, 0, 0, 0⟩]

/-! ## Concrete inputs: a room away from the origin -/

/-- A room at x = 1000 and z = 2000 with two vertices, no polygon, and one static sprite
at its second vertex. -/
def sample_d_room_at : d_room :=
  { x := 1000, z := 2000, y_bottom := 0, y_top := 0,
    vertices := [⟨⟨1, 2, 3⟩, 0, 0, 0⟩, ⟨⟨-4, -5, 6⟩, 8191, 0, 0⟩], quads := [], tris := [],
    static_sprites := [⟨1, 0⟩], ambient_lighting1 := 0, ambient_lighting2 := 0,
    light_mode := 0, lights := [], static_meshes := [], alternate_room := 0, flags := 0 }

/-! ## Concrete inputs: a room with nine lights -/

/-- A room without vertices whose light count is 9: nine lights at the origin. -/
def sample_d_room_nine_lights : d_room :=
  { sample_d_room with lights := List.replicate 9 ⟨⟨0, 0, 0⟩, 0, 0, 0, 0⟩ }

/-- Sections whose only record is the room with nine lights. -/
def nine_lights_sections : sections :=
  { empty_sections with rooms := [sample_d_room_nine_lights] }

/-! ## Concrete inputs: sprites for sprite sequences -/

/-- Three sprites, of three records like the sample record. -/
def sample_sprites : List sprite :=
  load_sprites [sample_d_sprite, sample_d_sprite, sample_d_sprite]

/-! ## Concrete inputs: a room with lights -/

/-- A room without vertices with the raw ambient intensity -8191 and two lights, of raw
intensity -1 and 8191. -/
def sample_d_room_lit : d_room :=
  { sample_d_room with
    ambient_lighting1 := -8191
    lights := [⟨⟨0, 0, 0⟩, -1, 0, 0, 0⟩, ⟨⟨1, 2, 3⟩, 8191, 0, 100, 0⟩] }

/-! ## Concrete inputs: raw frames of two animations -/

/-- Raw V1 frame data of 22 words: a frame without angle sets and a frame with one. -/
def two_animation_frame_data : List Nat :=
  [0, 0, 0, 0, 0, 0, 1, 2, 3, 0, 0, 0, 0, 0, 0, 0, 4, 5, 6, 1, 7, 8]

/-! ## Concrete inputs: a record with a two-word rotation code -/

/-- Canonical frame data of one record of 11 words whose rotation code is the two words
0x0123 and 0x4567. -/
def euler_frame_data : List Nat := [11, 0, 0, 0, 0, 0, 0, 1, 2, 3, 0x0123, 0x4567]

/-! ## The blend factor of a frame lookup -/

/-- The local `alpha` of `smooth_anim_frame`: the remainder of the `int` division is
stored in the `ushort cur_frame_tick`. -/
def blend_factor (a : animation) (anim_tick : Nat) (anim_tick_time : ℚ) : ℚ :=
  ((u16 (Int.tmod ((anim_tick : Int) - a.first_tick) a.ticks_per_frame) : Nat) +
    anim_tick_time * 30) / a.ticks_per_frame

/-! ## Runs of calls of tick -/

/-- A run of successive calls `tick(dt)`, one for each `dt` of the list, which ends with
the first call that does not return. -/
def tick_sequence (g : glm_lib) (anim_frame_data : List Nat) :
    List ℚ → model_object → Except failure model_object
  | [], o => .ok o
  | dt :: dts, o =>
    match (tick g anim_frame_data o dt).result with
    | .ok o' => tick_sequence g anim_frame_data dts o'
    | .error e => .error e

/-! ## Record offsets, as the specification words them -/

/-- The offset of the record with index `k` counted from `start`, as the specification
words it: `start` plus the sum of (declared length + 1) over the `k` records before it,
if the declared lengths of those records lie inside the buffer. -/
def record_offset (anim_frame_data : List Nat) (start : Nat) : Nat → Option Nat
  | 0 => some start
  | k + 1 =>
    (record_offset anim_frame_data start k).bind fun offset =>
      anim_frame_data[offset]?.map fun declared => offset + (declared + 1)

/-! ## Rooms: the reads of the decoder -/

/-- A loop `for (uint16_t i = 0; i < n; ++i) read(&records[i]);` of `read_room`. -/
def read_records {α : Type} (read : file_m α) : Nat → file_m (List α)
  | 0 => pure []
  | n + 1 => do
    let r ← read
    let rs ← read_records read n
    pure (r :: rs)

/-- The method `tr::room_loader::read_room_vertex`. -/
def read_room_vertex (v : version) (fp : file) : file_m d_room_vertex := do
  let x ← read16 fp
  let y ← read16 fp
  let z ← read16 fp
  let lighting1 := u16 (← read16 fp)
  if v = .version_tr2 then do
    let attributes := u16 (← read16 fp)
    let lighting2 := u16 (← read16 fp)
    pure ⟨⟨x, y, z⟩, lighting1, attributes, lighting2⟩
  else
    pure ⟨⟨x, y, z⟩, lighting1, 0, 0⟩

/-- The method `tr::room_loader::read_room_polygon`; `read_room` calls it with 4 and with
3 vertices, so its assertion holds. The entries that are not read are the `uint16_t`
value of -1. -/
def read_room_polygon (fp : file) (num_vertices : Nat) : file_m d_room_polygon := do
  let vertices ← read_records (do pure (u16 (← read16 fp))) num_vertices
  let texinfo := u16 (← read16 fp)
  pure ⟨vertices ++ List.replicate (4 - num_vertices) (u16 (-1)), texinfo⟩

/-- The method `tr::room_loader::read_room_static_sprite`. -/
def read_room_static_sprite (fp : file) : file_m d_room_static_sprite := do
  let vertex := u16 (← read16 fp)
  let sprite := u16 (← read16 fp)
  pure ⟨vertex, sprite⟩

/-- The method `tr::room_loader::read_room_light`. -/
def read_room_light (v : version) (fp : file) : file_m d_room_light := do
  let x ← read32 fp
  let y ← read32 fp
  let z ← read32 fp
  let intensity1 ← read16 fp
  let intensity2 ← if v = .version_tr2 then read16 fp else pure 0
  let falloff1 ← read32 fp
  let falloff2 ← if v = .version_tr2 then read32 fp else pure 0
  pure ⟨⟨x, y, z⟩, intensity1, intensity2, falloff1, falloff2⟩

/-- The method `tr::room_loader::read_room_static_mesh`. -/
def read_room_static_mesh (v : version) (fp : file) : file_m d_room_static_mesh := do
  let x ← read32 fp
  let y ← read32 fp
  let z ← read32 fp
  let orientation := u16 (← read16 fp)
  let lighting1 := u16 (← read16 fp)
  let lighting2 ← if v = .version_tr2 then do pure (u16 (← read16 fp)) else pure 0
  let static_mesh_id := u16 (← read16 fp)
  pure ⟨⟨x, y, z⟩, orientation, lighting1, lighting2, static_mesh_id⟩

/-- The method `tr::room_loader::read_room`. The products `num_room_data_words * 2`, of
type `uint32_t`, and `num_z_sectors * num_x_sectors * 8`, of type `int`, are the ones of
the room skips of the directory scan. -/
def read_room (v : version) (fp : file) : file_m d_room := do
  -- room info
  let x ← read32 fp
  let z ← read32 fp
  let y_bottom ← read32 fp
  let y_top ← read32 fp
  -- begin room data
  let num_room_data_words := u32 (← read32 fp)
  let room_data_offset ← ftell
  -- room data: vertices
  let num_vertices := u16 (← read16 fp)
  let vertices ← read_records (read_room_vertex v fp) num_vertices
  -- room data: quads
  let num_quads := u16 (← read16 fp)
  let quads ← read_records (read_room_polygon fp 4) num_quads
  -- room data: tris
  let num_tris := u16 (← read16 fp)
  let tris ← read_records (read_room_polygon fp 3) num_tris
  -- room data: static sprites
  let num_static_sprites := u16 (← read16 fp)
  let static_sprites ← read_records (read_room_static_sprite fp) num_static_sprites
  -- end room data
  fseek_set (room_data_offset + u32 (num_room_data_words * 2))
  -- portals
  let num_portals := u16 (← read16 fp)
  fseek_cur (num_portals * 32)
  -- sectors
  let num_z_sectors := u16 (← read16 fp)
  let num_x_sectors := u16 (← read16 fp)
  fseek_cur (i32 (num_z_sectors * num_x_sectors * 8))
  -- ambient lighting
  let ambient_lighting1 ← read16 fp
  let lighting2 ←
    if v = .version_tr2 then do
      let ambient_lighting2 ← read16 fp
      let light_mode := u16 (← read16 fp)
      pure (ambient_lighting2, light_mode)
    else
      pure (0, 0)
  -- lights
  let num_lights := u16 (← read16 fp)
  let lights ← read_records (read_room_light v fp) num_lights
  -- static meshes
  let num_static_meshes := u16 (← read16 fp)
  let static_meshes ← read_records (read_room_static_mesh v fp) num_static_meshes
  let alternate_room := u16 (← read16 fp)
  let flags := u16 (← read16 fp)
  pure { x := x, z := z, y_bottom := y_bottom, y_top := y_top, vertices := vertices,
         quads := quads, tris := tris, static_sprites := static_sprites,
         ambient_lighting1 := ambient_lighting1, ambient_lighting2 := lighting2.1,
         light_mode := lighting2.2, lights := lights, static_meshes := static_meshes,
         alternate_room := alternate_room, flags := flags }

/-! ## The layout of a room record, as the specification words it -/

/-- The unsigned 16-bit value stored at the offset `pos` of the file. -/
def stored_u16 (fp : file) (pos : Nat) : Nat :=
  le_value [fp.byte pos, fp.byte (pos + 1)]

/-- The unsigned 32-bit value stored at the offset `pos` of the file. -/
def stored_u32 (fp : file) (pos : Nat) : Nat :=
  le_value [fp.byte pos, fp.byte (pos + 1), fp.byte (pos + 2), fp.byte (pos + 3)]

/-- The bytes a room record holds between its sectors and its light count: the ambient
lighting, and in V2 the second ambient lighting and the light mode. -/
def room_lighting_bytes (v : version) : Nat := if v = .version_tr2 then 6 else 2

/-- The bytes of a light of a room record. -/
def room_light_bytes (v : version) : Nat := if v = .version_tr2 then 24 else 18

/-- The bytes of a static mesh of a room record. -/
def room_static_mesh_bytes (v : version) : Nat := if v = .version_tr2 then 20 else 18

/-- The counts of a room record: the words of its room data, its portals, its sectors in
the two directions, its lights and its static meshes. -/
structure room_counts where
  words : Nat
  portals : Nat
  z_sectors : Nat
  x_sectors : Nat
  lights : Nat
  static_meshes : Nat
deriving DecidableEq, Repr

/-- The bytes of a room record with the counts given: 16 of room info, the word count and
the room data, whose length in bytes is the `uint32_t` product `2 * words`, the portal
count and 32 bytes per portal, the two sector counts and 8 bytes per sector, the lighting,
the light count and the lights, the static mesh count and the static meshes, and 4 bytes
of alternate room and flags. -/
def room_size (v : version) (n : room_counts) : Nat :=
  16 + 4 + 2 * n.words % 4294967296 + 2 + 32 * n.portals + 4 + 8 * n.z_sectors * n.x_sectors +
    room_lighting_bytes v + 2 + room_light_bytes v * n.lights + 2 +
    room_static_mesh_bytes v * n.static_meshes + 4

/-- The counts stored in the room record that starts at `start`, each at the offset the
counts before it give it. -/
def room_counts_at (v : version) (fp : file) (start : Nat) : room_counts :=
  let words := stored_u32 fp (start + 16)
  let portals := stored_u16 fp (start + 16 + 4 + 2 * words % 4294967296)
  let z_sectors := stored_u16 fp (start + 16 + 4 + 2 * words % 4294967296 + 2 + 32 * portals)
  let x_sectors :=
    stored_u16 fp (start + 16 + 4 + 2 * words % 4294967296 + 2 + 32 * portals + 2)
  let lights :=
    stored_u16 fp (start + 16 + 4 + 2 * words % 4294967296 + 2 + 32 * portals + 4 +
      8 * z_sectors * x_sectors + room_lighting_bytes v)
  let static_meshes :=
    stored_u16 fp (start + 16 + 4 + 2 * words % 4294967296 + 2 + 32 * portals + 4 +
      8 * z_sectors * x_sectors + room_lighting_bytes v + 2 + room_light_bytes v * lights)
  ⟨words, portals, z_sectors, x_sectors, lights, static_meshes⟩

/-! ## Concrete inputs: files with a room record -/

/-- A file that holds one V1 room record of 116 bytes: two words of room data, one
portal, one sector, one light and one static mesh. Read as a V2 record it has 84 bytes and
neither lights nor static meshes. -/
def room_file : file :=
  ⟨116, fun i => if i = 16 then 2 else if i = 24 ∨ i = 58 ∨ i = 60 ∨ i = 72 ∨ i = 92 then 1
    else 0⟩

/-- A file of 2^32 + 36 bytes, all of them zero but the top byte of the word count at
offset 16: a room record with 2^31 words of room data and no portals, sectors, lights or
static meshes. -/
def long_room_file : file := ⟨4294967332, fun i => if i = 19 then 128 else 0⟩

/-! ## The directory scan -/

theorem finish_directory_eq (fp : file) (r : directory × cursor) :
    finish_directory fp r =
      if scan_end_offset r = fp.size then .ok r.1 else .error .assertion_failed := by
  obtain ⟨d, c⟩ := r
  simp [finish_directory, scan_end_offset, directory_sanity_check, StateT.run, bind,
    StateT.bind, pure, StateT.pure, ftell, get, getThe, MonadStateOf.get, StateT.get,
    fseek_end, modify, modifyGet, MonadStateOf.modifyGet, StateT.modifyGet, feof, ferror]
  split <;> rfl

theorem finish_directory_ok_iff (fp : file) (r : directory × cursor) :
    (∃ d, finish_directory fp r = .ok d) ↔ scan_end_offset r = fp.size := by
  rw [finish_directory_eq]
  split <;> simp_all

theorem finish_directory_mismatch (fp : file) (r : directory × cursor)
    (h : scan_end_offset r ≠ fp.size) :
    finish_directory fp r = .error .assertion_failed := by
  rw [finish_directory_eq, if_neg h]

theorem load_tr1_of_directory_error (g : glm_lib) (fp : file)
    (read : file → directory → sections) (e : failure)
    (h : build_tr1_level_directory fp = .error e) :
    load g (some fp) .version_tr1 read = some (.error e) := by
  show decode_with_directory g .version_tr1 read fp (build_tr1_level_directory fp) = _
  rw [h]
  rfl

theorem load_tr2_of_directory_error (g : glm_lib) (fp : file)
    (read : file → directory → sections) (e : failure)
    (h : build_tr2_level_directory fp = .error e) :
    load g (some fp) .version_tr2 read = some (.error e) := by
  show decode_with_directory g .version_tr2 read fp (build_tr2_level_directory fp) = _
  rw [h]
  rfl

/-- C1: for both versions the directory scan succeeds exactly when the offset reached
after the last section is the size of the file; on a mismatch `load` fails on the
assertion of the scan, whatever the section reads and decoders would do, and returns no
level. -/
theorem directory_scan_ok_iff_end_is_file_size (fp : file) :
    ((∃ d, build_tr1_level_directory fp = .ok d) ↔ tr1_end_offset fp = fp.size) ∧
    ((∃ d, build_tr2_level_directory fp = .ok d) ↔ tr2_end_offset fp = fp.size) ∧
    (∀ (g : glm_lib) (read : file → directory → sections),
      tr1_end_offset fp ≠ fp.size →
        load g (some fp) .version_tr1 read = some (.error .assertion_failed)) ∧
    (∀ (g : glm_lib) (read : file → directory → sections),
      tr2_end_offset fp ≠ fp.size →
        load g (some fp) .version_tr2 read = some (.error .assertion_failed)) :=
  ⟨finish_directory_ok_iff fp _, finish_directory_ok_iff fp _,
    fun g read h =>
      load_tr1_of_directory_error g fp read _ (finish_directory_mismatch fp _ h),
    fun g read h =>
      load_tr2_of_directory_error g fp read _ (finish_directory_mismatch fp _ h)⟩

set_option maxRecDepth 20000 in
/-- C1 at concrete files: the smallest well-formed files of both versions (9582 and 10830
zero bytes) pass the scan, and with one byte appended `load` fails. -/
theorem directory_scan_ok_iff_end_is_file_size_witness :
    (∃ d, build_tr1_level_directory (zero_file 9582) = .ok d) ∧
    (∃ d, build_tr2_level_directory (zero_file 10830) = .ok d) ∧
    load glm_rational (some (zero_file 9583)) .version_tr1 (fun _ _ => empty_sections) =
      some (.error .assertion_failed) ∧
    load glm_rational (some (zero_file 10831)) .version_tr2 (fun _ _ => empty_sections) =
      some (.error .assertion_failed) :=
  ⟨(directory_scan_ok_iff_end_is_file_size (zero_file 9582)).1.2 (by decide),
    (directory_scan_ok_iff_end_is_file_size (zero_file 10830)).2.1.2 (by decide),
    (directory_scan_ok_iff_end_is_file_size (zero_file 9583)).2.2.1 _ _ (by decide),
    (directory_scan_ok_iff_end_is_file_size (zero_file 10831)).2.2.2 _ _ (by decide)⟩



/-! ## Loops over records -/

theorem for_each_ok_mem {α β : Type} (f : α → Except failure β) :
    ∀ (l : List α) (r : List β), for_each f l = .ok r → ∀ b ∈ r, ∃ a ∈ l, f a = .ok b := by
  intro l
  induction l with
  | nil =>
    intro r h b hb
    simp [for_each] at h
    subst h
    simp at hb
  | cons a l ih =>
    intro r h b hb
    rw [for_each] at h
    cases hfa : f a with
    | error e => simp [hfa] at h
    | ok x =>
      cases hl : for_each f l with
      | error e => simp [hfa, hl] at h
      | ok xs =>
        simp [hfa, hl] at h
        subst h
        rcases List.mem_cons.1 hb with hb | hb
        · exact ⟨a, List.mem_cons_self _ _, by rw [hfa, hb]⟩
        · obtain ⟨a', ha', hfa'⟩ := ih xs hl b hb
          exact ⟨a', List.mem_cons_of_mem _ ha', hfa'⟩

/-! ## Animations: raw frame spans -/

theorem vector_at_eq_ok {α : Type} (v : List α) (i : Nat) (x : α) :
    vector_at v i = .ok x ↔ v[i]? = some x := by
  unfold vector_at
  cases h : v[i]? <;> simp

theorem vector_at_of_lt (v : List Nat) (i : Nat) (h : i < v.length) :
    vector_at v i = .ok (v.getD i 0) := by
  unfold vector_at
  rw [List.getElem?_eq_getElem h]
  simp [List.getD, List.getElem?_eq_getElem h]

theorem emit_anglesets_offset (rawdata : List Nat) :
    ∀ (n offset : Nat) (out : List Nat) (o : Nat) (out' : List Nat),
      emit_anglesets rawdata n offset out = .ok (o, out') → o = offset + n * 2 := by
  intro n
  induction n with
  | zero =>
    intro offset out o out' h
    simp [emit_anglesets, pure, Except.pure] at h
    omega
  | succ n ih =>
    intro offset out o out' h
    simp only [emit_anglesets, bind, Except.bind] at h
    split at h
    · cases h
    split at h
    · cases h
    have := ih _ _ _ _ h
    omega

theorem emit_words_offset (rawdata : List Nat) :
    ∀ (n offset : Nat) (out : List Nat) (o : Nat) (out' : List Nat),
      emit_words rawdata n offset out = .ok (o, out') → o = offset + n := by
  intro n
  induction n with
  | zero =>
    intro offset out o out' h
    simp [emit_words, pure, Except.pure] at h
    omega
  | succ n ih =>
    intro offset out o out' h
    simp only [emit_words, bind, Except.bind] at h
    split at h
    · cases h
    have := ih _ _ _ _ h
    omega

theorem emit_anim_frame_tr1_end (rawdata : List Nat) (fs offset : Nat) (out : List Nat)
    (o : Nat) (out' : List Nat) (h : emit_anim_frame_tr1 rawdata offset out = .ok (o, out')) :
    raw_frame_end .version_tr1 rawdata fs offset = some o := by
  simp only [emit_anim_frame_tr1, bind, Except.bind, throw, throwThe,
    MonadExceptOf.throw, pure, Except.pure] at h
  split at h
  · cases h
  rename_i h1
  split at h
  · cases h
  rename_i n hn
  split at h
  · cases h
  rename_i h2
  split at h
  · cases h
  have ho := emit_anglesets_offset _ _ _ _ _ _ h
  have hn' : rawdata.getD (offset + 9) 0 = n := by
    rw [vector_at_eq_ok] at hn
    simp [List.getD, hn]
  simp only [raw_frame_end]
  rw [if_pos (by omega), hn']
  rw [if_pos (by omega), ho]

theorem emit_anim_frame_tr2_end (rawdata : List Nat) (fs offset : Nat) (out : List Nat)
    (o : Nat) (out' : List Nat)
    (h : emit_anim_frame_tr2 rawdata offset fs out = .ok (o, out')) :
    raw_frame_end .version_tr2 rawdata fs offset = some o := by
  simp only [emit_anim_frame_tr2, bind, Except.bind, throw, throwThe,
    MonadExceptOf.throw, pure, Except.pure] at h
  split at h
  · cases h
  rename_i h1
  have ho := emit_words_offset _ _ _ _ _ _ h
  simp only [raw_frame_end]
  rw [if_pos (by omega), ho]

theorem raw_frame_end_le (v : version) (rawdata : List Nat) (fs offset o : Nat)
    (h : raw_frame_end v rawdata fs offset = some o) : offset ≤ o ∧ o ≤ rawdata.length := by
  cases v <;> simp only [raw_frame_end] at h
  · cases h
  · split at h
    · split at h
      · cases h; omega
      · cases h
    · cases h
  · split at h
    · cases h; omega
    · cases h

theorem u32_of_lt (n : Nat) (h : n < 4294967296) : u32 (n : Int) = n := by
  unfold u32
  omega

/-- One round of the `while` loop: a frame emitted is a raw frame that lies inside the
raw data, and the offset stored is the offset behind it. -/
theorem emit_anim_frame_end (v : version) (rawdata : List Nat) (fs offset : Nat)
    (out : List Nat) (o : Nat) (out' : List Nat) (hlen : rawdata.length < 2147483648)
    (h : emit_anim_frame v rawdata fs offset out = .ok (o, out')) :
    raw_frame_end v rawdata fs offset = some o := by
  cases v
  · simp [emit_anim_frame, throw, throwThe, MonadExceptOf.throw] at h
  · simp only [emit_anim_frame, bind, Except.bind, pure, Except.pure] at h
    split at h
    · cases h
    rename_i r hr
    obtain ⟨o1, out1⟩ := r
    have h1 := emit_anim_frame_tr1_end rawdata fs offset out o1 out1 hr
    have h2 := raw_frame_end_le _ _ _ _ _ h1
    simp only [Except.ok.injEq, Prod.mk.injEq] at h
    rw [← h.1, u32_of_lt _ (by omega)]
    exact h1
  · simp only [emit_anim_frame, bind, Except.bind, pure, Except.pure] at h
    split at h
    · cases h
    rename_i r hr
    obtain ⟨o1, out1⟩ := r
    have h1 := emit_anim_frame_tr2_end rawdata fs offset out o1 out1 hr
    have h2 := raw_frame_end_le _ _ _ _ _ h1
    simp only [Except.ok.injEq, Prod.mk.injEq] at h
    rw [← h.1, u32_of_lt _ (by omega)]
    exact h1

/-- The `while` loop, when it returns: the raw frames emitted lead from the offset it
starts at to the offset it returns, which is not before `next`. -/
theorem emit_anim_frames_span (v : version) (rawdata : List Nat) (fs next : Nat)
    (hlen : rawdata.length < 2147483648) :
    ∀ (fuel offset : Nat) (out : List Nat) (o : Nat) (out' : List Nat),
      emit_anim_frames v rawdata fs next fuel offset out = some (.ok (o, out')) →
      o = next → raw_frames_span v rawdata fs offset next := by
  intro fuel
  induction fuel with
  | zero =>
    intro offset out o out' h ho
    simp only [emit_anim_frames] at h
    split at h
    · cases h
    · simp only [Option.some.injEq, Except.ok.injEq, Prod.mk.injEq] at h
      rw [h.1, ho]
      exact raw_frames_span.done _
  | succ fuel ih =>
    intro offset out o out' h ho
    simp only [emit_anim_frames] at h
    split at h
    · rename_i hlt
      split at h
      · rename_i o1 out1 he
        exact raw_frames_span.frame _ _ _ hlt
          (emit_anim_frame_end v rawdata fs offset out o1 out1 hlen he)
          (ih _ _ _ _ h ho)
      · cases h
    · simp only [Option.some.injEq, Except.ok.injEq, Prod.mk.injEq] at h
      rw [h.1, ho]
      exact raw_frames_span.done _

theorem raw_frame_end_lt (v : version) (rawdata : List Nat) (fs offset o : Nat)
    (hfs : v = .version_tr2 → fs ≠ 0)
    (h : raw_frame_end v rawdata fs offset = some o) : offset < o := by
  cases v <;> simp only [raw_frame_end] at h
  · cases h
  · split at h
    · split at h
      · cases h; omega
      · cases h
    · cases h
  · have := hfs rfl
    split at h
    · cases h; omega
    · cases h

theorem emit_anim_frames_le (v : version) (rawdata : List Nat) (fs next : Nat)
    (hlen : rawdata.length < 2147483648) :
    ∀ (fuel offset : Nat) (out : List Nat) (o : Nat) (out' : List Nat),
      offset ≤ rawdata.length →
      emit_anim_frames v rawdata fs next fuel offset out = some (.ok (o, out')) →
      o ≤ rawdata.length := by
  intro fuel
  induction fuel with
  | zero =>
    intro offset out o out' hle h
    simp only [emit_anim_frames] at h
    split at h
    · cases h
    · simp only [Option.some.injEq, Except.ok.injEq, Prod.mk.injEq] at h
      omega
  | succ fuel ih =>
    intro offset out o out' hle h
    simp only [emit_anim_frames] at h
    split at h
    · split at h
      · rename_i o1 out1 he
        have h1 := emit_anim_frame_end v rawdata fs offset out o1 out1 hlen he
        exact ih _ _ _ _ (raw_frame_end_le _ _ _ _ _ h1).2 h
      · cases h
    · simp only [Option.some.injEq, Except.ok.injEq, Prod.mk.injEq] at h
      omega

/-- The `while` loop ends within the iterations it is given: a round that does not fail
moves the offset forward, and never behind the end of the raw data. -/
theorem emit_anim_frames_terminates (v : version) (rawdata : List Nat) (fs next : Nat)
    (hlen : rawdata.length < 2147483648) (hfs : v = .version_tr2 → fs ≠ 0) :
    ∀ (fuel offset : Nat) (out : List Nat),
      offset ≤ rawdata.length → rawdata.length + 1 ≤ fuel + offset →
      emit_anim_frames v rawdata fs next fuel offset out ≠ none := by
  intro fuel
  induction fuel with
  | zero =>
    intro offset out hle hfuel
    omega
  | succ fuel ih =>
    intro offset out hle hfuel
    simp only [emit_anim_frames]
    split
    · split
      · rename_i o1 out1 he
        have h1 := emit_anim_frame_end v rawdata fs offset out o1 out1 hlen he
        have h2 := raw_frame_end_le _ _ _ _ _ h1
        have h3 := raw_frame_end_lt _ _ _ _ _ hfs h1
        exact ih _ _ h2.2 (by omega)
      · simp
    · simp

theorem next_anim_frame_offset_eq (rawdata : List Nat) (hlen : rawdata.length < 2147483648)
    (p : animation × d_anim_extra) (rest : List (animation × d_anim_extra))
    (hoff : ∀ q ∈ rest, q.2.frame_offset < 4294967296) :
    next_anim_frame_offset rawdata rest = extra_next rawdata (p :: rest) 0 := by
  cases rest with
  | nil =>
    simp only [next_anim_frame_offset, extra_next, List.getElem?_cons_succ,
      List.getElem?_nil]
    exact u32_of_lt _ (by omega)
  | cons q rest' =>
    have := hoff q (List.mem_cons_self _ _)
    obtain ⟨qa, qe⟩ := q
    simp only [next_anim_frame_offset, extra_next, List.getElem?_cons_succ,
      List.getElem?_cons_zero]
    exact u32_of_lt _ (by simp only at this; omega)

theorem convert_anim_frames_cons (v : version) (rawdata : List Nat)
    (hlen : rawdata.length < 2147483648) (a : animation) (e : d_anim_extra)
    (rest : List (animation × d_anim_extra)) (offset : Nat) (out : List Nat)
    (res : List animation × List Nat)
    (hoff : ∀ p ∈ rest, p.2.frame_offset < 4294967296) (hle : offset ≤ rawdata.length)
    (h : convert_anim_frames v rawdata ((a, e) :: rest) offset out = some (.ok res)) :
    e.frame_offset / 2 = offset ∧
    ∃ o1 out1 res1,
      emit_anim_frames v rawdata e.frame_size (extra_next rawdata ((a, e) :: rest) 0)
        (rawdata.length + 1) offset out = some (.ok (o1, out1)) ∧
      o1 = extra_next rawdata ((a, e) :: rest) 0 ∧
      convert_anim_frames v rawdata rest o1 out1 = some (.ok res1) ∧
      res = ({ a with frame_offset := out.length } :: res1.1, res1.2) := by
  simp only [convert_anim_frames] at h
  rw [next_anim_frame_offset_eq rawdata hlen (a, e) rest hoff] at h
  split at h
  · cases h
  rename_i hstart
  have hstart' : offset * 2 = e.frame_offset := by
    have := u32_of_lt (offset * 2) (by omega)
    push_cast at this
    rw [this] at hstart
    exact not_not.1 hstart
  refine ⟨by omega, ?_⟩
  split at h
  · cases h
  · cases h
  rename_i o1 out1 hloop
  split at h
  · cases h
  rename_i hend
  split at h
  · cases h
  · cases h
  rename_i as out2 hrest
  refine ⟨o1, out1, (as, out2), hloop, not_not.1 hend, hrest, ?_⟩
  simp only [Option.some.injEq, Except.ok.injEq] at h
  exact h.symm

theorem convert_anim_frames_span (v : version) (rawdata : List Nat)
    (hlen : rawdata.length < 2147483648) :
    ∀ (anims : List (animation × d_anim_extra)) (offset : Nat) (out : List Nat)
      (res : List animation × List Nat),
      (∀ p ∈ anims, p.2.frame_offset < 4294967296) →
      offset ≤ rawdata.length →
      convert_anim_frames v rawdata anims offset out = some (.ok res) →
      ∀ (i : Nat) (p : animation × d_anim_extra), anims[i]? = some p →
        raw_frames_span v rawdata p.2.frame_size (p.2.frame_offset / 2)
          (extra_next rawdata anims i) := by
  intro anims
  induction anims with
  | nil =>
    intro offset out res _ _ _ i p hp
    simp at hp
  | cons ae rest ih =>
    obtain ⟨a, e⟩ := ae
    intro offset out res hoff hle h i p hp
    obtain ⟨hstart, o1, out1, res1, hloop, hend, hrest, _⟩ :=
      convert_anim_frames_cons v rawdata hlen a e rest offset out res
        (fun q hq => hoff q (List.mem_cons_of_mem _ hq)) hle h
    have hspan := emit_anim_frames_span v rawdata e.frame_size _ hlen _ _ _ _ _ hloop hend
    have hle1 := emit_anim_frames_le v rawdata e.frame_size _ hlen _ _ _ _ _ hle hloop
    cases i with
    | zero =>
      simp only [List.getElem?_cons_zero, Option.some.injEq] at hp
      subst hp
      simp only [hstart]
      exact hspan
    | succ i =>
      simp only [List.getElem?_cons_succ] at hp
      have := ih o1 out1 res1 (fun q hq => hoff q (List.mem_cons_of_mem _ hq)) hle1
        hrest i p hp
      simpa [extra_next] using this

theorem convert_anim_frames_terminates (v : version) (rawdata : List Nat)
    (hlen : rawdata.length < 2147483648) :
    ∀ (anims : List (animation × d_anim_extra)) (offset : Nat) (out : List Nat),
      (∀ p ∈ anims, p.2.frame_offset < 4294967296 ∧
        (v = .version_tr2 → p.2.frame_size ≠ 0)) →
      offset ≤ rawdata.length →
      convert_anim_frames v rawdata anims offset out ≠ none := by
  intro anims
  induction anims with
  | nil =>
    intro offset out _ _
    simp [convert_anim_frames]
  | cons ae rest ih =>
    obtain ⟨a, e⟩ := ae
    intro offset out hp hle
    simp only [convert_anim_frames]
    split
    · simp
    · have hterm := emit_anim_frames_terminates v rawdata e.frame_size
        (next_anim_frame_offset rawdata rest) hlen (hp (a, e) (List.mem_cons_self _ _)).2
        (rawdata.length + 1) offset out hle (by omega)
      split
      · rename_i hnone
        exact absurd hnone hterm
      · simp
      · rename_i o1 out1 hloop
        split
        · simp
        · have hle1 := emit_anim_frames_le v rawdata e.frame_size _ hlen _ _ _ _ _ hle hloop
          have := ih o1 out1 (fun q hq => hp q (List.mem_cons_of_mem _ hq)) hle1
          split
          · rename_i hnone
            exact absurd hnone this
          · simp
          · simp

theorem read_animation_extra (v : version) (d : d_animation) (a : animation)
    (e : d_anim_extra) (h : read_animation v d = .ok (a, e)) :
    e = ⟨u32 d.frame_offset, u8 d.frame_size⟩ ∧ (v = .version_tr2 → u8 d.frame_size ≠ 0) := by
  simp only [read_animation, bind, Except.bind, pure, Except.pure, throw, throwThe,
    MonadExceptOf.throw] at h
  split at h
  · cases h
  split at h
  · cases h
  rename_i hv
  simp only [Except.ok.injEq, Prod.mk.injEq] at h
  refine ⟨h.2.symm, ?_⟩
  intro hv2
  rcases not_not.1 hv with h1 | h1
  · rw [hv2] at h1; cases h1.1
  · exact h1.2

theorem u32_lt (x : Int) : u32 x < 4294967296 := by
  unfold u32
  omega

theorem for_each_ok_getElem {α β : Type} (f : α → Except failure β) :
    ∀ (l : List α) (r : List β), for_each f l = .ok r →
      ∀ (i : Nat), (∀ a, l[i]? = some a → ∃ b, r[i]? = some b ∧ f a = .ok b) ∧
        (l[i]? = none → r[i]? = none) := by
  intro l
  induction l with
  | nil =>
    intro r h i
    simp [for_each] at h
    subst h
    simp
  | cons a l ih =>
    intro r h i
    rw [for_each] at h
    cases hfa : f a with
    | error e => simp [hfa] at h
    | ok x =>
      cases hl : for_each f l with
      | error e => simp [hfa, hl] at h
      | ok xs =>
        simp [hfa, hl] at h
        subst h
        cases i with
        | zero => simp [hfa]
        | succ i => simpa using ih xs hl i

/-- C3: `load_animations` fails whenever, for some animation, the raw frames emitted one
after another from its raw frame start do not end exactly on the raw frame start of the
next animation (on the end of the raw frame data for the last one); a frame that would
extend past the end of the raw frame data is one way not to end there. The raw frame data
has fewer than 2^31 words, its count being an `int32_t`. -/
theorem load_animations_fails_on_remainder (v : version) (frame_data : List Nat)
    (headers : List d_animation) (hlen : frame_data.length < 2147483648)
    (i : Nat) (d : d_animation) (hd : headers[i]? = some d)
    (hbad : ¬ raw_frames_span v frame_data (u8 d.frame_size) (raw_frame_start d)
      (raw_frame_next frame_data headers i)) :
    ∃ e, load_animations v frame_data headers = some (.error e) := by
  unfold load_animations
  cases hh : for_each (read_animation v) headers with
  | error e => exact ⟨e, rfl⟩
  | ok anims =>
    simp only []
    have hidx := for_each_ok_getElem _ headers anims hh
    have hp : ∀ p ∈ anims, p.2.frame_offset < 4294967296 ∧
        (v = .version_tr2 → p.2.frame_size ≠ 0) := by
      intro p hp
      obtain ⟨d', _, hd'⟩ := for_each_ok_mem _ headers anims hh p hp
      obtain ⟨pa, pe⟩ := p
      obtain ⟨he, hfs⟩ := read_animation_extra v d' pa pe hd'
      subst he
      exact ⟨u32_lt _, hfs⟩
    cases hc : convert_anim_frames v frame_data anims 0 [] with
    | none =>
      exact absurd hc
        (convert_anim_frames_terminates v frame_data hlen anims 0 [] hp (Nat.zero_le _))
    | some r =>
      cases r with
      | error e => exact ⟨e, rfl⟩
      | ok res =>
        exfalso
        apply hbad
        obtain ⟨p, hpi, hfp⟩ := (hidx i).1 d hd
        obtain ⟨pa, pe⟩ := p
        obtain ⟨he, _⟩ := read_animation_extra v d pa pe hfp
        have hspan := convert_anim_frames_span v frame_data hlen anims 0 [] res
          (fun q hq => (hp q hq).1) (Nat.zero_le _) hc i (pa, pe) hpi
        have hnext : extra_next frame_data anims i = raw_frame_next frame_data headers i := by
          unfold extra_next raw_frame_next
          cases hd1 : headers[i + 1]? with
          | none => rw [(hidx (i + 1)).2 hd1]
          | some d1 =>
            obtain ⟨q, hq, hfq⟩ := (hidx (i + 1)).1 d1 hd1
            obtain ⟨qa, qe⟩ := q
            obtain ⟨hqe, _⟩ := read_animation_extra v d1 qa qe hfq
            rw [hq, hqe]
            rfl
        rw [hnext, he] at hspan
        exact hspan

theorem raw_frames_span_cases (v : version) (rawdata : List Nat) (fs offset target : Nat)
    (h : raw_frames_span v rawdata fs offset target) :
    offset = target ∨ (offset < target ∧
      ∃ next, raw_frame_end v rawdata fs offset = some next ∧
        raw_frames_span v rawdata fs next target) := by
  cases h with
  | done => exact Or.inl rfl
  | frame _ next _ hlt hend hrest => exact Or.inr ⟨hlt, next, hend, hrest⟩

/-- C3 on a V2 animation with frames of 3 words in raw frame data of 4 words: the second
frame would extend past the end, and `load_animations` fails. -/
theorem load_animations_fails_on_remainder_witness :
    (¬ raw_frames_span .version_tr2 [1, 2, 3, 4] 3 0 4) ∧
    ∃ e, load_animations .version_tr2 [1, 2, 3, 4] [sample_header 0 3] = some (.error e) := by
  have hbad : ¬ raw_frames_span .version_tr2 [1, 2, 3, 4] 3 0 4 := by
    intro h
    rcases raw_frames_span_cases _ _ _ _ _ h with h0 | ⟨_, next, hend, hrest⟩
    · cases h0
    · have hn : next = 3 := by
        simp [raw_frame_end] at hend
        exact hend.symm
      subst hn
      rcases raw_frames_span_cases _ _ _ _ _ hrest with h1 | ⟨_, next, hend, _⟩
      · cases h1
      · simp [raw_frame_end] at hend
  exact ⟨hbad, load_animations_fails_on_remainder .version_tr2 [1, 2, 3, 4]
    [sample_header 0 3] (by decide) 0 (sample_header 0 3) rfl hbad⟩


/-! ## Animations: the canonical records -/

theorem vector_at_getD (v : List Nat) (i : Nat) (h : i < v.length) :
    vector_at v i = .ok (v.getD i 0) := by
  unfold vector_at
  rw [List.getElem?_eq_getElem h]
  simp [List.getD, List.getElem?_eq_getElem h]

theorem take_succ_drop (l : List Nat) (o k : Nat) (h : o + k < l.length) :
    (l.drop o).take (k + 1) = (l.drop o).take k ++ [l.getD (o + k) 0] := by
  rw [List.take_succ, List.getElem?_drop, List.getElem?_eq_getElem h]
  simp [List.getD, List.getElem?_eq_getElem h]

theorem emit_header_eq (rawdata : List Nat) (offset : Nat) :
    ∀ (k : Nat) (out : List Nat), offset + k ≤ rawdata.length →
      emit_header rawdata offset k out = .ok (out ++ (rawdata.drop offset).take k) := by
  intro k
  induction k with
  | zero => intro out _; simp [emit_header, pure, Except.pure]
  | succ k ih =>
    intro out hk
    simp only [emit_header, bind, Except.bind, pure, Except.pure]
    rw [ih out (by omega), vector_at_getD _ _ (by omega), take_succ_drop _ _ _ (by omega)]
    simp

theorem drop_two (l : List Nat) (o : Nat) (h : o + 1 < l.length) :
    l.drop o = l.getD o 0 :: l.getD (o + 1) 0 :: l.drop (o + 2) := by
  have h0 : o < l.length := by omega
  rw [List.drop_eq_getElem_cons h0, List.drop_eq_getElem_cons h]
  simp [List.getD, List.getElem?_eq_getElem h0, List.getElem?_eq_getElem h]

theorem emit_anglesets_eq (rawdata : List Nat) :
    ∀ (n offset : Nat) (out : List Nat), offset + n * 2 ≤ rawdata.length →
      emit_anglesets rawdata n offset out =
        .ok (offset + n * 2, out ++ swap_pairs ((rawdata.drop offset).take (n * 2))) := by
  intro n
  induction n with
  | zero => intro offset out _; simp [emit_anglesets, pure, Except.pure, swap_pairs]
  | succ n ih =>
    intro offset out hn
    simp only [emit_anglesets, bind, Except.bind]
    rw [vector_at_getD _ _ (by omega), vector_at_getD _ _ (by omega)]
    simp only []
    rw [ih (offset + 2) _ (by omega), drop_two rawdata offset (by omega)]
    have : (n + 1) * 2 = n * 2 + 1 + 1 := by ring
    rw [this, List.take_succ_cons, List.take_succ_cons, swap_pairs]
    simp
    omega

theorem emit_words_eq (rawdata : List Nat) :
    ∀ (n offset : Nat) (out : List Nat), offset + n ≤ rawdata.length →
      emit_words rawdata n offset out =
        .ok (offset + n, out ++ (rawdata.drop offset).take n) := by
  intro n
  induction n with
  | zero => intro offset out _; simp [emit_words, pure, Except.pure]
  | succ n ih =>
    intro offset out hn
    simp only [emit_words, bind, Except.bind]
    rw [vector_at_getD _ _ (by omega)]
    simp only []
    rw [ih (offset + 1) _ (by omega)]
    have hlt : offset < rawdata.length := by omega
    have hd : rawdata.drop offset = rawdata.getD offset 0 :: rawdata.drop (offset + 1) := by
      rw [List.drop_eq_getElem_cons hlt]
      simp [List.getD, List.getElem?_eq_getElem hlt]
    rw [hd, List.take_succ_cons]
    simp
    omega

/-- What `emit_anim_frame_tr1` appends for a frame that lies inside the raw data: the
length word, the 9 header words and the angle sets with their words swapped. -/
theorem emit_anim_frame_tr1_eq (rawdata : List Nat) (offset : Nat) (out : List Nat)
    (h10 : offset + 10 ≤ rawdata.length)
    (hn : offset + 10 + rawdata.getD (offset + 9) 0 * 2 ≤ rawdata.length) :
    emit_anim_frame_tr1 rawdata offset out =
      .ok (offset + 10 + rawdata.getD (offset + 9) 0 * 2,
        out ++ u16 (9 + rawdata.getD (offset + 9) 0 * 2 : Nat) ::
          ((rawdata.drop offset).take 9 ++
            swap_pairs ((rawdata.drop (offset + 10)).take (rawdata.getD (offset + 9) 0 * 2)))) := by
  simp only [emit_anim_frame_tr1, bind, Except.bind, throw, throwThe, MonadExceptOf.throw]
  rw [if_neg (by omega), vector_at_getD _ _ (by omega)]
  simp only []
  rw [if_neg (by omega), emit_header_eq _ _ _ _ (by omega)]
  simp only []
  rw [emit_anglesets_eq _ _ _ _ (by omega)]
  simp [pure, Except.pure]

/-- What `emit_anim_frame_tr2` appends for a frame that lies inside the raw data. -/
theorem emit_anim_frame_tr2_eq (rawdata : List Nat) (offset stride : Nat) (out : List Nat)
    (h : offset + stride ≤ rawdata.length) :
    emit_anim_frame_tr2 rawdata offset stride out =
      .ok (offset + stride, out ++ u16 stride :: (rawdata.drop offset).take stride) := by
  simp only [emit_anim_frame_tr2, bind, Except.bind, throw, throwThe, MonadExceptOf.throw]
  rw [if_neg (by omega), emit_words_eq _ _ _ _ h]
  simp [pure, Except.pure]

theorem emit_anim_frames_done (v : version) (rawdata : List Nat) (fs next fuel : Nat)
    (out : List Nat) :
    emit_anim_frames v rawdata fs next fuel next out = some (.ok (next, out)) := by
  cases fuel <;> simp [emit_anim_frames]

theorem emit_anim_frame_tr1_single (hdr body : List Nat) (n : Nat) (out : List Nat)
    (h9 : hdr.length = 9) (hb : body.length = n * 2) :
    emit_anim_frame_tr1 (hdr ++ n :: body) 0 out =
      .ok (10 + n * 2, out ++ u16 (9 + n * 2 : Nat) :: (hdr ++ swap_pairs body)) := by
  have hlen : (hdr ++ n :: body).length = 10 + n * 2 := by
    simp [h9, hb]; omega
  have hget : (hdr ++ n :: body).getD (0 + 9) 0 = n := by
    have : (hdr ++ n :: body)[0 + 9]? = some n := by
      rw [List.getElem?_append_right (by omega)]
      simp [h9]
    simp [List.getD, this]
  have h := emit_anim_frame_tr1_eq (hdr ++ n :: body) 0 out (by omega) (by rw [hget]; omega)
  rw [hget] at h
  rw [h]
  have h1 : ((hdr ++ n :: body).drop 0).take 9 = hdr := by
    simp [List.take_append_eq_append_take, h9]
  have h2 : ((hdr ++ n :: body).drop (0 + 10)).take (n * 2) = body := by
    rw [List.drop_append_eq_append_drop, List.drop_eq_nil_of_le (by omega)]
    simp [h9, ← hb]
  rw [h1, h2]

theorem load_animations_single_tr1 (hdr body : List Nat) (n : Nat)
    (h9 : hdr.length = 9) (hb : body.length = n * 2) (hsmall : 10 + n * 2 < 2147483648) :
    ∃ a, load_animations .version_tr1 (hdr ++ n :: body) [sample_header 0 0] =
        some (.ok ([a], u16 (9 + n * 2 : Nat) :: (hdr ++ swap_pairs body))) ∧
      a.frame_offset = 0 := by
  have hlen : (hdr ++ n :: body).length = 10 + n * 2 := by
    simp [h9, hb]; omega
  have hu : u32 ((10 + n * 2 : Nat) : Int) = 10 + n * 2 := u32_of_lt _ (by omega)
  have hhead : for_each (read_animation .version_tr1) [sample_header 0 0] =
      .ok [(⟨0, 1, 0, 2, 0, 0, 0, 0, 0, 0, 0⟩, ⟨0, 0⟩)] := by rfl
  refine ⟨⟨0, 1, 0, 2, 0, 0, 0, 0, 0, 0, 0⟩, ?_, rfl⟩
  unfold load_animations
  rw [hhead]
  simp only [convert_anim_frames, next_anim_frame_offset, hlen, hu]
  rw [if_neg (by decide)]
  simp only [emit_anim_frames]
  simp only [emit_anim_frame, bind, Except.bind, pure, Except.pure,
    emit_anim_frame_tr1_single hdr body n [] h9 hb, hu, emit_anim_frames_done]
  simp

theorem walk_lands_step (buf : List Nat) (target fuel pos w : Nat) (h : pos < target)
    (hw : buf[pos]? = some w) :
    walk_lands buf target (fuel + 1) pos = walk_lands buf target fuel (pos + (w + 1)) := by
  simp only [walk_lands, hw]
  rw [if_neg (by omega), if_neg (by omega)]

theorem walk_lands_over (buf : List Nat) (target fuel pos : Nat) (h : target < pos) :
    walk_lands buf target fuel pos = false := by
  cases fuel <;> simp only [walk_lands] <;> rw [if_neg (by omega), if_pos h]

theorem swap_pairs_replicate (k : Nat) (l : List Nat) :
    swap_pairs (List.replicate (k * 2) 0 ++ l) = List.replicate (k * 2) 0 ++ swap_pairs l := by
  induction k with
  | zero => simp
  | succ k ih =>
    have : (k + 1) * 2 = k * 2 + 1 + 1 := by ring
    rw [this, List.replicate_succ, List.replicate_succ, List.cons_append, List.cons_append,
      swap_pairs, ih]
    rfl

/-- A canonical record whose length word wrapped to 1: when the second header word is
65534 and the last word is 1, the walk goes from 0 to 2, to 65537, and over the end. -/
theorem walk_over_wrapped_record (hdr zeros : List Nat) (h9 : hdr.length = 9)
    (hz : zeros.length = 65526) (h1 : hdr[1]? = some 65534) :
    (1 :: (hdr ++ (zeros ++ [0, 1]))).length = 65538 ∧
    lands_exactly (1 :: (hdr ++ (zeros ++ [0, 1]))) 0 65538 = false := by
  have hlen : (1 :: (hdr ++ (zeros ++ [0, 1]))).length = 65538 := by
    simp only [List.length_cons, List.length_append, h9, hz, List.length_nil]
  have e0 : (1 :: (hdr ++ (zeros ++ [0, 1])))[0]? = some 1 := List.getElem?_cons_zero
  have e2 : (1 :: (hdr ++ (zeros ++ [0, 1])))[2]? = some 65534 := by
    rw [show (2 : Nat) = 1 + 1 from rfl, List.getElem?_cons_succ,
      List.getElem?_append_left (by omega)]
    exact h1
  have e3 : (1 :: (hdr ++ (zeros ++ [0, 1])))[65537]? = some 1 := by
    rw [show (65537 : Nat) = 65536 + 1 from rfl, List.getElem?_cons_succ,
      List.getElem?_append_right (by omega), List.getElem?_append_right (by omega), h9, hz]
    rfl
  refine ⟨hlen, ?_⟩
  unfold lands_exactly
  calc walk_lands (1 :: (hdr ++ (zeros ++ [0, 1]))) 65538 (65538 - 0) 0
      = walk_lands (1 :: (hdr ++ (zeros ++ [0, 1]))) 65538 65537 2 :=
        walk_lands_step _ 65538 65537 0 1 (by omega) e0
    _ = walk_lands (1 :: (hdr ++ (zeros ++ [0, 1]))) 65538 65536 65537 :=
        walk_lands_step _ 65538 65536 2 65534 (by omega) e2
    _ = walk_lands (1 :: (hdr ++ (zeros ++ [0, 1]))) 65538 65535 65539 :=
        walk_lands_step _ 65538 65535 65537 1 (by omega) e3
    _ = false := walk_lands_over _ _ _ _ (by omega)

/-- C2, V1 frame with 32764 angle sets: `load_animations` succeeds, the canonical record
has 65538 words but its length word is 65537 wrapped to 1, and the walk from the frame
offset of the animation steps over the end of the buffer. -/
theorem load_animations_length_word_wraps :
    ∃ a buf, load_animations .version_tr1 long_frame_data [sample_header 0 0] =
        some (.ok ([a], buf)) ∧
      a.frame_offset = 0 ∧ buf.length = 65538 ∧ buf[0]? = some 1 ∧
      lands_exactly buf a.frame_offset (frame_offset_next [a] buf 0) = false := by
  have hz : (List.replicate (32763 * 2) 0).length = 65526 := List.length_replicate _ _
  have hb : (List.replicate (32763 * 2) 0 ++ [1, 0]).length = 32764 * 2 := by
    rw [List.length_append, hz]
    rfl
  obtain ⟨a, hload, ha⟩ := load_animations_single_tr1 [0, 65534, 0, 0, 0, 0, 0, 0, 0]
    (List.replicate (32763 * 2) 0 ++ [1, 0]) 32764 rfl hb (by decide)
  have hs : swap_pairs [1, 0] = [0, 1] := rfl
  rw [swap_pairs_replicate, hs] at hload
  have hw : u16 ((9 + 32764 * 2 : Nat) : Int) = 1 := by decide
  rw [hw] at hload
  obtain ⟨hlen, hwalk⟩ := walk_over_wrapped_record [0, 65534, 0, 0, 0, 0, 0, 0, 0]
    (List.replicate (32763 * 2) 0) rfl hz rfl
  refine ⟨a, _, hload, ha, hlen, List.getElem?_cons_zero, ?_⟩
  rw [ha]
  show lands_exactly _ 0 (List.length _) = false
  rw [hlen]
  exact hwalk

/-! ## Models: the node tree -/

theorem nodes_ok_append (nodes : List model_node) (n : model_node) (h : nodes_ok nodes)
    (h0 : nodes.length = 0 → n.parent = -1)
    (h1 : 0 < nodes.length → 0 ≤ n.parent ∧ n.parent < (nodes.length : Int)) :
    nodes_ok (nodes ++ [n]) := by
  intro i k hk
  by_cases hi : i < nodes.length
  · rw [List.getElem?_append_left hi] at hk
    exact h i k hk
  · have hi' : nodes.length ≤ i := Nat.le_of_not_lt hi
    rw [List.getElem?_append_right hi'] at hk
    have : i - nodes.length = 0 := by
      by_contra hne
      have : [n][i - nodes.length]? = none := by
        apply List.getElem?_eq_none
        simp; omega
      rw [this] at hk; cases hk
    rw [this] at hk
    simp at hk
    subst hk
    have hil : i = nodes.length := by omega
    subst hil
    exact ⟨fun h => h0 h, fun h => h1 h⟩

theorem load_model_nodes_ok (bone_data : List Int) (nlm first_mesh bdo : Nat) :
    ∀ (count j : Nat) (node_stack : List Int) (nodes result : List model_node),
      nodes.length = j → nodes_ok nodes → (∀ p ∈ node_stack, 0 ≤ p ∧ p < (j : Int)) →
      load_model_nodes bone_data nlm first_mesh bdo count j node_stack nodes = .ok result →
      nodes_ok result := by
  intro count
  induction count with
  | zero =>
    intro j st nodes result hlen hok hst h
    simp [load_model_nodes, pure, Except.pure] at h
    subst h
    exact hok
  | succ count ih =>
    intro j st nodes result hlen hok hst h
    rw [load_model_nodes] at h
    by_cases hmesh : first_mesh + j < nlm
    · simp only [hmesh, not_true_eq_false, ite_false, if_false] at h
      by_cases hj : j = 0
      · subst hj
        simp [bind, Except.bind, pure, Except.pure] at h
        refine ih 1 st _ result (by simp [hlen]) ?_ ?_ h
        · apply nodes_ok_append _ _ hok
          · intro _; rfl
          · intro hpos; omega
        · intro p hp
          have := hst p hp
          omega
      · simp only [hj, bind, Except.bind, pure, Except.pure, ne_eq, not_false_eq_true,
          if_true] at h
        have hjpos : 0 < j := Nat.pos_of_ne_zero hj
        split at h
        · cases h
        split at h
        · cases h
        split at h
        · cases h
        split at h
        · cases h
        split at h
        · -- the parent is popped off the stack
          split at h
          · cases h
          · rename_i top rest
            have htop := hst top (List.mem_cons_self _ _)
            refine ih (j + 1) _ _ result (by simp [hlen]) ?_ ?_ h
            · apply nodes_ok_append _ _ hok
              · intro h0; omega
              · intro _; rw [hlen]; exact htop
            · intro p hp
              split at hp
              · have := hst p hp
                push_cast; omega
              · have := hst p (List.mem_cons_of_mem _ hp)
                push_cast; omega
        · -- the parent is the previous node
          refine ih (j + 1) _ _ result (by simp [hlen]) ?_ ?_ h
          · apply nodes_ok_append _ _ hok
            · intro h0; omega
            · intro _; rw [hlen]; refine ⟨?_, ?_⟩ <;> dsimp only <;> omega
          · intro p hp
            split at hp
            · rcases List.mem_cons.1 hp with hp | hp
              · subst hp; push_cast; omega
              · have := hst p hp
                push_cast; omega
            · have := hst p hp
              push_cast; omega
    · simp [hmesh, bind, Except.bind, throw, throwThe, MonadExceptOf.throw] at h

theorem load_model_nodes_root (bone_data : List Int) (nlm first_mesh bdo : Nat)
    (count : Nat) (result : List model_node)
    (h : load_model_nodes bone_data nlm first_mesh bdo count 0 [] [] = .ok result) :
    nodes_ok result :=
  load_model_nodes_ok bone_data nlm first_mesh bdo count 0 [] [] result rfl
    (by intro i n hn; simp at hn) (by intro p hp; simp at hp) h

theorem load_model_nodes_of_ok (bone_data : List Int) (nlm na : Nat) (d : d_model)
    (m : model) (h : load_model bone_data nlm na d = .ok m) : nodes_ok m.nodes := by
  simp only [load_model, bind, Except.bind, pure, Except.pure] at h
  split at h
  · split at h
    · split at h
      · cases h
      · rename_i nodes hnodes
        cases h
        exact load_model_nodes_root _ _ _ _ _ _ hnodes
    · cases h
  · split at h
    · cases h
    · rename_i nodes hnodes
      cases h
      exact load_model_nodes_root _ _ _ _ _ _ hnodes

/-- C5: in every model `load_models` produces, node 0 has parent -1 and every node
`i > 0` has a parent index below `i`. -/
theorem load_models_parent_before_node (bone_data : List Int)
    (num_level_meshes num_animations : Nat) (records : List d_model) (models : List model)
    (h : load_models bone_data num_level_meshes num_animations records = .ok models) :
    ∀ m ∈ models,
      (∀ n, m.nodes[0]? = some n → n.parent = -1) ∧
      (∀ (i : Nat) (n : model_node), 0 < i → m.nodes[i]? = some n → n.parent < (i : Int)) := by
  intro m hm
  obtain ⟨d, _, hd⟩ := for_each_ok_mem _ records models h m hm
  have hok := load_model_nodes_of_ok _ _ _ d m hd
  exact ⟨fun n hn => (hok 0 n hn).1 rfl, fun i n hi hn => ((hok i n hn).2 hi).2⟩


/-- C5 on a sample model with five nodes: the parents are -1, 0, 1, 1, 3. -/
theorem load_models_parent_before_node_witness :
    ∃ models, load_models sample_bone_data 5 1 [sample_d_model] = .ok models ∧
      models.map (fun m => m.nodes.map (·.parent)) = [[-1, 0, 1, 1, 3]] ∧
      ∀ m ∈ models,
        (∀ n, m.nodes[0]? = some n → n.parent = -1) ∧
        (∀ (i : Nat) (n : model_node), 0 < i → m.nodes[i]? = some n →
          n.parent < (i : Int)) := by
  have hv : (load_models sample_bone_data 5 1 [sample_d_model]).toOption.map
      (fun ms => ms.map (fun m => m.nodes.map (·.parent))) = some [[-1, 0, 1, 1, 3]] := by
    decide
  cases h : load_models sample_bone_data 5 1 [sample_d_model] with
  | error e => rw [h] at hv; cases hv
  | ok ms =>
    rw [h] at hv
    exact ⟨ms, rfl, by simpa [Except.toOption] using hv,
      load_models_parent_before_node _ _ _ _ ms h⟩


/-! ## Texture animation chains -/

theorem texanimchain_length_eq (d : d_texanimchain) :
    (texanimchain_texinfos d).length = texanimchain_length d := by
  simp [texanimchain_texinfos]

theorem set_texanimchain_next (texinfos texinfos' : List texinfo) (src dest : Nat)
    (h : set_texanimchain texinfos src dest = .ok texinfos') :
    texanimchain_next texinfos' src = some dest ∧
    ∀ m, m ≠ src → texanimchain_next texinfos' m = texanimchain_next texinfos m := by
  simp only [set_texanimchain, bind, Except.bind, pure, Except.pure] at h
  split at h
  · cases h
  rename_i t ht
  split at h
  · cases h
  simp only [Except.ok.injEq] at h
  subst h
  rw [vector_at_eq_ok] at ht
  have hlt : src < texinfos.length := by
    by_contra hge
    rw [List.getElem?_eq_none (by omega)] at ht
    cases ht
  constructor
  · simp [texanimchain_next, List.getElem?_set, hlt]
  · intro m hm
    simp [texanimchain_next, List.getElem?_set, Ne.symm hm]

theorem getD_ne_of_nodup (cs : List Nat) (hc : cs.Nodup) (i j : Nat) (hi : i < cs.length)
    (hj : j < cs.length) (hij : i ≠ j) : cs.getD i 0 ≠ cs.getD j 0 := by
  intro h
  apply hij
  have h1 : cs.getD i 0 = cs[i] := by simp [List.getD, List.getElem?_eq_getElem hi]
  have h2 : cs.getD j 0 = cs[j] := by simp [List.getD, List.getElem?_eq_getElem hj]
  rw [h1, h2] at h
  exact (List.Nodup.getElem_inj_iff hc).1 h

theorem getD_mem (cs : List Nat) (i : Nat) (hi : i < cs.length) : cs.getD i 0 ∈ cs := by
  have h1 : cs.getD i 0 = cs[i] := by simp [List.getD, List.getElem?_eq_getElem hi]
  rw [h1]
  exact List.getElem_mem _

/-- The inner loop over the positions `js` of a chain: a texinfo that is the source of no
position keeps its next-reference; when the members are pairwise distinct, the source of
each position ends up pointing at the member after it. -/
theorem link_texanimchain_next (cs : List Nat) :
    ∀ (js : List Nat) (texinfos texinfos' : List texinfo),
      link_texanimchain cs js texinfos = .ok texinfos' →
      (∀ m, (∀ j ∈ js, cs.getD j 0 ≠ m) →
        texanimchain_next texinfos' m = texanimchain_next texinfos m) ∧
      (js.Nodup → (∀ j ∈ js, j < cs.length) → cs.Nodup →
        ∀ j ∈ js, texanimchain_next texinfos' (cs.getD j 0) =
          some (cs.getD ((j + 1) % cs.length) 0)) := by
  intro js
  induction js with
  | nil =>
    intro T T' h
    simp only [link_texanimchain, pure, Except.pure, Except.ok.injEq] at h
    subst h
    exact ⟨fun _ _ => rfl, fun _ _ _ j hj => absurd hj (List.not_mem_nil _)⟩
  | cons j js ih =>
    intro T T' h
    simp only [link_texanimchain, bind, Except.bind] at h
    split at h
    · cases h
    rename_i T1 hset
    obtain ⟨hsrc, hother⟩ := set_texanimchain_next _ _ _ _ hset
    obtain ⟨ih1, ih2⟩ := ih T1 T' h
    constructor
    · intro m hm
      rw [ih1 m (fun j' hj' => hm j' (List.mem_cons_of_mem _ hj'))]
      exact hother m (Ne.symm (hm j (List.mem_cons_self _ _)))
    · intro hnd hlt hc j0 hj0
      rcases List.mem_cons.1 hj0 with hj0 | hj0
      · subst hj0
        rw [ih1 (cs.getD j0 0)]
        · exact hsrc
        · intro j' hj'
          have hne : j' ≠ j0 := by
            intro he
            subst he
            exact (List.nodup_cons.1 hnd).1 hj'
          exact getD_ne_of_nodup cs hc j' j0 (hlt j' (List.mem_cons_of_mem _ hj'))
            (hlt j0 (List.mem_cons_self _ _)) hne
      · exact ih2 (List.nodup_cons.1 hnd).2 (fun j' hj' => hlt j' (List.mem_cons_of_mem _ hj'))
          hc j0 hj0

/-- The chain loop leaves alone the texinfos that are members of none of its chains. -/
theorem link_texanimchains_other :
    ∀ (ds : List d_texanimchain) (texinfos texinfos' : List texinfo),
      link_texanimchains ds texinfos = .ok texinfos' →
      ∀ m, (∀ d ∈ ds, m ∉ texanimchain_texinfos d) →
        texanimchain_next texinfos' m = texanimchain_next texinfos m := by
  intro ds
  induction ds with
  | nil =>
    intro T T' h m _
    simp only [link_texanimchains, pure, Except.pure, Except.ok.injEq] at h
    subst h
    rfl
  | cons d ds ih =>
    intro T T' h m hm
    simp only [link_texanimchains, bind, Except.bind] at h
    split at h
    · cases h
    rename_i T1 hlink
    rw [ih T1 T' h m (fun d' hd' => hm d' (List.mem_cons_of_mem _ hd'))]
    apply (link_texanimchain_next _ _ _ _ hlink).1 m
    intro j hj he
    apply hm d (List.mem_cons_self _ _)
    rw [← he]
    exact getD_mem _ _ (List.mem_range.1 hj)

/-- After the chain loop, the members of a chain with pairwise distinct members, none of
which is a member of a later chain, point each at the member after it, the last at the
first. -/
theorem link_texanimchains_next :
    ∀ (ds : List d_texanimchain) (texinfos texinfos' : List texinfo) (i : Nat)
      (d : d_texanimchain),
      link_texanimchains ds texinfos = .ok texinfos' → ds[i]? = some d →
      (texanimchain_texinfos d).Nodup →
      (∀ (k : Nat) (d' : d_texanimchain), i < k → ds[k]? = some d' →
        ∀ m ∈ texanimchain_texinfos d, m ∉ texanimchain_texinfos d') →
      ∀ j, j < (texanimchain_texinfos d).length →
        texanimchain_next texinfos' ((texanimchain_texinfos d).getD j 0) =
          some ((texanimchain_texinfos d).getD
            ((j + 1) % (texanimchain_texinfos d).length) 0) := by
  intro ds
  induction ds with
  | nil =>
    intro T T' i d _ hd
    simp at hd
  | cons d0 ds ih =>
    intro T T' i d h hd hnd hlater j hj
    simp only [link_texanimchains, bind, Except.bind] at h
    split at h
    · cases h
    rename_i T1 hlink
    cases i with
    | zero =>
      simp only [List.getElem?_cons_zero, Option.some.injEq] at hd
      subst hd
      rw [link_texanimchains_other ds T1 T' h]
      · exact (link_texanimchain_next _ _ _ _ hlink).2 (List.nodup_range _)
          (fun j' hj' => List.mem_range.1 hj') hnd j (List.mem_range.2 hj)
      · intro d' hd' hmem
        obtain ⟨k, hk⟩ := List.mem_iff_getElem?.1 hd'
        exact hlater (k + 1) d' (Nat.succ_pos _) (by simpa using hk) _
          (getD_mem _ _ hj) hmem
    | succ i =>
      simp only [List.getElem?_cons_succ] at hd
      exact ih T1 T' i d h hd hnd
        (fun k d' hk hd' => hlater (k + 1) d' (by omega) (by simpa using hd')) j hj

theorem follow_texanimchain_cycle (texinfos : List texinfo) (cs : List Nat)
    (hnext : ∀ j, j < cs.length →
      texanimchain_next texinfos (cs.getD j 0) = some (cs.getD ((j + 1) % cs.length) 0)) :
    ∀ (k j : Nat), j < cs.length →
      follow_texanimchain texinfos k (cs.getD j 0) = some (cs.getD ((j + k) % cs.length) 0) := by
  intro k
  induction k with
  | zero =>
    intro j hj
    simp [follow_texanimchain, Nat.mod_eq_of_lt hj]
  | succ k ih =>
    intro j hj
    simp only [follow_texanimchain, hnext j hj, Option.some_bind]
    rw [ih _ (Nat.mod_lt _ (by omega))]
    congr 2
    rw [Nat.add_mod, Nat.mod_mod, ← Nat.add_mod]
    congr 1
    omega

/-- C4 as amended: after `load_texinfos`, for a chain whose members are pairwise distinct
and none of which is a member of a later chain, following the next-reference from any
member returns to it after exactly the declared length `n` of the chain (stored count
plus one), and not before. -/
theorem texanimchain_returns_after_length (texinfos : List texinfo)
    (records : List d_texinfo) (chains : List d_texanimchain) (loaded : List texinfo)
    (h : load_texinfos texinfos records chains = .ok loaded)
    (i : Nat) (d : d_texanimchain) (hd : chains[i]? = some d)
    (hnd : (texanimchain_texinfos d).Nodup)
    (hlater : ∀ (k : Nat) (d' : d_texanimchain), i < k → chains[k]? = some d' →
      ∀ m ∈ texanimchain_texinfos d, m ∉ texanimchain_texinfos d') :
    ∀ m ∈ texanimchain_texinfos d,
      follow_texanimchain loaded (texanimchain_length d) m = some m ∧
      ∀ k, 0 < k → k < texanimchain_length d → follow_texanimchain loaded k m ≠ some m := by
  intro m hm
  simp only [load_texinfos] at h
  split at h
  · cases h
  have hnext := link_texanimchains_next chains _ loaded i d h hd hnd hlater
  have hfollow := follow_texanimchain_cycle loaded (texanimchain_texinfos d) hnext
  obtain ⟨j, hj, hjm⟩ := List.getElem_of_mem hm
  have hmj : m = (texanimchain_texinfos d).getD j 0 := by
    simp [List.getD, List.getElem?_eq_getElem hj, hjm]
  rw [← texanimchain_length_eq, hmj]
  constructor
  · rw [hfollow _ j hj]
    congr 2
    rw [Nat.add_mod_right, Nat.mod_eq_of_lt hj]
  · intro k hk0 hkn
    rw [hfollow _ j hj]
    intro he
    simp only [Option.some.injEq] at he
    have hmod : (j + k) % (texanimchain_texinfos d).length < (texanimchain_texinfos d).length :=
      Nat.mod_lt _ (by omega)
    refine getD_ne_of_nodup _ hnd _ _ hmod hj ?_ he
    intro hjk
    by_cases hlt : j + k < (texanimchain_texinfos d).length
    · rw [Nat.mod_eq_of_lt hlt] at hjk
      omega
    · have : (j + k) % (texanimchain_texinfos d).length =
          j + k - (texanimchain_texinfos d).length := by
        rw [Nat.mod_eq_sub_mod (by omega), Nat.mod_eq_of_lt (by omega)]
      omega

set_option maxRecDepth 20000 in
/-- C4 fails on a chain that names a texinfo twice: the chain with stored count 2 and
stored indices 0, 0, 1 has declared length 3 and members 256, 256, 257; after
`load_texinfos` three steps from member 256 lead to 257. -/
theorem texanimchain_duplicate_member :
    ∃ loaded, load_texinfos load_palette_texinfos [sample_d_texinfo, sample_d_texinfo]
        [sample_texanimchain 2 [0, 0, 1]] = .ok loaded ∧
      texanimchain_length (sample_texanimchain 2 [0, 0, 1]) = 3 ∧
      256 ∈ texanimchain_texinfos (sample_texanimchain 2 [0, 0, 1]) ∧
      follow_texanimchain loaded 3 256 = some 257 ∧
      follow_texanimchain loaded 3 256 ≠ some 256 := by
  have hv : (load_texinfos load_palette_texinfos [sample_d_texinfo, sample_d_texinfo]
      [sample_texanimchain 2 [0, 0, 1]]).toOption.map
        (fun t => follow_texanimchain t 3 256) = some (some 257) := by decide
  cases h : load_texinfos load_palette_texinfos [sample_d_texinfo, sample_d_texinfo]
      [sample_texanimchain 2 [0, 0, 1]] with
  | error e => rw [h] at hv; cases hv
  | ok loaded =>
    rw [h] at hv
    have hf : follow_texanimchain loaded 3 256 = some 257 := by
      simpa [Except.toOption] using hv
    exact ⟨loaded, rfl, by decide, by decide, hf, by rw [hf]; decide⟩

set_option maxRecDepth 20000 in
/-- C4 as amended, on the chain with stored count 2 and stored indices 0, 1, 2. -/
theorem texanimchain_returns_after_length_witness :
    ∃ loaded, load_texinfos load_palette_texinfos
        [sample_d_texinfo, sample_d_texinfo, sample_d_texinfo]
        [sample_texanimchain 2 [0, 1, 2]] = .ok loaded ∧
      ∀ m ∈ texanimchain_texinfos (sample_texanimchain 2 [0, 1, 2]),
        follow_texanimchain loaded (texanimchain_length (sample_texanimchain 2 [0, 1, 2])) m =
          some m ∧
        ∀ k, 0 < k → k < texanimchain_length (sample_texanimchain 2 [0, 1, 2]) →
          follow_texanimchain loaded k m ≠ some m := by
  have hv : (load_texinfos load_palette_texinfos
      [sample_d_texinfo, sample_d_texinfo, sample_d_texinfo]
      [sample_texanimchain 2 [0, 1, 2]]).toOption.isSome = true := by decide
  cases h : load_texinfos load_palette_texinfos
      [sample_d_texinfo, sample_d_texinfo, sample_d_texinfo]
      [sample_texanimchain 2 [0, 1, 2]] with
  | error e => rw [h] at hv; cases hv
  | ok loaded =>
    refine ⟨loaded, rfl, ?_⟩
    exact texanimchain_returns_after_length _ _ _ loaded h 0 _ rfl (by decide)
      (fun k d' hk hd' => by
        cases k with
        | zero => omega
        | succ k => simp at hd')


/-! ## The playback cursor -/

theorem frame_reader_bind_apply {α β : Type} (m : frame_reader α) (f : α → frame_reader β)
    (log : List Nat) :
    (m >>= f) log =
      match m log with
      | (.ok a, log) => f a log
      | (.error e, log) => (.error e, log) := rfl

theorem update_node_transforms_apply (g : glm_lib) (buf : List Nat) (o : model_object)
    (log : List Nat) :
    update_node_transforms g buf o log =
      match smooth_anim_frame g buf o.model o.animation o.anim_tick o.anim_tick_time log with
      | (.ok af, log') =>
        match node_transforms_from g af o.model.nodes 0 [] with
        | .ok nt => (.ok { o with node_transforms := nt }, log')
        | .error e => (.error e, log')
      | (.error e, log') => (.error e, log') := by
  unfold update_node_transforms
  rw [frame_reader_bind_apply]
  cases smooth_anim_frame g buf o.model o.animation o.anim_tick o.anim_tick_time log with
  | mk res log1 =>
    cases res with
    | error e => rfl
    | ok af =>
      simp only []
      cases node_transforms_from g af o.model.nodes 0 [] <;> rfl

/-- The method `update_node_transforms` changes `node_transforms` only. -/
theorem update_node_transforms_fields (g : glm_lib) (buf : List Nat) (o o' : model_object)
    (log log' : List Nat) (h : update_node_transforms g buf o log = (.ok o', log')) :
    o' = { o with node_transforms := o'.node_transforms } := by
  rw [update_node_transforms_apply] at h
  cases hs : smooth_anim_frame g buf o.model o.animation o.anim_tick o.anim_tick_time log with
  | mk res log1 =>
    rw [hs] at h
    cases res with
    | error e => cases h
    | ok af =>
      simp only [] at h
      cases hn : node_transforms_from g af o.model.nodes 0 [] with
      | error e => rw [hn] at h; cases h
      | ok nt =>
        rw [hn] at h
        cases h
        rfl

/-- The method `update_node_transforms` does not read `node_transforms`. -/
theorem update_node_transforms_congr (g : glm_lib) (buf : List Nat) (o : model_object)
    (nt : List mat4) :
    update_node_transforms g buf { o with node_transforms := nt } =
      update_node_transforms g buf o := by
  funext log
  rw [update_node_transforms_apply, update_node_transforms_apply]

theorem result_ok_iff {α : Type} (m : frame_reader α) (a : α) :
    m.result = .ok a ↔ ∃ log, m [] = (.ok a, log) := by
  unfold frame_reader.result
  constructor
  · intro h
    exact ⟨(m []).2, by rw [← h]⟩
  · rintro ⟨log, h⟩
    rw [h]

theorem exists_of_toBool {α : Type} (x : Except failure α) (h : x.toBool = true) :
    ∃ a, x = .ok a := by
  cases x with
  | error e => cases h
  | ok a => exact ⟨a, rfl⟩

/-- When `tick` returns, the object is the one `advance_tick` gives, with new transforms. -/
theorem tick_fields (g : glm_lib) (buf : List Nat) (o o' : model_object) (dt : ℚ)
    (h : (tick g buf o dt).result = .ok o') :
    o' = { advance_tick o dt with node_transforms := o'.node_transforms } := by
  obtain ⟨log, hlog⟩ := (result_ok_iff _ _).1 h
  exact update_node_transforms_fields g buf _ _ _ _ hlog

theorem advance_tick_lt (o : model_object) (dt : ℚ) (h : o.anim_tick_time + dt < 1 / 30) :
    advance_tick o dt = { o with anim_tick_time := o.anim_tick_time + dt } := by
  unfold advance_tick
  simp only []
  rw [if_neg (not_le.2 h)]

theorem advance_tick_ge (o : model_object) (dt : ℚ) (h : 1 / 30 ≤ o.anim_tick_time + dt) :
    advance_tick o dt =
      { o with anim_tick_time := o.anim_tick_time + dt - 1 / 30,
               anim_tick := if u16 (o.anim_tick + 1) > o.animation.last_tick
                 then o.animation.first_tick else u16 (o.anim_tick + 1) } := by
  unfold advance_tick
  simp only []
  rw [if_pos h]
  split <;> rfl

theorem u16_succ (n : Nat) (h : n < 65535) : u16 ((n : Int) + 1) = n + 1 := by
  unfold u16
  omega

/-- C6 as amended: a call of `tick(dt)` that returns has added `dt` to the accumulated
time and, when the sum is at least 1/30 s, has subtracted 1/30 s once and advanced the
tick by exactly one, to `first_tick` if the tick passes `last_tick`; when the sum is below
1/30 s the tick stays. The tick advances by one at most, however many units of 1/30 s the
accumulated time holds. The tick before the call is below 65535. -/
theorem tick_advances_one_tick_at_most (g : glm_lib) (buf : List Nat)
    (o o' : model_object) (dt : ℚ) (h : (tick g buf o dt).result = .ok o')
    (htick : o.anim_tick < 65535) :
    (o.anim_tick_time + dt < 1 / 30 →
      o'.anim_tick_time = o.anim_tick_time + dt ∧ o'.anim_tick = o.anim_tick) ∧
    (1 / 30 ≤ o.anim_tick_time + dt →
      o'.anim_tick_time = o.anim_tick_time + dt - 1 / 30 ∧
      o'.anim_tick = if o.anim_tick + 1 > o.animation.last_tick
        then o.animation.first_tick else o.anim_tick + 1) := by
  have hf := tick_fields g buf o o' dt h
  constructor
  · intro hlt
    rw [advance_tick_lt o dt hlt] at hf
    rw [hf]
    exact ⟨rfl, rfl⟩
  · intro hge
    rw [advance_tick_ge o dt hge, u16_succ _ htick] at hf
    rw [hf]
    exact ⟨rfl, rfl⟩

theorem new_model_object_sample (g : glm_lib) (a : animation) :
    new_model_object g [a] sample_frame_data sample_model 0 1 1 =
      update_node_transforms g sample_frame_data (sample_object a a.first_tick 0) := rfl

/-- What a run of the constructor and of one `tick` on the sample model comes to. -/
theorem sample_tick (a : animation) (dt : ℚ) (tick1 : Nat) (time1 : ℚ)
    (h0 : (update_node_transforms glm_rational sample_frame_data
      (sample_object a a.first_tick 0)).result.toBool = true)
    (h1 : (update_node_transforms glm_rational sample_frame_data
      (sample_object a tick1 time1)).result.toBool = true)
    (hadv : advance_tick (sample_object a a.first_tick 0) dt = sample_object a tick1 time1) :
    ∃ o0 o1,
      (new_model_object glm_rational [a] sample_frame_data sample_model 0 1 1).result = .ok o0 ∧
      o0.animation = a ∧ o0.anim_tick = a.first_tick ∧ o0.anim_tick_time = 0 ∧
      (tick glm_rational sample_frame_data o0 dt).result = .ok o1 ∧
      o1.anim_tick = tick1 ∧ o1.anim_tick_time = time1 ∧ o1.animation = a := by
  obtain ⟨o0, ho0⟩ := exists_of_toBool _ h0
  obtain ⟨o1, ho1⟩ := exists_of_toBool _ h1
  obtain ⟨log0, hlog0⟩ := (result_ok_iff _ _).1 ho0
  obtain ⟨log1, hlog1⟩ := (result_ok_iff _ _).1 ho1
  have hf0 := update_node_transforms_fields _ _ _ _ _ _ hlog0
  have hf1 := update_node_transforms_fields _ _ _ _ _ _ hlog1
  have hadv' : advance_tick o0 dt =
      { sample_object a tick1 time1 with node_transforms := o0.node_transforms } := by
    rw [hf0]
    unfold advance_tick at hadv ⊢
    simp only [sample_object] at hadv ⊢
    split at hadv
    · rename_i hge
      rw [if_pos hge]
      split at hadv
      · rename_i hw
        rw [if_pos hw]
        simp only [model_object.mk.injEq] at hadv ⊢
        simp only [hadv, and_self, true_and]
      · rename_i hw
        rw [if_neg hw]
        simp only [model_object.mk.injEq] at hadv ⊢
        simp only [hadv, and_self, true_and]
    · rename_i hge
      rw [if_neg hge]
      simp only [model_object.mk.injEq] at hadv ⊢
      simp only [hadv, and_self, true_and]
  refine ⟨o0, o1, ?_, ?_, ?_, ?_, ?_, ?_, ?_, ?_⟩
  · rw [new_model_object_sample]; exact ho0
  · rw [hf0]; rfl
  · rw [hf0]; rfl
  · rw [hf0]; rfl
  · unfold tick
    rw [hadv', update_node_transforms_congr]
    exact ho1
  · rw [hf1]; rfl
  · rw [hf1]; rfl
  · rw [hf1]; rfl

set_option maxRecDepth 20000 in
/-- C6 fails for a `dt` of two units: from a fresh object with zero accumulated time,
`tick(2/30 s)` advances the tick from 0 to 1, not to 2, and leaves 1/30 s accumulated. -/
theorem tick_two_units_advances_one_tick :
    ∃ o0 o1,
      (new_model_object glm_rational [sample_animation 0 2 1] sample_frame_data sample_model
        0 1 1).result = .ok o0 ∧
      o0.animation = sample_animation 0 2 1 ∧ o0.anim_tick = 0 ∧ o0.anim_tick_time = 0 ∧
      (tick glm_rational sample_frame_data o0 (2 / 30)).result = .ok o1 ∧
      o1.anim_tick = 1 ∧ o1.anim_tick_time = 1 / 30 := by
  obtain ⟨o0, o1, h0, ha, ht, htime, h1, ht1, htime1, _⟩ :=
    sample_tick (sample_animation 0 2 1) (2 / 30) 1 (1 / 30) (by decide) (by decide) (by
      unfold advance_tick
      simp only [sample_object, sample_animation]
      norm_num [u16])
  exact ⟨o0, o1, h0, ha, ht, htime, h1, ht1, htime1⟩

set_option maxRecDepth 20000 in
/-- C6 as amended, on a fresh sample object with ticks 0 to 2: `tick(1/30 s)` moves the
tick from 0 to 1 and leaves no time accumulated. -/
theorem tick_advances_one_tick_at_most_witness :
    ∃ o0 o1, (tick glm_rational sample_frame_data o0 (1 / 30)).result = .ok o1 ∧
      o0.anim_tick < 65535 ∧
      (o0.anim_tick_time + 1 / 30 < 1 / 30 →
        o1.anim_tick_time = o0.anim_tick_time + 1 / 30 ∧ o1.anim_tick = o0.anim_tick) ∧
      (1 / 30 ≤ o0.anim_tick_time + 1 / 30 →
        o1.anim_tick_time = o0.anim_tick_time + 1 / 30 - 1 / 30 ∧
        o1.anim_tick = if o0.anim_tick + 1 > o0.animation.last_tick
          then o0.animation.first_tick else o0.anim_tick + 1) := by
  obtain ⟨o0, o1, _, _, ht, _, h1, _, _, _⟩ :=
    sample_tick (sample_animation 0 2 1) (1 / 30) 1 0 (by decide) (by decide) (by
      unfold advance_tick
      simp only [sample_object, sample_animation]
      norm_num [u16])
  have hlt : o0.anim_tick < 65535 := by rw [ht]; decide
  exact ⟨o0, o1, h1, hlt,
    tick_advances_one_tick_at_most glm_rational sample_frame_data o0 o1 (1 / 30) h1 hlt⟩

set_option maxRecDepth 20000 in
/-- C8 fails at `last_tick = 65535`: on a fresh object of an animation with ticks 65535
to 65535, `tick(1/30 s)` increments the `ushort` tick 65535 to 0, which is not above
`last_tick`, so the tick stays 0, below `first_tick`. -/
theorem tick_wraps_below_first_tick :
    ∃ o0 o1,
      (new_model_object glm_rational [sample_animation 65535 65535 1] sample_frame_data
        sample_model 0 1 1).result = .ok o0 ∧
      o0.anim_tick = 65535 ∧
      (tick glm_rational sample_frame_data o0 (1 / 30)).result = .ok o1 ∧
      o1.animation.first_tick = 65535 ∧ o1.animation.last_tick = 65535 ∧
      o1.anim_tick = 0 ∧ ¬ (o1.animation.first_tick ≤ o1.anim_tick) := by
  obtain ⟨o0, o1, h0, _, ht, _, h1, ht1, _, ha1⟩ :=
    sample_tick (sample_animation 65535 65535 1) (1 / 30) 0 0 (by decide) (by decide) (by
      unfold advance_tick
      simp only [sample_object, sample_animation]
      norm_num [u16])
  refine ⟨o0, o1, h0, ht, h1, ?_, ?_, ht1, ?_⟩
  · rw [ha1]; rfl
  · rw [ha1]; rfl
  · rw [ha1, ht1]; decide

/-- The tick stays in the range of the animation when `last_tick` is below 65535: it
starts at `first_tick`, and a call of `tick` that returns keeps it in the range. -/
theorem tick_keeps_range (g : glm_lib) (buf : List Nat) (o o' : model_object) (dt : ℚ)
    (h : (tick g buf o dt).result = .ok o')
    (hrange : o.animation.first_tick ≤ o.animation.last_tick)
    (hlast : o.animation.last_tick < 65535)
    (hin : o.animation.first_tick ≤ o.anim_tick ∧ o.anim_tick ≤ o.animation.last_tick) :
    o'.animation = o.animation ∧
    o'.animation.first_tick ≤ o'.anim_tick ∧ o'.anim_tick ≤ o'.animation.last_tick := by
  have hf := tick_fields g buf o o' dt h
  by_cases hge : 1 / 30 ≤ o.anim_tick_time + dt
  · rw [advance_tick_ge o dt hge, u16_succ _ (by omega)] at hf
    rw [hf]
    refine ⟨rfl, ?_⟩
    show o.animation.first_tick ≤
        (if o.anim_tick + 1 > o.animation.last_tick then o.animation.first_tick
          else o.anim_tick + 1) ∧
      (if o.anim_tick + 1 > o.animation.last_tick then o.animation.first_tick
          else o.anim_tick + 1) ≤ o.animation.last_tick
    split <;> omega
  · rw [advance_tick_lt o dt (not_le.1 hge)] at hf
    rw [hf]
    exact ⟨rfl, hin⟩

/-- One call `tick(1/30 s)` with no time accumulated: the object it returns is the one
`update_node_transforms` gives at the start of the next tick. -/
theorem tick_unit_step (g : glm_lib) (buf : List Nat) (o o' : model_object)
    (h : (tick g buf o (1 / 30)).result = .ok o') (htime : o.anim_tick_time = 0)
    (htick : o.anim_tick < 65535) :
    (update_node_transforms g buf (at_tick o
      (if o.anim_tick + 1 > o.animation.last_tick then o.animation.first_tick
        else o.anim_tick + 1))).result = .ok o' ∧
    (∀ t, at_tick o' t = at_tick o t) ∧ o'.animation = o.animation ∧
    o'.anim_tick_time = 0 ∧
    o'.anim_tick = (if o.anim_tick + 1 > o.animation.last_tick then o.animation.first_tick
        else o.anim_tick + 1) := by
  have hf := tick_fields g buf o o' (1 / 30) h
  have hge : (1 : ℚ) / 30 ≤ o.anim_tick_time + 1 / 30 := by rw [htime]; norm_num
  have hadv := advance_tick_ge o (1 / 30) hge
  rw [u16_succ _ htick, htime] at hadv
  have hzero : (0 : ℚ) + 1 / 30 - 1 / 30 = 0 := by norm_num
  rw [hzero] at hadv
  refine ⟨?_, ?_, ?_, ?_, ?_⟩
  · unfold tick at h
    rw [hadv] at h
    rw [← h, at_tick, ← update_node_transforms_congr g buf _ o.node_transforms]
  · intro t
    rw [hf, hadv]
    rfl
  · rw [hf, hadv]
  · rw [hf, hadv]
  · rw [hf, hadv]

/-- A run of `tick(1/30 s)` calls from tick `t` up to and past `last_tick` ends in the
state `update_node_transforms` gives at the start of `first_tick`. -/
theorem ticks_to_first_tick (g : glm_lib) (buf : List Nat) :
    ∀ (k : Nat) (o o' : model_object), o.anim_tick_time = 0 →
      o.animation.last_tick < 65535 → o.anim_tick + k = o.animation.last_tick →
      ticks g buf (1 / 30) (k + 1) o = .ok o' →
      (update_node_transforms g buf (at_tick o o.animation.first_tick)).result = .ok o' := by
  intro k
  induction k with
  | zero =>
    intro o o' htime hlast hk h
    simp only [ticks] at h
    cases h1 : (tick g buf o (1 / 30)).result with
    | error e => rw [h1] at h; cases h
    | ok o1 =>
      rw [h1] at h
      simp only [Except.ok.injEq] at h
      subst h
      have := (tick_unit_step g buf o o1 h1 htime (by omega)).1
      rw [if_pos (by omega)] at this
      exact this
  | succ k ih =>
    intro o o' htime hlast hk h
    rw [ticks] at h
    cases h1 : (tick g buf o (1 / 30)).result with
    | error e => rw [h1] at h; cases h
    | ok o1 =>
      rw [h1] at h
      simp only [] at h
      obtain ⟨_, hat, ha, htime1, htick1⟩ := tick_unit_step g buf o o1 h1 htime (by omega)
      rw [if_neg (by omega)] at htick1
      have := ih o1 o' htime1 (by rw [ha]; exact hlast) (by rw [ha, htick1]; omega) h
      rw [hat, ha] at this
      exact this

/-- The loop of C7 where the `ushort` tick cannot wrap: for an animation with
`first_tick <= last_tick < 65535`, `last_tick - first_tick + 1` calls `tick(1/30 s)` on a
fresh object that all return end in the initial state, the transforms included. -/
theorem ticks_full_loop (g : glm_lib) (animations : List animation) (buf : List Nat)
    (m : model) (room : Nat) (t : mat4) (l : ℚ) (o0 o : model_object)
    (hnew : (new_model_object g animations buf m room t l).result = .ok o0)
    (hrange : o0.animation.first_tick ≤ o0.animation.last_tick)
    (hlast : o0.animation.last_tick < 65535)
    (hrun : ticks g buf (1 / 30)
      (o0.animation.last_tick - o0.animation.first_tick + 1) o0 = .ok o) :
    o = o0 := by
  unfold new_model_object at hnew
  cases ha : m.animation.bind (animations[·]?) with
  | none =>
    rw [ha] at hnew
    cases hnew
  | some a =>
    rw [ha] at hnew
    simp only [] at hnew
    obtain ⟨log, hlog⟩ := (result_ok_iff _ _).1 hnew
    have hf := update_node_transforms_fields _ _ _ _ _ _ hlog
    have hanim : o0.animation = a := by rw [hf]
    have htick : o0.anim_tick = a.first_tick := by rw [hf]
    have htime : o0.anim_tick_time = 0 := by rw [hf]
    have hinit : at_tick o0 o0.animation.first_tick =
        { model := m, node_transforms := [], room := room, transform := t,
          light_intensity := l, animation := a, anim_tick := a.first_tick,
          anim_tick_time := 0 } := by
      rw [hanim, hf]
      rfl
    have := ticks_to_first_tick g buf _ o0 o htime hlast (by rw [htick, ← hanim]; omega) hrun
    rw [hinit, hnew] at this
    exact (Except.ok.inj this).symm

set_option maxRecDepth 20000 in
/-- C7 fails at `last_tick = 65535`: for an animation with ticks 65535 to 65535 and one
tick per frame, the `last_tick - first_tick + 1 = 1` call of `tick(1/30 s)` on a fresh
object returns, and leaves the tick at 0 instead of 65535. -/
theorem full_loop_misses_first_tick :
    ∃ o0 o1,
      (new_model_object glm_rational [sample_animation 65535 65535 1] sample_frame_data
        sample_model 0 1 1).result = .ok o0 ∧
      o0.animation = sample_animation 65535 65535 1 ∧
      ticks glm_rational sample_frame_data (1 / 30) (65535 - 65535 + 1) o0 = .ok o1 ∧
      o0.anim_tick = 65535 ∧ o1.anim_tick = 0 ∧ o1 ≠ o0 := by
  obtain ⟨o0, o1, h0, ha, ht, _, h1, ht1, _, _⟩ :=
    sample_tick (sample_animation 65535 65535 1) (1 / 30) 0 0 (by decide) (by decide) (by
      unfold advance_tick
      simp only [sample_object, sample_animation]
      norm_num [u16])
  refine ⟨o0, o1, h0, ha, ?_, ht, ht1, ?_⟩
  · show ticks glm_rational sample_frame_data (1 / 30) 1 o0 = .ok o1
    simp only [ticks, h1]
  · intro he
    rw [he, ht] at ht1
    exact absurd ht1 (by decide)



/-! ## The reads of the frame buffer -/

theorem reads_checked_pure {α : Type} (buf : List Nat) (a : α) :
    reads_checked buf (pure a : frame_reader α) :=
  fun _ hlog => Or.inr hlog

theorem reads_checked_throw {α : Type} (buf : List Nat) (e : failure) :
    reads_checked buf (throw e : frame_reader α) :=
  fun _ hlog => Or.inr hlog

theorem reads_checked_frame_at (buf : List Nat) (i : Nat) :
    reads_checked buf (frame_at buf i) := by
  intro log hlog
  by_cases hi : i < buf.length
  · right
    intro k hk
    rcases List.mem_append.1 hk with hk | hk
    · exact hlog k hk
    · simp only [List.mem_singleton] at hk
      rw [hk]; exact hi
  · left
    show vector_at buf i = _
    unfold vector_at
    rw [List.getElem?_eq_none (by omega)]

theorem reads_checked_bind {α β : Type} (buf : List Nat) (m : frame_reader α)
    (f : α → frame_reader β) (hm : reads_checked buf m)
    (hf : ∀ a, reads_checked buf (f a)) : reads_checked buf (m >>= f) := by
  intro log hlog
  rw [frame_reader_bind_apply]
  have h := hm log hlog
  cases hml : m log with
  | mk res log1 =>
    rw [hml] at h
    cases res with
    | error e =>
      simp only [] at h ⊢
      rcases h with h | h
      · left
        cases h
        rfl
      · exact Or.inr h
    | ok a =>
      simp only [] at h ⊢
      rcases h with h | h
      · cases h
      · exact hf a log1 h

theorem reads_checked_ite {α : Type} (buf : List Nat) (c : Prop) [Decidable c]
    (m n : frame_reader α) (hm : reads_checked buf m) (hn : reads_checked buf n) :
    reads_checked buf (if c then m else n) := by
  split
  · exact hm
  · exact hn

theorem reads_checked_parse_rotations (g : glm_lib) (buf : List Nat) :
    ∀ (nodes : List model_node) (i offset : Nat) (frame_size : Int) (rot : List quat),
      reads_checked buf (parse_rotations g buf nodes i offset frame_size rot) := by
  intro nodes
  induction nodes with
  | nil =>
    intro i offset frame_size rot
    simp only [parse_rotations]
    exact reads_checked_pure _ _
  | cons node nodes ih =>
    intro i offset frame_size rot
    simp only [parse_rotations]
    repeat' first
      | exact reads_checked_pure _ _
      | exact reads_checked_throw _ _
      | exact reads_checked_frame_at _ _
      | exact ih _ _ _ _
      | apply reads_checked_ite
      | apply reads_checked_bind
      | intro _

theorem reads_checked_parse_anim_frame_locals (g : glm_lib) (buf : List Nat) (m : model)
    (offset : Nat) : reads_checked buf (parse_anim_frame_locals g buf m offset) := by
  unfold parse_anim_frame_locals
  repeat' first
    | exact reads_checked_pure _ _
    | exact reads_checked_frame_at _ _
    | exact reads_checked_parse_rotations _ _ _ _ _ _ _
    | apply reads_checked_bind
    | intro _

theorem reads_checked_parse_anim_frame (g : glm_lib) (buf : List Nat) (m : model)
    (offset : Nat) : reads_checked buf (parse_anim_frame g buf m offset) := by
  unfold parse_anim_frame
  repeat' first
    | exact reads_checked_pure _ _
    | exact reads_checked_parse_anim_frame_locals _ _ _ _
    | apply reads_checked_bind
    | intro _

theorem reads_checked_skip_frames (buf : List Nat) :
    ∀ (n offset : Nat), reads_checked buf (skip_frames buf n offset) := by
  intro n
  induction n with
  | zero =>
    intro offset
    exact reads_checked_pure _ _
  | succ n ih =>
    intro offset
    simp only [skip_frames]
    apply reads_checked_bind
    · exact reads_checked_frame_at _ _
    intro w
    exact ih _

theorem reads_checked_smooth_anim_frame (g : glm_lib) (buf : List Nat) (m : model)
    (a : animation) (anim_tick : Nat) (anim_tick_time : ℚ) :
    reads_checked buf (smooth_anim_frame g buf m a anim_tick anim_tick_time) := by
  unfold smooth_anim_frame
  repeat' first
    | exact reads_checked_pure _ _
    | exact reads_checked_throw _ _
    | exact reads_checked_frame_at _ _
    | exact reads_checked_skip_frames _ _ _
    | exact reads_checked_parse_anim_frame _ _ _ _
    | apply reads_checked_ite
    | apply reads_checked_bind
    | intro _

theorem reads_checked_update_node_transforms (g : glm_lib) (buf : List Nat)
    (o : model_object) : reads_checked buf (update_node_transforms g buf o) := by
  unfold update_node_transforms
  apply reads_checked_bind
  · exact reads_checked_smooth_anim_frame _ _ _ _ _ _
  intro af
  cases node_transforms_from g af o.model.nodes 0 [] with
  | error e => exact reads_checked_throw _ _
  | ok nt => exact reads_checked_pure _ _

/-- C9 as amended: every read of the canonical frame buffer by `tick`, that is by
`smooth_anim_frame` and `parse_anim_frame`, is checked: a call that returns has read
inside the buffer only, and a call that reads an index outside the buffer ends in the
out-of-range fault. -/
theorem tick_reads_are_checked (g : glm_lib) (anim_frame_data : List Nat)
    (o : model_object) (dt : ℚ) :
    (∀ o', (tick g anim_frame_data o dt).result = .ok o' →
      ∀ i ∈ (tick g anim_frame_data o dt).reads, i < anim_frame_data.length) ∧
    ((∃ i ∈ (tick g anim_frame_data o dt).reads, anim_frame_data.length ≤ i) →
      (tick g anim_frame_data o dt).result = .error .out_of_range) := by
  have h := reads_checked_update_node_transforms g anim_frame_data (advance_tick o dt) []
    (fun i hi => absurd hi (List.not_mem_nil _))
  constructor
  · intro o' ho'
    rcases h with h | h
    · unfold frame_reader.result tick at ho'
      rw [h] at ho'
      cases ho'
    · exact h
  · rintro ⟨i, hi, hge⟩
    rcases h with h | h
    · exact h
    · exact absurd (h i hi) (by omega)

theorem failure_of_eq_some {α : Type} (x : Except failure α) (e : failure)
    (h : failure_of x = some e) : x = .error e := by
  cases x with
  | ok a => cases h
  | error e' =>
    simp only [failure_of, Option.some.injEq] at h
    rw [h]

/-- The level `decode_sections` returns for sections with one animation, one model and one
object of that model, and neither texinfos nor sprite sequences. -/
theorem decode_sections_single (g : glm_lib) (v : version) (s : sections) (a : animation)
    (buf : List Nat) (m : model) (d : d_object) (o0 : model_object) (rooms : List room)
    (texpages : List texpage) (meshes : List mesh)
    (htexpages : decode_texpages s = .ok texpages)
    (htex : s.texinfos = []) (hchains : s.texanimchains = [])
    (hmeshes : load_meshes load_palette_texinfos s.meshes = .ok meshes)
    (hseq : s.sprite_sequences = [])
    (hanim : load_animations v s.frame_data s.animations = some (.ok ([a], buf)))
    (hmodels : load_models s.bone_data meshes.length 1 s.models = .ok [m])
    (hrooms : load_rooms g s.static_meshes s.rooms
      (level_before_rooms texpages load_palette_texinfos meshes [a] buf [m]
        (load_sprites s.sprites) []) =
        .ok { level_before_rooms texpages load_palette_texinfos meshes [a] buf [m]
          (load_sprites s.sprites) [] with rooms := rooms })
    (hobj : s.objects = [d]) (hid : m.id = u16 d.id) (hroom : u16 d.room < rooms.length)
    (hnew : (new_model_object g [a] buf m 0 (object_transform g d) 0).result = .ok o0) :
    decode_sections g v s = some (.ok
      { rooms := rooms, texpages := texpages, texinfos := load_palette_texinfos,
        meshes := meshes, models := [m],
        sprites := load_sprites s.sprites, sprite_sequences := [], animations := [a],
        anim_frame_data := buf,
        model_objects :=
          [{ o0 with
              room := u16 d.room
              light_intensity := object_light_intensity (u16 d.light_intensity) }],
        sprite_objects := [] }) := by
  have hlen : load_palette_texinfos.length = 256 := by
    unfold load_palette_texinfos
    rw [List.length_map, List.length_range]
  have hpal : load_texinfos load_palette_texinfos [] [] = .ok load_palette_texinfos := by
    unfold load_texinfos
    rw [if_neg (by rw [hlen]; decide)]
    simp only [List.map_nil, List.append_nil, link_texanimchains]
    rfl
  have hs : load_sprite_sequences (load_sprites s.sprites) [] = .ok [] := rfl
  unfold decode_sections
  rw [htexpages, htex, hchains, hpal]
  simp only [hmeshes, hanim, List.length_singleton, hmodels, hseq, hs, hrooms, hobj]
  simp only [load_objects, load_model_object, load_sprite_object, level_before_rooms,
    List.find?, hid, decide_True, bind, Except.bind, pure, Except.pure,
    List.findIdx?_nil]
  rw [hnew]
  simp [hroom]

theorem advance_tick_node_transforms (o : model_object) (nt : List mat4) (dt : ℚ) :
    advance_tick { o with node_transforms := nt } dt =
      { advance_tick o dt with node_transforms := nt } := by
  unfold advance_tick
  simp only []
  split
  · split <;> rfl
  · rfl

/-- A `tick` on a fresh object, whose room and light intensity `load_objects` has set, is
`update_node_transforms` run on the object without transforms that `advance_tick` gives. -/
theorem tick_fresh_object (g : glm_lib) (animations : List animation) (buf : List Nat)
    (m : model) (room room' : Nat) (t : mat4) (l l' : ℚ) (o0 : model_object) (a : animation)
    (dt : ℚ) (tick1 : Nat) (time1 : ℚ)
    (hnew : (new_model_object g animations buf m room t l).result = .ok o0)
    (ha : m.animation.bind (animations[·]?) = some a)
    (hadv : advance_tick ⟨m, [], room', t, l', a, a.first_tick, 0⟩ dt =
      ⟨m, [], room', t, l', a, tick1, time1⟩) :
    tick g buf { o0 with room := room', light_intensity := l' } dt =
      update_node_transforms g buf ⟨m, [], room', t, l', a, tick1, time1⟩ := by
  unfold new_model_object at hnew
  rw [ha] at hnew
  simp only [] at hnew
  obtain ⟨log, hlog⟩ := (result_ok_iff _ _).1 hnew
  have hf := update_node_transforms_fields _ _ _ _ _ _ hlog
  have ho : ({ o0 with room := room', light_intensity := l' } : model_object) =
      { (⟨m, [], room', t, l', a, a.first_tick, 0⟩ : model_object) with
        node_transforms := o0.node_transforms } := by
    rw [hf]
  unfold tick
  rw [ho, advance_tick_node_transforms, update_node_transforms_congr, hadv]

set_option maxRecDepth 20000 in
/-- C9 fails on a level that `load` returns: the animation of the instance addresses three
frames and the buffer holds two, nothing in the loader comparing the two numbers. The
first `tick(1/30 s)` reads index 22 of a buffer of 22 words and ends in the out-of-range
fault. -/
theorem tick_reads_outside_loaded_buffer :
    ∃ lvl o,
      decode_sections glm_rational .version_tr2 short_animation_sections = some (.ok lvl) ∧
      lvl.model_objects = [o] ∧ lvl.anim_frame_data.length = 22 ∧
      (tick glm_rational lvl.anim_frame_data o (1 / 30)).result = .error .out_of_range ∧
      22 ∈ (tick glm_rational lvl.anim_frame_data o (1 / 30)).reads := by
  have hanim : load_animations .version_tr2 short_animation_sections.frame_data
      short_animation_sections.animations = some (.ok ([sample_animation 0 2 1],
        [10, 0, 0, 0, 0, 0, 0, 1, 2, 3, 0x4010, 10, 0, 0, 0, 0, 0, 0, 4, 5, 6, 0x8020])) := by
    rfl
  have hmodels : load_models short_animation_sections.bone_data
      [sample_mesh].length 1 short_animation_sections.models =
        .ok [sample_model] := by
    rfl
  obtain ⟨o0, ho0⟩ := exists_of_toBool
    (new_model_object glm_rational [sample_animation 0 2 1]
      [10, 0, 0, 0, 0, 0, 0, 1, 2, 3, 0x4010, 10, 0, 0, 0, 0, 0, 0, 4, 5, 6, 0x8020]
      sample_model 0 (object_transform glm_rational ⟨5, 0, 100, 200, 300, 0, 0, 0⟩)
      0).result (by decide)
  have hdec := decode_sections_single glm_rational .version_tr2 short_animation_sections
    _ _ sample_model ⟨5, 0, 100, 200, 300, 0, 0, 0⟩ o0 [sample_room]
    [load_palette_texpage (fun _ _ => 0)] [sample_mesh] rfl rfl rfl rfl rfl hanim hmodels
    rfl rfl (by decide) (by decide) ho0
  have htick := tick_fresh_object glm_rational _ _ _ 0 (u16 0) _ 0
    (object_light_intensity (u16 0)) o0 (sample_animation 0 2 1) (1 / 30) 1 0 ho0 rfl (by
      unfold advance_tick
      simp only [sample_animation]
      norm_num [u16])
  refine ⟨_, _, hdec, rfl, rfl, ?_, ?_⟩
  · rw [htick]
    exact failure_of_eq_some _ _ (by decide)
  · rw [htick]
    decide

set_option maxRecDepth 20000 in
/-- C9 as amended, on a fresh sample object with ticks 0 to 2 and three frames in the
buffer: the first `tick(1/30 s)` returns, and has read inside the buffer only. -/
theorem tick_reads_are_checked_witness :
    ∃ o0 o1, (tick glm_rational sample_frame_data o0 (1 / 30)).result = .ok o1 ∧
      ∀ i ∈ (tick glm_rational sample_frame_data o0 (1 / 30)).reads,
        i < sample_frame_data.length := by
  obtain ⟨o0, o1, _, _, _, _, h1, _, _, _⟩ :=
    sample_tick (sample_animation 0 2 1) (1 / 30) 1 0 (by decide) (by decide) (by
      unfold advance_tick
      simp only [sample_object, sample_animation]
      norm_num [u16])
  exact ⟨o0, o1, h1, (tick_reads_are_checked glm_rational sample_frame_data o0 (1 / 30)).1 o1 h1⟩


/-! ## The words of a canonical frame -/

theorem bind_ok {α β : Type} (m : frame_reader α) (f : α → frame_reader β)
    (log log' : List Nat) (b : β) (h : (m >>= f) log = (.ok b, log')) :
    ∃ a log1, m log = (.ok a, log1) ∧ f a log1 = (.ok b, log') := by
  rw [frame_reader_bind_apply] at h
  cases hm : m log with
  | mk res log1 =>
    rw [hm] at h
    cases res with
    | error e => cases h
    | ok a => exact ⟨a, log1, rfl, h⟩

theorem throw_ne_ok {α : Type} (e : failure) (log log' : List Nat) (a : α)
    (h : (throw e : frame_reader α) log = (.ok a, log')) : False := by
  cases h

theorem pure_ok {α : Type} (a b : α) (log log' : List Nat)
    (h : (pure a : frame_reader α) log = (.ok b, log')) : a = b ∧ log = log' := by
  cases h
  exact ⟨rfl, rfl⟩

theorem frame_at_ok (buf : List Nat) (i w : Nat) (log log' : List Nat)
    (h : frame_at buf i log = (.ok w, log')) : buf[i]? = some w := by
  unfold frame_at at h
  simp only [Prod.mk.injEq] at h
  exact (vector_at_eq_ok _ _ _).1 h.1

/-- One round of the node loop of `parse_anim_frame`, when the loop returns: the round
has read one or two words, each after the check that `frame_size` is positive. -/
theorem parse_rotations_step (g : glm_lib) (buf : List Nat) (node : model_node)
    (nodes : List model_node) (i offset : Nat) (frame_size : Int) (rot : List quat)
    (log log' : List Nat) (r : List quat × Nat × Int)
    (h : parse_rotations g buf (node :: nodes) i offset frame_size rot log = (.ok r, log')) :
    ∃ (w : Nat) (q : quat) (log1 : List Nat), (w = 1 ∨ w = 2) ∧ (w : Int) ≤ frame_size ∧
      parse_rotations g buf nodes (i + 1) (offset + w) (frame_size - w) (rot ++ [q]) log1 =
        (.ok r, log') := by
  simp only [parse_rotations] at h
  split at h
  · obtain ⟨_, _, h1, _⟩ := bind_ok _ _ _ _ _ h
    exact absurd h1 (fun h => throw_ne_ok _ _ _ _ h)
  rename_i hfs
  obtain ⟨_, log1, h1, h⟩ := bind_ok _ _ _ _ _ h
  obtain ⟨_, hl1⟩ := pure_ok _ _ _ _ h1
  obtain ⟨tmp1, log2, _, h⟩ := bind_ok _ _ _ _ _ h
  split at h
  · split at h
    · obtain ⟨_, _, h1, _⟩ := bind_ok _ _ _ _ _ h
      exact absurd h1 (fun h => throw_ne_ok _ _ _ _ h)
    rename_i hfs2
    obtain ⟨_, log3, _, h⟩ := bind_ok _ _ _ _ _ h
    obtain ⟨tmp2, log4, _, h⟩ := bind_ok _ _ _ _ _ h
    split at h
    · obtain ⟨_, _, h1, _⟩ := bind_ok _ _ _ _ _ h
      exact absurd h1 (fun h => throw_ne_ok _ _ _ _ h)
    obtain ⟨_, log5, _, h⟩ := bind_ok _ _ _ _ _ h
    have e1 : offset + 1 + 1 = offset + 2 := by omega
    have e2 : frame_size - 1 - 1 = frame_size - ((2 : Nat) : Int) := by push_cast; omega
    rw [e1, e2] at h
    exact ⟨2, _, log5, Or.inr rfl, by push_cast; omega, h⟩
  · split at h
    · obtain ⟨_, _, h1, _⟩ := bind_ok _ _ _ _ _ h
      exact absurd h1 (fun h => throw_ne_ok _ _ _ _ h)
    obtain ⟨_, log3, _, h⟩ := bind_ok _ _ _ _ _ h
    have e2 : frame_size - 1 = frame_size - ((1 : Nat) : Int) := by push_cast; omega
    rw [e2] at h
    exact ⟨1, _, log3, Or.inl rfl, by push_cast; omega, h⟩

/-- The node loop of `parse_anim_frame`, when it returns: what it adds to `offset` it takes
from `frame_size`, it assigns one rotation per node from one or two words each, and
`frame_size` has not gone below zero. -/
theorem parse_rotations_words (g : glm_lib) (buf : List Nat) :
    ∀ (nodes : List model_node) (i offset : Nat) (frame_size : Int) (rot : List quat)
      (log log' : List Nat) (rot' : List quat) (offset' : Nat) (frame_size' : Int),
      parse_rotations g buf nodes i offset frame_size rot log =
        (.ok (rot', offset', frame_size'), log') →
      (offset' : Int) + frame_size' = offset + frame_size ∧
      rot'.length = rot.length + nodes.length ∧
      offset + nodes.length ≤ offset' ∧ offset' ≤ offset + 2 * nodes.length ∧
      (nodes ≠ [] ∨ 0 ≤ frame_size → 0 ≤ frame_size') := by
  intro nodes
  induction nodes with
  | nil =>
    intro i offset frame_size rot log log' rot' offset' frame_size' h
    simp only [parse_rotations] at h
    obtain ⟨h1, _⟩ := pure_ok _ _ _ _ h
    simp only [Prod.mk.injEq] at h1
    obtain ⟨hr, ho, hf⟩ := h1
    subst hr ho hf
    refine ⟨rfl, by simp, by simp, by simp, ?_⟩
    rintro (h | h)
    · exact absurd rfl h
    · exact h
  | cons node nodes ih =>
    intro i offset frame_size rot log log' rot' offset' frame_size' h
    obtain ⟨w, q, log1, hw, hle, hrest⟩ := parse_rotations_step g buf node nodes i offset
      frame_size rot log log' _ h
    obtain ⟨h1, h2, h3, h4, h5⟩ := ih _ _ _ _ _ _ _ _ _ hrest
    refine ⟨by push_cast at h1; omega, by simp at h2 ⊢; omega, by simp; omega,
      by simp; omega, fun _ => h5 (Or.inr (by omega))⟩

/-- C10 as amended: when `parse_anim_frame` returns for a model with at least one node, it
has taken the 9 header words and one rotation code of one or two words per node, these
words do not exceed the declared length of the frame, and `frame_size`, the number of
declared words left over, is zero or more; one rotation is assigned per node. -/
theorem parse_anim_frame_within_declared_length (g : glm_lib) (anim_frame_data : List Nat)
    (m : model) (offset : Nat) (af : anim_frame) (offset' : Nat) (frame_size' : Int)
    (h : (parse_anim_frame_locals g anim_frame_data m offset).result =
      .ok (af, offset', frame_size'))
    (hnodes : m.nodes ≠ []) :
    ∃ declared : Nat, anim_frame_data[offset]? = some declared ∧
      ((offset' : Int) - (offset + 1)) + frame_size' = declared ∧ 0 ≤ frame_size' ∧
      af.rotation.length = m.nodes.length ∧
      offset + 1 + 9 + m.nodes.length ≤ offset' ∧
      offset' ≤ offset + 1 + 9 + 2 * m.nodes.length := by
  obtain ⟨log', h⟩ := (result_ok_iff _ _).1 h
  unfold parse_anim_frame_locals at h
  obtain ⟨declared, log1, hd, h⟩ := bind_ok _ _ _ _ _ h
  obtain ⟨x, log2, _, h⟩ := bind_ok _ _ _ _ _ h
  obtain ⟨y, log3, _, h⟩ := bind_ok _ _ _ _ _ h
  obtain ⟨z, log4, _, h⟩ := bind_ok _ _ _ _ _ h
  obtain ⟨r, log5, hr, h⟩ := bind_ok _ _ _ _ _ h
  obtain ⟨rot, o1, fs1⟩ := r
  obtain ⟨he, _⟩ := pure_ok _ _ _ _ h
  simp only [Prod.mk.injEq] at he
  obtain ⟨haf, ho, hfs⟩ := he
  subst haf ho hfs
  obtain ⟨h1, h2, h3, h4, h5⟩ := parse_rotations_words g anim_frame_data _ _ _ _ _ _ _ _ _ _ hr
  refine ⟨declared, frame_at_ok _ _ _ _ _ hd, by push_cast at h1; omega, h5 (Or.inl hnodes),
    by simpa using h2, by omega, by omega⟩

theorem fresh_object_fields (g : glm_lib) (animations : List animation) (buf : List Nat)
    (m : model) (room : Nat) (t : mat4) (l : ℚ) (o0 : model_object) (a : animation)
    (hnew : (new_model_object g animations buf m room t l).result = .ok o0)
    (ha : m.animation.bind (animations[·]?) = some a) :
    o0.model = m ∧ o0.animation = a ∧ o0.anim_tick = a.first_tick ∧ o0.anim_tick_time = 0 := by
  unfold new_model_object at hnew
  rw [ha] at hnew
  simp only [] at hnew
  obtain ⟨log, hlog⟩ := (result_ok_iff _ _).1 hnew
  have hf := update_node_transforms_fields _ _ _ _ _ _ hlog
  rw [hf]
  exact ⟨rfl, rfl, rfl, rfl⟩

theorem locals_of_projection (x : Except failure (anim_frame × Nat × Int)) (o : Nat)
    (fs : Int) (h : x.toOption.map (fun r => (r.2.1, r.2.2)) = some (o, fs)) :
    ∃ af, x = .ok (af, o, fs) := by
  cases x with
  | error e => cases h
  | ok r =>
    obtain ⟨af, o1, fs1⟩ := r
    simp only [Except.toOption, Option.map_some', Option.some.injEq, Prod.mk.injEq] at h
    exact ⟨af, by rw [h.1, h.2]⟩

set_option maxRecDepth 20000 in
/-- C10 fails on a level that `load` returns: the V2 frames of the animation have the
fixed size of 12 words, of which the model with its one node takes 10 (9 header words and
a rotation code of one word); parsing ends at word 11 of the record with 2 declared
words left over. -/
theorem parse_leaves_declared_words_over :
    ∃ lvl o af,
      decode_sections glm_rational .version_tr2 padded_frame_sections = some (.ok lvl) ∧
      lvl.model_objects = [o] ∧
      lvl.anim_frame_data[o.animation.frame_offset]? = some 12 ∧
      (parse_anim_frame_locals glm_rational lvl.anim_frame_data o.model
        o.animation.frame_offset).result = .ok (af, o.animation.frame_offset + 11, 2) := by
  have hanim : load_animations .version_tr2 padded_frame_sections.frame_data
      padded_frame_sections.animations = some (.ok ([sample_animation 0 1 1],
        [12, 0, 0, 0, 0, 0, 0, 1, 2, 3, 0x4010, 0, 0,
         12, 0, 0, 0, 0, 0, 0, 4, 5, 6, 0x8020, 0, 0])) := by
    rfl
  have hmodels : load_models padded_frame_sections.bone_data
      [sample_mesh].length 1 padded_frame_sections.models =
        .ok [sample_model] := by
    rfl
  obtain ⟨o0, ho0⟩ := exists_of_toBool
    (new_model_object glm_rational [sample_animation 0 1 1]
      [12, 0, 0, 0, 0, 0, 0, 1, 2, 3, 0x4010, 0, 0,
       12, 0, 0, 0, 0, 0, 0, 4, 5, 6, 0x8020, 0, 0]
      sample_model 0 (object_transform glm_rational ⟨5, 0, 100, 200, 300, 0, 0, 0⟩)
      0).result (by decide)
  have hdec := decode_sections_single glm_rational .version_tr2 padded_frame_sections
    _ _ sample_model ⟨5, 0, 100, 200, 300, 0, 0, 0⟩ o0 [sample_room]
    [load_palette_texpage (fun _ _ => 0)] [sample_mesh] rfl rfl rfl rfl rfl hanim hmodels
    rfl rfl (by decide) (by decide) ho0
  obtain ⟨hm, ha, _, _⟩ := fresh_object_fields _ _ _ _ _ _ _ o0 (sample_animation 0 1 1)
    ho0 rfl
  obtain ⟨af, haf⟩ := locals_of_projection
    (parse_anim_frame_locals glm_rational
      [12, 0, 0, 0, 0, 0, 0, 1, 2, 3, 0x4010, 0, 0,
       12, 0, 0, 0, 0, 0, 0, 4, 5, 6, 0x8020, 0, 0] sample_model 0).result 11 2 (by decide)
  refine ⟨_, _, af, hdec, rfl, ?_, ?_⟩
  · dsimp only
    rw [ha]
    rfl
  · dsimp only
    rw [hm, ha]
    exact haf

set_option maxRecDepth 20000 in
/-- C10 as amended, on the first record of the sample frame data, which declares 10 words:
the model with its one node takes 9 header words and a code of one word. -/
theorem parse_anim_frame_within_declared_length_witness :
    ∃ (af : anim_frame) (declared : Nat),
      (parse_anim_frame_locals glm_rational sample_frame_data sample_model
        0).result = .ok (af, 11, 0) ∧
      sample_frame_data[0]? = some declared ∧
      (((11 : Nat) : Int) - ((0 : Nat) + 1)) + 0 = (declared : Int) ∧ (0 : Int) ≤ 0 ∧
      af.rotation.length = sample_model.nodes.length ∧
      0 + 1 + 9 + sample_model.nodes.length ≤ 11 ∧
      11 ≤ 0 + 1 + 9 + 2 * sample_model.nodes.length := by
  obtain ⟨af, haf⟩ := locals_of_projection
    (parse_anim_frame_locals glm_rational sample_frame_data sample_model 0).result 11 0
    (by decide)
  obtain ⟨declared, h⟩ := parse_anim_frame_within_declared_length glm_rational
    sample_frame_data sample_model 0 af 11 0 haf (by decide)
  exact ⟨af, declared, haf, h⟩

/-! ## The node transforms -/

theorem vector_at_ok {α : Type} (v : List α) (i : Nat) (a : α) (h : vector_at v i = .ok a) :
    v[i]? = some a := by
  unfold vector_at at h
  split at h
  · rename_i x hx
    cases h
    exact hx
  · cases h

/-- One iteration of the node loop of `update_node_transforms` that does not fail. -/
theorem node_transforms_from_cons (g : glm_lib) (af : anim_frame) (node : model_node)
    (nodes : List model_node) (i : Nat) (acc out : List mat4)
    (h : node_transforms_from g af (node :: nodes) i acc = .ok out) :
    ∃ transform q,
      (if i = 0 then .ok (g.translate 1 af.translation)
        else vector_at acc (size_t node.parent)) = .ok transform ∧
      af.rotation[i]? = some q ∧
      node_transforms_from g af nodes (i + 1)
        (acc ++ [transform * g.translate 1 node.offset * g.mat4_cast q]) = .ok out := by
  rw [node_transforms_from] at h
  cases hr : af.rotation[i]? with
  | none =>
    rw [hr] at h
    split at h
    · cases h
    · cases hv : vector_at acc (size_t node.parent) with
      | error e => rw [hv] at h; cases h
      | ok t => rw [hv] at h; cases h
  | some q =>
    rw [hr] at h
    split at h
    · rename_i hi
      exact ⟨_, q, if_pos hi, rfl, h⟩
    · rename_i hi
      cases hv : vector_at acc (size_t node.parent) with
      | error e => rw [hv] at h; cases h
      | ok t =>
        rw [hv] at h
        exact ⟨t, q, if_neg hi, rfl, h⟩

theorem node_transforms_from_spec (g : glm_lib) (af : anim_frame) :
    ∀ (nodes : List model_node) (i : Nat) (acc out : List mat4), acc.length = i →
      node_transforms_from g af nodes i acc = .ok out →
      out.length = i + nodes.length ∧ (∀ k, k < i → out[k]? = acc[k]?) ∧
      ∀ (k : Nat) (node : model_node), nodes[k]? = some node →
        ∃ q, af.rotation[i + k]? = some q ∧
          (i + k = 0 → out[i + k]? = some
            (g.translate 1 af.translation * g.translate 1 node.offset * g.mat4_cast q)) ∧
          (0 < i + k → size_t node.parent < i + k ∧ ∃ p, out[size_t node.parent]? = some p ∧
            out[i + k]? = some (p * g.translate 1 node.offset * g.mat4_cast q)) := by
  intro nodes
  induction nodes with
  | nil =>
    intro i acc out hlen h
    simp only [node_transforms_from, pure, Except.pure, Except.ok.injEq] at h
    subst h
    refine ⟨by simp [hlen], fun k _ => rfl, ?_⟩
    intro k node hk
    simp at hk
  | cons node nodes ih =>
    intro i acc out hlen h
    obtain ⟨transform, q, htr, hq', h⟩ := node_transforms_from_cons g af node nodes i acc out h
    obtain ⟨hlen', hpre, hrest⟩ := ih (i + 1) _ out (by simp [hlen]) h
    have hi : out[i]? = some (transform * g.translate 1 node.offset * g.mat4_cast q) := by
      rw [hpre i (by omega), List.getElem?_append_right (by omega)]
      simp [hlen]
    refine ⟨by simp only [List.length_cons]; omega, ?_, ?_⟩
    · intro k hk
      rw [hpre k (by omega), List.getElem?_append_left (by omega)]
    · intro k node' hk
      cases k with
      | zero =>
        simp only [List.getElem?_cons_zero, Option.some.injEq] at hk
        subst hk
        refine ⟨q, hq', ?_, ?_⟩
        · intro hi0
          have hi0' : i = 0 := by omega
          rw [if_pos hi0'] at htr
          cases htr
          exact hi
        · intro hpos
          have hi0' : ¬ i = 0 := by omega
          rw [if_neg hi0'] at htr
          have hp := vector_at_ok _ _ _ htr
          have hlt : size_t node.parent < i := by
            by_contra hge
            rw [List.getElem?_eq_none (by omega)] at hp
            cases hp
          refine ⟨hlt, transform, ?_, hi⟩
          rw [hpre _ (by omega), List.getElem?_append_left (by omega)]
          exact hp
      | succ k =>
        simp only [List.getElem?_cons_succ] at hk
        have := hrest k node' hk
        have he : i + (k + 1) = i + 1 + k := by omega
        rw [he]
        exact this

theorem update_node_transforms_ok (g : glm_lib) (buf : List Nat) (o o' : model_object)
    (h : (update_node_transforms g buf o).result = .ok o') :
    ∃ af, (smooth_anim_frame g buf o.model o.animation o.anim_tick o.anim_tick_time).result =
        .ok af ∧
      node_transforms_from g af o.model.nodes 0 [] = .ok o'.node_transforms := by
  unfold frame_reader.result at h ⊢
  rw [update_node_transforms_apply] at h
  cases hs : smooth_anim_frame g buf o.model o.animation o.anim_tick o.anim_tick_time [] with
  | mk res log1 =>
    rw [hs] at h
    cases res with
    | error e => cases h
    | ok af =>
      simp only [] at h
      cases hn : node_transforms_from g af o.model.nodes 0 [] with
      | error e => rw [hn] at h; cases h
      | ok nt =>
        rw [hn] at h
        cases h
        exact ⟨af, rfl, hn⟩

/-- One iteration of the node loop of `load_models` that does not fail appends one node,
with offset zero when it is node 0. -/
theorem load_model_nodes_step (bone_data : List Int) (nlm first_mesh bdo : Nat)
    (count j : Nat) (node_stack : List Int) (nodes result : List model_node)
    (h : load_model_nodes bone_data nlm first_mesh bdo (count + 1) j node_stack nodes =
      .ok result) :
    ∃ node_stack' node,
      load_model_nodes bone_data nlm first_mesh bdo count (j + 1) node_stack'
        (nodes ++ [node]) = .ok result ∧
      (j = 0 → node.offset = ⟨0, 0, 0⟩) := by
  rw [load_model_nodes] at h
  by_cases hmesh : first_mesh + j < nlm
  · simp only [hmesh, not_true_eq_false, ite_false, if_false] at h
    by_cases hj : j = 0
    · subst hj
      simp [bind, Except.bind, pure, Except.pure] at h
      exact ⟨_, _, h, fun _ => rfl⟩
    · simp only [hj, bind, Except.bind, pure, Except.pure, ne_eq, not_false_eq_true,
        if_true] at h
      split at h
      · cases h
      split at h
      · cases h
      split at h
      · cases h
      split at h
      · cases h
      split at h
      · split at h
        · cases h
        · exact ⟨_, _, h, fun h0 => absurd h0 hj⟩
      · exact ⟨_, _, h, fun h0 => absurd h0 hj⟩
  · simp [hmesh, bind, Except.bind, throw, throwThe, MonadExceptOf.throw] at h

theorem load_model_nodes_prefix (bone_data : List Int) (nlm first_mesh bdo : Nat) :
    ∀ (count j : Nat) (node_stack : List Int) (nodes result : List model_node),
      load_model_nodes bone_data nlm first_mesh bdo count j node_stack nodes = .ok result →
      ∀ k, k < nodes.length → result[k]? = nodes[k]? := by
  intro count
  induction count with
  | zero =>
    intro j st nodes result h k _
    simp [load_model_nodes, pure, Except.pure] at h
    rw [h]
  | succ count ih =>
    intro j st nodes result h k hk
    obtain ⟨st', node, h', _⟩ := load_model_nodes_step _ _ _ _ _ _ _ _ _ h
    rw [ih _ _ _ _ h' k (by simp; omega), List.getElem?_append_left hk]

/-- Node 0 of a model `load_models` produces has the offset zero. -/
theorem load_model_root_offset (bone_data : List Int) (nlm na : Nat) (d : d_model)
    (m : model) (h : load_model bone_data nlm na d = .ok m) :
    ∀ node, m.nodes[0]? = some node → node.offset = ⟨0, 0, 0⟩ := by
  have hnodes : ∀ (count : Nat) (fm bdo : Nat) (result : List model_node),
      load_model_nodes bone_data nlm fm bdo count 0 [] [] = .ok result →
      ∀ node, result[0]? = some node → node.offset = ⟨0, 0, 0⟩ := by
    intro count fm bdo result hr node hnode
    cases count with
    | zero =>
      simp [load_model_nodes, pure, Except.pure] at hr
      subst hr
      simp at hnode
    | succ count =>
      obtain ⟨st', x, h', hx⟩ := load_model_nodes_step _ _ _ _ _ _ _ _ _ hr
      have := load_model_nodes_prefix _ _ _ _ _ _ _ _ _ h' 0 (by simp)
      rw [hnode] at this
      simp only [List.nil_append, List.getElem?_cons_zero, Option.some.injEq] at this
      rw [this]
      exact hx rfl
  simp only [load_model, bind, Except.bind, pure, Except.pure] at h
  split at h
  · split at h
    · split at h
      · cases h
      · rename_i nodes hn
        cases h
        exact hnodes _ _ _ _ hn
    · cases h
  · split at h
    · cases h
    · rename_i nodes hn
      cases h
      exact hnodes _ _ _ _ hn

/-- C11 as amended: when `update_node_transforms` returns, with `af` the frame
`smooth_anim_frame` returns, the entry of node 0 is `translate` of the interpolated
translation `af.translation`, times `translate` of the offset of node 0, times the matrix
of the interpolated quaternion `af.rotation[0]`: the root is composed like every other node,
with the translation of the frame in the place of the transform of a parent. The offset of
node 0 is zero in every model `load_models` produces. -/
theorem update_node_transforms_root (g : glm_lib) (buf : List Nat) (o o' : model_object)
    (h : (update_node_transforms g buf o).result = .ok o') :
    (∃ af, (smooth_anim_frame g buf o.model o.animation o.anim_tick o.anim_tick_time).result =
        .ok af ∧
      ∀ node, o.model.nodes[0]? = some node →
        ∃ q, af.rotation[0]? = some q ∧
          o'.node_transforms[0]? = some
            (g.translate 1 af.translation * g.translate 1 node.offset * g.mat4_cast q)) ∧
    ∀ (bone_data : List Int) (num_level_meshes num_animations : Nat)
      (records : List d_model) (models : List model),
      load_models bone_data num_level_meshes num_animations records = .ok models →
      ∀ m ∈ models, ∀ node, m.nodes[0]? = some node → node.offset = ⟨0, 0, 0⟩ := by
  obtain ⟨af, haf, hnt⟩ := update_node_transforms_ok g buf o o' h
  obtain ⟨_, _, hnodes⟩ := node_transforms_from_spec g af _ 0 [] _ rfl hnt
  refine ⟨⟨af, haf, ?_⟩, ?_⟩
  · intro node hnode
    obtain ⟨q, hq, hzero, _⟩ := hnodes 0 node hnode
    exact ⟨q, hq, hzero rfl⟩
  · intro bone_data nlm na records models hm m hmem
    obtain ⟨d, _, hd⟩ := for_each_ok_mem _ records models hm m hmem
    exact load_model_root_offset _ _ _ d m hd

set_option maxRecDepth 20000 in
/-- The frame `smooth_anim_frame` returns on the sample data at the start of tick 0. -/
theorem smooth_anim_frame_sample :
    (smooth_anim_frame glm_rational sample_frame_data sample_model (sample_animation 0 2 1)
      0 0).result =
      .ok ⟨glm_rational.mix ⟨1, 2, 3⟩ ⟨4, 5, 6⟩ 0,
        [glm_rational.slerp
          (AxisAngleToQuaternion glm_rational ⟨1, 0, 0⟩ (CONVERSION_FACTOR glm_rational * 16))
          (AxisAngleToQuaternion glm_rational ⟨0, 1, 0⟩ (CONVERSION_FACTOR glm_rational * 32))
          0]⟩ := by
  have h1 : (16400 &&& 49152 : Nat) = 16384 := by decide
  have h2 : (16400 &&& 1023 : Nat) = 16 := by decide
  have h3 : (32800 &&& 49152 : Nat) = 32768 := by decide
  have h4 : (32800 &&& 1023 : Nat) = 32 := by decide
  simp [frame_reader.result, smooth_anim_frame, skip_frames, parse_anim_frame,
    parse_anim_frame_locals, parse_rotations, sample_animation,
    sample_frame_data, sample_model, frame_at, vector_at, bind, frame_reader.bind, pure,
    throw, throwThe, MonadExceptOf.throw, i16, u16, h1, h2, h3, h4]
  norm_num

set_option maxRecDepth 20000 in
/-- C11 fails on the sample model at the start of tick 0: the entry of node 0 is not the
matrix of the interpolated translation, the rotation of node 0 (about the X axis) being
applied to it. -/
theorem root_transform_applies_rotation :
    ∃ af o',
      (smooth_anim_frame glm_rational sample_frame_data sample_model (sample_animation 0 2 1)
        0 0).result = .ok af ∧
      (update_node_transforms glm_rational sample_frame_data
        (sample_object (sample_animation 0 2 1) 0 0)).result = .ok o' ∧
      o'.node_transforms[0]? ≠ some (glm_rational.translate 1 af.translation) := by
  obtain ⟨o', ho'⟩ := exists_of_toBool
    (update_node_transforms glm_rational sample_frame_data
      (sample_object (sample_animation 0 2 1) 0 0)).result (by decide)
  obtain ⟨af, haf, hnt⟩ := update_node_transforms_ok _ _ _ _ ho'
  obtain ⟨_, _, hnodes⟩ := node_transforms_from_spec _ af _ 0 [] _ rfl hnt
  obtain ⟨q, hq, hzero, _⟩ := hnodes 0 ⟨-1, ⟨0, 0, 0⟩, 0⟩ rfl
  have haf' := haf
  simp only [sample_object] at haf'
  rw [smooth_anim_frame_sample] at haf'
  cases haf'
  simp only [Nat.add_zero, List.getElem?_cons_zero, Option.some.injEq] at hq
  subst hq
  refine ⟨_, o', haf, ho', ?_⟩
  rw [hzero rfl]
  intro heq
  have h21 := congrFun (congrFun (Option.some.inj heq) 2) 1
  simp [glm_rational, AxisAngleToQuaternion, CONVERSION_FACTOR, Matrix.mul_apply,
    Fin.sum_univ_four] at h21
  norm_num at h21

set_option maxRecDepth 20000 in
/-- C11 as amended, on the sample model at the start of tick 0. -/
theorem update_node_transforms_root_witness :
    ∃ o', (update_node_transforms glm_rational sample_frame_data
        (sample_object (sample_animation 0 2 1) 0 0)).result = .ok o' ∧
      ∃ af, (smooth_anim_frame glm_rational sample_frame_data sample_model
          (sample_animation 0 2 1) 0 0).result = .ok af ∧
        ∀ node, sample_model.nodes[0]? = some node →
          ∃ q, af.rotation[0]? = some q ∧
            o'.node_transforms[0]? = some
              (glm_rational.translate 1 af.translation *
                glm_rational.translate 1 node.offset * glm_rational.mat4_cast q) := by
  obtain ⟨o', ho'⟩ := exists_of_toBool
    (update_node_transforms glm_rational sample_frame_data
      (sample_object (sample_animation 0 2 1) 0 0)).result (by decide)
  exact ⟨o', ho', (update_node_transforms_root glm_rational sample_frame_data
    (sample_object (sample_animation 0 2 1) 0 0) o' ho').1⟩

/-- C12: when `update_node_transforms` returns, `node_transforms` has one entry per node of
the model, whatever it held before the call, and with `af` the frame `smooth_anim_frame`
returns, the entry of every node `i > 0` is the entry of its parent, an earlier node, times
`translate` of the offset of the node times the matrix of the quaternion `af.rotation[i]`. -/
theorem update_node_transforms_composes_parent (g : glm_lib) (buf : List Nat)
    (o o' : model_object) (h : (update_node_transforms g buf o).result = .ok o') :
    o'.node_transforms.length = o.model.nodes.length ∧
    (∀ nt, (update_node_transforms g buf { o with node_transforms := nt }).result = .ok o') ∧
    ∃ af, (smooth_anim_frame g buf o.model o.animation o.anim_tick o.anim_tick_time).result =
        .ok af ∧
      ∀ (i : Nat) (node : model_node), 0 < i → o.model.nodes[i]? = some node →
        size_t node.parent < i ∧
        ∃ q p, af.rotation[i]? = some q ∧ o'.node_transforms[size_t node.parent]? = some p ∧
          o'.node_transforms[i]? = some (p * g.translate 1 node.offset * g.mat4_cast q) := by
  obtain ⟨af, haf, hnt⟩ := update_node_transforms_ok g buf o o' h
  obtain ⟨hlen, _, hnodes⟩ := node_transforms_from_spec g af _ 0 [] _ rfl hnt
  refine ⟨by rw [hlen, Nat.zero_add], fun nt => ?_, af, haf, ?_⟩
  · rw [update_node_transforms_congr]
    exact h
  · intro i node hi hnode
    obtain ⟨q, hq, _, hpos⟩ := hnodes i node hnode
    rw [Nat.zero_add] at hq hpos
    obtain ⟨hlt, p, hp, hout⟩ := hpos hi
    exact ⟨hlt, q, p, hq, hp, hout⟩

set_option maxRecDepth 20000 in
/-- C12 on a model with two nodes: the call returns two transforms, the second composed
from the first. -/
theorem update_node_transforms_composes_parent_witness :
    ∃ o', (update_node_transforms glm_rational two_node_frame_data
        (two_node_object 0)).result = .ok o' ∧
      o'.node_transforms.length = (two_node_object 0).model.nodes.length ∧
      (∀ nt, (update_node_transforms glm_rational two_node_frame_data
        { two_node_object 0 with node_transforms := nt }).result = .ok o') ∧
      ∃ af, (smooth_anim_frame glm_rational two_node_frame_data (two_node_object 0).model
          (two_node_object 0).animation (two_node_object 0).anim_tick
          (two_node_object 0).anim_tick_time).result = .ok af ∧
        ∀ (i : Nat) (node : model_node), 0 < i →
          (two_node_object 0).model.nodes[i]? = some node →
          size_t node.parent < i ∧
          ∃ q p, af.rotation[i]? = some q ∧
            o'.node_transforms[size_t node.parent]? = some p ∧
            o'.node_transforms[i]? =
              some (p * glm_rational.translate 1 node.offset * glm_rational.mat4_cast q) := by
  obtain ⟨o', ho'⟩ := exists_of_toBool
    (update_node_transforms glm_rational two_node_frame_data (two_node_object 0)).result
    (by decide)
  exact ⟨o', ho', update_node_transforms_composes_parent glm_rational two_node_frame_data
    (two_node_object 0) o' ho'⟩

/-! ## Spherical interpolation -/

theorem slerp_eq (sin acos : ℚ → ℚ) (epsilon : ℚ) (x y : quat) (a : ℚ) :
    slerp sin acos epsilon x y a =
      if slerp_cos x y > 1 - epsilon then
        ⟨x.w * (1 - a) + (slerp_target x y).w * a, x.x * (1 - a) + (slerp_target x y).x * a,
          x.y * (1 - a) + (slerp_target x y).y * a, x.z * (1 - a) + (slerp_target x y).z * a⟩
      else
        ⟨(sin ((1 - a) * acos (slerp_cos x y)) * x.w +
            sin (a * acos (slerp_cos x y)) * (slerp_target x y).w) / sin (acos (slerp_cos x y)),
          (sin ((1 - a) * acos (slerp_cos x y)) * x.x +
            sin (a * acos (slerp_cos x y)) * (slerp_target x y).x) / sin (acos (slerp_cos x y)),
          (sin ((1 - a) * acos (slerp_cos x y)) * x.y +
            sin (a * acos (slerp_cos x y)) * (slerp_target x y).y) / sin (acos (slerp_cos x y)),
          (sin ((1 - a) * acos (slerp_cos x y)) * x.z +
            sin (a * acos (slerp_cos x y)) * (slerp_target x y).z) /
              sin (acos (slerp_cos x y))⟩ := rfl

theorem slerp_cos_nonneg (x y : quat) : 0 ≤ slerp_cos x y := by
  unfold slerp_cos
  split
  · linarith
  · linarith

theorem slerp_at_zero (sin acos : ℚ → ℚ) (epsilon : ℚ) (hsin0 : sin 0 = 0)
    (hsin : ∀ c, 0 ≤ c → c ≤ 1 - epsilon → sin (acos c) ≠ 0) (q0 q1 : quat) :
    slerp sin acos epsilon q0 q1 0 = q0 := by
  rw [slerp_eq]
  by_cases hcos : slerp_cos q0 q1 > 1 - epsilon
  · rw [if_pos hcos]
    simp
  · rw [if_neg hcos]
    have hne := hsin _ (slerp_cos_nonneg q0 q1) (not_lt.1 hcos)
    simp only [sub_zero, one_mul, zero_mul, hsin0, add_zero]
    cases q0
    simp only [quat.mk.injEq]
    refine ⟨?_, ?_, ?_, ?_⟩ <;> exact mul_div_cancel_left₀ _ hne

theorem slerp_at_one (sin acos : ℚ → ℚ) (epsilon : ℚ) (hsin0 : sin 0 = 0)
    (hsin : ∀ c, 0 ≤ c → c ≤ 1 - epsilon → sin (acos c) ≠ 0) (q0 q1 : quat) :
    slerp sin acos epsilon q0 q1 1 = slerp_target q0 q1 := by
  rw [slerp_eq]
  by_cases hcos : slerp_cos q0 q1 > 1 - epsilon
  · rw [if_pos hcos]
    simp
  · rw [if_neg hcos]
    have hne := hsin _ (slerp_cos_nonneg q0 q1) (not_lt.1 hcos)
    simp only [sub_self, one_mul, zero_mul, hsin0, zero_add]
    generalize slerp_target q0 q1 = z
    cases z
    simp only [quat.mk.injEq]
    refine ⟨?_, ?_, ?_, ?_⟩ <;> exact mul_div_cancel_left₀ _ hne

/-- The rotation matrix of the library is the same for a quaternion and its negation,
the two quaternions of one rotation. -/
theorem mat4_cast_quat_neg (q : quat) :
    glm_rational.mat4_cast (quat_neg q) = glm_rational.mat4_cast q := by
  simp only [glm_rational, quat_neg, neg_mul_neg, mul_neg, neg_mul, neg_neg]

theorem slerp_same_near_unit (sin acos : ℚ → ℚ) (epsilon : ℚ) (q : quat) (a : ℚ)
    (hq : 1 - epsilon < quat_dot q q) : slerp sin acos epsilon q q a = q := by
  have hnn : ¬ quat_dot q q < 0 := by
    unfold quat_dot
    nlinarith [mul_self_nonneg q.w, mul_self_nonneg q.x, mul_self_nonneg q.y,
      mul_self_nonneg q.z]
  have hc : slerp_cos q q = quat_dot q q := by
    unfold slerp_cos
    rw [if_neg hnn]
  have hz : slerp_target q q = q := by
    unfold slerp_target
    rw [if_neg hnn]
  rw [slerp_eq, hc, hz, if_pos hq]
  cases q
  simp only [quat.mk.injEq]
  refine ⟨?_, ?_, ?_, ?_⟩ <;> ring

theorem rational_sin_acos_ne_zero (epsilon : ℚ) (hε : 0 < epsilon) (c : ℚ) (h0 : 0 ≤ c)
    (h1 : c ≤ 1 - epsilon) : glm_rational.sin (rational_acos c) ≠ 0 := by
  show rational_acos c - rational_acos c ^ 3 / 6 ≠ 0
  have hy0 : 0 < rational_acos c := by
    unfold rational_acos
    apply mul_pos (by norm_num)
    linarith
  have hy1 : rational_acos c ≤ 355 / 226 := by
    unfold rational_acos
    nlinarith
  have hsq : rational_acos c ^ 2 < 6 := by nlinarith
  have hpos : 0 < rational_acos c * (1 - rational_acos c ^ 2 / 6) :=
    mul_pos hy0 (by linarith)
  have he : rational_acos c - rational_acos c ^ 3 / 6 =
      rational_acos c * (1 - rational_acos c ^ 2 / 6) := by ring
  rw [he]
  exact ne_of_gt hpos

/-- C13: with `sin 0 = 0` and a nonzero sine of every angle the library divides by, the
interpolation of a rotation `q`, a unit quaternion, with itself is `q` at every blend
factor; the interpolation of `q0` and `q1` is `q0` at blend factor 0; and at blend factor 1
it is the rotation of `q1`: the quaternion `q1` itself when the dot product of the two is
not negative and, along the shorter arc, its negation when it is negative, and in both
cases its rotation matrix `mat4_cast`, which is all `update_node_transforms` takes of it,
is the one of `q1`. -/
theorem slerp_end_rotations (sin acos : ℚ → ℚ) (epsilon : ℚ) (hε : 0 < epsilon)
    (hsin0 : sin 0 = 0) (hsin : ∀ c, 0 ≤ c → c ≤ 1 - epsilon → sin (acos c) ≠ 0) :
    (∀ q a, quat_dot q q = 1 → slerp sin acos epsilon q q a = q) ∧
    (∀ q0 q1, slerp sin acos epsilon q0 q1 0 = q0) ∧
    (∀ q0 q1, 0 ≤ quat_dot q0 q1 → slerp sin acos epsilon q0 q1 1 = q1) ∧
    (∀ q0 q1, quat_dot q0 q1 < 0 → slerp sin acos epsilon q0 q1 1 = quat_neg q1) ∧
    (∀ q0 q1, glm_rational.mat4_cast (slerp sin acos epsilon q0 q1 1) =
      glm_rational.mat4_cast q1) := by
  refine ⟨fun q a hq => slerp_same_near_unit sin acos epsilon q a (by rw [hq]; linarith),
    fun q0 q1 => slerp_at_zero sin acos epsilon hsin0 hsin q0 q1, ?_, ?_, ?_⟩
  · intro q0 q1 h
    rw [slerp_at_one sin acos epsilon hsin0 hsin]
    unfold slerp_target
    rw [if_neg (not_lt.2 h)]
  · intro q0 q1 h
    rw [slerp_at_one sin acos epsilon hsin0 hsin]
    unfold slerp_target
    rw [if_pos h]
  · intro q0 q1
    rw [slerp_at_one sin acos epsilon hsin0 hsin]
    unfold slerp_target
    split
    · exact mat4_cast_quat_neg q1
    · rfl

/-- C13 for the rational stand-ins of the sine and the arc cosine and the threshold 2^-23,
at unit quaternions of rotations about the X axis: at blend factor 1 the interpolation of
two quaternions with a negative dot product is the negation of the second, with the
rotation matrix of the second. -/
theorem slerp_end_rotations_witness :
    slerp glm_rational.sin rational_acos (1 / 8388608) ⟨3 / 5, 4 / 5, 0, 0⟩
      ⟨3 / 5, 4 / 5, 0, 0⟩ (1 / 3) = ⟨3 / 5, 4 / 5, 0, 0⟩ ∧
    slerp glm_rational.sin rational_acos (1 / 8388608) ⟨1, 0, 0, 0⟩ ⟨-3 / 5, 4 / 5, 0, 0⟩ 0 =
      ⟨1, 0, 0, 0⟩ ∧
    slerp glm_rational.sin rational_acos (1 / 8388608) ⟨1, 0, 0, 0⟩ ⟨3 / 5, 4 / 5, 0, 0⟩ 1 =
      ⟨3 / 5, 4 / 5, 0, 0⟩ ∧
    slerp glm_rational.sin rational_acos (1 / 8388608) ⟨1, 0, 0, 0⟩ ⟨-3 / 5, 4 / 5, 0, 0⟩ 1 =
      quat_neg ⟨-3 / 5, 4 / 5, 0, 0⟩ ∧
    glm_rational.mat4_cast (slerp glm_rational.sin rational_acos (1 / 8388608) ⟨1, 0, 0, 0⟩
      ⟨-3 / 5, 4 / 5, 0, 0⟩ 1) = glm_rational.mat4_cast ⟨-3 / 5, 4 / 5, 0, 0⟩ :=
  have h := slerp_end_rotations glm_rational.sin rational_acos (1 / 8388608) (by norm_num)
    (by simp [glm_rational]) (rational_sin_acos_ne_zero _ (by norm_num))
  ⟨h.1 _ _ (by norm_num [quat_dot]), h.2.1 _ _, h.2.2.1 _ _ (by norm_num [quat_dot]),
    h.2.2.2.1 _ _ (by norm_num [quat_dot]), h.2.2.2.2 _ _⟩

/-- The interpolation of a quaternion that is not a rotation with itself: for the
quaternion (1/2, 0, 0, 0), of norm 1/2, the two sine weights do not add up to 1 and the
result at blend factor 1/2 is not the quaternion. -/
theorem slerp_same_of_short_quaternion :
    slerp glm_rational.sin rational_acos (1 / 8388608) ⟨1 / 2, 0, 0, 0⟩ ⟨1 / 2, 0, 0, 0⟩
      (1 / 2) ≠ ⟨1 / 2, 0, 0, 0⟩ := by
  intro h
  have hw := congrArg quat.w h
  rw [slerp_eq] at hw
  simp only [slerp_cos, slerp_target, quat_dot, rational_acos, glm_rational] at hw
  norm_num at hw

/-! ## Placed objects: the light intensity -/

/-- What a call of the first inner loop of `load_objects` that adds an instance has done. -/
theorem load_model_object_some (g : glm_lib) (lvl : level) (num_rooms : Nat) (d : d_object)
    (o : model_object) (h : load_model_object g lvl num_rooms d = .ok (some o)) :
    ∃ m o0, lvl.models.find? (fun m => m.id = u16 d.id) = some m ∧
      (new_model_object g lvl.animations lvl.anim_frame_data m 0 (object_transform g d)
        0).result = .ok o0 ∧
      u16 d.room < num_rooms ∧
      o = { o0 with room := u16 d.room,
                    light_intensity := object_light_intensity (u16 d.light_intensity) } := by
  unfold load_model_object at h
  split at h
  · cases h
  · rename_i m hm
    simp only [bind, Except.bind, pure, Except.pure] at h
    split at h
    · cases h
    · rename_i o0 ho0
      split at h
      · cases h
      · rename_i hroom
        simp only [Except.ok.injEq, Option.some.injEq] at h
        exact ⟨m, o0, hm, ho0, not_not.1 hroom, h.symm⟩

/-- What a call of the second inner loop of `load_objects` that adds an instance has
done. -/
theorem load_sprite_object_some (lvl : level) (num_rooms : Nat) (d : d_object)
    (s : sprite_object) (h : load_sprite_object lvl num_rooms d = .ok (some s)) :
    ∃ i, lvl.sprite_sequences.findIdx? (fun q => q.id = u16 d.id) = some i ∧
      u16 d.room < num_rooms ∧
      s = ⟨i, 0, u16 d.room, ⟨d.x, d.y, d.z⟩,
        object_light_intensity (u16 d.light_intensity)⟩ := by
  unfold load_sprite_object at h
  split at h
  · cases h
  · rename_i i hi
    simp only [bind, Except.bind, pure, Except.pure] at h
    split at h
    · cases h
    · rename_i hroom
      simp only [Except.ok.injEq, Option.some.injEq] at h
      exact ⟨i, hi, not_not.1 hroom, h.symm⟩

theorem load_model_object_congr (g : glm_lib) (lvl lvl' : level) (num_rooms : Nat)
    (hm : lvl'.models = lvl.models) (ha : lvl'.animations = lvl.animations)
    (hf : lvl'.anim_frame_data = lvl.anim_frame_data) :
    load_model_object g lvl' num_rooms = load_model_object g lvl num_rooms := by
  funext d
  unfold load_model_object
  rw [hm, ha, hf]

theorem load_sprite_object_congr (lvl lvl' : level) (num_rooms : Nat)
    (hs : lvl'.sprite_sequences = lvl.sprite_sequences) :
    load_sprite_object lvl' num_rooms = load_sprite_object lvl num_rooms := by
  funext d
  unfold load_sprite_object
  rw [hs]

theorem for_each_cons_ok {α β : Type} (f : α → Except failure β) (a : α) (l : List α)
    (b : β) (bs : List β) (ha : f a = .ok b) (hl : for_each f l = .ok bs) :
    for_each f (a :: l) = .ok (b :: bs) := by
  simp only [for_each, ha, hl]

/-- When `load_objects` returns, every record has passed both inner loops, and the
instances these have made are appended in the order of the records; nothing else of the
level is changed. -/
theorem load_objects_ok (g : glm_lib) (num_rooms : Nat) :
    ∀ (ds : List d_object) (lvl lvl' : level), load_objects g num_rooms ds lvl = .ok lvl' →
      ∃ mos sos, for_each (load_model_object g lvl num_rooms) ds = .ok mos ∧
        for_each (load_sprite_object lvl num_rooms) ds = .ok sos ∧
        lvl' = { lvl with model_objects := lvl.model_objects ++ mos.filterMap id,
                          sprite_objects := lvl.sprite_objects ++ sos.filterMap id } := by
  intro ds
  induction ds with
  | nil =>
    intro lvl lvl' h
    simp only [load_objects, pure, Except.pure, Except.ok.injEq] at h
    subst h
    exact ⟨[], [], rfl, rfl, by simp⟩
  | cons d ds ih =>
    intro lvl lvl' h
    rw [load_objects] at h
    cases hmo : load_model_object g lvl num_rooms d with
    | error e => rw [hmo] at h; cases h
    | ok mo =>
      cases hso : load_sprite_object lvl num_rooms d with
      | error e => rw [hmo, hso] at h; cases h
      | ok so =>
        rw [hmo, hso] at h
        obtain ⟨mos, sos, hmos, hsos, hlvl⟩ := ih _ _ h
        have e1 := load_model_object_congr g lvl
          { lvl with model_objects := lvl.model_objects ++ mo.toList,
                     sprite_objects := lvl.sprite_objects ++ so.toList } num_rooms rfl rfl rfl
        have e2 := load_sprite_object_congr lvl
          { lvl with model_objects := lvl.model_objects ++ mo.toList,
                     sprite_objects := lvl.sprite_objects ++ so.toList } num_rooms rfl
        rw [e1] at hmos
        rw [e2] at hsos
        refine ⟨mo :: mos, so :: sos, for_each_cons_ok _ _ _ _ _ hmo hmos,
          for_each_cons_ok _ _ _ _ _ hso hsos, ?_⟩
        rw [hlvl]
        cases mo <;> cases so <;> simp

/-- The converse of `load_objects_ok`: when every record passes both inner loops,
`load_objects` returns. -/
theorem load_objects_of_for_each (g : glm_lib) (num_rooms : Nat) :
    ∀ (ds : List d_object) (lvl : level) (mos : List (Option model_object))
      (sos : List (Option sprite_object)),
      for_each (load_model_object g lvl num_rooms) ds = .ok mos →
      for_each (load_sprite_object lvl num_rooms) ds = .ok sos →
      load_objects g num_rooms ds lvl =
        .ok { lvl with model_objects := lvl.model_objects ++ mos.filterMap id,
                       sprite_objects := lvl.sprite_objects ++ sos.filterMap id } := by
  intro ds
  induction ds with
  | nil =>
    intro lvl mos sos hmos hsos
    simp only [for_each, Except.ok.injEq] at hmos hsos
    subst hmos
    subst hsos
    simp [load_objects, pure, Except.pure]
  | cons d ds ih =>
    intro lvl mos sos hmos hsos
    rw [for_each] at hmos hsos
    cases hmo : load_model_object g lvl num_rooms d with
    | error e => rw [hmo] at hmos; cases hmos
    | ok mo =>
      cases hso : load_sprite_object lvl num_rooms d with
      | error e => rw [hso] at hsos; cases hsos
      | ok so =>
        rw [hmo] at hmos
        rw [hso] at hsos
        simp only [] at hmos hsos
        cases hmos' : for_each (load_model_object g lvl num_rooms) ds with
        | error e => rw [hmos'] at hmos; cases hmos
        | ok mos' =>
          cases hsos' : for_each (load_sprite_object lvl num_rooms) ds with
          | error e => rw [hsos'] at hsos; cases hsos
          | ok sos' =>
            rw [hmos'] at hmos
            rw [hsos'] at hsos
            cases hmos
            cases hsos
            have e1 := load_model_object_congr g lvl
              { lvl with model_objects := lvl.model_objects ++ mo.toList,
                         sprite_objects := lvl.sprite_objects ++ so.toList } num_rooms
              rfl rfl rfl
            have e2 := load_sprite_object_congr lvl
              { lvl with model_objects := lvl.model_objects ++ mo.toList,
                         sprite_objects := lvl.sprite_objects ++ so.toList } num_rooms rfl
            rw [← e1] at hmos'
            rw [← e2] at hsos'
            rw [load_objects, hmo, hso]
            simp only [bind, Except.bind]
            rw [ih _ _ _ hmos' hsos']
            cases mo <;> cases so <;> simp

/-- C14: when `load_objects` returns, every model object and every sprite object it has
appended is the instance of one of the records, and its light intensity is 1 when the
`uint16_t` raw value of the record is 0xFFFF and `1 - raw / 8191` otherwise; so it is 1 for
the raw value 0 and 0 for the raw value 8191. -/
theorem load_objects_light_intensity (g : glm_lib) (num_rooms : Nat)
    (objects : List d_object) (lvl lvl' : level)
    (h : load_objects g num_rooms objects lvl = .ok lvl') :
    ∃ mos sos, lvl'.model_objects = lvl.model_objects ++ mos ∧
      lvl'.sprite_objects = lvl.sprite_objects ++ sos ∧
      (∀ o ∈ mos, ∃ d ∈ objects, load_model_object g lvl num_rooms d = .ok (some o) ∧
        o.light_intensity =
          (if u16 d.light_intensity = 0xFFFF then 1
            else 1 - (u16 d.light_intensity : ℚ) / 8191) ∧
        (u16 d.light_intensity = 0 → o.light_intensity = 1) ∧
        (u16 d.light_intensity = 8191 → o.light_intensity = 0)) ∧
      (∀ s ∈ sos, ∃ d ∈ objects, load_sprite_object lvl num_rooms d = .ok (some s) ∧
        s.light_intensity =
          (if u16 d.light_intensity = 0xFFFF then 1
            else 1 - (u16 d.light_intensity : ℚ) / 8191) ∧
        (u16 d.light_intensity = 0 → s.light_intensity = 1) ∧
        (u16 d.light_intensity = 8191 → s.light_intensity = 0)) := by
  obtain ⟨mos, sos, hmos, hsos, hlvl⟩ := load_objects_ok g num_rooms objects lvl lvl' h
  refine ⟨mos.filterMap id, sos.filterMap id, by rw [hlvl], by rw [hlvl], ?_, ?_⟩
  · intro o ho
    obtain ⟨x, hx, hxo⟩ := List.mem_filterMap.1 ho
    simp only [id] at hxo
    subst hxo
    obtain ⟨d, hd, hdo⟩ := for_each_ok_mem _ _ _ hmos _ hx
    obtain ⟨m, o0, _, _, _, ho⟩ := load_model_object_some g lvl num_rooms d o hdo
    have hl : o.light_intensity = object_light_intensity (u16 d.light_intensity) := by
      rw [ho]
    refine ⟨d, hd, hdo, hl, ?_, ?_⟩
    · intro h0
      rw [hl, h0]
      norm_num [object_light_intensity]
    · intro h0
      rw [hl, h0]
      norm_num [object_light_intensity]
  · intro s hs
    obtain ⟨x, hx, hxs⟩ := List.mem_filterMap.1 hs
    simp only [id] at hxs
    subst hxs
    obtain ⟨d, hd, hds⟩ := for_each_ok_mem _ _ _ hsos _ hx
    obtain ⟨i, _, _, hs'⟩ := load_sprite_object_some lvl num_rooms d s hds
    have hl : s.light_intensity = object_light_intensity (u16 d.light_intensity) := by
      rw [hs']
    refine ⟨d, hd, hds, hl, ?_, ?_⟩
    · intro h0
      rw [hl, h0]
      norm_num [object_light_intensity]
    · intro h0
      rw [hl, h0]
      norm_num [object_light_intensity]

set_option maxRecDepth 20000 in
/-- C14 on the sample level with three object records, of raw light intensity 8191, 0xFFFF
and 0. -/
theorem load_objects_light_intensity_witness :
    ∃ lvl', load_objects glm_rational 1 sample_objects sample_level = .ok lvl' ∧
      ∃ mos sos, lvl'.model_objects = sample_level.model_objects ++ mos ∧
        lvl'.sprite_objects = sample_level.sprite_objects ++ sos ∧
        (∀ o ∈ mos, ∃ d ∈ sample_objects,
          load_model_object glm_rational sample_level 1 d = .ok (some o) ∧
          o.light_intensity =
            (if u16 d.light_intensity = 0xFFFF then 1
              else 1 - (u16 d.light_intensity : ℚ) / 8191) ∧
          (u16 d.light_intensity = 0 → o.light_intensity = 1) ∧
          (u16 d.light_intensity = 8191 → o.light_intensity = 0)) ∧
        (∀ s ∈ sos, ∃ d ∈ sample_objects,
          load_sprite_object sample_level 1 d = .ok (some s) ∧
          s.light_intensity =
            (if u16 d.light_intensity = 0xFFFF then 1
              else 1 - (u16 d.light_intensity : ℚ) / 8191) ∧
          (u16 d.light_intensity = 0 → s.light_intensity = 1) ∧
          (u16 d.light_intensity = 8191 → s.light_intensity = 0)) := by
  obtain ⟨mos, hmos⟩ := exists_of_toBool
    (for_each (load_model_object glm_rational sample_level 1) sample_objects) (by decide)
  obtain ⟨sos, hsos⟩ := exists_of_toBool
    (for_each (load_sprite_object sample_level 1) sample_objects) (by decide)
  have h := load_objects_of_for_each glm_rational 1 sample_objects sample_level mos sos
    hmos hsos
  refine ⟨_, h, ?_⟩
  exact load_objects_light_intensity glm_rational 1 sample_objects sample_level _ h

/-! ## Sprites -/

theorem load_sprites_getElem (records : List d_sprite) (i : Nat) (d : d_sprite)
    (h : records[i]? = some d) : (load_sprites records)[i]? = some (load_sprite i d) := by
  unfold load_sprites
  rw [List.getElem?_map, List.getElem?_enum, h]
  rfl

/-- C15: `load_sprites` makes one sprite of every record, at the index of the record, and
with `x`, `y` the `uint8_t` page coordinates, `w`, `h` the `uint16_t` size and `left`,
`top`, `right`, `bottom` the `int16_t` insets of the record, the corners of the sprite are
(left, -bottom), (left, -top), (right, -top), (right, -bottom) and its texcoords
(u0, v1), (u0, v0), (u1, v0), (u1, v1), where u0 = (x + 1/2)/256, v0 = (y + 1/2)/256,
u1 = (x + 1/2 + (w - 255)/256)/256 and v1 = (y + 1/2 + (h - 255)/256)/256; the record of
the scenario with x = 10, y = 20, w = h = 256 and insets -50, 100, 50, 0 gives the corners
(-50, 0), (-50, -100), (50, -100), (50, 0). -/
theorem load_sprites_geometry (records : List d_sprite) :
    (load_sprites records).length = records.length ∧
    (∀ (i : Nat) (d : d_sprite), records[i]? = some d →
      ∃ s, (load_sprites records)[i]? = some s ∧ s.id = i ∧
        let x : ℚ := (u8 d.x : Nat)
        let y : ℚ := (u8 d.y : Nat)
        let w : ℚ := (u16 d.w : Nat)
        let h : ℚ := (u16 d.h : Nat)
        let left : ℚ := i16 d.left
        let top : ℚ := i16 d.top
        let right : ℚ := i16 d.right
        let bottom : ℚ := i16 d.bottom
        let u0 := (x + 1 / 2) / 256
        let v0 := (y + 1 / 2) / 256
        let u1 := (x + 1 / 2 + (w - 255) / 256) / 256
        let v1 := (y + 1 / 2 + (h - 255) / 256) / 256
        s.position = [(left, -bottom), (left, -top), (right, -top), (right, -bottom)] ∧
        s.texcoord = [(u0, v1), (u0, v0), (u1, v0), (u1, v1)]) ∧
    load_sprites [sample_d_sprite] =
      [{ id := 0, position := [(-50, 0), (-50, -100), (50, -100), (50, 0)],
         texcoord := [(21 / 512, 5249 / 65536), (21 / 512, 41 / 512),
           (2689 / 65536, 41 / 512), (2689 / 65536, 5249 / 65536)],
         texpage := 1 }] := by
  refine ⟨by simp [load_sprites], ?_, ?_⟩
  · intro i d hd
    refine ⟨load_sprite i d, load_sprites_getElem records i d hd, rfl, ?_⟩
    simp [load_sprite]
  · have hx : u8 10 = 10 := by decide
    have hy : u8 20 = 20 := by decide
    have hw : u16 256 = 256 := by decide
    have hp : u16 0 = 0 := by decide
    have hp1 : u16 ((0 + 1 : Nat) : Int) = 1 := by decide
    have hl : i16 (-50) = -50 := by decide
    have ht : i16 100 = 100 := by decide
    have hr : i16 50 = 50 := by decide
    have hb : i16 0 = 0 := by decide
    simp only [load_sprites, sample_d_sprite, List.enum, List.enumFrom, List.map, load_sprite,
      hx, hy, hw, hp, hp1, hl, ht, hr, hb]
    norm_num

/-- C15 on the record of the scenario, from the formulas. -/
theorem load_sprites_geometry_witness :
    ∃ s, (load_sprites [sample_d_sprite])[0]? = some s ∧
      s.position = ([(-50, 0), (-50, -100), (50, -100), (50, 0)] : List (ℚ × ℚ)) ∧
      s.texcoord = ([(21 / 512, 5249 / 65536), (21 / 512, 41 / 512),
        (2689 / 65536, 41 / 512), (2689 / 65536, 5249 / 65536)] : List (ℚ × ℚ)) := by
  obtain ⟨s, hs, _, hpos, htex⟩ :=
    (load_sprites_geometry [sample_d_sprite]).2.1 0 sample_d_sprite rfl
  have hx : u8 10 = 10 := by decide
  have hy : u8 20 = 20 := by decide
  have hw : u16 256 = 256 := by decide
  have hl : i16 (-50) = -50 := by decide
  have ht : i16 100 = 100 := by decide
  have hr : i16 50 = 50 := by decide
  have hb : i16 0 = 0 := by decide
  refine ⟨s, hs, ?_, ?_⟩
  · rw [hpos]
    simp only [sample_d_sprite, hl, ht, hr, hb]
    norm_num
  · rw [htex]
    simp only [sample_d_sprite, hx, hy, hw]
    norm_num

/-! ## Rooms: the static meshes -/

theorem vector_at_eq (α : Type) (v : List α) (i : Nat) :
    vector_at v i = match v[i]? with
      | some x => .ok x
      | none => .error .out_of_range := rfl

/-- The binding of a placement succeeds exactly with the mesh the placement resolves
to. -/
theorem bind_static_mesh_ok_iff (meshes : List mesh) (static_meshes : List d_static_mesh)
    (p : d_room_static_mesh) (r : Nat × mesh) :
    bind_static_mesh meshes static_meshes p = .ok r ↔
      resolved_mesh meshes static_meshes p = some r := by
  unfold bind_static_mesh resolved_mesh
  cases static_meshes.find? (fun dsm => dsm.id = p.static_mesh_id) with
  | none => simp [throw, throwThe, MonadExceptOf.throw]
  | some dsm =>
    simp only [vector_at_eq, bind, Except.bind, pure, Except.pure]
    cases meshes[dsm.mesh]? with
    | none => simp
    | some m => simp

/-- A placement whose id is the id of no descriptor fails the assertion. -/
theorem bind_static_mesh_unknown (meshes : List mesh) (static_meshes : List d_static_mesh)
    (p : d_room_static_mesh) (h : ∀ dsm ∈ static_meshes, dsm.id ≠ p.static_mesh_id) :
    bind_static_mesh meshes static_meshes p = .error .assertion_failed := by
  unfold bind_static_mesh
  have hnone : static_meshes.find? (fun dsm => dsm.id = p.static_mesh_id) = none := by
    rw [List.find?_eq_none]
    intro x hx
    simpa using h x hx
  rw [hnone]
  rfl

/-- A placement whose id is known is bound through the first descriptor with that id: to
the mesh at its index, or the lookup of that index fails. -/
theorem bind_static_mesh_known (meshes : List mesh) (static_meshes : List d_static_mesh)
    (p : d_room_static_mesh) (h : ∃ dsm ∈ static_meshes, dsm.id = p.static_mesh_id) :
    ∃ before dsm after, static_meshes = before ++ dsm :: after ∧
      dsm.id = p.static_mesh_id ∧ (∀ x ∈ before, x.id ≠ p.static_mesh_id) ∧
      bind_static_mesh meshes static_meshes p =
        match meshes[dsm.mesh]? with
        | some m => .ok (dsm.mesh, m)
        | none => .error .out_of_range := by
  cases hf : static_meshes.find? (fun dsm => dsm.id = p.static_mesh_id) with
  | none =>
    rw [List.find?_eq_none] at hf
    obtain ⟨dsm, hmem, hid⟩ := h
    exact absurd (by simpa using hid) (hf dsm hmem)
  | some dsm =>
    obtain ⟨hid, before, after, hsplit, hbefore⟩ := List.find?_eq_some.1 hf
    refine ⟨before, dsm, after, hsplit, by simpa using hid, ?_, ?_⟩
    · intro x hx
      simpa using hbefore x hx
    · unfold bind_static_mesh
      rw [hf]
      simp only [vector_at_eq, bind, Except.bind, pure, Except.pure]
      cases meshes[dsm.mesh]? <;> rfl

/-- One iteration of the static mesh loop of `room_loader::load`. -/
theorem load_room_static_meshes_cons (g : glm_lib) (meshes : List mesh)
    (static_meshes : List d_static_mesh) (p : d_room_static_mesh)
    (rest : List d_room_static_mesh) (out : List room_static_mesh) :
    load_room_static_meshes g meshes static_meshes (p :: rest) out =
      match bind_static_mesh meshes static_meshes p with
      | .error e => .error e
      | .ok r =>
        load_room_static_meshes g meshes static_meshes rest
          (if r.2.lightmode = .mesh_lightmode_external then
            (out ++ [(⟨r.1, room_static_mesh_transform g p,
              1 - (p.lighting1 : ℚ) / 8191⟩ : room_static_mesh)]).dropLast
           else out ++ [(⟨r.1, room_static_mesh_transform g p,
              1 - (p.lighting1 : ℚ) / 8191⟩ : room_static_mesh)]) := by
  rw [load_room_static_meshes]
  cases bind_static_mesh meshes static_meshes p with
  | error e => rfl
  | ok r => rfl

/-- When the static mesh loop returns, every placement has resolved to a mesh, and the
entries appended are those of the placements that resolve to an internally lit mesh, in
the order of the placements. -/
theorem load_room_static_meshes_ok (g : glm_lib) (meshes : List mesh)
    (static_meshes : List d_static_mesh) :
    ∀ (ps : List d_room_static_mesh) (out res : List room_static_mesh),
      load_room_static_meshes g meshes static_meshes ps out = .ok res →
      (∀ p ∈ ps, ∃ r, resolved_mesh meshes static_meshes p = some r) ∧
      res = out ++ (ps.filter (internally_lit meshes static_meshes)).map
        (placed_static_mesh g meshes static_meshes) := by
  intro ps
  induction ps with
  | nil =>
    intro out res h
    simp only [load_room_static_meshes, pure, Except.pure, Except.ok.injEq] at h
    subst h
    simp
  | cons p rest ih =>
    intro out res h
    rw [load_room_static_meshes_cons] at h
    cases hb : bind_static_mesh meshes static_meshes p with
    | error e => rw [hb] at h; cases h
    | ok r =>
      rw [hb] at h
      simp only [] at h
      have hr := (bind_static_mesh_ok_iff _ _ _ _).1 hb
      obtain ⟨hall, hres⟩ := ih _ _ h
      refine ⟨?_, ?_⟩
      · intro q hq
        rcases List.mem_cons.1 hq with hq | hq
        · subst hq
          exact ⟨r, hr⟩
        · exact hall q hq
      · rw [hres]
        obtain ⟨i, m⟩ := r
        cases hm : m.lightmode with
        | mesh_lightmode_internal =>
          have hlit : internally_lit meshes static_meshes p = true := by
            simp [internally_lit, hr, hm]
          have hplaced : placed_static_mesh g meshes static_meshes p =
              ⟨i, room_static_mesh_transform g p, 1 - (p.lighting1 : ℚ) / 8191⟩ := by
            simp [placed_static_mesh, hr]
          simp [hm, hlit, hplaced]
        | mesh_lightmode_external =>
          have hlit : internally_lit meshes static_meshes p = false := by
            simp [internally_lit, hr, hm]
          simp [hm, hlit]

/-- The static mesh loop fails when the binding of one of the placements fails. -/
theorem load_room_static_meshes_error (g : glm_lib) (meshes : List mesh)
    (static_meshes : List d_static_mesh) :
    ∀ (ps : List d_room_static_mesh) (out : List room_static_mesh),
      (∃ p ∈ ps, ∃ e, bind_static_mesh meshes static_meshes p = .error e) →
      ∃ e, load_room_static_meshes g meshes static_meshes ps out = .error e := by
  intro ps
  induction ps with
  | nil =>
    rintro out ⟨p, hp, _⟩
    simp at hp
  | cons q rest ih =>
    rintro out ⟨p, hp, e, he⟩
    rw [load_room_static_meshes_cons]
    cases hb : bind_static_mesh meshes static_meshes q with
    | error e' => exact ⟨e', rfl⟩
    | ok r =>
      simp only []
      rcases List.mem_cons.1 hp with hp | hp
      · subst hp
        rw [hb] at he
        cases he
      · exact ih _ ⟨p, hp, e, he⟩

theorem for_each_error_of_mem {α β : Type} (f : α → Except failure β) :
    ∀ (l : List α), (∃ a ∈ l, ∃ e, f a = .error e) → ∃ e, for_each f l = .error e := by
  intro l
  induction l with
  | nil =>
    rintro ⟨a, ha, _⟩
    simp at ha
  | cons x l ih =>
    rintro ⟨a, ha, e, he⟩
    rw [for_each]
    cases hx : f x with
    | error e' => exact ⟨e', rfl⟩
    | ok b =>
      simp only []
      rcases List.mem_cons.1 ha with ha | ha
      · subst ha
        rw [hx] at he
        cases he
      · obtain ⟨e', he'⟩ := ih ⟨a, ha, e, he⟩
        rw [he']
        exact ⟨e', rfl⟩

theorem for_each_ok_length {α β : Type} (f : α → Except failure β) :
    ∀ (l : List α) (r : List β), for_each f l = .ok r → r.length = l.length := by
  intro l
  induction l with
  | nil =>
    intro r h
    simp only [for_each, Except.ok.injEq] at h
    subst h
    rfl
  | cons x l ih =>
    intro r h
    rw [for_each] at h
    cases hx : f x with
    | error e => rw [hx] at h; cases h
    | ok b =>
      rw [hx] at h
      simp only [] at h
      cases hl : for_each f l with
      | error e => rw [hl] at h; cases h
      | ok bs =>
        rw [hl] at h
        cases h
        simp [ih bs hl]

/-- The function `load_room` as a chain of its loops. -/
theorem load_room_eq (g : glm_lib) (lvl : level) (static_meshes : List d_static_mesh)
    (room_idx : Nat) (droom : d_room) :
    load_room g lvl static_meshes room_idx droom =
      match for_each (load_room_polygon lvl) droom.quads with
      | .error e => .error e
      | .ok quads =>
        match for_each (load_room_polygon lvl) droom.tris with
        | .error e => .error e
        | .ok tris =>
          match for_each (load_room_static_sprite lvl droom) droom.static_sprites with
          | .error e => .error e
          | .ok static_sprites =>
            match load_room_static_meshes g lvl.meshes static_meshes droom.static_meshes
              [] with
            | .error e => .error e
            | .ok room_static_meshes =>
              .ok { id := room_idx
                    geometry := ⟨room_idx, .mesh_lightmode_internal,
                      droom.vertices.map (load_room_vertex droom), quads ++ tris⟩
                    ambient_light_intensity := 1 - (droom.ambient_lighting1 : ℚ) / 8191
                    lights := droom.lights.map load_room_light
                    static_meshes := room_static_meshes
                    static_sprites := static_sprites
                    altroom := droom.alternate_room
                    flags := droom.flags } := by
  unfold load_room
  cases for_each (load_room_polygon lvl) droom.quads with
  | error e => rfl
  | ok quads =>
    cases for_each (load_room_polygon lvl) droom.tris with
    | error e => rfl
    | ok tris =>
      cases for_each (load_room_static_sprite lvl droom) droom.static_sprites with
      | error e => rfl
      | ok static_sprites =>
        cases load_room_static_meshes g lvl.meshes static_meshes droom.static_meshes [] with
        | error e => rfl
        | ok room_static_meshes => rfl

/-- The static meshes of a room `load_room` returns are those its static mesh loop
returns. -/
theorem load_room_static_meshes_of_ok (g : glm_lib) (lvl : level)
    (static_meshes : List d_static_mesh) (room_idx : Nat) (droom : d_room) (room : room)
    (h : load_room g lvl static_meshes room_idx droom = .ok room) :
    load_room_static_meshes g lvl.meshes static_meshes droom.static_meshes [] =
      .ok room.static_meshes := by
  rw [load_room_eq] at h
  split at h
  · cases h
  · split at h
    · cases h
    · split at h
      · cases h
      · split at h
        · cases h
        · rename_i rsm hrsm
          cases h
          exact hrsm

/-- A room whose static mesh loop fails is not loaded. -/
theorem load_room_error (g : glm_lib) (lvl : level) (static_meshes : List d_static_mesh)
    (room_idx : Nat) (droom : d_room)
    (h : ∃ e, load_room_static_meshes g lvl.meshes static_meshes droom.static_meshes [] =
      .error e) :
    ∃ e, load_room g lvl static_meshes room_idx droom = .error e := by
  obtain ⟨e, he⟩ := h
  rw [load_room_eq]
  split
  · exact ⟨_, rfl⟩
  · split
    · exact ⟨_, rfl⟩
    · split
      · exact ⟨_, rfl⟩
      · rw [he]
        exact ⟨e, rfl⟩

/-- The function `room_loader::load` as its room loop. -/
theorem room_loader_load_eq (g : glm_lib) (static_meshes : List d_static_mesh)
    (rooms : List d_room) (lvl : level) :
    room_loader.load g static_meshes rooms lvl =
      match for_each (fun p => load_room g lvl static_meshes p.1 p.2) rooms.enum with
      | .error e => .error e
      | .ok rs => .ok { lvl with rooms := rs } := by
  unfold room_loader.load
  cases for_each (fun p => load_room g lvl static_meshes p.1 p.2) rooms.enum <;> rfl

/-- The loops of `load_animations` end within their iterations. -/
theorem load_animations_terminates (v : version) (frame_data : List Nat)
    (headers : List d_animation) (hlen : frame_data.length < 2147483648) :
    load_animations v frame_data headers ≠ none := by
  unfold load_animations
  cases hh : for_each (read_animation v) headers with
  | error e => simp
  | ok anims =>
    simp only []
    have hp : ∀ p ∈ anims, p.2.frame_offset < 4294967296 ∧
        (v = .version_tr2 → p.2.frame_size ≠ 0) := by
      intro p hp
      obtain ⟨d', _, hd'⟩ := for_each_ok_mem _ headers anims hh p hp
      obtain ⟨pa, pe⟩ := p
      obtain ⟨he, hfs⟩ := read_animation_extra v d' pa pe hd'
      subst he
      exact ⟨u32_lt _, hfs⟩
    exact convert_anim_frames_terminates v frame_data hlen anims 0 [] hp (Nat.zero_le _)

/-- When `load_rooms` fails on every level, `decode_sections` returns no level. -/
theorem decode_sections_error_of_rooms (g : glm_lib) (v : version) (s : sections)
    (hlen : s.frame_data.length < 2147483648)
    (h : ∀ lvl, ∃ e, load_rooms g s.static_meshes s.rooms lvl = .error e) :
    ∃ e, decode_sections g v s = some (.error e) := by
  unfold decode_sections
  cases decode_texpages s with
  | error e => exact ⟨e, rfl⟩
  | ok texpages =>
  simp only []
  cases load_texinfos load_palette_texinfos s.texinfos s.texanimchains with
  | error e => exact ⟨e, rfl⟩
  | ok texinfos =>
  simp only []
  cases load_meshes texinfos s.meshes with
  | error e => exact ⟨e, rfl⟩
  | ok meshes =>
    simp only []
    cases ha : load_animations v s.frame_data s.animations with
    | none => exact absurd ha (load_animations_terminates v _ _ hlen)
    | some r =>
      cases r with
      | error e => exact ⟨e, rfl⟩
      | ok res =>
        obtain ⟨animations, anim_frame_data⟩ := res
        simp only []
        cases load_models s.bone_data meshes.length animations.length s.models with
        | error e => exact ⟨e, rfl⟩
        | ok models =>
          simp only []
          cases load_sprite_sequences (load_sprites s.sprites) s.sprite_sequences with
          | error e => exact ⟨e, rfl⟩
          | ok sprite_sequences =>
            simp only []
            obtain ⟨e, he⟩ := h (level_before_rooms texpages texinfos meshes animations
              anim_frame_data models (load_sprites s.sprites) sprite_sequences)
            rw [he]
            exact ⟨e, rfl⟩

/-- When `decode_sections` returns no level whatever the directory is, `load` returns no
level. -/
theorem load_error_of_decode_error (g : glm_lib) (opened : Option file) (v : version)
    (read : file → directory → sections)
    (h : ∀ fp d, ∃ e, decode_sections g v (read fp d) = some (.error e)) :
    ∃ e, load g opened v read = some (.error e) := by
  cases opened with
  | none => exact ⟨_, rfl⟩
  | some fp =>
    show ∃ e, decode_with_directory g v read fp (build_level_directory v fp) = _
    generalize build_level_directory v fp = r
    cases r with
    | error e => exact ⟨e, rfl⟩
    | ok d => exact h fp d

theorem room_loader_load_unknown (g : glm_lib) (static_meshes : List d_static_mesh)
    (rooms : List d_room) (lvl : level) (h : unknown_static_mesh_id static_meshes rooms) :
    ∃ e, room_loader.load g static_meshes rooms lvl = .error e := by
  obtain ⟨droom, hroom, p, hp, hid⟩ := h
  obtain ⟨r, hr⟩ := List.getElem?_of_mem hroom
  have hmem : (r, droom) ∈ rooms.enum := by
    rw [List.mem_enum_iff_getElem?]
    exact hr
  have hfail : ∃ e, load_room g lvl static_meshes r droom = .error e :=
    load_room_error g lvl static_meshes r droom
      (load_room_static_meshes_error g lvl.meshes static_meshes _ []
        ⟨p, hp, _, bind_static_mesh_unknown lvl.meshes static_meshes p hid⟩)
  obtain ⟨e, he⟩ := for_each_error_of_mem
    (fun p => load_room g lvl static_meshes p.1 p.2) rooms.enum ⟨(r, droom), hmem, hfail⟩
  rw [room_loader_load_eq, he]
  exact ⟨e, rfl⟩

theorem resolved_mesh_some (meshes : List mesh) (static_meshes : List d_static_mesh)
    (p : d_room_static_mesh) (i : Nat) (m : mesh)
    (h : resolved_mesh meshes static_meshes p = some (i, m)) : meshes[i]? = some m := by
  unfold resolved_mesh at h
  split at h
  · rename_i dsm _
    cases hm : meshes[dsm.mesh]? with
    | none => rw [hm] at h; cases h
    | some m' =>
      rw [hm] at h
      simp only [Option.map_some', Option.some.injEq, Prod.mk.injEq] at h
      rw [← h.1, ← h.2]
      exact hm
  · cases h

theorem for_each_ok_all {α β : Type} (f : α → Except failure β) (l : List α) (r : List β)
    (h : for_each f l = .ok r) : ∀ a ∈ l, ∃ b, f a = .ok b := by
  intro a ha
  obtain ⟨i, hi⟩ := List.getElem?_of_mem ha
  obtain ⟨b, _, hb⟩ := (for_each_ok_getElem f l r h i).1 a hi
  exact ⟨b, hb⟩

/-- C16: when `room_loader::load` returns, the meshes of the level are unchanged, there is
one room per room of the file, and the static meshes of each room are the entries of the
placements of that room that resolve to an internally lit mesh, in the order of the
placements: a placement that resolves to an externally lit mesh has no entry, and every
entry points to an internally lit mesh. -/
theorem room_loader_keeps_internally_lit (g : glm_lib) (static_meshes : List d_static_mesh)
    (rooms : List d_room) (lvl lvl' : level)
    (h : room_loader.load g static_meshes rooms lvl = .ok lvl') :
    lvl'.meshes = lvl.meshes ∧ lvl'.rooms.length = rooms.length ∧
    ∀ (r : Nat) (droom : d_room), rooms[r]? = some droom →
      ∃ room, lvl'.rooms[r]? = some room ∧
        room.static_meshes =
          (droom.static_meshes.filter (internally_lit lvl.meshes static_meshes)).map
            (placed_static_mesh g lvl.meshes static_meshes) ∧
        (∀ p ∈ droom.static_meshes, ∃ i m,
          resolved_mesh lvl.meshes static_meshes p = some (i, m) ∧
          (m.lightmode = .mesh_lightmode_external →
            internally_lit lvl.meshes static_meshes p = false)) ∧
        (∀ sm ∈ room.static_meshes, ∃ m, lvl'.meshes[sm.mesh]? = some m ∧
          m.lightmode = .mesh_lightmode_internal) := by
  rw [room_loader_load_eq] at h
  cases hf : for_each (fun p => load_room g lvl static_meshes p.1 p.2) rooms.enum with
  | error e => rw [hf] at h; cases h
  | ok rs =>
    rw [hf] at h
    cases h
    refine ⟨rfl, ?_, ?_⟩
    · show rs.length = rooms.length
      rw [for_each_ok_length _ _ _ hf, List.enum_length]
    · intro r droom hr
      have henum : rooms.enum[r]? = some (r, droom) := by
        rw [List.getElem?_enum, hr]
        rfl
      obtain ⟨room, hroom, hload⟩ := (for_each_ok_getElem _ _ _ hf r).1 _ henum
      have hsm := load_room_static_meshes_of_ok g lvl static_meshes r droom room hload
      obtain ⟨hall, hres⟩ := load_room_static_meshes_ok g lvl.meshes static_meshes _ _ _ hsm
      rw [List.nil_append] at hres
      refine ⟨room, hroom, hres, ?_, ?_⟩
      · intro p hp
        obtain ⟨⟨i, m⟩, hpr⟩ := hall p hp
        refine ⟨i, m, hpr, ?_⟩
        intro hext
        simp [internally_lit, hpr, hext]
      · intro sm hsm'
        rw [hres] at hsm'
        obtain ⟨p, hp, hps⟩ := List.mem_map.1 hsm'
        obtain ⟨hp, hlit⟩ := List.mem_filter.1 hp
        obtain ⟨⟨i, m⟩, hpr⟩ := hall p hp
        have hint : m.lightmode = .mesh_lightmode_internal := by
          simpa [internally_lit, hpr] using hlit
        refine ⟨m, ?_, hint⟩
        rw [← hps]
        show lvl.meshes[(placed_static_mesh g lvl.meshes static_meshes p).mesh]? = some m
        simp only [placed_static_mesh, hpr, Option.map_some', Option.getD_some]
        exact resolved_mesh_some _ _ _ _ _ hpr

set_option maxRecDepth 20000 in
/-- C16 on a room with three placements, of ids 7, 8 and 7: id 7 resolves to mesh 0,
internally lit, and id 8 to mesh 1, externally lit; the room has two static meshes, both
mesh 0, and the level keeps its two meshes. -/
theorem room_loader_keeps_internally_lit_witness :
    ∃ lvl', room_loader.load glm_rational sample_static_meshes
        [sample_d_room_with [7, 8, 7]] sample_mesh_level = .ok lvl' ∧
      lvl'.rooms.map (fun r => r.static_meshes.map (·.mesh)) = [[0, 0]] ∧
      lvl'.meshes = sample_mesh_level.meshes ∧
      lvl'.rooms.length = [sample_d_room_with [7, 8, 7]].length ∧
      ∀ (r : Nat) (droom : d_room), [sample_d_room_with [7, 8, 7]][r]? = some droom →
        ∃ room, lvl'.rooms[r]? = some room ∧
          room.static_meshes =
            (droom.static_meshes.filter
              (internally_lit sample_mesh_level.meshes sample_static_meshes)).map
              (placed_static_mesh glm_rational sample_mesh_level.meshes
                sample_static_meshes) ∧
          (∀ p ∈ droom.static_meshes, ∃ i m,
            resolved_mesh sample_mesh_level.meshes sample_static_meshes p = some (i, m) ∧
            (m.lightmode = .mesh_lightmode_external →
              internally_lit sample_mesh_level.meshes sample_static_meshes p = false)) ∧
          (∀ sm ∈ room.static_meshes, ∃ m, lvl'.meshes[sm.mesh]? = some m ∧
            m.lightmode = .mesh_lightmode_internal) := by
  have hv : (room_loader.load glm_rational sample_static_meshes
      [sample_d_room_with [7, 8, 7]] sample_mesh_level).toOption.map
      (fun l => l.rooms.map (fun r => r.static_meshes.map (·.mesh))) = some [[0, 0]] := by
    decide
  cases h : room_loader.load glm_rational sample_static_meshes
      [sample_d_room_with [7, 8, 7]] sample_mesh_level with
  | error e => rw [h] at hv; cases hv
  | ok lvl' =>
    rw [h] at hv
    exact ⟨lvl', rfl, by simpa [Except.toOption] using hv,
      room_loader_keeps_internally_lit glm_rational sample_static_meshes _
        sample_mesh_level lvl' h⟩

/-- C17: when a static mesh placement of a room has an id that is the id of no static mesh
descriptor, `room_loader::load` fails, and so does `load` on every file whose rooms and
descriptors these are: no level is returned. When `room_loader::load` returns, every
placement has been bound through the first descriptor with its id, to the mesh at the
index that descriptor gives; for a placement with a known id the binding is that mesh, or
fails when the index is that of no mesh. -/
theorem room_loader_binds_first_descriptor (g : glm_lib)
    (static_meshes : List d_static_mesh) (rooms : List d_room) (lvl : level) :
    (unknown_static_mesh_id static_meshes rooms →
      (∃ e, room_loader.load g static_meshes rooms lvl = .error e) ∧
      ∀ (opened : Option file) (v : version) (read : file → directory → sections),
        (∀ fp d, (read fp d).static_meshes = static_meshes ∧ (read fp d).rooms = rooms ∧
          (read fp d).frame_data.length < 2147483648) →
        ∃ e, load g opened v read = some (.error e)) ∧
    (∀ lvl', room_loader.load g static_meshes rooms lvl = .ok lvl' →
      ∀ droom ∈ rooms, ∀ p ∈ droom.static_meshes,
        ∃ before dsm after m, static_meshes = before ++ dsm :: after ∧
          dsm.id = p.static_mesh_id ∧ (∀ x ∈ before, x.id ≠ p.static_mesh_id) ∧
          lvl.meshes[dsm.mesh]? = some m ∧
          bind_static_mesh lvl.meshes static_meshes p = .ok (dsm.mesh, m)) ∧
    (∀ p : d_room_static_mesh, (∃ dsm ∈ static_meshes, dsm.id = p.static_mesh_id) →
      ∃ before dsm after, static_meshes = before ++ dsm :: after ∧
        dsm.id = p.static_mesh_id ∧ (∀ x ∈ before, x.id ≠ p.static_mesh_id) ∧
        bind_static_mesh lvl.meshes static_meshes p =
          match lvl.meshes[dsm.mesh]? with
          | some m => .ok (dsm.mesh, m)
          | none => .error .out_of_range) := by
  refine ⟨?_, ?_, fun p hp => bind_static_mesh_known lvl.meshes static_meshes p hp⟩
  · intro hunknown
    refine ⟨room_loader_load_unknown g static_meshes rooms lvl hunknown, ?_⟩
    intro opened v read hread
    apply load_error_of_decode_error
    intro fp d
    obtain ⟨hsm, hrooms, hlen⟩ := hread fp d
    apply decode_sections_error_of_rooms g v _ hlen
    intro lvl1
    rw [hsm, hrooms]
    exact room_loader_load_unknown g static_meshes rooms lvl1 hunknown
  · intro lvl' h droom hdroom p hp
    rw [room_loader_load_eq] at h
    cases hf : for_each (fun p => load_room g lvl static_meshes p.1 p.2) rooms.enum with
    | error e => rw [hf] at h; cases h
    | ok rs =>
      obtain ⟨r, hr⟩ := List.getElem?_of_mem hdroom
      have hmem : (r, droom) ∈ rooms.enum := by
        rw [List.mem_enum_iff_getElem?]
        exact hr
      obtain ⟨room, hroom⟩ := for_each_ok_all _ _ _ hf _ hmem
      have hsm := load_room_static_meshes_of_ok g lvl static_meshes r droom room hroom
      obtain ⟨hall, _⟩ := load_room_static_meshes_ok g lvl.meshes static_meshes _ _ _ hsm
      obtain ⟨⟨i, m⟩, hpr⟩ := hall p hp
      have hbind := (bind_static_mesh_ok_iff _ _ _ _).2 hpr
      have hex : ∃ dsm ∈ static_meshes, dsm.id = p.static_mesh_id := by
        by_contra hne
        push_neg at hne
        have := bind_static_mesh_unknown lvl.meshes static_meshes p hne
        rw [hbind] at this
        cases this
      obtain ⟨before, dsm, after, hsplit, hid, hbefore, hb⟩ :=
        bind_static_mesh_known lvl.meshes static_meshes p hex
      rw [hbind] at hb
      cases hm : lvl.meshes[dsm.mesh]? with
      | none => rw [hm] at hb; cases hb
      | some m' =>
        rw [hm] at hb
        simp only [Except.ok.injEq, Prod.mk.injEq] at hb
        refine ⟨before, dsm, after, m', hsplit, hid, hbefore, hm, ?_⟩
        rw [hbind, hb.1, hb.2]

set_option maxRecDepth 20000 in
/-- C17 on a room with placements of ids 7 and 9, where 9 is the id of no descriptor:
`room_loader::load` ends in the failed assertion, `load` returns no level on a file with
this room, and the placement with id 7 is bound to mesh 0 through the first of the two
descriptors with that id. -/
theorem room_loader_binds_first_descriptor_witness :
    unknown_static_mesh_id sample_static_meshes [sample_d_room_with [7, 9]] ∧
    room_loader.load glm_rational sample_static_meshes [sample_d_room_with [7, 9]]
      sample_mesh_level = .error .assertion_failed ∧
    (∃ e, load glm_rational (some (zero_file 9582)) .version_tr1
      (fun _ _ => sample_room_sections [7, 9]) = some (.error e)) ∧
    ∃ before dsm after, sample_static_meshes = before ++ dsm :: after ∧
      dsm.id = 7 ∧ (∀ x ∈ before, x.id ≠ 7) ∧
      bind_static_mesh sample_mesh_level.meshes sample_static_meshes
        ⟨⟨0, 0, 0⟩, 0, 0, 0, 7⟩ =
        match sample_mesh_level.meshes[dsm.mesh]? with
        | some m => .ok (dsm.mesh, m)
        | none => .error .out_of_range := by
  have hunknown : unknown_static_mesh_id sample_static_meshes [sample_d_room_with [7, 9]] :=
    ⟨_, List.mem_singleton.2 rfl, ⟨⟨0, 0, 0⟩, 0, 0, 0, 9⟩, by
      simp [sample_d_room_with], by decide⟩
  have h := room_loader_binds_first_descriptor glm_rational sample_static_meshes
    [sample_d_room_with [7, 9]] sample_mesh_level
  refine ⟨hunknown, failure_of_eq_some _ _ (by decide), ?_, ?_⟩
  · exact (h.1 hunknown).2 _ _ _ (fun _ _ => ⟨rfl, rfl, by decide⟩)
  · exact h.2.2 ⟨⟨0, 0, 0⟩, 0, 0, 0, 7⟩ ⟨⟨7, 0, [], 0⟩, by simp [sample_static_meshes], rfl⟩

/-! ## Placed objects: the room index -/

/-- A record with the id of a model and a room index that is the index of no room is not
instantiated: the first inner loop of `load_objects` fails. -/
theorem load_model_object_bad_room (g : glm_lib) (lvl : level) (num_rooms : Nat)
    (d : d_object) (hid : ∃ m ∈ lvl.models, m.id = u16 d.id)
    (hroom : ¬ u16 d.room < num_rooms) :
    ∃ e, load_model_object g lvl num_rooms d = .error e := by
  unfold load_model_object
  cases hf : lvl.models.find? (fun m => m.id = u16 d.id) with
  | none =>
    rw [List.find?_eq_none] at hf
    obtain ⟨m, hm, hmid⟩ := hid
    exact absurd (by simpa using hmid) (hf m hm)
  | some m =>
    simp only [bind, Except.bind]
    cases (new_model_object g lvl.animations lvl.anim_frame_data m 0 (object_transform g d)
      0).result with
    | error e => exact ⟨e, rfl⟩
    | ok o =>
      simp only [hroom, not_false_eq_true, if_true]
      exact ⟨_, rfl⟩

/-- The same for a record with the id of a sprite sequence and the second inner loop. -/
theorem load_sprite_object_bad_room (lvl : level) (num_rooms : Nat) (d : d_object)
    (hid : ∃ q ∈ lvl.sprite_sequences, q.id = u16 d.id)
    (hroom : ¬ u16 d.room < num_rooms) :
    ∃ e, load_sprite_object lvl num_rooms d = .error e := by
  unfold load_sprite_object
  cases hf : lvl.sprite_sequences.findIdx? (fun q => q.id = u16 d.id) with
  | none =>
    rw [List.findIdx?_eq_none_iff] at hf
    obtain ⟨q, hq, hqid⟩ := hid
    exact absurd (by simpa using hqid) (by simpa using hf q hq)
  | some i =>
    simp only [bind, Except.bind, hroom, not_false_eq_true, if_true]
    exact ⟨_, rfl⟩

/-- A record with the id of neither a model nor a sprite sequence passes both inner loops
of `load_objects` without an instance, whatever its room index is. -/
theorem load_object_skipped (g : glm_lib) (lvl : level) (num_rooms : Nat) (d : d_object)
    (hm : ∀ m ∈ lvl.models, m.id ≠ u16 d.id)
    (hq : ∀ q ∈ lvl.sprite_sequences, q.id ≠ u16 d.id) :
    load_model_object g lvl num_rooms d = .ok none ∧
    load_sprite_object lvl num_rooms d = .ok none := by
  have h1 : lvl.models.find? (fun m => m.id = u16 d.id) = none := by
    rw [List.find?_eq_none]
    intro m hmem
    simpa using hm m hmem
  have h2 : lvl.sprite_sequences.findIdx? (fun q => q.id = u16 d.id) = none := by
    rw [List.findIdx?_eq_none_iff]
    intro q hmem
    simpa using hq q hmem
  unfold load_model_object load_sprite_object
  rw [h1, h2]
  exact ⟨rfl, rfl⟩

/-- The function `load_objects` fails when one of the records fails one of the inner
loops. -/
theorem load_objects_error (g : glm_lib) (num_rooms : Nat) :
    ∀ (ds : List d_object) (lvl : level),
      (∃ d ∈ ds, (∃ e, load_model_object g lvl num_rooms d = .error e) ∨
        (∃ e, load_sprite_object lvl num_rooms d = .error e)) →
      ∃ e, load_objects g num_rooms ds lvl = .error e := by
  intro ds
  induction ds with
  | nil =>
    rintro lvl ⟨d, hd, _⟩
    simp at hd
  | cons x ds ih =>
    rintro lvl ⟨d, hd, hfail⟩
    rw [load_objects]
    cases hmo : load_model_object g lvl num_rooms x with
    | error e => exact ⟨e, rfl⟩
    | ok mo =>
      cases hso : load_sprite_object lvl num_rooms x with
      | error e => exact ⟨e, rfl⟩
      | ok so =>
        simp only [bind, Except.bind]
        rcases List.mem_cons.1 hd with hd | hd
        · subst hd
          rcases hfail with ⟨e, he⟩ | ⟨e, he⟩
          · rw [hmo] at he
            cases he
          · rw [hso] at he
            cases he
        · apply ih
          refine ⟨d, hd, ?_⟩
          have e1 := load_model_object_congr g lvl
            { lvl with model_objects := lvl.model_objects ++ mo.toList,
                       sprite_objects := lvl.sprite_objects ++ so.toList } num_rooms
            rfl rfl rfl
          have e2 := load_sprite_object_congr lvl
            { lvl with model_objects := lvl.model_objects ++ mo.toList,
                       sprite_objects := lvl.sprite_objects ++ so.toList } num_rooms rfl
          rw [e1, e2]
          exact hfail

theorem exists_of_returns_level (x : Option (Except failure level))
    (h : returns_level x = true) : ∃ lvl, x = some (.ok lvl) := by
  cases x with
  | none => cases h
  | some r =>
    cases r with
    | error e => cases h
    | ok lvl => exact ⟨lvl, rfl⟩

set_option maxRecDepth 20000 in
theorem zero_file_tr1_directory : ∃ d, build_tr1_level_directory (zero_file 9582) = .ok d :=
  (finish_directory_ok_iff (zero_file 9582) _).2 (by decide)

theorem load_model_id (bone_data : List Int) (nlm na : Nat) (d : d_model) (m : model)
    (h : load_model bone_data nlm na d = .ok m) : m.id = u32 d.id := by
  simp only [load_model, bind, Except.bind, pure, Except.pure] at h
  split at h
  · split at h
    · split at h
      · cases h
      · cases h
        rfl
    · cases h
  · split at h
    · cases h
    · cases h
      rfl

/-- Every model record has its model, with its id, among the models `load_models`
returns. -/
theorem load_models_ids (bone_data : List Int) (nlm na : Nat) (records : List d_model)
    (models : List model) (h : load_models bone_data nlm na records = .ok models) :
    ∀ dm ∈ records, ∃ m ∈ models, m.id = u32 dm.id := by
  intro dm hdm
  obtain ⟨i, hi⟩ := List.getElem?_of_mem hdm
  obtain ⟨m, hm, hload⟩ := (for_each_ok_getElem _ records models h i).1 dm hi
  exact ⟨m, List.getElem?_mem hm, load_model_id _ _ _ dm m hload⟩

theorem load_sprite_sequence_id (sprites : List sprite) (d : d_sprite_sequence)
    (q : sprite_sequence) (h : load_sprite_sequence sprites d = .ok q) : q.id = u32 d.id := by
  simp only [load_sprite_sequence] at h
  split at h
  · cases h
  · cases h
    rfl

/-- Every sprite sequence record has its sequence, with its id, among the sequences
`load_sprite_sequences` returns. -/
theorem load_sprite_sequences_ids (sprites : List sprite) (records : List d_sprite_sequence)
    (qs : List sprite_sequence) (h : load_sprite_sequences sprites records = .ok qs) :
    ∀ dq ∈ records, ∃ q ∈ qs, q.id = u32 dq.id := by
  intro dq hdq
  obtain ⟨i, hi⟩ := List.getElem?_of_mem hdq
  obtain ⟨q, hq, hload⟩ := (for_each_ok_getElem _ records qs h i).1 dq hi
  exact ⟨q, List.getElem?_mem hq, load_sprite_sequence_id _ dq q hload⟩

/-- The function `load_rooms` fills the rooms of the level, one per room of the file, and
leaves the rest. -/
theorem load_rooms_fields (g : glm_lib) (static_meshes : List d_static_mesh)
    (rooms : List d_room) (lvl lvl' : level)
    (h : load_rooms g static_meshes rooms lvl = .ok lvl') :
    lvl'.models = lvl.models ∧ lvl'.sprite_sequences = lvl.sprite_sequences ∧
    lvl'.rooms.length = rooms.length := by
  unfold load_rooms at h
  rw [room_loader_load_eq] at h
  cases hf : for_each (fun p => load_room g lvl static_meshes p.1 p.2) rooms.enum with
  | error e => rw [hf] at h; cases h
  | ok rs =>
    rw [hf] at h
    cases h
    refine ⟨rfl, rfl, ?_⟩
    show rs.length = rooms.length
    rw [for_each_ok_length _ _ _ hf, List.enum_length]

theorem load_objects_bad_room (g : glm_lib) (num_rooms : Nat) (objects : List d_object)
    (lvl : level) (d : d_object) (hd : d ∈ objects) (hroom : ¬ u16 d.room < num_rooms)
    (hid : (∃ m ∈ lvl.models, m.id = u16 d.id) ∨
      (∃ q ∈ lvl.sprite_sequences, q.id = u16 d.id)) :
    ∃ e, load_objects g num_rooms objects lvl = .error e := by
  apply load_objects_error
  refine ⟨d, hd, ?_⟩
  rcases hid with hid | hid
  · exact Or.inl (load_model_object_bad_room g lvl num_rooms d hid hroom)
  · exact Or.inr (load_sprite_object_bad_room lvl num_rooms d hid hroom)

theorem decode_sections_bad_room (g : glm_lib) (v : version) (s : sections)
    (hlen : s.frame_data.length < 2147483648) (h : object_with_bad_room s) :
    ∃ e, decode_sections g v s = some (.error e) := by
  obtain ⟨d, hd, hroom, hid⟩ := h
  unfold decode_sections
  cases decode_texpages s with
  | error e => exact ⟨e, rfl⟩
  | ok texpages =>
  simp only []
  cases load_texinfos load_palette_texinfos s.texinfos s.texanimchains with
  | error e => exact ⟨e, rfl⟩
  | ok texinfos =>
  simp only []
  cases load_meshes texinfos s.meshes with
  | error e => exact ⟨e, rfl⟩
  | ok meshes =>
    simp only []
    cases ha : load_animations v s.frame_data s.animations with
    | none => exact absurd ha (load_animations_terminates v _ _ hlen)
    | some r =>
      cases r with
      | error e => exact ⟨e, rfl⟩
      | ok res =>
        obtain ⟨animations, anim_frame_data⟩ := res
        simp only []
        cases hm : load_models s.bone_data meshes.length animations.length s.models with
        | error e => exact ⟨e, rfl⟩
        | ok models =>
          simp only []
          cases hq : load_sprite_sequences (load_sprites s.sprites) s.sprite_sequences with
          | error e => exact ⟨e, rfl⟩
          | ok sprite_sequences =>
          simp only []
          cases hr : load_rooms g s.static_meshes s.rooms
              (level_before_rooms texpages texinfos meshes animations anim_frame_data models
                (load_sprites s.sprites) sprite_sequences) with
          | error e => exact ⟨e, rfl⟩
          | ok lvl =>
            simp only []
            obtain ⟨hmodels, hseq, hrooms⟩ := load_rooms_fields g _ _ _ _ hr
            have hfail := load_objects_bad_room g lvl.rooms.length s.objects lvl d hd
              (by rw [hrooms]; exact hroom) (by
                rcases hid with ⟨dm, hdm, hdmid⟩ | ⟨dq, hdq, hdqid⟩
                · obtain ⟨m, hmem, hmid⟩ := load_models_ids _ _ _ _ _ hm dm hdm
                  exact Or.inl ⟨m, by rw [hmodels]; exact hmem, by rw [hmid, hdmid]⟩
                · obtain ⟨q, hmem, hqid⟩ := load_sprite_sequences_ids _ _ _ hq dq hdq
                  exact Or.inr ⟨q, by rw [hseq]; exact hmem, by rw [hqid, hdqid]⟩)
            obtain ⟨e, he⟩ := hfail
            rw [he]
            exact ⟨e, rfl⟩

/-- C18 as amended: `load_objects` fails when a record that has the id of a loaded model
or of a sprite sequence names a room index that is not below the number of rooms, and
`load` then returns no level; a record with the id of neither passes both inner loops
without an instance and without a look at its room index. -/
theorem load_objects_checks_room_of_instances (g : glm_lib) (num_rooms : Nat)
    (objects : List d_object) (lvl : level) :
    (∀ d ∈ objects, ¬ u16 d.room < num_rooms →
      ((∃ m ∈ lvl.models, m.id = u16 d.id) ∨
        (∃ q ∈ lvl.sprite_sequences, q.id = u16 d.id)) →
      ∃ e, load_objects g num_rooms objects lvl = .error e) ∧
    (∀ (opened : Option file) (v : version) (read : file → directory → sections),
      (∀ fp d, object_with_bad_room (read fp d) ∧
        (read fp d).frame_data.length < 2147483648) →
      ∃ e, load g opened v read = some (.error e)) ∧
    (∀ d : d_object, (∀ m ∈ lvl.models, m.id ≠ u16 d.id) →
      (∀ q ∈ lvl.sprite_sequences, q.id ≠ u16 d.id) →
      load_model_object g lvl num_rooms d = .ok none ∧
      load_sprite_object lvl num_rooms d = .ok none) := by
  refine ⟨fun d hd hroom hid => load_objects_bad_room g num_rooms objects lvl d hd hroom hid,
    ?_, fun d hm hq => load_object_skipped g lvl num_rooms d hm hq⟩
  intro opened v read hread
  apply load_error_of_decode_error
  intro fp d
  exact decode_sections_bad_room g v _ (hread fp d).2 (hread fp d).1

set_option maxRecDepth 20000 in
/-- C18 fails for a record with the id of no model and of no sprite sequence: with room
index 5 on a level with one room, `load_objects` returns, leaving the level as it is, and
`load` returns a level for a file without rooms whose only object record is this one. -/
theorem unplaced_object_room_is_not_checked :
    ¬ u16 5 < sample_level.rooms.length ∧
    load_objects glm_rational sample_level.rooms.length [⟨77, 5, 0, 0, 0, 0, 0, 0⟩]
      sample_level = .ok sample_level ∧
    ∃ lvl, load glm_rational (some (zero_file 9582)) .version_tr1
        (fun _ _ => unplaced_object_sections) = some (.ok lvl) := by
  refine ⟨by decide, rfl, ?_⟩
  obtain ⟨d, hd⟩ := zero_file_tr1_directory
  obtain ⟨lvl, hlvl⟩ := exists_of_returns_level
    (decode_sections glm_rational .version_tr1 unplaced_object_sections) (by decide)
  refine ⟨lvl, ?_⟩
  show decode_with_directory glm_rational .version_tr1 (fun _ _ => unplaced_object_sections)
    (zero_file 9582) (build_tr1_level_directory (zero_file 9582)) = _
  rw [hd]
  exact hlvl

set_option maxRecDepth 20000 in
/-- C18 as amended, on the sample level with one room: the record of the sample model with
room index 5 makes `load_objects` fail, and the record with id 77 is passed over. -/
theorem load_objects_checks_room_of_instances_witness :
    (∃ e, load_objects glm_rational 1 [⟨77, 5, 0, 0, 0, 0, 0, 0⟩, ⟨5, 5, 0, 0, 0, 0, 0, 0⟩]
      sample_level = .error e) ∧
    load_model_object glm_rational sample_level 1 ⟨77, 5, 0, 0, 0, 0, 0, 0⟩ = .ok none ∧
    load_sprite_object sample_level 1 ⟨77, 5, 0, 0, 0, 0, 0, 0⟩ = .ok none :=
  have h := load_objects_checks_room_of_instances glm_rational 1
    [⟨77, 5, 0, 0, 0, 0, 0, 0⟩, ⟨5, 5, 0, 0, 0, 0, 0, 0⟩] sample_level
  ⟨h.1 ⟨5, 5, 0, 0, 0, 0, 0, 0⟩ (by simp) (by decide)
      (Or.inl ⟨sample_model, by simp [sample_level], by decide⟩),
    h.2.2 ⟨77, 5, 0, 0, 0, 0, 0, 0⟩ (by simp [sample_level, sample_model, u16])
      (by simp [sample_level, u16])⟩

/-! ## The version selector -/

/-- C19 as amended: with a version selector other than V1 and V2, `load` fails with the
`std::logic_error` of the version switch on every file that can be opened, whatever the
file holds and without a call of a section reader, and with the `std::runtime_error` of
the constructor on a path that cannot be opened: the file is opened before the selector is
looked at. -/
theorem load_bad_version (g : glm_lib) (read : file → directory → sections) :
    (∀ fp, load g (some fp) .version_invalid read = some (.error .logic_error)) ∧
    load g none .version_invalid read = some (.error .runtime_error) ∧
    (∀ fp, build_level_directory .version_invalid fp = .error .logic_error) :=
  ⟨fun _ => rfl, rfl, fun _ => rfl⟩

/-- C19 fails on a path that cannot be opened: `load` with the invalid selector ends with
the `std::runtime_error` of the constructor, not with the `std::logic_error` of the
version switch. -/
theorem bad_version_on_unopened_file :
    load glm_rational none .version_invalid (fun _ _ => empty_sections) =
      some (.error .runtime_error) ∧
    load glm_rational none .version_invalid (fun _ _ => empty_sections) ≠
      some (.error .logic_error) := by
  refine ⟨rfl, ?_⟩
  intro h
  cases h

/-! ## Texinfos: the palette entries and the records -/

theorem set_texanimchain_fields (texinfos texinfos' : List texinfo) (src dest : Nat)
    (h : set_texanimchain texinfos src dest = .ok texinfos') :
    texinfos'.map without_texanimchain = texinfos.map without_texanimchain := by
  simp only [set_texanimchain, bind, Except.bind, pure, Except.pure] at h
  split at h
  · cases h
  rename_i t ht
  split at h
  · cases h
  simp only [Except.ok.injEq] at h
  subst h
  have hsrc := vector_at_ok _ _ _ ht
  apply List.ext_getElem?
  intro i
  rw [List.getElem?_map, List.getElem?_map, List.getElem?_set]
  split
  · rename_i hi
    subst hi
    rw [hsrc]
    split
    · rfl
    · rename_i hlt
      rw [List.getElem?_eq_none (by omega)] at hsrc
      cases hsrc
  · rfl

theorem link_texanimchain_fields (cs : List Nat) :
    ∀ (js : List Nat) (texinfos texinfos' : List texinfo),
      link_texanimchain cs js texinfos = .ok texinfos' →
      texinfos'.map without_texanimchain = texinfos.map without_texanimchain := by
  intro js
  induction js with
  | nil =>
    intro T T' h
    simp only [link_texanimchain, pure, Except.pure, Except.ok.injEq] at h
    rw [h]
  | cons j js ih =>
    intro T T' h
    rw [link_texanimchain] at h
    simp only [bind, Except.bind] at h
    cases hs : set_texanimchain T (cs.getD j 0) (cs.getD ((j + 1) % cs.length) 0) with
    | error e => rw [hs] at h; cases h
    | ok T1 =>
      rw [hs] at h
      rw [ih _ _ h, set_texanimchain_fields _ _ _ _ hs]

theorem link_texanimchains_fields :
    ∀ (ds : List d_texanimchain) (texinfos texinfos' : List texinfo),
      link_texanimchains ds texinfos = .ok texinfos' →
      texinfos'.map without_texanimchain = texinfos.map without_texanimchain := by
  intro ds
  induction ds with
  | nil =>
    intro T T' h
    simp only [link_texanimchains, pure, Except.pure, Except.ok.injEq] at h
    rw [h]
  | cons d ds ih =>
    intro T T' h
    rw [link_texanimchains] at h
    simp only [bind, Except.bind] at h
    cases hl : link_texanimchain (texanimchain_texinfos d)
        (List.range (texanimchain_texinfos d).length) T with
    | error e => rw [hl] at h; cases h
    | ok T1 =>
      rw [hl] at h
      rw [ih _ _ h, link_texanimchain_fields _ _ _ _ hl]

theorem getElem_of_map_without (ts base : List texinfo)
    (h : ts.map without_texanimchain = base.map without_texanimchain) (i : Nat) (b : texinfo)
    (hb : base[i]? = some b) :
    ∃ t, ts[i]? = some t ∧ t.texcoord = b.texcoord ∧ t.texpage = b.texpage ∧
      t.texalphamode = b.texalphamode := by
  have hi := congrArg (fun l => l[i]?) h
  simp only [List.getElem?_map, hb, Option.map_some'] at hi
  cases ht : ts[i]? with
  | none => rw [ht] at hi; cases hi
  | some t =>
    rw [ht] at hi
    simp only [Option.map_some', Option.some.injEq] at hi
    have h1 : (without_texanimchain t).texcoord = (without_texanimchain b).texcoord :=
      congrArg _ hi
    have h2 : (without_texanimchain t).texpage = (without_texanimchain b).texpage :=
      congrArg _ hi
    have h3 : (without_texanimchain t).texalphamode =
        (without_texanimchain b).texalphamode := congrArg _ hi
    exact ⟨t, rfl, h1, h2, h3⟩

theorem load_palette_texinfos_length : load_palette_texinfos.length = 256 := by
  unfold load_palette_texinfos
  rw [List.length_map, List.length_range]

theorem load_palette_texinfos_getElem (i : Nat) (hi : i < 256) :
    load_palette_texinfos[i]? =
      some ⟨List.replicate 4 ((((i : Nat) : ℚ) + 1 / 2) / 256, (1 / 2 : ℚ) / 256), 0, 0, none⟩ := by
  unfold load_palette_texinfos
  rw [List.getElem?_map, List.getElem?_range hi]
  rfl

/-- C20: when `load_texinfos` returns on the texinfos `load_palette` has made, the level
has 256 texinfos and one more per texinfo record of the file; entry `i` below 256 has page
0, alpha mode 0 and the four texcoords ((i + 1/2)/256, (1/2)/256), and the record at
position `k` of the file is entry `256 + k`, with its alpha mode, its page plus one and the
texcoords of its four corners. -/
theorem load_texinfos_after_palette (records : List d_texinfo)
    (chains : List d_texanimchain) (texinfos : List texinfo)
    (h : load_texinfos load_palette_texinfos records chains = .ok texinfos) :
    texinfos.length = 256 + records.length ∧
    (∀ i : Nat, i < 256 → ∃ t, texinfos[i]? = some t ∧ t.texpage = 0 ∧ t.texalphamode = 0 ∧
      t.texcoord = List.replicate 4 ((((i : Nat) : ℚ) + 1 / 2) / 256, (1 / 2 : ℚ) / 256)) ∧
    (∀ (k : Nat) (d : d_texinfo), records[k]? = some d →
      ∃ t, texinfos[256 + k]? = some t ∧ t.texalphamode = u16 d.texalphamode ∧
        t.texpage = u16 ((u16 d.texpage + 1 : Nat) : Int) ∧
        t.texcoord = d.texcoord.map fun c =>
          ((((u8 c.1 : Nat) : ℚ) + 1 / 2) / 256, (((u8 c.2 : Nat) : ℚ) + 1 / 2) / 256)) := by
  unfold load_texinfos at h
  rw [if_neg (by rw [load_palette_texinfos_length]; decide)] at h
  have hmap := link_texanimchains_fields _ _ _ h
  refine ⟨?_, ?_, ?_⟩
  · have hlen := congrArg List.length hmap
    simp only [List.length_map, List.length_append, load_palette_texinfos_length] at hlen
    exact hlen
  · intro i hi
    have hb : (load_palette_texinfos ++ records.map load_texinfo)[i]? =
        some ⟨List.replicate 4 ((((i : Nat) : ℚ) + 1 / 2) / 256, (1 / 2 : ℚ) / 256), 0, 0, none⟩ := by
      rw [List.getElem?_append_left (by rw [load_palette_texinfos_length]; exact hi)]
      exact load_palette_texinfos_getElem i hi
    obtain ⟨t, ht, hc, hp, ha⟩ := getElem_of_map_without _ _ hmap i _ hb
    exact ⟨t, ht, hp, ha, hc⟩
  · intro k d hd
    have hb : (load_palette_texinfos ++ records.map load_texinfo)[256 + k]? =
        some (load_texinfo d) := by
      rw [List.getElem?_append_right (by rw [load_palette_texinfos_length]; omega),
        load_palette_texinfos_length, Nat.add_sub_cancel_left, List.getElem?_map, hd]
      rfl
    obtain ⟨t, ht, hc, hp, ha⟩ := getElem_of_map_without _ _ hmap _ _ hb
    exact ⟨t, ht, ha, hp, hc⟩

set_option maxRecDepth 20000 in
/-- C20 with one texinfo record and one texture animation chain, of that texinfo alone:
the level has 257 texinfos. -/
theorem load_texinfos_after_palette_witness :
    ∃ texinfos, load_texinfos load_palette_texinfos [sample_d_texinfo]
        [sample_texanimchain 0 [0]] = .ok texinfos ∧
      texinfos.length = 256 + [sample_d_texinfo].length ∧
      (∀ i : Nat, i < 256 → ∃ t, texinfos[i]? = some t ∧ t.texpage = 0 ∧ t.texalphamode = 0 ∧
        t.texcoord = List.replicate 4 ((((i : Nat) : ℚ) + 1 / 2) / 256, (1 / 2 : ℚ) / 256)) ∧
      (∀ (k : Nat) (d : d_texinfo), [sample_d_texinfo][k]? = some d →
        ∃ t, texinfos[256 + k]? = some t ∧ t.texalphamode = u16 d.texalphamode ∧
          t.texpage = u16 ((u16 d.texpage + 1 : Nat) : Int) ∧
          t.texcoord = d.texcoord.map fun c =>
            ((((u8 c.1 : Nat) : ℚ) + 1 / 2) / 256,
              (((u8 c.2 : Nat) : ℚ) + 1 / 2) / 256)) := by
  obtain ⟨texinfos, h⟩ := exists_of_toBool
    (load_texinfos load_palette_texinfos [sample_d_texinfo] [sample_texanimchain 0 [0]])
    (by decide)
  exact ⟨texinfos, h, load_texinfos_after_palette _ _ texinfos h⟩

/-! ## Texture pages and the page of a texinfo -/

/-- The texinfo record at position `k` of the file is entry `256 + k` of the texinfos
`load_texinfos` returns, with the page of `load_texinfo`. -/
theorem load_texinfos_record_texpage (records : List d_texinfo)
    (chains : List d_texanimchain) (texinfos : List texinfo)
    (h : load_texinfos load_palette_texinfos records chains = .ok texinfos)
    (k : Nat) (d : d_texinfo) (hd : records[k]? = some d) :
    ∃ t, texinfos[256 + k]? = some t ∧
      t.texpage = u16 ((u16 d.texpage + 1 : Nat) : Int) := by
  unfold load_texinfos at h
  rw [if_neg (by rw [load_palette_texinfos_length]; decide)] at h
  have hmap := link_texanimchains_fields _ _ _ h
  have hb : (load_palette_texinfos ++ records.map load_texinfo)[256 + k]? =
      some (load_texinfo d) := by
    rw [List.getElem?_append_right (by rw [load_palette_texinfos_length]; omega),
      load_palette_texinfos_length, Nat.add_sub_cancel_left, List.getElem?_map, hd]
    rfl
  obtain ⟨t, ht, _, hp, _⟩ := getElem_of_map_without _ _ hmap _ _ hb
  exact ⟨t, ht, hp⟩

theorem u16_natCast (n : Nat) : u16 ((n : Nat) : Int) = n % 65536 := by
  unfold u16
  omega

set_option maxRecDepth 20000 in
/-- C21 fails for a texinfo record whose page word is 0xFFFF, which `read16` returns as
-1: the sum 65536 is stored in the `ushort` member `texpage`, which holds 0, the index of
the palette page. -/
theorem texinfo_page_wraps :
    ∃ texinfos t, load_texinfos load_palette_texinfos [⟨0, -1, []⟩] [] = .ok texinfos ∧
      texinfos[256]? = some t ∧ u16 (-1) = 65535 ∧ t.texpage = 0 ∧
      t.texpage ≠ u16 (-1) + 1 := by
  obtain ⟨texinfos, h⟩ := exists_of_toBool
    (load_texinfos load_palette_texinfos [⟨0, -1, []⟩] []) (by decide)
  obtain ⟨t, ht, hp⟩ := load_texinfos_record_texpage _ _ _ h 0 ⟨0, -1, []⟩ rfl
  have hz : u16 ((u16 (-1) + 1 : Nat) : Int) = 0 := by decide
  rw [hz] at hp
  refine ⟨texinfos, t, h, ht, by decide, hp, ?_⟩
  rw [hp]
  decide

/-- C21 (amended): after `load_palette` and `load_texpages` the level holds one texture
page more than the file, the palette page first; texel `(i, j)` of the page of the file
at position `p`, which is page `p + 1` of the level, is the texel of row 0 of the palette
page at the column that is the byte at `(i, j)` of the page of the file; and the texinfo
of the record at position `n` has the page of the record plus one modulo 65536, which is
the page plus one for every page below 65535. -/
theorem load_texpages_expands_palette (s : sections) (texinfos : List texinfo)
    (h : load_texinfos load_palette_texinfos s.texinfos s.texanimchains = .ok texinfos) :
    ∃ texpages, decode_texpages s = .ok texpages ∧
      texpages.length = s.texpages.length + 1 ∧
      texpages[0]? = some (load_palette_texpage s.palette) ∧
      (∀ (p : Nat) (src : Nat → Nat → Nat), s.texpages[p]? = some src →
        ∃ page, texpages[p + 1]? = some page ∧
          ∀ i j k : Nat, i < 256 → j < 256 → k < 4 →
            page.pixels i j k =
              (load_palette_texpage s.palette).pixels 0 (src i j % 256) k) ∧
      (∀ (n : Nat) (d : d_texinfo), s.texinfos[n]? = some d →
        ∃ t, texinfos[256 + n]? = some t ∧ t.texpage = (u16 d.texpage + 1) % 65536 ∧
          (u16 d.texpage < 65535 → t.texpage = u16 d.texpage + 1)) := by
  refine ⟨load_palette_texpage s.palette ::
    s.texpages.map (load_texpage (load_palette_texpage s.palette)), rfl, ?_,
    List.getElem?_cons_zero, ?_, ?_⟩
  · rw [List.length_cons, List.length_map]
  · intro p src hsrc
    refine ⟨load_texpage (load_palette_texpage s.palette) src, ?_, ?_⟩
    · rw [List.getElem?_cons_succ, List.getElem?_map, hsrc]
      rfl
    · intro i j k hi hj hk
      show (if i < 256 ∧ j < 256 ∧ k < 4 then _ else _) = _
      rw [if_pos ⟨hi, hj, hk⟩]
  · intro n d hd
    obtain ⟨t, ht, hp⟩ := load_texinfos_record_texpage _ _ _ h n d hd
    rw [u16_natCast] at hp
    refine ⟨t, ht, hp, ?_⟩
    intro hlt
    rw [hp]
    exact Nat.mod_eq_of_lt (by omega)

set_option maxRecDepth 20000 in
/-- C21 on sections with one texture page and one texinfo record: the level has two
texture pages. -/
theorem load_texpages_expands_palette_witness :
    ∃ texinfos, load_texinfos load_palette_texinfos sample_texture_sections.texinfos
        sample_texture_sections.texanimchains = .ok texinfos ∧
      ∃ texpages, decode_texpages sample_texture_sections = .ok texpages ∧
        texpages.length = sample_texture_sections.texpages.length + 1 ∧
        texpages[0]? = some (load_palette_texpage sample_texture_sections.palette) ∧
        (∀ (p : Nat) (src : Nat → Nat → Nat), sample_texture_sections.texpages[p]? = some src →
          ∃ page, texpages[p + 1]? = some page ∧
            ∀ i j k : Nat, i < 256 → j < 256 → k < 4 →
              page.pixels i j k =
                (load_palette_texpage sample_texture_sections.palette).pixels 0
                  (src i j % 256) k) ∧
        (∀ (n : Nat) (d : d_texinfo), sample_texture_sections.texinfos[n]? = some d →
          ∃ t, texinfos[256 + n]? = some t ∧ t.texpage = (u16 d.texpage + 1) % 65536 ∧
            (u16 d.texpage < 65535 → t.texpage = u16 d.texpage + 1)) := by
  obtain ⟨texinfos, h⟩ := exists_of_toBool
    (load_texinfos load_palette_texinfos sample_texture_sections.texinfos
      sample_texture_sections.texanimchains) (by decide)
  exact ⟨texinfos, h, load_texpages_expands_palette _ texinfos h⟩

/-! ## Meshes: the light attributes -/

theorem load_mesh_ok (texinfos : List texinfo) (i : Nat) (d : d_mesh) (m : mesh)
    (h : load_mesh texinfos i d = .ok m) :
    0 ≤ i16 d.num_verts ∧
    ∃ lightmode lightattribs polys,
      load_mesh_lightattribs d (i16 d.num_verts) = .ok (lightmode, lightattribs) ∧
      load_mesh_polys texinfos d = .ok polys ∧
      m = ⟨i, lightmode,
        List.zipWith mesh_vert.mk ((mesh_loop (i16 d.num_verts)).map (mesh_vec3 d.positions))
          lightattribs, polys⟩ := by
  unfold load_mesh at h
  simp only [] at h
  by_cases hn : i16 d.num_verts < 0
  · rw [if_pos hn] at h
    cases h
  · rw [if_neg hn] at h
    refine ⟨by omega, ?_⟩
    cases hl : load_mesh_lightattribs d (i16 d.num_verts) with
    | error e => rw [hl] at h; cases h
    | ok r =>
      obtain ⟨lightmode, lightattribs⟩ := r
      rw [hl] at h
      simp only [] at h
      cases hp : load_mesh_polys texinfos d with
      | error e => rw [hp] at h; cases h
      | ok polys =>
        rw [hp] at h
        simp only [Except.ok.injEq] at h
        exact ⟨lightmode, lightattribs, polys, rfl, rfl, h.symm⟩

theorem load_meshes_getElem (texinfos : List texinfo) (records : List d_mesh)
    (meshes : List mesh) (h : load_meshes texinfos records = .ok meshes) (i : Nat)
    (d : d_mesh) (hd : records[i]? = some d) :
    ∃ m, meshes[i]? = some m ∧ load_mesh texinfos i d = .ok m := by
  have he : records.enum[i]? = some (i, d) := by
    rw [List.getElem?_enum, hd]
    rfl
  exact (for_each_ok_getElem _ _ _ h i).1 _ he

theorem load_meshes_error (texinfos : List texinfo) (records : List d_mesh) (i : Nat)
    (d : d_mesh) (hd : records[i]? = some d) (h : ∃ e, load_mesh texinfos i d = .error e) :
    ∃ e, load_meshes texinfos records = .error e := by
  apply for_each_error_of_mem
  refine ⟨(i, d), ?_, h⟩
  rw [List.mem_enum_iff_getElem?]
  exact hd

theorem load_mesh_error_of_count (texinfos : List texinfo) (i : Nat) (d : d_mesh)
    (h : |i16 d.num_lightattribs| ≠ i16 d.num_verts) :
    ∃ e, load_mesh texinfos i d = .error e := by
  unfold load_mesh
  simp only []
  by_cases hn : i16 d.num_verts < 0
  · rw [if_pos hn]
    exact ⟨_, rfl⟩
  · rw [if_neg hn]
    have hl : load_mesh_lightattribs d (i16 d.num_verts) = .error .assertion_failed := by
      unfold load_mesh_lightattribs
      simp only []
      by_cases hc : i16 d.num_lightattribs > 0
      · rw [if_pos hc, if_pos]
        intro he
        rw [abs_of_pos hc] at h
        exact h he
      · rw [if_neg hc, if_pos]
        intro he
        rw [abs_of_nonpos (by omega)] at h
        exact h he
    rw [hl]
    exact ⟨_, rfl⟩

theorem map_lightattrib_zipWith (positions lightattribs : List vec3)
    (h : lightattribs.length = positions.length) :
    (List.zipWith mesh_vert.mk positions lightattribs).map mesh_vert.lightattrib =
      lightattribs := by
  induction positions generalizing lightattribs with
  | nil =>
    cases lightattribs with
    | nil => rfl
    | cons a l => cases h
  | cons p ps ih =>
    cases lightattribs with
    | nil => rfl
    | cons a l =>
      simp only [List.zipWith_cons_cons, List.map_cons, List.cons.injEq, true_and]
      exact ih l (by simpa using h)

/-- C22: a mesh whose light attribute count `c`, as an `int16_t`, is not in absolute
value the count of vertices makes `load_meshes` fail. When `load_meshes` returns, the
mesh of a record with `c > 0` is externally lit and the light attributes of its vertices
are the `c` vectors of three words read; the mesh of a record with `c <= 0` is internally
lit and the light attributes of its vertices are, for each of the `-c` words read,
`1 - raw/8191` in the three channels. For the raw value 0 this is 1. -/
theorem load_meshes_lightattribs (texinfos : List texinfo) (records : List d_mesh)
    (i : Nat) (d : d_mesh) (hd : records[i]? = some d) :
    (|i16 d.num_lightattribs| ≠ i16 d.num_verts →
      ∃ e, load_meshes texinfos records = .error e) ∧
    (∀ meshes, load_meshes texinfos records = .ok meshes →
      ∃ m, meshes[i]? = some m ∧
        (0 < i16 d.num_lightattribs →
          m.lightmode = .mesh_lightmode_external ∧
          m.verts.map mesh_vert.lightattrib =
            (List.range (i16 d.num_lightattribs).toNat).map fun j =>
              (⟨(i16 (d.lightattribs (3 * j)) : Int),
                (i16 (d.lightattribs (3 * j + 1)) : Int),
                (i16 (d.lightattribs (3 * j + 2)) : Int)⟩ : vec3)) ∧
        (i16 d.num_lightattribs ≤ 0 →
          m.lightmode = .mesh_lightmode_internal ∧
          m.verts.map mesh_vert.lightattrib =
            (List.range (-(i16 d.num_lightattribs)).toNat).map fun j =>
              (⟨1 - ((i16 (d.lightattribs j) : Int) : ℚ) / 8191,
                1 - ((i16 (d.lightattribs j) : Int) : ℚ) / 8191,
                1 - ((i16 (d.lightattribs j) : Int) : ℚ) / 8191⟩ : vec3))) ∧
    (1 - ((i16 0 : Int) : ℚ) / 8191 = 1) := by
  refine ⟨?_, ?_, ?_⟩
  · intro h
    exact load_meshes_error texinfos records i d hd (load_mesh_error_of_count texinfos i d h)
  · intro meshes h
    obtain ⟨m, hm, hload⟩ := load_meshes_getElem texinfos records meshes h i d hd
    obtain ⟨hnv, lightmode, lightattribs, polys, hl, _, hmesh⟩ := load_mesh_ok _ _ _ _ hload
    refine ⟨m, hm, ?_, ?_⟩
    · intro hc
      unfold load_mesh_lightattribs at hl
      simp only [] at hl
      rw [if_pos hc] at hl
      by_cases he : i16 d.num_lightattribs ≠ i16 d.num_verts
      · rw [if_pos he] at hl
        cases hl
      · rw [if_neg he] at hl
        simp only [Except.ok.injEq, Prod.mk.injEq] at hl
        rw [hmesh]
        refine ⟨hl.1.symm, ?_⟩
        show (List.zipWith mesh_vert.mk _ lightattribs).map mesh_vert.lightattrib = _
        rw [map_lightattrib_zipWith _ _ (by
          rw [← hl.2]
          simp only [mesh_loop, List.length_map, List.length_range]
          rw [not_not.1 he]), ← hl.2]
        rfl
    · intro hc
      unfold load_mesh_lightattribs at hl
      simp only [] at hl
      rw [if_neg (by omega)] at hl
      by_cases he : -i16 d.num_lightattribs ≠ i16 d.num_verts
      · rw [if_pos he] at hl
        cases hl
      · rw [if_neg he] at hl
        simp only [Except.ok.injEq, Prod.mk.injEq] at hl
        rw [hmesh]
        refine ⟨hl.1.symm, ?_⟩
        show (List.zipWith mesh_vert.mk _ lightattribs).map mesh_vert.lightattrib = _
        rw [map_lightattrib_zipWith _ _ (by
          rw [← hl.2]
          simp only [mesh_loop, List.length_map, List.length_range]
          rw [not_not.1 he]), ← hl.2]
        rfl
  · have h0 : i16 0 = 0 := by decide
    rw [h0]
    norm_num

/-- C22 on the second sample mesh, with two vertices and the count -2: `load_meshes`
returns, the mesh is internally lit and its two vertices have the intensities 1, for the
raw value 0, and 0, for the raw value 8191. -/
theorem load_meshes_lightattribs_witness :
    ∃ meshes m, load_meshes load_palette_texinfos sample_lit_meshes = .ok meshes ∧
      meshes[1]? = some m ∧ m.lightmode = .mesh_lightmode_internal ∧
      m.verts.map mesh_vert.lightattrib = [⟨1, 1, 1⟩, ⟨0, 0, 0⟩] := by
  obtain ⟨meshes, h⟩ := exists_of_toBool
    (load_meshes load_palette_texinfos sample_lit_meshes) (by decide)
  obtain ⟨m, hm, _, hint⟩ :=
    (load_meshes_lightattribs load_palette_texinfos sample_lit_meshes 1
      (sample_d_mesh_with 2 [1, 2, 3, 4, 5, 6] (-2) [0, 8191]) rfl).2.1 meshes h
  obtain ⟨h1, h2⟩ := hint (by decide)
  refine ⟨meshes, m, h, hm, h1, ?_⟩
  rw [h2]
  have e0 : i16 0 = 0 := by decide
  have e1 : i16 8191 = 8191 := by decide
  show (List.range 2).map _ = _
  simp only [List.range, List.range.loop, List.map, sample_d_mesh_with, List.getD_cons_zero,
    List.getD_cons_succ, e0, e1]
  norm_num

/-! ## Meshes: the polygons -/

theorem for_each_ok_map {α β : Type} (f : α → Except failure β) (g : α → β)
    (hf : ∀ a b, f a = .ok b → b = g a) :
    ∀ (l : List α) (r : List β), for_each f l = .ok r → r = l.map g := by
  intro l
  induction l with
  | nil =>
    intro r h
    simp only [for_each, Except.ok.injEq] at h
    rw [← h]
    rfl
  | cons x l ih =>
    intro r h
    rw [for_each] at h
    cases hx : f x with
    | error e => rw [hx] at h; cases h
    | ok b =>
      rw [hx] at h
      simp only [] at h
      cases hl : for_each f l with
      | error e => rw [hl] at h; cases h
      | ok bs =>
        rw [hl] at h
        simp only [Except.ok.injEq] at h
        rw [← h, List.map_cons, hf x b hx, ih bs hl]

theorem load_mesh_quad_ok (texinfos : List texinfo) (index : Int → Nat) (p : d_mesh_poly)
    (q : mesh_poly) (h : load_mesh_quad texinfos index p = .ok q) :
    q = ⟨(List.range 4).map fun k => u16 (p.verts k), index p.texinfo⟩ := by
  unfold load_mesh_quad at h
  split at h
  · cases h
  · cases h
    rfl

theorem load_mesh_tri_ok (texinfos : List texinfo) (index : Int → Nat) (p : d_mesh_poly)
    (q : mesh_poly) (h : load_mesh_tri texinfos index p = .ok q) :
    q = ⟨((List.range 3).map fun k => u16 (p.verts k)) ++ [0xFFFF], index p.texinfo⟩ := by
  unfold load_mesh_tri at h
  split at h
  · cases h
  · cases h
    rfl

/-- The polygons `load_mesh_polys` returns: four lists, one per loop. -/
theorem load_mesh_polys_ok (texinfos : List texinfo) (d : d_mesh) (polys : List mesh_poly)
    (h : load_mesh_polys texinfos d = .ok polys) :
    polys =
      ((List.range (i16 d.num_textured_quads).toNat).map fun j =>
        (⟨(List.range 4).map fun k => u16 ((d.textured_quads j).verts k),
          textured_texinfo (d.textured_quads j).texinfo⟩ : mesh_poly)) ++
      ((List.range (i16 d.num_textured_tris).toNat).map fun j =>
        (⟨((List.range 3).map fun k => u16 ((d.textured_tris j).verts k)) ++ [0xFFFF],
          textured_texinfo (d.textured_tris j).texinfo⟩ : mesh_poly)) ++
      ((List.range (i16 d.num_colored_quads).toNat).map fun j =>
        (⟨(List.range 4).map fun k => u16 ((d.colored_quads j).verts k),
          colored_texinfo (d.colored_quads j).texinfo⟩ : mesh_poly)) ++
      ((List.range (i16 d.num_colored_tris).toNat).map fun j =>
        (⟨((List.range 3).map fun k => u16 ((d.colored_tris j).verts k)) ++ [0xFFFF],
          colored_texinfo (d.colored_tris j).texinfo⟩ : mesh_poly)) := by
  unfold load_mesh_polys at h
  cases h1 : for_each (load_mesh_quad texinfos textured_texinfo)
      ((mesh_loop (i16 d.num_textured_quads)).map d.textured_quads) with
  | error e => rw [h1] at h; cases h
  | ok tq =>
    rw [h1] at h
    simp only [] at h
    cases h2 : for_each (load_mesh_tri texinfos textured_texinfo)
        ((mesh_loop (i16 d.num_textured_tris)).map d.textured_tris) with
    | error e => rw [h2] at h; cases h
    | ok tt =>
      rw [h2] at h
      simp only [] at h
      cases h3 : for_each (load_mesh_quad texinfos colored_texinfo)
          ((mesh_loop (i16 d.num_colored_quads)).map d.colored_quads) with
      | error e => rw [h3] at h; cases h
      | ok cq =>
        rw [h3] at h
        simp only [] at h
        cases h4 : for_each (load_mesh_tri texinfos colored_texinfo)
            ((mesh_loop (i16 d.num_colored_tris)).map d.colored_tris) with
        | error e => rw [h4] at h; cases h
        | ok ct =>
          rw [h4] at h
          simp only [Except.ok.injEq] at h
          rw [← h,
            for_each_ok_map _ _ (load_mesh_quad_ok texinfos textured_texinfo) _ _ h1,
            for_each_ok_map _ _ (load_mesh_tri_ok texinfos textured_texinfo) _ _ h2,
            for_each_ok_map _ _ (load_mesh_quad_ok texinfos colored_texinfo) _ _ h3,
            for_each_ok_map _ _ (load_mesh_tri_ok texinfos colored_texinfo) _ _ h4]
          simp only [mesh_loop, List.map_map]
          rfl

/-- C23: when `load_meshes` returns, the polygons of a mesh are its textured quads, then
its textured triangles, its colored quads and its colored triangles, as many of each as
the count of the file says and each in the order of the file; a quad has the four vertex
indices read and a triangle the three indices read and then 0xFFFF; a colored polygon has
the texinfo index `raw & 0xFF`, below 256, and a textured polygon the texinfo index
`(raw & 0x7FFF) + 256`, at least 256. -/
theorem load_meshes_polys (texinfos : List texinfo) (records : List d_mesh)
    (meshes : List mesh) (h : load_meshes texinfos records = .ok meshes) (i : Nat)
    (d : d_mesh) (hd : records[i]? = some d) :
    ∃ m textured_quads textured_tris colored_quads colored_tris,
      meshes[i]? = some m ∧
      m.polys = textured_quads ++ textured_tris ++ colored_quads ++ colored_tris ∧
      textured_quads = ((List.range (i16 d.num_textured_quads).toNat).map fun j =>
        (⟨(List.range 4).map fun k => u16 ((d.textured_quads j).verts k),
          (u16 (d.textured_quads j).texinfo &&& 0x7FFF) + 256⟩ : mesh_poly)) ∧
      textured_tris = ((List.range (i16 d.num_textured_tris).toNat).map fun j =>
        (⟨((List.range 3).map fun k => u16 ((d.textured_tris j).verts k)) ++ [0xFFFF],
          (u16 (d.textured_tris j).texinfo &&& 0x7FFF) + 256⟩ : mesh_poly)) ∧
      colored_quads = ((List.range (i16 d.num_colored_quads).toNat).map fun j =>
        (⟨(List.range 4).map fun k => u16 ((d.colored_quads j).verts k),
          u16 (d.colored_quads j).texinfo &&& 0xFF⟩ : mesh_poly)) ∧
      colored_tris = ((List.range (i16 d.num_colored_tris).toNat).map fun j =>
        (⟨((List.range 3).map fun k => u16 ((d.colored_tris j).verts k)) ++ [0xFFFF],
          u16 (d.colored_tris j).texinfo &&& 0xFF⟩ : mesh_poly)) ∧
      (∀ p ∈ textured_tris ++ colored_tris, p.verts[3]? = some 0xFFFF) ∧
      (∀ p ∈ colored_quads ++ colored_tris, p.texinfo < 256) ∧
      (∀ p ∈ textured_quads ++ textured_tris, 256 ≤ p.texinfo) := by
  obtain ⟨m, hm, hload⟩ := load_meshes_getElem texinfos records meshes h i d hd
  obtain ⟨_, lightmode, lightattribs, polys, _, hp, hmesh⟩ := load_mesh_ok _ _ _ _ hload
  have hpolys := load_mesh_polys_ok texinfos d polys hp
  refine ⟨m, _, _, _, _, hm, ?_, rfl, rfl, rfl, rfl, ?_, ?_, ?_⟩
  · rw [hmesh]
    exact hpolys
  · intro p hp
    rw [List.mem_append, List.mem_map, List.mem_map] at hp
    rcases hp with ⟨j, _, hj⟩ | ⟨j, _, hj⟩ <;> rw [← hj] <;> rfl
  · intro p hp
    have hlt : ∀ n : Nat, n &&& 0xFF < 256 := fun n =>
      Nat.lt_of_le_of_lt Nat.and_le_right (by decide)
    rw [List.mem_append, List.mem_map, List.mem_map] at hp
    rcases hp with ⟨j, _, hj⟩ | ⟨j, _, hj⟩ <;> rw [← hj] <;> exact hlt _
  · intro p hp
    rw [List.mem_append, List.mem_map, List.mem_map] at hp
    rcases hp with ⟨j, _, hj⟩ | ⟨j, _, hj⟩ <;> rw [← hj] <;> exact Nat.le_add_left _ _

set_option maxRecDepth 20000 in
/-- C23 on the sample mesh with one polygon of each kind, in a level with 257 texinfos:
the textured polygons have the texinfo 256, the colored quad the texinfo 0x34 and the
colored triangle the texinfo 7. -/
theorem load_meshes_polys_witness :
    ∃ meshes m, load_meshes sample_texinfos [sample_d_mesh_polys] = .ok meshes ∧
      meshes[0]? = some m ∧
      m.polys = [⟨[0, 1, 2, 3], 256⟩, ⟨[0, 1, 2, 0xFFFF], 256⟩, ⟨[3, 2, 1, 0], 0x34⟩,
        ⟨[1, 2, 3, 0xFFFF], 7⟩] := by
  obtain ⟨meshes, h⟩ := exists_of_toBool
    (load_meshes sample_texinfos [sample_d_mesh_polys]) (by decide)
  obtain ⟨m, tq, tt, cq, ct, hm, hp, h1, h2, h3, h4, _⟩ :=
    load_meshes_polys sample_texinfos [sample_d_mesh_polys] meshes h 0 sample_d_mesh_polys rfl
  refine ⟨meshes, m, h, hm, ?_⟩
  rw [hp, h1, h2, h3, h4]
  decide

/-! ## Placed objects: the instances -/

theorem findIdx_split {α : Type} (p : α → Bool) :
    ∀ (l : List α) (i : Nat), l.findIdx? p = some i →
      ∃ before b after, l = before ++ b :: after ∧ before.length = i ∧ p b = true ∧
        ∀ a ∈ before, p a = false := by
  intro l i h
  obtain ⟨hi, hp, hbefore⟩ := List.findIdx?_eq_some_iff_getElem.1 h
  refine ⟨l.take i, l[i], l.drop (i + 1), ?_, ?_, hp, ?_⟩
  · rw [← List.drop_eq_getElem_cons hi, List.take_append_drop]
  · rw [List.length_take]
    omega
  · intro a ha
    obtain ⟨j, hj, rfl⟩ := List.getElem_of_mem ha
    rw [List.length_take] at hj
    rw [List.getElem_take]
    simpa using hbefore j (by omega)

theorem new_model_object_model (g : glm_lib) (animations : List animation) (buf : List Nat)
    (m : model) (room : Nat) (t : mat4) (l : ℚ) (o0 : model_object)
    (hnew : (new_model_object g animations buf m room t l).result = .ok o0) :
    o0.model = m := by
  cases ha : m.animation.bind (animations[·]?) with
  | none =>
    unfold new_model_object at hnew
    rw [ha] at hnew
    cases hnew
  | some a => exact (fresh_object_fields g animations buf m room t l o0 a hnew ha).1

/-- C24: when `load_objects` returns, the model objects and the sprite objects of the
level are those it had, followed by the instances of the records in the order of the
records, at most one of each kind per record. A record with the id of a model has a model
object, of the first model with that id and in the room of the record; a record with the
id of a sprite sequence has a sprite object, of the first sequence with that id, at frame
0 and in the room of the record; a record has no model object when no model has its id,
and no sprite object when no sprite sequence has its id. -/
theorem load_objects_instances (g : glm_lib) (num_rooms : Nat) (objects : List d_object)
    (lvl lvl' : level) (h : load_objects g num_rooms objects lvl = .ok lvl') :
    ∃ (mos : List (Option model_object)) (sos : List (Option sprite_object)),
      mos.length = objects.length ∧ sos.length = objects.length ∧
      lvl'.model_objects = lvl.model_objects ++ mos.filterMap id ∧
      lvl'.sprite_objects = lvl.sprite_objects ++ sos.filterMap id ∧
      ∀ (k : Nat) (d : d_object), objects[k]? = some d →
        ((∃ m ∈ lvl.models, m.id = u16 d.id) →
          ∃ o before after, mos[k]? = some (some o) ∧
            lvl.models = before ++ o.model :: after ∧ o.model.id = u16 d.id ∧
            (∀ m ∈ before, m.id ≠ u16 d.id) ∧ o.room = u16 d.room) ∧
        ((∀ m ∈ lvl.models, m.id ≠ u16 d.id) → mos[k]? = some none) ∧
        ((∃ q ∈ lvl.sprite_sequences, q.id = u16 d.id) →
          ∃ s before q after, sos[k]? = some (some s) ∧
            lvl.sprite_sequences = before ++ q :: after ∧ s.sequence = before.length ∧
            q.id = u16 d.id ∧ (∀ q' ∈ before, q'.id ≠ u16 d.id) ∧ s.frame = 0 ∧
            s.room = u16 d.room) ∧
        ((∀ q ∈ lvl.sprite_sequences, q.id ≠ u16 d.id) → sos[k]? = some none) := by
  obtain ⟨mos, sos, hmos, hsos, hlvl⟩ := load_objects_ok g num_rooms objects lvl lvl' h
  refine ⟨mos, sos, for_each_ok_length _ _ _ hmos, for_each_ok_length _ _ _ hsos,
    by rw [hlvl], by rw [hlvl], ?_⟩
  intro k d hd
  obtain ⟨mo, hmo, hload⟩ := (for_each_ok_getElem _ _ _ hmos k).1 d hd
  obtain ⟨so, hso, hloads⟩ := (for_each_ok_getElem _ _ _ hsos k).1 d hd
  refine ⟨?_, ?_, ?_, ?_⟩
  · intro hid
    cases mo with
    | none =>
      exfalso
      unfold load_model_object at hload
      cases hf : lvl.models.find? (fun m => m.id = u16 d.id) with
      | none =>
        rw [List.find?_eq_none] at hf
        obtain ⟨m, hm, hmid⟩ := hid
        exact absurd (by simpa using hmid) (hf m hm)
      | some m =>
        rw [hf] at hload
        simp only [bind, Except.bind, pure, Except.pure] at hload
        split at hload
        · cases hload
        · split at hload <;> cases hload
    | some o =>
      obtain ⟨m, o0, hfind, hnew, hroom, ho⟩ := load_model_object_some g lvl num_rooms d o hload
      have hmodel : o.model = m := by
        rw [ho]
        exact new_model_object_model _ _ _ _ _ _ _ o0 hnew
      obtain ⟨hp, before, after, hsplit, hbefore⟩ := List.find?_eq_some.1 hfind
      refine ⟨o, before, after, hmo, by rw [hmodel]; exact hsplit,
        by rw [hmodel]; simpa using hp, ?_, by rw [ho]⟩
      intro m' hm'
      simpa using hbefore m' hm'
  · intro hid
    have hnone : load_model_object g lvl num_rooms d = .ok none := by
      have h1 : lvl.models.find? (fun m => m.id = u16 d.id) = none := by
        rw [List.find?_eq_none]
        intro m hmem
        simpa using hid m hmem
      unfold load_model_object
      rw [h1]
      rfl
    rw [hnone] at hload
    cases hload
    exact hmo
  · intro hid
    cases so with
    | none =>
      exfalso
      unfold load_sprite_object at hloads
      cases hf : lvl.sprite_sequences.findIdx? (fun q => q.id = u16 d.id) with
      | none =>
        rw [List.findIdx?_eq_none_iff] at hf
        obtain ⟨q, hq, hqid⟩ := hid
        exact absurd (by simpa using hqid) (by simpa using hf q hq)
      | some i =>
        rw [hf] at hloads
        simp only [bind, Except.bind, pure, Except.pure] at hloads
        split at hloads <;> cases hloads
    | some s =>
      obtain ⟨i, hfind, hroom, hs⟩ := load_sprite_object_some lvl num_rooms d s hloads
      obtain ⟨before, q, after, hsplit, hlen, hp, hbefore⟩ := findIdx_split _ _ _ hfind
      refine ⟨s, before, q, after, hso, hsplit, by rw [hs, hlen], by simpa using hp, ?_,
        by rw [hs], by rw [hs]⟩
      intro q' hq'
      simpa using hbefore q' hq'
  · intro hid
    have hnone : load_sprite_object lvl num_rooms d = .ok none := by
      have h2 : lvl.sprite_sequences.findIdx? (fun q => q.id = u16 d.id) = none := by
        rw [List.findIdx?_eq_none_iff]
        intro q hmem
        simpa using hid q hmem
      unfold load_sprite_object
      rw [h2]
      rfl
    rw [hnone] at hloads
    cases hloads
    exact hso

set_option maxRecDepth 20000 in
/-- C24 on the sample level with two models of one id and two sprite sequences of one id,
and three object records: the level gets one model object, of the first of the models,
and one sprite object, of the first of the sequences. -/
theorem load_objects_instances_witness :
    ∃ lvl' o s, load_objects glm_rational 1 sample_objects_of_pairs sample_level_of_pairs =
        .ok lvl' ∧
      lvl'.model_objects = [o] ∧ o.model = sample_model ∧ o.room = 0 ∧
      lvl'.sprite_objects = [s] ∧ s.sequence = 0 ∧ s.frame = 0 ∧ s.room = 0 := by
  obtain ⟨mos0, hmos0⟩ := exists_of_toBool
    (for_each (load_model_object glm_rational sample_level_of_pairs 1)
      sample_objects_of_pairs) (by decide)
  obtain ⟨sos0, hsos0⟩ := exists_of_toBool
    (for_each (load_sprite_object sample_level_of_pairs 1) sample_objects_of_pairs)
    (by decide)
  have h := load_objects_of_for_each glm_rational 1 sample_objects_of_pairs
    sample_level_of_pairs mos0 sos0 hmos0 hsos0
  obtain ⟨mos, sos, hml, hsl, hm, hs, hrec⟩ :=
    load_objects_instances glm_rational 1 sample_objects_of_pairs sample_level_of_pairs _ h
  obtain ⟨h0m, _, _, h0s⟩ := hrec 0 ⟨5, 0, 100, 200, 300, 0, 0, 0⟩ rfl
  obtain ⟨_, h1m, _, h1s⟩ := hrec 1 ⟨77, 0, 0, 0, 0, 0, 0, 0⟩ rfl
  obtain ⟨_, h2m, h2s, _⟩ := hrec 2 ⟨9, 0, 1, 2, 3, 0, 0, 0⟩ rfl
  obtain ⟨o, before, after, ho, hsplit, hoid, hbefore, horoom⟩ :=
    h0m ⟨sample_model, by simp [sample_level_of_pairs], by decide⟩
  have h0s := h0s (by decide)
  have h1m := h1m (by decide)
  have h1s := h1s (by decide)
  have h2m := h2m (by decide)
  obtain ⟨s, sbefore, q, safter, hs2, hssplit, hsseq, hqid, hsbefore, hsframe, hsroom⟩ :=
    h2s ⟨⟨9, []⟩, by simp [sample_level_of_pairs], by decide⟩
  have hmos : mos = [some o, none, none] := by
    match mos, hml, ho, h1m, h2m with
    | [a, b, c], _, ho, h1m, h2m =>
      simp only [List.getElem?_cons_zero, List.getElem?_cons_succ, Option.some.injEq]
        at ho h1m h2m
      rw [ho, h1m, h2m]
  have hsos : sos = [none, none, some s] := by
    match sos, hsl, h0s, h1s, hs2 with
    | [a, b, c], _, h0s, h1s, hs2 =>
      simp only [List.getElem?_cons_zero, List.getElem?_cons_succ, Option.some.injEq]
        at h0s h1s hs2
      rw [h0s, h1s, hs2]
  have hbefore_nil : before = [] := by
    cases before with
    | nil => rfl
    | cons b bs =>
      exfalso
      have hb : b = sample_model := by
        have := congrArg List.head? hsplit
        simpa [sample_level_of_pairs] using this.symm
      exact hbefore b (List.mem_cons_self _ _) (by rw [hb]; decide)
  have hsbefore_nil : sbefore = [] := by
    cases sbefore with
    | nil => rfl
    | cons b bs =>
      exfalso
      have hb : b = ⟨9, []⟩ := by
        have := congrArg List.head? hssplit
        simpa [sample_level_of_pairs] using this.symm
      exact hsbefore b (List.mem_cons_self _ _) (by rw [hb]; decide)
  refine ⟨_, o, s, h, ?_, ?_, ?_, ?_, ?_, hsframe, ?_⟩
  · rw [hm, hmos]
    rfl
  · rw [hbefore_nil] at hsplit
    have := congrArg List.head? hsplit
    simpa [sample_level_of_pairs] using this.symm
  · rw [horoom]
    decide
  · rw [hs, hsos]
    rfl
  · rw [hsseq, hsbefore_nil]
    rfl
  · rw [hsroom]
    decide

/-! ## Rooms: the positions -/

theorem load_room_static_sprite_ok (lvl : level) (droom : d_room)
    (drss : d_room_static_sprite) (ss : room_static_sprite)
    (h : load_room_static_sprite lvl droom drss = .ok ss) :
    ∃ v, droom.vertices[drss.vertex]? = some v ∧
      ss = ⟨drss.sprite, room_position droom v.position, 1 - (v.lighting1 : ℚ) / 8191⟩ := by
  unfold load_room_static_sprite at h
  simp only [bind, Except.bind, pure, Except.pure, vector_index] at h
  cases hv : droom.vertices[drss.vertex]? with
  | none => rw [hv] at h; cases h
  | some v =>
    rw [hv] at h
    simp only [] at h
    split at h
    · cases h
    · cases h
      exact ⟨v, rfl, rfl⟩

/-- The room `load_room` returns: its geometry and its static sprites. -/
theorem load_room_ok (g : glm_lib) (lvl : level) (static_meshes : List d_static_mesh)
    (room_idx : Nat) (droom : d_room) (r : room)
    (h : load_room g lvl static_meshes room_idx droom = .ok r) :
    r.geometry.lightmode = .mesh_lightmode_internal ∧
    r.geometry.verts = droom.vertices.map (load_room_vertex droom) ∧
    for_each (load_room_static_sprite lvl droom) droom.static_sprites =
      .ok r.static_sprites ∧
    r.lights = droom.lights.map load_room_light := by
  rw [load_room_eq] at h
  cases h1 : for_each (load_room_polygon lvl) droom.quads with
  | error e => rw [h1] at h; cases h
  | ok quads =>
    rw [h1] at h
    simp only [] at h
    cases h2 : for_each (load_room_polygon lvl) droom.tris with
    | error e => rw [h2] at h; cases h
    | ok tris =>
      rw [h2] at h
      simp only [] at h
      cases h3 : for_each (load_room_static_sprite lvl droom) droom.static_sprites with
      | error e => rw [h3] at h; cases h
      | ok static_sprites =>
        rw [h3] at h
        simp only [] at h
        cases h4 : load_room_static_meshes g lvl.meshes static_meshes droom.static_meshes
            [] with
        | error e => rw [h4] at h; cases h
        | ok room_static_meshes =>
          rw [h4] at h
          simp only [Except.ok.injEq] at h
          rw [← h]
          exact ⟨rfl, rfl, rfl, rfl⟩

/-- The room of the level `room_loader::load` returns for a room of the file. -/
theorem room_loader_load_getElem (g : glm_lib) (static_meshes : List d_static_mesh)
    (rooms : List d_room) (lvl lvl' : level)
    (h : room_loader.load g static_meshes rooms lvl = .ok lvl') (i : Nat) (droom : d_room)
    (hd : rooms[i]? = some droom) :
    ∃ r, lvl'.rooms[i]? = some r ∧ load_room g lvl static_meshes i droom = .ok r := by
  rw [room_loader_load_eq] at h
  cases hf : for_each (fun p => load_room g lvl static_meshes p.1 p.2) rooms.enum with
  | error e => rw [hf] at h; cases h
  | ok rs =>
    rw [hf] at h
    simp only [Except.ok.injEq] at h
    have he : rooms.enum[i]? = some (i, droom) := by
      rw [List.getElem?_enum, hd]
      rfl
    obtain ⟨r, hr, hload⟩ := (for_each_ok_getElem _ _ _ hf i).1 _ he
    exact ⟨r, by rw [← h]; exact hr, hload⟩

/-- C25: when `room_loader::load` returns, the geometry of the room of each room of the
file is internally lit, and its vertices are, in the order of the file, at the positions
`(x + room.x, y, z + room.z)` for the positions `(x, y, z)` of the vertices of the file;
the static sprites of the room are, in the order of the file, at that position for the
vertex of the file their record names. -/
theorem room_loader_load_positions (g : glm_lib) (static_meshes : List d_static_mesh)
    (rooms : List d_room) (lvl lvl' : level)
    (h : room_loader.load g static_meshes rooms lvl = .ok lvl') (i : Nat) (droom : d_room)
    (hd : rooms[i]? = some droom) :
    ∃ r, lvl'.rooms[i]? = some r ∧
      r.geometry.lightmode = .mesh_lightmode_internal ∧
      r.geometry.verts.map mesh_vert.position =
        droom.vertices.map (fun drv =>
          (⟨drv.position.x + droom.x, drv.position.y, drv.position.z + droom.z⟩ : vec3)) ∧
      r.static_sprites.length = droom.static_sprites.length ∧
      ∀ (k : Nat) (drss : d_room_static_sprite), droom.static_sprites[k]? = some drss →
        ∃ drv ss, droom.vertices[drss.vertex]? = some drv ∧
          r.static_sprites[k]? = some ss ∧
          ss.position =
            ⟨drv.position.x + droom.x, drv.position.y, drv.position.z + droom.z⟩ := by
  obtain ⟨r, hr, hload⟩ := room_loader_load_getElem g static_meshes rooms lvl lvl' h i droom hd
  obtain ⟨hmode, hverts, hsprites, _⟩ := load_room_ok g lvl static_meshes i droom r hload
  refine ⟨r, hr, hmode, ?_, for_each_ok_length _ _ _ hsprites, ?_⟩
  · rw [hverts, List.map_map]
    apply List.map_congr_left
    intro drv _
    show room_position droom drv.position = _
    unfold room_position
    rw [add_zero]
  · intro k drss hk
    obtain ⟨ss, hss, hload⟩ := (for_each_ok_getElem _ _ _ hsprites k).1 drss hk
    obtain ⟨drv, hv, hs⟩ := load_room_static_sprite_ok lvl droom drss ss hload
    refine ⟨drv, ss, hv, hss, ?_⟩
    rw [hs]
    show room_position droom drv.position = _
    unfold room_position
    rw [add_zero]

set_option maxRecDepth 20000 in
/-- C25 on the sample room at x = 1000 and z = 2000: the vertices (1, 2, 3) and
(-4, -5, 6) of the file are at (1001, 2, 2003) and (996, -5, 2006), and the static sprite
at the second vertex is at (996, -5, 2006). -/
theorem room_loader_load_positions_witness :
    ∃ lvl' r ss, room_loader.load glm_rational [] [sample_d_room_at] sample_level_of_pairs =
        .ok lvl' ∧
      lvl'.rooms[0]? = some r ∧ r.geometry.lightmode = .mesh_lightmode_internal ∧
      r.geometry.verts.map mesh_vert.position = [⟨1001, 2, 2003⟩, ⟨996, -5, 2006⟩] ∧
      r.static_sprites = [ss] ∧ ss.position = ⟨996, -5, 2006⟩ := by
  obtain ⟨lvl', h⟩ := exists_of_toBool
    (room_loader.load glm_rational [] [sample_d_room_at] sample_level_of_pairs) (by decide)
  obtain ⟨r, hr, hmode, hverts, hlen, hsprites⟩ :=
    room_loader_load_positions glm_rational [] [sample_d_room_at] sample_level_of_pairs lvl' h
      0 sample_d_room_at rfl
  obtain ⟨drv, ss, hv, hss, hpos⟩ := hsprites 0 ⟨1, 0⟩ rfl
  have hdrv : drv = ⟨⟨-4, -5, 6⟩, 8191, 0, 0⟩ := by
    have hv' : some (⟨⟨-4, -5, 6⟩, 8191, 0, 0⟩ : d_room_vertex) = some drv := hv
    exact (Option.some.inj hv').symm
  refine ⟨lvl', r, ss, h, hr, hmode, ?_, ?_, ?_⟩
  · rw [hverts]
    simp only [sample_d_room_at, List.map]
    norm_num
  · match hs : r.static_sprites, hlen, hss with
    | [a], _, hss =>
      simp only [List.getElem?_cons_zero, Option.some.injEq] at hss
      rw [hss]
  · rw [hpos, hdrv]
    simp only [sample_d_room_at]
    norm_num

/-! ## Rooms: the lights -/

/-- The rooms `room_loader::load` returns have the lights of the rooms of the file, as
many as `read_room` has read: the loader has no limit on their number. -/
theorem room_loader_load_lights (g : glm_lib) (static_meshes : List d_static_mesh)
    (rooms : List d_room) (lvl lvl' : level)
    (h : room_loader.load g static_meshes rooms lvl = .ok lvl') (i : Nat) (droom : d_room)
    (hd : rooms[i]? = some droom) :
    ∃ r, lvl'.rooms[i]? = some r ∧ r.lights = droom.lights.map load_room_light ∧
      r.lights.length = droom.lights.length := by
  obtain ⟨r, hr, hload⟩ := room_loader_load_getElem g static_meshes rooms lvl lvl' h i droom hd
  obtain ⟨_, _, _, hlights⟩ := load_room_ok g lvl static_meshes i droom r hload
  exact ⟨r, hr, hlights, by rw [hlights, List.length_map]⟩

/-- The rooms of the level `load_objects` returns are those of the level it is given. -/
theorem load_objects_rooms (g : glm_lib) (num_rooms : Nat) (objects : List d_object)
    (lvl lvl' : level) (h : load_objects g num_rooms objects lvl = .ok lvl') :
    lvl'.rooms = lvl.rooms := by
  obtain ⟨mos, sos, _, _, hlvl⟩ := load_objects_ok g num_rooms objects lvl lvl' h
  rw [hlvl]

/-- What `decode_sections` has done when it returns a level: `load_rooms` has returned a
level, on the level of the decoders before it, and `load_objects` has made the level
returned of it. -/
theorem decode_sections_ok (g : glm_lib) (v : version) (s : sections) (lvl : level)
    (h : decode_sections g v s = some (.ok lvl)) :
    ∃ lvl0 lvl1, load_rooms g s.static_meshes s.rooms lvl0 = .ok lvl1 ∧
      load_objects g lvl1.rooms.length s.objects lvl1 = .ok lvl := by
  unfold decode_sections at h
  cases h1 : decode_texpages s with
  | error e => rw [h1] at h; cases h
  | ok texpages =>
  rw [h1] at h
  simp only [] at h
  cases h2 : load_texinfos load_palette_texinfos s.texinfos s.texanimchains with
  | error e => rw [h2] at h; cases h
  | ok texinfos =>
  rw [h2] at h
  simp only [] at h
  cases h3 : load_meshes texinfos s.meshes with
  | error e => rw [h3] at h; cases h
  | ok meshes =>
  rw [h3] at h
  simp only [] at h
  cases h4 : load_animations v s.frame_data s.animations with
  | none => rw [h4] at h; cases h
  | some r =>
  cases r with
  | error e => rw [h4] at h; cases h
  | ok res =>
  obtain ⟨animations, anim_frame_data⟩ := res
  rw [h4] at h
  simp only [] at h
  cases h5 : load_models s.bone_data meshes.length animations.length s.models with
  | error e => rw [h5] at h; cases h
  | ok models =>
  rw [h5] at h
  simp only [] at h
  cases h6 : load_sprite_sequences (load_sprites s.sprites) s.sprite_sequences with
  | error e => rw [h6] at h; cases h
  | ok sprite_sequences =>
  rw [h6] at h
  simp only [] at h
  cases h7 : load_rooms g s.static_meshes s.rooms
      (level_before_rooms texpages texinfos meshes animations anim_frame_data models
        (load_sprites s.sprites) sprite_sequences) with
  | error e => rw [h7] at h; cases h
  | ok lvl1 =>
  rw [h7] at h
  simp only [Option.some.injEq] at h
  exact ⟨_, lvl1, h7, h⟩

set_option maxRecDepth 20000 in
/-- C26 fails on a level that `load` returns: for a file whose one room has the light
count 9, the room of the level has nine lights. Nothing in the loader compares the count
with 8; the renderer asserts `room.lights.size() <= 8` on the rooms of the level. -/
theorem load_returns_room_with_nine_lights :
    ∃ lvl r, load glm_rational (some (zero_file 9582)) .version_tr1
        (fun _ _ => nine_lights_sections) = some (.ok lvl) ∧
      lvl.rooms = [r] ∧ r.lights.length = 9 ∧ ¬ r.lights.length ≤ 8 := by
  obtain ⟨d, hd⟩ := zero_file_tr1_directory
  obtain ⟨lvl, hlvl⟩ := exists_of_returns_level
    (decode_sections glm_rational .version_tr1 nine_lights_sections) (by decide)
  obtain ⟨lvl0, lvl1, hrooms, hobjects⟩ := decode_sections_ok _ _ _ _ hlvl
  obtain ⟨r, hr, _, hlen⟩ := room_loader_load_lights glm_rational _ _ lvl0 lvl1 hrooms 0
    sample_d_room_nine_lights rfl
  have hsame := load_objects_rooms _ _ _ _ _ hobjects
  obtain ⟨_, _, hcount⟩ := load_rooms_fields _ _ _ _ _ hrooms
  have hrooms1 : lvl1.rooms = [r] := by
    match hl : lvl1.rooms, hcount, hr with
    | [a], _, hr =>
      simp only [List.getElem?_cons_zero, Option.some.injEq] at hr
      rw [hr]
  refine ⟨lvl, r, ?_, by rw [hsame, hrooms1], hlen, by rw [hlen]; decide⟩
  show decode_with_directory glm_rational .version_tr1 (fun _ _ => nine_lights_sections)
    (zero_file 9582) (build_tr1_level_directory (zero_file 9582)) = _
  rw [hd]
  exact hlvl

/-! ## Sprite sequences -/

theorem for_each_sprite_refs (sprites : List sprite) (f : Nat) :
    ∀ l : List Nat,
      for_each (fun j =>
        match vector_at sprites (f + j) with
        | .error e => .error e
        | .ok _ => .ok (f + j)) l =
      if ∀ j ∈ l, f + j < sprites.length then .ok (l.map fun j => f + j)
      else .error .out_of_range := by
  intro l
  induction l with
  | nil => simp [for_each]
  | cons a l ih =>
    rw [for_each, ih]
    by_cases ha : f + a < sprites.length
    · have hv : vector_at sprites (f + a) = .ok sprites[f + a] := by
        unfold vector_at
        rw [List.getElem?_eq_getElem ha]
      rw [hv]
      simp only []
      by_cases hl : ∀ j ∈ l, f + j < sprites.length
      · rw [if_pos hl, if_pos]
        · rfl
        · intro j hj
          rcases List.mem_cons.1 hj with rfl | hj
          · exact ha
          · exact hl j hj
      · rw [if_neg hl, if_neg]
        intro hall
        exact hl fun j hj => hall j (List.mem_cons_of_mem _ hj)
    · have hv : vector_at sprites (f + a) = .error .out_of_range := by
        unfold vector_at
        rw [List.getElem?_eq_none (by omega)]
      rw [hv]
      simp only []
      rw [if_neg]
      intro hall
      exact ha (hall a (List.mem_cons_self _ _))

/-- The sequence of a record whose stored frame count is `-n`. -/
theorem load_sprite_sequence_eq (sprites : List sprite) (d : d_sprite_sequence) (n : Nat)
    (hn : i16 d.num_frames = -(n : Int)) :
    load_sprite_sequence sprites d =
      if ∀ j, j < n → u16 d.first_frame + j < sprites.length then
        .ok ⟨u32 d.id, (List.range n).map fun j => u16 d.first_frame + j⟩
      else .error .out_of_range := by
  have hcount : u16 (-(i16 d.num_frames)) = n := by
    rw [hn]
    have hlow : -32768 ≤ i16 d.num_frames := by
      unfold i16
      omega
    unfold u16
    omega
  unfold load_sprite_sequence
  simp only []
  rw [hcount, for_each_sprite_refs]
  by_cases hall : ∀ j, j < n → u16 d.first_frame + j < sprites.length
  · rw [if_pos hall, if_pos]
    intro j hj
    exact hall j (List.mem_range.1 hj)
  · rw [if_neg hall, if_neg]
    intro h
    exact hall fun j hj => h j (List.mem_range.2 hj)

/-- C27: for a sprite sequence record whose stored frame count is `-n`, with `n >= 0`,
and whose first frame is `f`: when `load_sprite_sequences` returns, the sequence of the
record has the id of the record and the `n` sprites `f`, `f + 1`, ..., `f + n - 1`, in
that order, each of them a sprite of the level; and `load_sprite_sequences` fails when
one of these indices is not below the number of sprites. -/
theorem load_sprite_sequences_frames (sprites : List sprite)
    (records : List d_sprite_sequence) (i : Nat) (d : d_sprite_sequence)
    (hd : records[i]? = some d) (n : Nat) (hn : i16 d.num_frames = -(n : Int)) :
    (∀ seqs, load_sprite_sequences sprites records = .ok seqs →
      ∃ q, seqs[i]? = some q ∧ q.id = u32 d.id ∧ q.sprites.length = n ∧
        q.sprites = (List.range n).map (fun j => u16 d.first_frame + j) ∧
        ∀ k ∈ q.sprites, k < sprites.length) ∧
    ((∃ j, j < n ∧ ¬ u16 d.first_frame + j < sprites.length) →
      ∃ e, load_sprite_sequences sprites records = .error e) := by
  have heq := load_sprite_sequence_eq sprites d n hn
  refine ⟨?_, ?_⟩
  · intro seqs h
    obtain ⟨q, hq, hload⟩ := (for_each_ok_getElem _ _ _ h i).1 d hd
    rw [heq] at hload
    by_cases hall : ∀ j, j < n → u16 d.first_frame + j < sprites.length
    · rw [if_pos hall] at hload
      simp only [Except.ok.injEq] at hload
      refine ⟨q, hq, by rw [← hload], by rw [← hload]; simp, by rw [← hload], ?_⟩
      intro k hk
      rw [← hload] at hk
      obtain ⟨j, hj, rfl⟩ := List.mem_map.1 hk
      exact hall j (List.mem_range.1 hj)
    · rw [if_neg hall] at hload
      cases hload
  · rintro ⟨j, hj, hbad⟩
    apply for_each_error_of_mem
    refine ⟨d, List.getElem?_mem hd, .out_of_range, ?_⟩
    rw [heq, if_neg]
    intro hall
    exact hbad (hall j hj)

set_option maxRecDepth 20000 in
/-- C27 on a level with three sprites and one record with the stored frame count -2 and
the first frame 1: the sequence has the sprites 1 and 2; with the first frame 2 the
second index is 3 and `load_sprite_sequences` fails. -/
theorem load_sprite_sequences_frames_witness :
    (∃ seqs q, load_sprite_sequences sample_sprites [⟨9, -2, 1⟩] = .ok seqs ∧
      seqs[0]? = some q ∧ q.id = 9 ∧ q.sprites = [1, 2]) ∧
    ∃ e, load_sprite_sequences sample_sprites [⟨9, -2, 2⟩] = .error e := by
  refine ⟨?_, ?_⟩
  · obtain ⟨seqs, h⟩ := exists_of_toBool
      (load_sprite_sequences sample_sprites [⟨9, -2, 1⟩]) (by decide)
    obtain ⟨q, hq, hid, _, hs, _⟩ :=
      (load_sprite_sequences_frames sample_sprites [⟨9, -2, 1⟩] 0 ⟨9, -2, 1⟩ rfl 2
        (by decide)).1 seqs h
    refine ⟨seqs, q, h, hq, by rw [hid]; decide, ?_⟩
    rw [hs]
    decide
  · exact (load_sprite_sequences_frames sample_sprites [⟨9, -2, 2⟩] 0 ⟨9, -2, 2⟩ rfl 2
      (by decide)).2 ⟨1, by decide, by decide⟩

/-! ## Models: the opcodes of the nodes -/

theorem load_model_nodes_succ (bone_data : List Int) (nlm first_mesh bdo : Nat)
    (count j : Nat) (node_stack : List Int) (nodes : List model_node) (hj : j ≠ 0)
    (hmesh : first_mesh + j < nlm) :
    load_model_nodes bone_data nlm first_mesh bdo (count + 1) j node_stack nodes =
      match vector_index bone_data (u32 (bdo + ((j : Int) - 1) * 4)) with
      | .error e => .error e
      | .ok op =>
        match vector_index bone_data (u32 (bdo + ((j : Int) - 1) * 4 + 1)) with
        | .error e => .error e
        | .ok bone_x =>
          match vector_index bone_data (u32 (bdo + ((j : Int) - 1) * 4 + 2)) with
          | .error e => .error e
          | .ok bone_y =>
            match vector_index bone_data (u32 (bdo + ((j : Int) - 1) * 4 + 3)) with
            | .error e => .error e
            | .ok bone_z =>
              if u32 op &&& 0x01 ≠ 0 then
                match node_stack with
                | [] => .error .undefined_behaviour
                | top :: rest =>
                  load_model_nodes bone_data nlm first_mesh bdo count (j + 1)
                    (if u32 op &&& 0x02 ≠ 0 then top :: rest else rest)
                    (nodes ++ [⟨top, ⟨bone_x, bone_y, bone_z⟩, first_mesh + j⟩])
              else
                load_model_nodes bone_data nlm first_mesh bdo count (j + 1)
                  (if u32 op &&& 0x02 ≠ 0 then ((j : Int) - 1) :: node_stack else node_stack)
                  (nodes ++ [⟨(j : Int) - 1, ⟨bone_x, bone_y, bone_z⟩, first_mesh + j⟩]) := by
  rw [load_model_nodes]
  simp only [hmesh, not_true_eq_false, if_false, hj, ne_eq, not_false_eq_true, if_true,
    bind, Except.bind, pure, Except.pure]
  cases vector_index bone_data (u32 (bdo + ((j : Int) - 1) * 4)) with
  | error e => rfl
  | ok op =>
    simp only []
    cases vector_index bone_data (u32 (bdo + ((j : Int) - 1) * 4 + 1)) with
    | error e => rfl
    | ok bone_x =>
      simp only []
      cases vector_index bone_data (u32 (bdo + ((j : Int) - 1) * 4 + 2)) with
      | error e => rfl
      | ok bone_y =>
        simp only []
        cases vector_index bone_data (u32 (bdo + ((j : Int) - 1) * 4 + 3)) with
        | error e => rfl
        | ok bone_z =>
          simp only []

theorem and_two_eq_mod (n : Nat) : n &&& 2 = (n % 4) &&& 2 := by
  have h3 : n &&& 3 = n % 4 := Nat.and_pow_two_sub_one_eq_mod n 2
  rw [← h3, Nat.and_assoc]
  rfl

theorem opcode_bits (n : Nat) :
    (n % 4 = 0 → n &&& 1 = 0 ∧ n &&& 2 = 0) ∧ (n % 4 = 1 → n &&& 1 ≠ 0 ∧ n &&& 2 = 0) ∧
    (n % 4 = 2 → n &&& 1 = 0 ∧ n &&& 2 ≠ 0) ∧ (n % 4 = 3 → n &&& 1 ≠ 0 ∧ n &&& 2 ≠ 0) := by
  rw [Nat.and_one_is_mod, and_two_eq_mod]
  have h2 : n % 2 = n % 4 % 2 := by omega
  rw [h2]
  refine ⟨?_, ?_, ?_, ?_⟩ <;> intro h <;> rw [h] <;> decide

/-- C28: an iteration of the node loop of `load_models` for a node `j` other than node 0,
with the parent stack `S`, that does not fail, has read the opcode and three values at
the four positions of the bone data of the node, and goes on with a node whose offset is
the three values. By the low two bits of the opcode: for 0 the parent is `j - 1` and the
stack is `S`; for 1 the parent is the top of `S` and the stack is `S` without its top;
for 2 the parent is `j - 1` and the stack is `S` with `j - 1` pushed; for 3 the parent is
the top of `S` and the stack is `S`. -/
theorem load_model_nodes_opcode (bone_data : List Int) (nlm first_mesh bdo : Nat)
    (count j : Nat) (S : List Int) (nodes result : List model_node) (hj : j ≠ 0)
    (h : load_model_nodes bone_data nlm first_mesh bdo (count + 1) j S nodes = .ok result) :
    ∃ (op bone_x bone_y bone_z parent : Int) (S' : List Int),
      bone_data[u32 (bdo + ((j : Int) - 1) * 4)]? = some op ∧
      bone_data[u32 (bdo + ((j : Int) - 1) * 4 + 1)]? = some bone_x ∧
      bone_data[u32 (bdo + ((j : Int) - 1) * 4 + 2)]? = some bone_y ∧
      bone_data[u32 (bdo + ((j : Int) - 1) * 4 + 3)]? = some bone_z ∧
      load_model_nodes bone_data nlm first_mesh bdo count (j + 1) S'
        (nodes ++ [⟨parent, ⟨bone_x, bone_y, bone_z⟩, first_mesh + j⟩]) = .ok result ∧
      (u32 op % 4 = 0 → parent = (j : Int) - 1 ∧ S' = S) ∧
      (u32 op % 4 = 1 → ∃ top rest, S = top :: rest ∧ parent = top ∧ S' = rest) ∧
      (u32 op % 4 = 2 → parent = (j : Int) - 1 ∧ S' = ((j : Int) - 1) :: S) ∧
      (u32 op % 4 = 3 → ∃ top rest, S = top :: rest ∧ parent = top ∧ S' = S) := by
  have hmesh : first_mesh + j < nlm := by
    by_contra hmesh
    rw [load_model_nodes] at h
    simp [hmesh, bind, Except.bind, throw, throwThe, MonadExceptOf.throw] at h
  rw [load_model_nodes_succ _ _ _ _ _ _ _ _ hj hmesh] at h
  have hget : ∀ (i : Nat) (x : Int), vector_index bone_data i = .ok x →
      bone_data[i]? = some x := by
    intro i x hx
    unfold vector_index at hx
    cases hb : bone_data[i]? with
    | none => rw [hb] at hx; cases hx
    | some y =>
      rw [hb] at hx
      simp only [Except.ok.injEq] at hx
      rw [hx]
  cases h0 : vector_index bone_data (u32 (bdo + ((j : Int) - 1) * 4)) with
  | error e => rw [h0] at h; cases h
  | ok op =>
  rw [h0] at h
  simp only [] at h
  cases hx : vector_index bone_data (u32 (bdo + ((j : Int) - 1) * 4 + 1)) with
  | error e => rw [hx] at h; cases h
  | ok bone_x =>
  rw [hx] at h
  simp only [] at h
  cases hy : vector_index bone_data (u32 (bdo + ((j : Int) - 1) * 4 + 2)) with
  | error e => rw [hy] at h; cases h
  | ok bone_y =>
  rw [hy] at h
  simp only [] at h
  cases hz : vector_index bone_data (u32 (bdo + ((j : Int) - 1) * 4 + 3)) with
  | error e => rw [hz] at h; cases h
  | ok bone_z =>
  rw [hz] at h
  simp only [] at h
  obtain ⟨b0, b1, b2, b3⟩ := opcode_bits (u32 op)
  by_cases h1 : u32 op &&& 0x01 = 0
  · rw [if_neg (not_not.2 h1)] at h
    by_cases h2 : u32 op &&& 0x02 = 0
    · rw [if_neg (not_not.2 h2)] at h
      refine ⟨op, bone_x, bone_y, bone_z, (j : Int) - 1, S, hget _ _ h0, hget _ _ hx,
        hget _ _ hy, hget _ _ hz, h, fun _ => ⟨rfl, rfl⟩, ?_, ?_, ?_⟩
      · intro hm
        exact absurd h1 (b1 hm).1
      · intro hm
        exact absurd h2 (b2 hm).2
      · intro hm
        exact absurd h1 (b3 hm).1
    · rw [if_pos h2] at h
      refine ⟨op, bone_x, bone_y, bone_z, (j : Int) - 1, ((j : Int) - 1) :: S, hget _ _ h0,
        hget _ _ hx, hget _ _ hy, hget _ _ hz, h, ?_, ?_, fun _ => ⟨rfl, rfl⟩, ?_⟩
      · intro hm
        exact absurd (b0 hm).2 h2
      · intro hm
        exact absurd h1 (b1 hm).1
      · intro hm
        exact absurd h1 (b3 hm).1
  · rw [if_pos h1] at h
    cases S with
    | nil => cases h
    | cons top rest =>
      simp only [] at h
      by_cases h2 : u32 op &&& 0x02 = 0
      · rw [if_neg (not_not.2 h2)] at h
        refine ⟨op, bone_x, bone_y, bone_z, top, rest, hget _ _ h0, hget _ _ hx,
          hget _ _ hy, hget _ _ hz, h, ?_, fun _ => ⟨top, rest, rfl, rfl, rfl⟩, ?_, ?_⟩
        · intro hm
          exact absurd (b0 hm).1 h1
        · intro hm
          exact absurd (b2 hm).1 h1
        · intro hm
          exact absurd h2 (b3 hm).2
      · rw [if_pos h2] at h
        refine ⟨op, bone_x, bone_y, bone_z, top, top :: rest, hget _ _ h0, hget _ _ hx,
          hget _ _ hy, hget _ _ hz, h, ?_, ?_, ?_, fun _ => ⟨top, rest, rfl, rfl, rfl⟩⟩
        · intro hm
          exact absurd (b0 hm).1 h1
        · intro hm
          exact absurd (b1 hm).2 h2
        · intro hm
          exact absurd (b2 hm).1 h1

set_option maxRecDepth 20000 in
/-- C28 on the sample bone data, at node 2 with the empty stack, after the nodes 0 and 1:
the opcode of node 2 is 2 and its three values are 1, 1 and 1, so its parent is node 1,
its offset is (1, 1, 1), and the loop goes on with node 1 on the stack. -/
theorem load_model_nodes_opcode_witness :
    ∃ result parent S',
      load_model_nodes sample_bone_data 5 0 0 3 2 []
        [⟨-1, ⟨0, 0, 0⟩, 0⟩, ⟨0, ⟨1, 2, 3⟩, 1⟩] = .ok result ∧
      load_model_nodes sample_bone_data 5 0 0 2 3 S'
        ([⟨-1, ⟨0, 0, 0⟩, 0⟩, ⟨0, ⟨1, 2, 3⟩, 1⟩] ++ [⟨parent, ⟨1, 1, 1⟩, 0 + 2⟩]) =
          .ok result ∧
      parent = 1 ∧ S' = [1] := by
  obtain ⟨result, h⟩ := exists_of_toBool
    (load_model_nodes sample_bone_data 5 0 0 3 2 []
      [⟨-1, ⟨0, 0, 0⟩, 0⟩, ⟨0, ⟨1, 2, 3⟩, 1⟩]) (by decide)
  obtain ⟨op, x, y, z, parent, S', h0, hx, hy, hz, hnext, _, _, c2, _⟩ :=
    load_model_nodes_opcode sample_bone_data 5 0 0 2 2 [] _ result (by decide) h
  have d0 : sample_bone_data[u32 (((0 : Nat) : Int) + (((2 : Nat) : Int) - 1) * 4)]? =
      some 2 := by decide
  have dx : sample_bone_data[u32 (((0 : Nat) : Int) + (((2 : Nat) : Int) - 1) * 4 + 1)]? =
      some 1 := by decide
  have dy : sample_bone_data[u32 (((0 : Nat) : Int) + (((2 : Nat) : Int) - 1) * 4 + 2)]? =
      some 1 := by decide
  have dz : sample_bone_data[u32 (((0 : Nat) : Int) + (((2 : Nat) : Int) - 1) * 4 + 3)]? =
      some 1 := by decide
  have e0 : op = 2 := Option.some.inj (h0.symm.trans d0)
  have ex : x = 1 := Option.some.inj (hx.symm.trans dx)
  have ey : y = 1 := Option.some.inj (hy.symm.trans dy)
  have ez : z = 1 := Option.some.inj (hz.symm.trans dz)
  obtain ⟨hp, hS⟩ := c2 (by rw [e0]; decide)
  refine ⟨result, parent, S', h, ?_, by rw [hp]; norm_num, by rw [hS]; norm_num⟩
  rw [ex, ey, ez] at hnext
  have c1 : (((1 : Int) : ℚ)) = 1 := by norm_num
  rw [c1] at hnext
  exact hnext

/-! ## Animations: the record of one frame -/

theorem swap_pairs_length : ∀ l : List Nat, (swap_pairs l).length = l.length
  | [] => rfl
  | [_] => rfl
  | a :: b :: rest => by
    rw [swap_pairs, List.length_cons, List.length_cons, swap_pairs_length rest,
      List.length_cons, List.length_cons]

/-- The words of `swap_pairs`: pair `i` of the list with its two words exchanged. -/
theorem swap_pairs_getElem :
    ∀ (i : Nat) (l : List Nat), 2 * i + 1 < l.length →
      (swap_pairs l)[2 * i]? = l[2 * i + 1]? ∧ (swap_pairs l)[2 * i + 1]? = l[2 * i]? := by
  intro i
  induction i with
  | zero =>
    intro l h
    match l, h with
    | a :: b :: rest, _ => simp [swap_pairs]
  | succ i ih =>
    intro l h
    match l, h with
    | a :: b :: rest, h =>
      have h' : 2 * i + 1 < rest.length := by
        simp only [List.length_cons] at h
        omega
      obtain ⟨h1, h2⟩ := ih rest h'
      have e1 : 2 * (i + 1) = 2 * i + 1 + 1 := by ring
      have e2 : 2 * (i + 1) + 1 = 2 * i + 1 + 1 + 1 := by ring
      rw [swap_pairs, e2, e1]
      simp only [List.getElem?_cons_succ]
      exact ⟨h1, h2⟩

/-- The function `emit_anim_frame_tr1` fails exactly when the raw data has fewer than
`o + 10` words, or fewer than `o + 10 + 2n` words for the count `n` at `o + 9`. -/
theorem emit_anim_frame_tr1_fails_iff (rawdata : List Nat) (offset : Nat) (out : List Nat) :
    (∃ e, emit_anim_frame_tr1 rawdata offset out = .error e) ↔
      (rawdata.length < offset + 10 ∨
        rawdata.length < offset + 10 + 2 * rawdata.getD (offset + 9) 0) := by
  constructor
  · rintro ⟨e, he⟩
    by_contra hfit
    rw [emit_anim_frame_tr1_eq rawdata offset out (by omega) (by omega)] at he
    cases he
  · intro hshort
    by_cases h10 : rawdata.length < offset + 10
    · refine ⟨.runtime_error, ?_⟩
      simp only [emit_anim_frame_tr1, bind, Except.bind, throw, throwThe,
        MonadExceptOf.throw]
      rw [if_pos h10]
    · refine ⟨.runtime_error, ?_⟩
      simp only [emit_anim_frame_tr1, bind, Except.bind, throw, throwThe,
        MonadExceptOf.throw]
      rw [if_neg h10, vector_at_getD _ _ (by omega)]
      simp only []
      rw [if_pos (by omega)]
      rfl

/-- A V1 frame with fewer than 32764 angle sets that lies inside the raw data: the words
`emit_anim_frame_tr1` appends are the length `9 + 2n`, the 9 raw words from `o` on, and
for each angle set its second raw word and then its first; the offset returned is
`o + 10 + 2n`. -/
theorem emit_anim_frame_tr1_small (rawdata : List Nat) (offset : Nat) (out : List Nat)
    (h10 : offset + 10 ≤ rawdata.length)
    (hn : offset + 10 + 2 * rawdata.getD (offset + 9) 0 ≤ rawdata.length)
    (hsmall : rawdata.getD (offset + 9) 0 < 32764) :
    ∃ sets, emit_anim_frame_tr1 rawdata offset out =
        .ok (offset + 10 + 2 * rawdata.getD (offset + 9) 0,
          out ++ (9 + 2 * rawdata.getD (offset + 9) 0) ::
            ((rawdata.drop offset).take 9 ++ sets)) ∧
      sets.length = 2 * rawdata.getD (offset + 9) 0 ∧
      ((rawdata.drop offset).take 9).length = 9 ∧
      ∀ i, i < rawdata.getD (offset + 9) 0 →
        sets[2 * i]? = rawdata[offset + 10 + 2 * i + 1]? ∧
        sets[2 * i + 1]? = rawdata[offset + 10 + 2 * i]? := by
  have hw : u16 ((9 + rawdata.getD (offset + 9) 0 * 2 : Nat) : Int) =
      9 + 2 * rawdata.getD (offset + 9) 0 := by
    unfold u16
    omega
  have htake : ((rawdata.drop (offset + 10)).take (rawdata.getD (offset + 9) 0 * 2)).length =
      2 * rawdata.getD (offset + 9) 0 := by
    rw [List.length_take, List.length_drop]
    omega
  refine ⟨swap_pairs ((rawdata.drop (offset + 10)).take (rawdata.getD (offset + 9) 0 * 2)),
    ?_, ?_, ?_, ?_⟩
  · rw [emit_anim_frame_tr1_eq rawdata offset out h10 (by omega), hw]
    have e : rawdata.getD (offset + 9) 0 * 2 = 2 * rawdata.getD (offset + 9) 0 :=
      Nat.mul_comm _ _
    rw [e]
  · rw [swap_pairs_length, htake]
  · rw [List.length_take, List.length_drop]
    omega
  · intro i hi
    obtain ⟨h1, h2⟩ := swap_pairs_getElem i
      ((rawdata.drop (offset + 10)).take (rawdata.getD (offset + 9) 0 * 2))
      (by rw [htake]; omega)
    rw [h1, h2, List.getElem?_take_of_lt (by omega), List.getElem?_take_of_lt (by omega),
      List.getElem?_drop, List.getElem?_drop]
    refine ⟨?_, ?_⟩ <;> (apply congrArg (fun k => rawdata[k]?); omega)

/-- The V1 frame with 32764 angle sets: what `emit_anim_frame_tr1` makes of it. -/
theorem emit_long_frame :
    emit_anim_frame_tr1 long_frame_data 0 [] =
      .ok (65538, 1 :: ([0, 65534, 0, 0, 0, 0, 0, 0, 0] ++
        (List.replicate (32763 * 2) 0 ++ [0, 1]))) := by
  have hz : (List.replicate (32763 * 2) 0).length = 65526 := List.length_replicate _ _
  have hb : (List.replicate (32763 * 2) 0 ++ [1, 0]).length = 32764 * 2 := by
    rw [List.length_append, hz]
    rfl
  have h := emit_anim_frame_tr1_single [0, 65534, 0, 0, 0, 0, 0, 0, 0]
    (List.replicate (32763 * 2) 0 ++ [1, 0]) 32764 [] rfl hb
  have hs : swap_pairs [1, 0] = [0, 1] := rfl
  rw [swap_pairs_replicate, hs] at h
  have hw : u16 ((9 + 32764 * 2 : Nat) : Int) = 1 := by decide
  rw [hw] at h
  exact h

theorem frame_with_count (hdr body : List Nat) (n : Nat) (h9 : hdr.length = 9) :
    (hdr ++ n :: body)[9]? = some n ∧ (hdr ++ n :: body).length = 10 + body.length := by
  refine ⟨?_, ?_⟩
  · rw [List.getElem?_append_right (by omega), h9]
    simp
  · rw [List.length_append, List.length_cons, h9]
    omega

theorem long_frame_data_length : long_frame_data.length = 65538 := by
  have h := (frame_with_count [0, 65534, 0, 0, 0, 0, 0, 0, 0]
    (List.replicate (32763 * 2) 0 ++ [1, 0]) 32764 rfl).2
  have hb : (List.replicate (32763 * 2) 0 ++ [1, 0]).length = 65528 := by
    rw [List.length_append, List.length_replicate]
    rfl
  rw [hb] at h
  exact h

theorem long_frame_data_count : long_frame_data[9]? = some 32764 :=
  (frame_with_count [0, 65534, 0, 0, 0, 0, 0, 0, 0]
    (List.replicate (32763 * 2) 0 ++ [1, 0]) 32764 rfl).1

/-- C29 fails for the V1 frame with n = 32764 angle sets at offset 0 of raw data of
65538 words, which the frame fills: `emit_anim_frame_tr1` returns 0 + 10 + 2n = 65538,
and the length word it has appended is 1, where 9 + 2n is 65537: the sum is stored in
the 16-bit element of the buffer. -/
theorem emit_anim_frame_tr1_length_word_wraps :
    ∃ buf, long_frame_data[9]? = some 32764 ∧
      0 + 10 + 2 * 32764 ≤ long_frame_data.length ∧
      emit_anim_frame_tr1 long_frame_data 0 [] = .ok (0 + 10 + 2 * 32764, buf) ∧
      buf[0]? = some 1 ∧ (1 : Nat) ≠ 9 + 2 * 32764 :=
  ⟨_, long_frame_data_count, by rw [long_frame_data_length], emit_long_frame,
    List.getElem?_cons_zero, by decide⟩

/-- A successful call of `emit_anim_frame_tr1` on a frame with fewer than 32764 angle
sets appends a record whose first word is the number of words appended after it. -/
theorem emit_anim_frame_tr1_self_delimiting (rawdata : List Nat) (offset o' : Nat)
    (out out' : List Nat) (h : emit_anim_frame_tr1 rawdata offset out = .ok (o', out'))
    (hsmall : rawdata.getD (offset + 9) 0 < 32764) :
    ∃ w rest, out' = out ++ w :: rest ∧ w = rest.length := by
  have hfit : ¬ (rawdata.length < offset + 10 ∨
      rawdata.length < offset + 10 + 2 * rawdata.getD (offset + 9) 0) := by
    intro hshort
    obtain ⟨e, he⟩ := (emit_anim_frame_tr1_fails_iff rawdata offset out).2 hshort
    rw [he] at h
    cases h
  obtain ⟨sets, heq, hlen, h9, _⟩ := emit_anim_frame_tr1_small rawdata offset out
    (by omega) (by omega) hsmall
  rw [heq] at h
  simp only [Except.ok.injEq, Prod.mk.injEq] at h
  refine ⟨_, _, h.2.symm, ?_⟩
  rw [List.length_append, h9, hlen]

/-- A successful call of `emit_anim_frame_tr2` with a stride below 65536, as every stride
`load_animations` passes is, appends a record whose first word is the number of words
appended after it. -/
theorem emit_anim_frame_tr2_self_delimiting (rawdata : List Nat) (offset stride o' : Nat)
    (out out' : List Nat)
    (h : emit_anim_frame_tr2 rawdata offset stride out = .ok (o', out'))
    (hsmall : stride < 65536) :
    ∃ w rest, out' = out ++ w :: rest ∧ w = rest.length := by
  have hfit : offset + stride ≤ rawdata.length := by
    by_contra hshort
    simp only [emit_anim_frame_tr2, bind, Except.bind, throw, throwThe,
      MonadExceptOf.throw] at h
    rw [if_pos (by omega)] at h
    cases h
  rw [emit_anim_frame_tr2_eq rawdata offset stride out hfit] at h
  simp only [Except.ok.injEq, Prod.mk.injEq] at h
  have hw : u16 ((stride : Nat) : Int) = stride := by
    unfold u16
    omega
  rw [hw] at h
  refine ⟨_, _, h.2.symm, ?_⟩
  rw [List.length_take, List.length_drop]
  omega

/-- C30 fails for the call of `emit_anim_frame_tr1` on the V1 frame with 32764 angle
sets, which returns: the first word it appends is 1, and 65537 words are appended after
it. -/
theorem emitted_record_is_not_self_delimiting :
    ∃ o' w rest, emit_anim_frame_tr1 long_frame_data 0 [] = .ok (o', [] ++ w :: rest) ∧
      w = 1 ∧ rest.length = 65537 ∧ w ≠ rest.length := by
  have hlen : ([0, 65534, 0, 0, 0, 0, 0, 0, 0] ++
      (List.replicate (32763 * 2) 0 ++ [0, 1])).length = 65537 := by
    rw [List.length_append, List.length_append, List.length_replicate]
    rfl
  refine ⟨_, _, _, emit_long_frame, rfl, hlen, ?_⟩
  rw [hlen]
  decide

/-! ## Rooms: the light intensities -/

/-- The ambient light intensity of the room `load_room` returns. -/
theorem load_room_ambient (g : glm_lib) (lvl : level) (static_meshes : List d_static_mesh)
    (room_idx : Nat) (droom : d_room) (r : room)
    (h : load_room g lvl static_meshes room_idx droom = .ok r) :
    r.ambient_light_intensity = 1 - (droom.ambient_lighting1 : ℚ) / 8191 := by
  rw [load_room_eq] at h
  cases h1 : for_each (load_room_polygon lvl) droom.quads with
  | error e => rw [h1] at h; cases h
  | ok quads =>
    rw [h1] at h
    simp only [] at h
    cases h2 : for_each (load_room_polygon lvl) droom.tris with
    | error e => rw [h2] at h; cases h
    | ok tris =>
      rw [h2] at h
      simp only [] at h
      cases h3 : for_each (load_room_static_sprite lvl droom) droom.static_sprites with
      | error e => rw [h3] at h; cases h
      | ok static_sprites =>
        rw [h3] at h
        simp only [] at h
        cases h4 : load_room_static_meshes g lvl.meshes static_meshes droom.static_meshes
            [] with
        | error e => rw [h4] at h; cases h
        | ok room_static_meshes =>
          rw [h4] at h
          simp only [Except.ok.injEq] at h
          rw [← h]

/-- C34: when `room_loader::load` returns, the ambient light intensity of the room of a
room of the file is `1 - raw/8191` for the raw value of the room, above 1 when the raw
value is negative; the lights of the room are those of the file, in order, and the
intensity of a light is 0 when its raw value is negative and `1 - raw/8191` otherwise. -/
theorem room_loader_load_intensities (g : glm_lib) (static_meshes : List d_static_mesh)
    (rooms : List d_room) (lvl lvl' : level)
    (h : room_loader.load g static_meshes rooms lvl = .ok lvl') (i : Nat) (droom : d_room)
    (hd : rooms[i]? = some droom) :
    ∃ r, lvl'.rooms[i]? = some r ∧
      r.ambient_light_intensity = 1 - (droom.ambient_lighting1 : ℚ) / 8191 ∧
      (droom.ambient_lighting1 < 0 → 1 < r.ambient_light_intensity) ∧
      r.lights.length = droom.lights.length ∧
      ∀ (k : Nat) (drl : d_room_light), droom.lights[k]? = some drl →
        ∃ l, r.lights[k]? = some l ∧
          (drl.intensity1 < 0 → l.intensity = 0) ∧
          (0 ≤ drl.intensity1 → l.intensity = 1 - (drl.intensity1 : ℚ) / 8191) := by
  obtain ⟨r, hr, hload⟩ := room_loader_load_getElem g static_meshes rooms lvl lvl' h i droom hd
  obtain ⟨_, _, _, hlights⟩ := load_room_ok g lvl static_meshes i droom r hload
  have hamb := load_room_ambient g lvl static_meshes i droom r hload
  refine ⟨r, hr, hamb, ?_, by rw [hlights, List.length_map], ?_⟩
  · intro hneg
    rw [hamb]
    have hq : ((droom.ambient_lighting1 : Int) : ℚ) < 0 := by exact_mod_cast hneg
    have hdiv : ((droom.ambient_lighting1 : Int) : ℚ) / 8191 < 0 :=
      div_neg_of_neg_of_pos hq (by norm_num)
    linarith
  · intro k drl hk
    refine ⟨load_room_light drl, by rw [hlights, List.getElem?_map, hk]; rfl, ?_, ?_⟩
    · intro hneg
      show (if drl.intensity1 ≥ 0 then 1 - (drl.intensity1 : ℚ) / 8191 else 0) = 0
      rw [if_neg (by omega)]
    · intro hpos
      show (if drl.intensity1 ≥ 0 then 1 - (drl.intensity1 : ℚ) / 8191 else 0) = _
      rw [if_pos hpos]

set_option maxRecDepth 20000 in
/-- C34 on the sample room with the raw ambient intensity -8191 and lights of raw
intensity -1 and 8191: the ambient intensity is 2 and the lights have the intensity 0. -/
theorem room_loader_load_intensities_witness :
    ∃ lvl' r, room_loader.load glm_rational [] [sample_d_room_lit] sample_level_of_pairs =
        .ok lvl' ∧
      lvl'.rooms[0]? = some r ∧ r.ambient_light_intensity = 2 ∧
      r.lights.map room_light.intensity = [0, 0] := by
  obtain ⟨lvl', h⟩ := exists_of_toBool
    (room_loader.load glm_rational [] [sample_d_room_lit] sample_level_of_pairs) (by decide)
  obtain ⟨r, hr, hamb, _, hlen, hlights⟩ :=
    room_loader_load_intensities glm_rational [] [sample_d_room_lit] sample_level_of_pairs
      lvl' h 0 sample_d_room_lit rfl
  obtain ⟨l0, hl0, hneg0, _⟩ := hlights 0 ⟨⟨0, 0, 0⟩, -1, 0, 0, 0⟩ rfl
  obtain ⟨l1, hl1, _, hpos1⟩ := hlights 1 ⟨⟨1, 2, 3⟩, 8191, 0, 100, 0⟩ rfl
  have h0 := hneg0 (by decide)
  have h1 := hpos1 (by decide)
  refine ⟨lvl', r, h, hr, ?_, ?_⟩
  · rw [hamb]
    simp only [sample_d_room_lit]
    norm_num
  · match hs : r.lights, hlen, hl0, hl1 with
    | [a, b], _, hl0, hl1 =>
      simp only [List.getElem?_cons_zero, List.getElem?_cons_succ, Option.some.injEq]
        at hl0 hl1
      rw [hl0, hl1]
      simp only [List.map, h0, h1]
      norm_num

/-! ## Models: the parent lookup -/

theorem node_transforms_from_eq (g : glm_lib) (af : anim_frame) (node : model_node)
    (nodes : List model_node) (i : Nat) (acc : List mat4) :
    node_transforms_from g af (node :: nodes) i acc =
      match (if i = 0 then .ok (g.translate 1 af.translation)
        else vector_at acc (size_t node.parent)) with
      | .error e => .error e
      | .ok transform =>
        match af.rotation[i]? with
        | none => .error .undefined_behaviour
        | some q =>
          node_transforms_from g af nodes (i + 1)
            (acc ++ [transform * g.translate 1 node.offset * g.mat4_cast q]) := by
  rw [node_transforms_from]
  by_cases hi : i = 0
  · simp only [hi, if_true, bind, Except.bind, pure, Except.pure]
    cases af.rotation[0]? <;> rfl
  · simp only [hi, if_false, bind, Except.bind, pure, Except.pure]
    cases vector_at acc (size_t node.parent) with
    | error e => rfl
    | ok t =>
      simp only []
      cases af.rotation[i]? <;> rfl

/-- The lookups `node_transforms.at(parent)` of the node loop of `update_node_transforms`
are inside the vector when every node after node 0 has an earlier node as parent. -/
theorem node_transforms_from_in_bounds (g : glm_lib) (af : anim_frame) :
    ∀ (nodes : List model_node) (i : Nat) (acc : List mat4), acc.length = i →
      (∀ (k : Nat) (n : model_node), nodes[k]? = some n → 0 < i + k →
        0 ≤ n.parent ∧ n.parent < ((i + k : Nat) : Int)) →
      node_transforms_from g af nodes i acc ≠ .error .out_of_range := by
  intro nodes
  induction nodes with
  | nil =>
    intro i acc _ _ h
    simp only [node_transforms_from, pure, Except.pure] at h
    cases h
  | cons node nodes ih =>
    intro i acc hlen hok
    rw [node_transforms_from_eq]
    have hrest : ∀ (k : Nat) (n : model_node), nodes[k]? = some n → 0 < i + 1 + k →
        0 ≤ n.parent ∧ n.parent < ((i + 1 + k : Nat) : Int) := by
      intro k n hn _
      have := hok (k + 1) n (by rw [List.getElem?_cons_succ]; exact hn) (by omega)
      have e : i + (k + 1) = i + 1 + k := by omega
      rw [e] at this
      exact this
    by_cases hi : i = 0
    · rw [if_pos hi]
      simp only []
      cases af.rotation[i]? with
      | none =>
        intro h
        cases h
      | some q => exact ih (i + 1) _ (by simp [hlen]) hrest
    · rw [if_neg hi]
      obtain ⟨h0, hlt⟩ := hok 0 node List.getElem?_cons_zero (by omega)
      have hsize : size_t node.parent < acc.length := by
        unfold size_t
        rw [hlen]
        have : ((i + 0 : Nat) : Int) = (i : Int) := by simp
        rw [this] at hlt
        omega
      have hv : vector_at acc (size_t node.parent) = .ok acc[size_t node.parent] := by
        unfold vector_at
        rw [List.getElem?_eq_getElem hsize]
      rw [hv]
      simp only []
      cases af.rotation[i]? with
      | none =>
        intro h
        cases h
      | some q => exact ih (i + 1) _ (by simp [hlen]) hrest

/-- C37: in every model `load_models` produces, every node `i > 0` has a parent index `p`
with `0 <= p < i`, and the node loop of `update_node_transforms` on the model does not
end in the out-of-range fault of `node_transforms.at(parent)`, whatever the frame is. -/
theorem load_models_parent_in_bounds (bone_data : List Int)
    (num_level_meshes num_animations : Nat) (records : List d_model) (models : List model)
    (h : load_models bone_data num_level_meshes num_animations records = .ok models) :
    ∀ m ∈ models,
      (∀ (i : Nat) (n : model_node), 0 < i → m.nodes[i]? = some n →
        0 ≤ n.parent ∧ n.parent < (i : Int)) ∧
      ∀ (g : glm_lib) (af : anim_frame),
        node_transforms_from g af m.nodes 0 [] ≠ .error .out_of_range := by
  intro m hm
  obtain ⟨d, _, hd⟩ := for_each_ok_mem _ records models h m hm
  have hok := load_model_nodes_of_ok _ _ _ d m hd
  refine ⟨fun i n hi hn => (hok i n hn).2 hi, ?_⟩
  intro g af
  apply node_transforms_from_in_bounds g af m.nodes 0 [] rfl
  intro k n hn hk
  have := (hok k n hn).2 (by omega)
  have e : 0 + k = k := by omega
  rw [e]
  exact this

set_option maxRecDepth 20000 in
/-- C37 on the sample model with five nodes, whose parents are -1, 0, 1, 1 and 3. -/
theorem load_models_parent_in_bounds_witness :
    ∃ models m, load_models sample_bone_data 5 1 [sample_d_model] = .ok models ∧
      models = [m] ∧ m.nodes.map (·.parent) = [-1, 0, 1, 1, 3] ∧
      (∀ (i : Nat) (n : model_node), 0 < i → m.nodes[i]? = some n →
        0 ≤ n.parent ∧ n.parent < (i : Int)) ∧
      ∀ (g : glm_lib) (af : anim_frame),
        node_transforms_from g af m.nodes 0 [] ≠ .error .out_of_range := by
  have hv : (load_models sample_bone_data 5 1 [sample_d_model]).toOption.map
      (fun ms => ms.map (fun m => m.nodes.map (·.parent))) = some [[-1, 0, 1, 1, 3]] := by
    decide
  cases hl : load_models sample_bone_data 5 1 [sample_d_model] with
  | error e => rw [hl] at hv; cases hv
  | ok models =>
    rw [hl] at hv
    simp only [Except.toOption, Option.map_some', Option.some.injEq] at hv
    match models, hl, hv with
    | [m], hl, hv =>
      simp only [List.map_cons, List.map_nil, List.cons.injEq, and_true] at hv
      obtain ⟨h1, h2⟩ := load_models_parent_in_bounds sample_bone_data 5 1 [sample_d_model]
        [m] hl m (List.mem_singleton.2 rfl)
      exact ⟨[m], m, rfl, rfl, hv, h1, h2⟩

/-! ## Texture animation chains and the palette entries -/

/-- The next-references the inner loop over the positions `js` of a chain leaves: those
there were, or references to members of the chain. -/
theorem link_texanimchain_targets (cs : List Nat) :
    ∀ (js : List Nat) (texinfos texinfos' : List texinfo),
      link_texanimchain cs js texinfos = .ok texinfos' → (∀ j ∈ js, j < cs.length) →
      ∀ k n, texanimchain_next texinfos' k = some n →
        texanimchain_next texinfos k = some n ∨ n ∈ cs := by
  intro js
  induction js with
  | nil =>
    intro T T' h _ k n hk
    simp only [link_texanimchain, pure, Except.pure, Except.ok.injEq] at h
    subst h
    exact Or.inl hk
  | cons j js ih =>
    intro T T' h hlt k n hk
    simp only [link_texanimchain, bind, Except.bind] at h
    split at h
    · cases h
    rename_i T1 hset
    obtain ⟨hsrc, hother⟩ := set_texanimchain_next _ _ _ _ hset
    rcases ih T1 T' h (fun j' hj' => hlt j' (List.mem_cons_of_mem _ hj')) k n hk with h1 | h1
    · by_cases hks : k = cs.getD j 0
      · right
        rw [hks, hsrc] at h1
        have hn : cs.getD ((j + 1) % cs.length) 0 = n := Option.some.inj h1
        rw [← hn]
        have hj := hlt j (List.mem_cons_self _ _)
        exact getD_mem cs _ (Nat.mod_lt _ (by omega))
      · left
        rw [← hother k hks]
        exact h1
    · exact Or.inr h1

/-- The next-references the chain loop leaves: those there were, or references to members
of one of the chains. -/
theorem link_texanimchains_targets :
    ∀ (ds : List d_texanimchain) (texinfos texinfos' : List texinfo),
      link_texanimchains ds texinfos = .ok texinfos' →
      ∀ k n, texanimchain_next texinfos' k = some n →
        texanimchain_next texinfos k = some n ∨ ∃ d ∈ ds, n ∈ texanimchain_texinfos d := by
  intro ds
  induction ds with
  | nil =>
    intro T T' h k n hk
    simp only [link_texanimchains, pure, Except.pure, Except.ok.injEq] at h
    subst h
    exact Or.inl hk
  | cons d ds ih =>
    intro T T' h k n hk
    simp only [link_texanimchains, bind, Except.bind] at h
    split at h
    · cases h
    rename_i T1 hlink
    rcases ih T1 T' h k n hk with h1 | ⟨d', hd', hn⟩
    · rcases link_texanimchain_targets _ _ _ _ hlink
          (fun j hj => List.mem_range.1 hj) k n h1 with h2 | h2
      · exact Or.inl h2
      · exact Or.inr ⟨d, List.mem_cons_self _ _, h2⟩
    · exact Or.inr ⟨d', List.mem_cons_of_mem _ hd', hn⟩

/-- Before the chain loop no texinfo has a next-reference. -/
theorem texanimchain_next_initial (records : List d_texinfo) (m : Nat) :
    texanimchain_next (load_palette_texinfos ++ records.map load_texinfo) m = none := by
  unfold texanimchain_next
  cases hm : (load_palette_texinfos ++ records.map load_texinfo)[m]? with
  | none => rfl
  | some t =>
    have hmem := List.getElem?_mem hm
    rcases List.mem_append.1 hmem with hp | hr
    · unfold load_palette_texinfos at hp
      obtain ⟨i, _, hi⟩ := List.mem_map.1 hp
      rw [← hi]
      rfl
    · obtain ⟨d, _, hd⟩ := List.mem_map.1 hr
      rw [← hd]
      rfl

/-- A member of a chain is below 256 exactly when the word stored for it is 0xFF00 or
more. -/
theorem texanimchain_member_palette (d : d_texanimchain) (m : Nat)
    (hm : m ∈ texanimchain_texinfos d) (hlt : m < 256) :
    ∃ j, j < texanimchain_length d ∧ 0xFF00 ≤ u16 (d.texinfos j) := by
  unfold texanimchain_texinfos at hm
  obtain ⟨j, hj, hjm⟩ := List.mem_map.1 hm
  refine ⟨j, List.mem_range.1 hj, ?_⟩
  rw [← hjm] at hlt
  unfold u16 at hlt ⊢
  omega

set_option maxRecDepth 20000 in
/-- C36 fails for a chain of one member whose stored index word is 0xFFFF, which `read16`
returns as -1: the index -1 + 256 = 255 is that of a palette entry, which gets itself as
next-reference. -/
theorem palette_entry_gets_next_reference :
    ∃ loaded, load_texinfos load_palette_texinfos [] [sample_texanimchain 0 [-1]] =
        .ok loaded ∧
      texanimchain_texinfos (sample_texanimchain 0 [-1]) = [255] ∧
      texanimchain_next loaded 255 = some 255 := by
  have hv : (load_texinfos load_palette_texinfos [] [sample_texanimchain 0 [-1]]).toOption.map
      (fun t => texanimchain_next t 255) = some (some 255) := by decide
  cases h : load_texinfos load_palette_texinfos [] [sample_texanimchain 0 [-1]] with
  | error e => rw [h] at hv; cases hv
  | ok loaded =>
    rw [h] at hv
    refine ⟨loaded, rfl, by decide, ?_⟩
    simpa [Except.toOption] using hv

/-- C36 (amended): after `load_texinfos` has returned, on the texinfos of `load_palette`,
a texinfo at an index below 256 that is a member of no chain of the file has no
next-reference; and when every index word stored in a chain is below 0xFF00, no texinfo
at an index below 256 has a next-reference and no next-reference of a texinfo is an index
below 256. -/
theorem load_texinfos_palette_entries (records : List d_texinfo)
    (chains : List d_texanimchain) (loaded : List texinfo)
    (h : load_texinfos load_palette_texinfos records chains = .ok loaded) :
    (∀ m, m < 256 → (∀ d ∈ chains, m ∉ texanimchain_texinfos d) →
      texanimchain_next loaded m = none) ∧
    ((∀ d ∈ chains, ∀ j, j < texanimchain_length d → u16 (d.texinfos j) < 0xFF00) →
      (∀ m, m < 256 → texanimchain_next loaded m = none) ∧
      ∀ k n, texanimchain_next loaded k = some n → 256 ≤ n) := by
  unfold load_texinfos at h
  rw [if_neg (by rw [load_palette_texinfos_length]; decide)] at h
  have hother : ∀ m, (∀ d ∈ chains, m ∉ texanimchain_texinfos d) →
      texanimchain_next loaded m = none := by
    intro m hm
    rw [link_texanimchains_other chains _ loaded h m hm]
    exact texanimchain_next_initial records m
  refine ⟨fun m _ hm => hother m hm, ?_⟩
  intro hwords
  have hmem : ∀ d ∈ chains, ∀ m ∈ texanimchain_texinfos d, 256 ≤ m := by
    intro d hd m hm
    by_contra hlt
    obtain ⟨j, hj, hw⟩ := texanimchain_member_palette d m hm (by omega)
    have := hwords d hd j hj
    omega
  refine ⟨?_, ?_⟩
  · intro m hm
    apply hother
    intro d hd hmd
    have := hmem d hd m hmd
    omega
  · intro k n hk
    rcases link_texanimchains_targets chains _ loaded h k n hk with h1 | ⟨d, hd, hn⟩
    · rw [texanimchain_next_initial] at h1
      cases h1
    · exact hmem d hd n hn

set_option maxRecDepth 20000 in
/-- C36 as amended, with one texinfo record and one chain, of that texinfo alone, whose
stored index word is 0: no palette entry has a next-reference. -/
theorem load_texinfos_palette_entries_witness :
    ∃ loaded, load_texinfos load_palette_texinfos [sample_d_texinfo]
        [sample_texanimchain 0 [0]] = .ok loaded ∧
      texanimchain_next loaded 256 = some 256 ∧
      (∀ m, m < 256 → texanimchain_next loaded m = none) ∧
      ∀ k n, texanimchain_next loaded k = some n → 256 ≤ n := by
  have hv : (load_texinfos load_palette_texinfos [sample_d_texinfo]
      [sample_texanimchain 0 [0]]).toOption.map
      (fun t => texanimchain_next t 256) = some (some 256) := by decide
  cases h : load_texinfos load_palette_texinfos [sample_d_texinfo]
      [sample_texanimchain 0 [0]] with
  | error e => rw [h] at hv; cases hv
  | ok loaded =>
    rw [h] at hv
    have hwords : ∀ d ∈ [sample_texanimchain 0 [0]], ∀ j, j < texanimchain_length d →
        u16 (d.texinfos j) < 0xFF00 := by
      intro d hd j hj
      rw [List.mem_singleton] at hd
      subst hd
      have hlen : texanimchain_length (sample_texanimchain 0 [0]) = 1 := by decide
      rw [hlen] at hj
      have hj0 : j = 0 := by omega
      subst hj0
      decide
    obtain ⟨h1, h2⟩ := (load_texinfos_palette_entries [sample_d_texinfo]
      [sample_texanimchain 0 [0]] loaded h).2 hwords
    exact ⟨loaded, rfl, by simpa [Except.toOption] using hv, h1, h2⟩

/-! ## Animations: the conversion loop ends -/

/-- C39: for raw frame data of fewer than 2^31 words, as every vector `load_animations`
builds of the 32-bit count of the file is, the `while` loops of `load_animations` end
within the iterations the model gives them, for every version and every list of headers;
an iteration that does not fail moves the raw frame offset forward, by 10 words at least
for V1 and by the frame size of the animation for V2, which the header loop has checked
to be 1 at least. -/
theorem load_animations_loop_terminates (v : version) (frame_data : List Nat)
    (headers : List d_animation) (hlen : frame_data.length < 2147483648) :
    load_animations v frame_data headers ≠ none ∧
    (∀ (fs o o' : Nat) (out out' : List Nat),
      emit_anim_frame v frame_data fs o out = .ok (o', out') →
      (v = .version_tr1 → o + 10 ≤ o') ∧ (v = .version_tr2 → o' = o + fs)) ∧
    (∀ (d : d_animation) (a : animation) (e : d_anim_extra),
      read_animation v d = .ok (a, e) → v = .version_tr2 → 1 ≤ e.frame_size) := by
  refine ⟨load_animations_terminates v frame_data headers hlen, ?_, ?_⟩
  · intro fs o o' out out' h
    have hend := emit_anim_frame_end v frame_data fs o out o' out' hlen h
    refine ⟨?_, ?_⟩
    · intro hv
      subst hv
      simp only [raw_frame_end] at hend
      split at hend
      · split at hend
        · simp only [Option.some.injEq] at hend
          omega
        · cases hend
      · cases hend
    · intro hv
      subst hv
      simp only [raw_frame_end] at hend
      split at hend
      · simp only [Option.some.injEq] at hend
        omega
      · cases hend
  · intro d a e h hv
    obtain ⟨he, hfs⟩ := read_animation_extra v d a e h
    have := hfs hv
    rw [he]
    show 1 ≤ u8 d.frame_size
    omega

/-- C39 on the raw V2 frame data of two frames of 10 words and one header with the frame
size 10: `load_animations` ends, and returns. -/
theorem load_animations_loop_terminates_witness :
    load_animations .version_tr2 short_animation_sections.frame_data
      short_animation_sections.animations ≠ none ∧
    (load_animations .version_tr2 short_animation_sections.frame_data
      short_animation_sections.animations).isSome = true :=
  ⟨(load_animations_loop_terminates .version_tr2 short_animation_sections.frame_data
      short_animation_sections.animations (by decide)).1, by decide⟩

/-! ## Animations: the word count of the buffer -/

/-- A call of `emit_anim_frame_tr1` that returns has appended as many words as it has
moved the raw offset forward. -/
theorem emit_anim_frame_tr1_length (rawdata : List Nat) (offset o : Nat)
    (out out' : List Nat) (h : emit_anim_frame_tr1 rawdata offset out = .ok (o, out')) :
    out'.length + offset = out.length + o ∧ o ≤ rawdata.length := by
  have hfit : ¬ (rawdata.length < offset + 10 ∨
      rawdata.length < offset + 10 + 2 * rawdata.getD (offset + 9) 0) := by
    intro hshort
    obtain ⟨e, he⟩ := (emit_anim_frame_tr1_fails_iff rawdata offset out).2 hshort
    rw [he] at h
    cases h
  rw [emit_anim_frame_tr1_eq rawdata offset out (by omega) (by omega)] at h
  simp only [Except.ok.injEq, Prod.mk.injEq] at h
  obtain ⟨ho, hout⟩ := h
  rw [← hout, ← ho]
  simp only [List.length_append, List.length_cons, swap_pairs_length, List.length_take,
    List.length_drop]
  omega

/-- The same for the `while` loop of `load_animations` on a V1 file. -/
theorem emit_anim_frames_tr1_length (rawdata : List Nat) (fs next : Nat)
    (hlen : rawdata.length < 2147483648) :
    ∀ (fuel offset : Nat) (out : List Nat) (o : Nat) (out' : List Nat),
      emit_anim_frames .version_tr1 rawdata fs next fuel offset out = some (.ok (o, out')) →
      out'.length + offset = out.length + o := by
  intro fuel
  induction fuel with
  | zero =>
    intro offset out o out' h
    simp only [emit_anim_frames] at h
    split at h
    · cases h
    · simp only [Option.some.injEq, Except.ok.injEq, Prod.mk.injEq] at h
      rw [h.1, h.2]
  | succ fuel ih =>
    intro offset out o out' h
    simp only [emit_anim_frames] at h
    split at h
    · split at h
      · rename_i o1 out1 he
        have hrec := ih _ _ _ _ h
        simp only [emit_anim_frame, bind, Except.bind, pure, Except.pure] at he
        split at he
        · cases he
        rename_i r hr
        obtain ⟨o2, out2⟩ := r
        obtain ⟨hl, hle⟩ := emit_anim_frame_tr1_length rawdata offset o2 out out2 hr
        simp only [Except.ok.injEq, Prod.mk.injEq] at he
        rw [u32_of_lt _ (by omega)] at he
        rw [← he.1, ← he.2] at hrec
        omega
      · cases h
    · simp only [Option.some.injEq, Except.ok.injEq, Prod.mk.injEq] at h
      rw [h.1, h.2]

/-- The conversion loop of `load_animations` on a V1 file, started with as many words in
the buffer as raw words behind it: the buffer ends with as many words as the raw data
when there is an animation, and the frame offset of each animation is its raw frame
offset in words. -/
theorem convert_anim_frames_tr1_offsets (rawdata : List Nat)
    (hlen : rawdata.length < 2147483648) :
    ∀ (anims : List (animation × d_anim_extra)) (offset : Nat) (out : List Nat)
      (res : List animation × List Nat),
      (∀ p ∈ anims, p.2.frame_offset < 4294967296) →
      offset ≤ rawdata.length → out.length = offset →
      convert_anim_frames .version_tr1 rawdata anims offset out = some (.ok res) →
      (anims = [] → res.2 = out) ∧ (anims ≠ [] → res.2.length = rawdata.length) ∧
      res.1.length = anims.length ∧
      ∀ (i : Nat) (p : animation × d_anim_extra) (a : animation),
        anims[i]? = some p → res.1[i]? = some a → a.frame_offset = p.2.frame_offset / 2 := by
  intro anims
  induction anims with
  | nil =>
    intro offset out res _ _ _ h
    simp only [convert_anim_frames, Option.some.injEq, Except.ok.injEq] at h
    rw [← h]
    refine ⟨fun _ => rfl, fun hne => absurd rfl hne, rfl, ?_⟩
    intro i p a hp
    simp at hp
  | cons ae rest ih =>
    obtain ⟨a0, e0⟩ := ae
    intro offset out res hoff hle hout h
    obtain ⟨hstart, o1, out1, res1, hemit, ho1, hrest, hres⟩ :=
      convert_anim_frames_cons .version_tr1 rawdata hlen a0 e0 rest offset out res
        (fun p hp => hoff p (List.mem_cons_of_mem _ hp)) hle h
    have hl := emit_anim_frames_tr1_length rawdata e0.frame_size _ hlen _ _ _ _ _ hemit
    have hle1 := emit_anim_frames_le .version_tr1 rawdata e0.frame_size _ hlen _ _ _ _ _
      hle hemit
    have hout1 : out1.length = o1 := by omega
    obtain ⟨ihnil, ihcons, ihlen, ihoff⟩ := ih o1 out1 res1
      (fun p hp => hoff p (List.mem_cons_of_mem _ hp)) hle1 hout1 hrest
    refine ⟨fun hnil => List.noConfusion hnil, fun _ => ?_, ?_, ?_⟩
    · rw [hres]
      show res1.2.length = rawdata.length
      cases hr : rest with
      | nil =>
        rw [ihnil hr, hout1, ho1, hr]
        rfl
      | cons p ps =>
        exact ihcons (by rw [hr]; exact List.cons_ne_nil _ _)
    · rw [hres]
      show (_ :: res1.1).length = (_ :: rest).length
      rw [List.length_cons, List.length_cons, ihlen]
    · intro i p a hp ha
      rw [hres] at ha
      cases i with
      | zero =>
        simp only [List.getElem?_cons_zero, Option.some.injEq] at hp ha
        rw [← ha, ← hp]
        show out.length = e0.frame_offset / 2
        rw [hout, hstart]
      | succ i =>
        simp only [List.getElem?_cons_succ] at hp ha
        exact ihoff i p a hp ha

/-- C38 fails for a V1 file without animations whose raw frame data holds the 10 words of
a frame without angle sets: `load_animations` returns, and the canonical buffer is empty
where the raw frame data has 10 words. -/
theorem load_animations_without_animations :
    ∃ buf, load_animations .version_tr1 (List.replicate 10 0) [] = some (.ok ([], buf)) ∧
      buf.length = 0 ∧ (List.replicate 10 0 : List Nat).length = 10 ∧
      buf.length ≠ (List.replicate 10 0 : List Nat).length :=
  ⟨[], rfl, rfl, rfl, by decide⟩

/-- C38 (amended): when `load_animations` returns on a V1 file with at least one
animation, the canonical frame buffer has as many words as the raw frame data, and the
frame offset of each animation is the raw frame offset of its header, in bytes, divided
by 2; a file without animations has an empty buffer. The raw frame data has fewer than
2^31 words, as every vector built of the 32-bit count of the file has. -/
theorem load_animations_tr1_word_count (frame_data : List Nat) (headers : List d_animation)
    (animations : List animation) (buf : List Nat)
    (hlen : frame_data.length < 2147483648)
    (h : load_animations .version_tr1 frame_data headers = some (.ok (animations, buf))) :
    (headers ≠ [] → buf.length = frame_data.length) ∧ (headers = [] → buf = []) ∧
    animations.length = headers.length ∧
    ∀ (i : Nat) (d : d_animation) (a : animation), headers[i]? = some d →
      animations[i]? = some a → a.frame_offset = u32 d.frame_offset / 2 := by
  unfold load_animations at h
  cases hh : for_each (read_animation .version_tr1) headers with
  | error e => rw [hh] at h; cases h
  | ok anims =>
    rw [hh] at h
    simp only [] at h
    have hidx := for_each_ok_getElem _ headers anims hh
    have hlenh := for_each_ok_length _ headers anims hh
    have hoff : ∀ p ∈ anims, p.2.frame_offset < 4294967296 := by
      intro p hp
      obtain ⟨d', _, hd'⟩ := for_each_ok_mem _ headers anims hh p hp
      obtain ⟨pa, pe⟩ := p
      obtain ⟨he, _⟩ := read_animation_extra _ d' pa pe hd'
      subst he
      exact u32_lt _
    obtain ⟨hnil, hcons, hcount, hoffs⟩ := convert_anim_frames_tr1_offsets frame_data hlen
      anims 0 [] (animations, buf) hoff (Nat.zero_le _) rfl h
    have hcount : animations.length = anims.length := hcount
    refine ⟨?_, ?_, by rw [hcount, hlenh], ?_⟩
    · intro hne
      apply hcons
      intro hnil'
      rw [hnil'] at hlenh
      exact hne (List.length_eq_zero.1 hlenh.symm)
    · intro hnil'
      rw [hnil'] at hlenh
      exact hnil (List.length_eq_zero.1 hlenh)
    · intro i d a hd ha
      obtain ⟨p, hp, hread⟩ := (hidx i).1 d hd
      obtain ⟨pa, pe⟩ := p
      obtain ⟨he, _⟩ := read_animation_extra _ d pa pe hread
      have := hoffs i (pa, pe) a hp ha
      rw [this, he]

set_option maxRecDepth 20000 in
/-- C38 as amended, on a V1 file with two animations of one frame each, at the raw byte
offsets 0 and 20: the buffer has the 22 words of the raw frame data and the frame offsets
are 0 and 10. -/
theorem load_animations_tr1_word_count_witness :
    ∃ a0 a1 buf, load_animations .version_tr1 two_animation_frame_data
        [sample_header 0 0, sample_header 20 0] = some (.ok ([a0, a1], buf)) ∧
      buf.length = 22 ∧ a0.frame_offset = 0 ∧ a1.frame_offset = 10 := by
  have hv : ((load_animations .version_tr1 two_animation_frame_data
      [sample_header 0 0, sample_header 20 0]).map
      (fun r => r.toOption.map (fun p => p.1.length))) = some (some 2) := by decide
  cases hl : load_animations .version_tr1 two_animation_frame_data
      [sample_header 0 0, sample_header 20 0] with
  | none => rw [hl] at hv; cases hv
  | some r =>
    cases r with
    | error e => rw [hl] at hv; cases hv
    | ok res =>
      obtain ⟨animations, buf⟩ := res
      obtain ⟨hcount, _, hlen2, hoffs⟩ := load_animations_tr1_word_count
        two_animation_frame_data [sample_header 0 0, sample_header 20 0] animations buf
        (by decide) hl
      match animations, hlen2, hoffs with
      | [a0, a1], _, hoffs =>
        refine ⟨a0, a1, buf, rfl, ?_, ?_, ?_⟩
        · rw [hcount (by decide)]
          rfl
        · rw [hoffs 0 (sample_header 0 0) a0 rfl rfl]
          decide
        · rw [hoffs 1 (sample_header 20 0) a1 rfl rfl]
          decide

/-! ## The rotation codes of a frame -/

theorem and_shifted_mask (w k m : Nat) :
    w &&& ((2 ^ m - 1) <<< k) = ((w >>> k) % 2 ^ m) <<< k := by
  apply Nat.eq_of_testBit_eq
  intro i
  simp only [Nat.testBit_and, Nat.testBit_shiftLeft, Nat.testBit_two_pow_sub_one,
    Nat.testBit_mod_two_pow, Nat.testBit_shiftRight]
  by_cases hi : k ≤ i
  · have e : k + (i - k) = i := by omega
    rw [e]
    simp only [ge_iff_le, hi, decide_True, Bool.true_and]
    cases decide (i - k < m) <;> simp
  · simp [hi]

/-- The two leading bits of a word, as the mask `0xC000` takes them. -/
theorem and_C000 (w : Nat) : w &&& 0xC000 = (w / 16384 % 4) * 16384 := by
  have h := and_shifted_mask w 14 2
  have e : (2 ^ 2 - 1) <<< 14 = 0xC000 := by decide
  rw [e, Nat.shiftLeft_eq, Nat.shiftRight_eq_div_pow] at h
  exact h

theorem euler_angle_x (w : Nat) : (w &&& 0x3ff0) >>> 4 = w / 16 % 1024 := by
  have h := and_shifted_mask w 4 10
  have e : (2 ^ 10 - 1) <<< 4 = 0x3ff0 := by decide
  rw [e] at h
  rw [h, Nat.shiftLeft_shiftRight, Nat.shiftRight_eq_div_pow]
  rfl

theorem euler_angle_y (w1 w2 : Nat) :
    ((w1 &&& 0x000f) <<< 6) ||| ((w2 &&& 0xfc00) >>> 10) =
      w1 % 16 * 64 + w2 / 1024 % 64 := by
  have h := and_shifted_mask w2 10 6
  have e : (2 ^ 6 - 1) <<< 10 = 0xfc00 := by decide
  rw [e] at h
  have h1 : w1 &&& 0x000f = w1 % 16 := Nat.and_pow_two_sub_one_eq_mod w1 4
  rw [h, Nat.shiftLeft_shiftRight, Nat.shiftRight_eq_div_pow, h1, Nat.shiftLeft_eq]
  have hlt : w2 / 2 ^ 10 % 2 ^ 6 < 2 ^ 6 := Nat.mod_lt _ (by decide)
  have := Nat.mul_add_lt_is_or hlt (w1 % 16)
  rw [Nat.mul_comm] at this
  exact this.symm

theorem euler_angle_z (w : Nat) : w &&& 0x03ff = w % 1024 :=
  Nat.and_pow_two_sub_one_eq_mod w 10

/-- One round of the node loop of `parse_anim_frame`, when the loop returns: the word
read, the second word read when the mask `0xC000` of the first gives 0, and the rotation
assigned. -/
theorem parse_rotations_code (g : glm_lib) (buf : List Nat) (node : model_node)
    (nodes : List model_node) (i offset : Nat) (frame_size : Int) (rot : List quat)
    (log log' : List Nat) (r : List quat × Nat × Int)
    (h : parse_rotations g buf (node :: nodes) i offset frame_size rot log = (.ok r, log')) :
    ∃ w1, buf[offset]? = some w1 ∧
      ((w1 &&& 0xC000 = 0 ∧ ∃ w2 log1, buf[offset + 1]? = some w2 ∧
          parse_rotations g buf nodes (i + 1) (offset + 2) (frame_size - 2)
            (rot ++ [EulerAnglesToQuaternion g
              ⟨CONVERSION_FACTOR g * (((w1 &&& 0x3ff0) >>> 4 : Nat) : ℚ),
               CONVERSION_FACTOR g *
                (((((w1 &&& 0x000f) <<< 6) ||| ((w2 &&& 0xfc00) >>> 10) : Nat)) : ℚ),
               CONVERSION_FACTOR g * ((w2 &&& 0x03ff : Nat) : ℚ)⟩]) log1 = (.ok r, log')) ∨
       (w1 &&& 0xC000 ≠ 0 ∧ ∃ log1,
          parse_rotations g buf nodes (i + 1) (offset + 1) (frame_size - 1)
            (rot ++ [AxisAngleToQuaternion g
              ⟨if w1 &&& 0xC000 = 0x4000 then 1 else 0,
               if w1 &&& 0xC000 = 0x8000 then 1 else 0,
               if w1 &&& 0xC000 = 0xC000 then 1 else 0⟩
              (CONVERSION_FACTOR g * ((w1 &&& 0x03FF : Nat) : ℚ))]) log1 =
            (.ok r, log'))) := by
  simp only [parse_rotations] at h
  split at h
  · obtain ⟨_, _, h1, _⟩ := bind_ok _ _ _ _ _ h
    exact absurd h1 (fun h => throw_ne_ok _ _ _ _ h)
  obtain ⟨_, log1, h1, h⟩ := bind_ok _ _ _ _ _ h
  obtain ⟨tmp1, log2, ht1, h⟩ := bind_ok _ _ _ _ _ h
  refine ⟨tmp1, frame_at_ok _ _ _ _ _ ht1, ?_⟩
  split at h
  · rename_i hcode
    split at h
    · obtain ⟨_, _, h1, _⟩ := bind_ok _ _ _ _ _ h
      exact absurd h1 (fun h => throw_ne_ok _ _ _ _ h)
    obtain ⟨_, log3, _, h⟩ := bind_ok _ _ _ _ _ h
    obtain ⟨tmp2, log4, ht2, h⟩ := bind_ok _ _ _ _ _ h
    split at h
    · obtain ⟨_, _, h1, _⟩ := bind_ok _ _ _ _ _ h
      exact absurd h1 (fun h => throw_ne_ok _ _ _ _ h)
    obtain ⟨_, log5, _, h⟩ := bind_ok _ _ _ _ _ h
    have e1 : offset + 1 + 1 = offset + 2 := by omega
    have e2 : frame_size - 1 - 1 = frame_size - 2 := by omega
    rw [e1, e2] at h
    exact Or.inl ⟨hcode, tmp2, log5, frame_at_ok _ _ _ _ _ ht2, h⟩
  · rename_i hcode
    split at h
    · obtain ⟨_, _, h1, _⟩ := bind_ok _ _ _ _ _ h
      exact absurd h1 (fun h => throw_ne_ok _ _ _ _ h)
    obtain ⟨_, log3, _, h⟩ := bind_ok _ _ _ _ _ h
    exact Or.inr ⟨hcode, log3, h⟩

/-- C31: one round of the node loop of `parse_anim_frame` that the loop returns from, on
a buffer of 16-bit words, with `w1` the word at `offset`. When the two leading bits of
`w1` are zero the round takes a second word `w2` and assigns the rotation of the Euler
angles `f * x`, `f * y`, `f * z` for integers `x`, `y`, `z` below 1024 with
`x * 2^20 + y * 2^10 + z = w1 * 2^16 + w2`; when they are 1, 2 or 3 the round takes the
one word and assigns the rotation about the X, the Y or the Z axis by the angle
`f * (w1 & 0x3FF)`. The factor `f` is `CONVERSION_FACTOR` in both cases. -/
theorem parse_rotations_rotation_code (g : glm_lib) (buf : List Nat) (node : model_node)
    (nodes : List model_node) (i offset : Nat) (frame_size : Int) (rot : List quat)
    (log log' : List Nat) (r : List quat × Nat × Int)
    (hbuf : ∀ w ∈ buf, w < 65536)
    (h : parse_rotations g buf (node :: nodes) i offset frame_size rot log = (.ok r, log')) :
    ∃ w1, buf[offset]? = some w1 ∧
      (w1 / 16384 = 0 → ∃ w2 x y z log1, buf[offset + 1]? = some w2 ∧
        x < 1024 ∧ y < 1024 ∧ z < 1024 ∧
        x * 2 ^ 20 + y * 2 ^ 10 + z = w1 * 2 ^ 16 + w2 ∧
        parse_rotations g buf nodes (i + 1) (offset + 2) (frame_size - 2)
          (rot ++ [EulerAnglesToQuaternion g
            ⟨CONVERSION_FACTOR g * ((x : Nat) : ℚ), CONVERSION_FACTOR g * ((y : Nat) : ℚ),
             CONVERSION_FACTOR g * ((z : Nat) : ℚ)⟩]) log1 = (.ok r, log')) ∧
      (w1 / 16384 ≠ 0 → ∃ axis log1,
        (w1 / 16384 = 1 → axis = ⟨1, 0, 0⟩) ∧ (w1 / 16384 = 2 → axis = ⟨0, 1, 0⟩) ∧
        (w1 / 16384 = 3 → axis = ⟨0, 0, 1⟩) ∧
        parse_rotations g buf nodes (i + 1) (offset + 1) (frame_size - 1)
          (rot ++ [AxisAngleToQuaternion g axis
            (CONVERSION_FACTOR g * ((w1 &&& 0x3FF : Nat) : ℚ))]) log1 = (.ok r, log')) := by
  obtain ⟨w1, hw1, hcode⟩ := parse_rotations_code g buf node nodes i offset frame_size rot
    log log' r h
  have hlt1 : w1 < 65536 := hbuf w1 (List.getElem?_mem hw1)
  have hmask := and_C000 w1
  refine ⟨w1, hw1, ?_, ?_⟩
  · intro htop
    rcases hcode with ⟨_, w2, log1, hw2, hrest⟩ | ⟨hne, _⟩
    · have hlt2 : w2 < 65536 := hbuf w2 (List.getElem?_mem hw2)
      rw [euler_angle_x, euler_angle_y, euler_angle_z] at hrest
      refine ⟨w2, w1 / 16 % 1024, w1 % 16 * 64 + w2 / 1024 % 64, w2 % 1024, log1, hw2,
        Nat.mod_lt _ (by decide), by omega, Nat.mod_lt _ (by decide), by omega, hrest⟩
    · exfalso
      apply hne
      rw [hmask, htop]
  · intro htop
    rcases hcode with ⟨heq, _⟩ | ⟨_, log1, hrest⟩
    · exfalso
      rw [hmask] at heq
      omega
    · refine ⟨_, log1, ?_, ?_, ?_, hrest⟩
      · intro h1
        rw [hmask, h1]
        rfl
      · intro h2
        rw [hmask, h2]
        rfl
      · intro h3
        rw [hmask, h3]
        rfl

set_option maxRecDepth 20000 in
/-- C31 on the record whose rotation code is 0x0123, 0x4567, for the sample model with
its one node: the two leading bits of 0x0123 are zero, the round takes both words, and
the integer angles are 18, 209 and 359. -/
theorem parse_rotations_rotation_code_witness :
    ∃ (r : List quat × Nat × Int) (log' log1 : List Nat),
      parse_rotations glm_rational euler_frame_data sample_model.nodes 0 10 2 [] [] =
        (.ok r, log') ∧
      parse_rotations glm_rational euler_frame_data [] 1 12 0
        [EulerAnglesToQuaternion glm_rational
          ⟨CONVERSION_FACTOR glm_rational * 18, CONVERSION_FACTOR glm_rational * 209,
           CONVERSION_FACTOR glm_rational * 359⟩] log1 = (.ok r, log') := by
  have hok : (parse_rotations glm_rational euler_frame_data sample_model.nodes 0 10 2 []
      []).1.toBool = true := by decide
  cases hp : parse_rotations glm_rational euler_frame_data sample_model.nodes 0 10 2 [] []
    with
  | mk res log' =>
    cases res with
    | error e => rw [hp] at hok; cases hok
    | ok r =>
      obtain ⟨w1, hw1, htwo, _⟩ := parse_rotations_rotation_code glm_rational
        euler_frame_data ⟨-1, ⟨0, 0, 0⟩, 0⟩ [] 0 10 2 [] [] log' r (by decide) hp
      have e1 : w1 = 0x0123 := (Option.some.inj hw1).symm
      obtain ⟨w2, x, y, z, log1, hw2, hx, hy, hz, heq, hrest⟩ := htwo (by rw [e1])
      have e2 : w2 = 0x4567 := (Option.some.inj hw2).symm
      rw [e1, e2] at heq
      have ex : x = 18 := by omega
      have ey : y = 209 := by omega
      have ez : z = 359 := by omega
      rw [ex, ey, ez] at hrest
      refine ⟨r, log', log1, rfl, ?_⟩
      have c1 : (((18 : Nat) : ℚ)) = 18 := by norm_num
      have c2 : (((209 : Nat) : ℚ)) = 209 := by norm_num
      have c3 : (((359 : Nat) : ℚ)) = 359 := by norm_num
      rw [c1, c2, c3] at hrest
      exact hrest

/-! ## The blend of two frames -/

/-- What a call of `smooth_anim_frame` that returns has done: it has walked over
`frame` records from the frame offset of the animation, parsed the record it has reached
and the record behind it, or the record at the frame offset when `frame` is not below
`num_frames - 1`, and blended the two with the factor `alpha`. -/
theorem smooth_anim_frame_ok (g : glm_lib) (buf : List Nat) (m : model) (a : animation)
    (anim_tick : Nat) (anim_tick_time : ℚ) (log log' : List Nat) (af : anim_frame)
    (h : smooth_anim_frame g buf m a anim_tick anim_tick_time log = (.ok af, log')) :
    a.ticks_per_frame ≠ 0 ∧
    ∃ (o0 w : Nat) (af0 af1 : anim_frame) (log1 log2 log3 : List Nat),
      skip_frames buf (Int.tdiv ((anim_tick : Int) - a.first_tick) a.ticks_per_frame).toNat
        a.frame_offset log = (.ok o0, log1) ∧
      parse_anim_frame g buf m o0 log1 = (.ok af0, log2) ∧
      buf[o0]? = some w ∧
      parse_anim_frame g buf m
        (if Int.tdiv ((anim_tick : Int) - a.first_tick) a.ticks_per_frame ≥
            Int.tdiv ((a.last_tick : Int) - a.first_tick) a.ticks_per_frame + 1 - 1
          then a.frame_offset else o0 + (w + 1)) log3 = (.ok af1, log') ∧
      af = ⟨g.mix af0.translation af1.translation (blend_factor a anim_tick anim_tick_time),
        List.zipWith (fun q0 q1 => g.slerp q0 q1 (blend_factor a anim_tick anim_tick_time))
          af0.rotation af1.rotation⟩ := by
  simp only [smooth_anim_frame] at h
  split at h
  · obtain ⟨_, _, h1, _⟩ := bind_ok _ _ _ _ _ h
    exact absurd h1 (fun h => throw_ne_ok _ _ _ _ h)
  rename_i htpf
  refine ⟨htpf, ?_⟩
  obtain ⟨_, log0, h0, h⟩ := bind_ok _ _ _ _ _ h
  obtain ⟨_, hl0⟩ := pure_ok _ _ _ _ h0
  subst hl0
  obtain ⟨o0, log1, hskip, h⟩ := bind_ok _ _ _ _ _ h
  obtain ⟨af0, log2, hp0, h⟩ := bind_ok _ _ _ _ _ h
  obtain ⟨w, log3, hw, h⟩ := bind_ok _ _ _ _ _ h
  obtain ⟨af1, log4, hp1, h⟩ := bind_ok _ _ _ _ _ h
  obtain ⟨haf, hl4⟩ := pure_ok _ _ _ _ h
  subst hl4
  exact ⟨o0, w, af0, af1, log1, log2, log3, hskip, hp0, frame_at_ok _ _ _ _ _ hw, hp1,
    haf.symm⟩

/-- The factor `alpha` for a tick that is not below the first tick of the animation: the
ticks elapsed within the frame, plus the accumulated time times 30, over the ticks per
frame. -/
theorem blend_factor_eq (a : animation) (anim_tick : Nat) (anim_tick_time : ℚ)
    (hfirst : a.first_tick ≤ anim_tick) (htick : anim_tick < 65536) :
    blend_factor a anim_tick anim_tick_time =
      ((((anim_tick - a.first_tick) % a.ticks_per_frame : Nat) : ℚ) + anim_tick_time * 30) /
        a.ticks_per_frame := by
  unfold blend_factor
  have hsub : (anim_tick : Int) - a.first_tick = ((anim_tick - a.first_tick : Nat) : Int) := by
    omega
  rw [hsub, ← Int.ofNat_tmod]
  have hlt : (anim_tick - a.first_tick) % a.ticks_per_frame < 65536 :=
    Nat.lt_of_le_of_lt (Nat.mod_le _ _) (by omega)
  have hu : u16 (((anim_tick - a.first_tick) % a.ticks_per_frame : Nat) : Int) =
      (anim_tick - a.first_tick) % a.ticks_per_frame := by
    unfold u16
    omega
  rw [hu]

/-- The blend of `smooth_anim_frame` for a tick that is not below the first tick of the
animation, with a library whose `mix` is the linear interpolation: the translation is
that of the first frame plus the factor times the difference of the two, and each
rotation is the `slerp` of the two rotations with the same factor. -/
theorem smooth_anim_frame_blend (g : glm_lib) (buf : List Nat) (m : model) (a : animation)
    (anim_tick : Nat) (anim_tick_time : ℚ) (log log' : List Nat) (af : anim_frame)
    (h : smooth_anim_frame g buf m a anim_tick anim_tick_time log = (.ok af, log'))
    (hfirst : a.first_tick ≤ anim_tick) (htick : anim_tick < 65536)
    (hmix : ∀ x y t, g.mix x y t =
      ⟨x.x + t * (y.x - x.x), x.y + t * (y.y - x.y), x.z + t * (y.z - x.z)⟩) :
    ∃ (af0 af1 : anim_frame) (blend : ℚ),
      blend = ((((anim_tick - a.first_tick) % a.ticks_per_frame : Nat) : ℚ) +
        anim_tick_time * 30) / a.ticks_per_frame ∧
      af.translation =
        ⟨af0.translation.x + blend * (af1.translation.x - af0.translation.x),
         af0.translation.y + blend * (af1.translation.y - af0.translation.y),
         af0.translation.z + blend * (af1.translation.z - af0.translation.z)⟩ ∧
      af.rotation = List.zipWith (fun q0 q1 => g.slerp q0 q1 blend) af0.rotation
        af1.rotation := by
  obtain ⟨_, o0, w, af0, af1, log1, log2, log3, _, _, _, _, haf⟩ :=
    smooth_anim_frame_ok g buf m a anim_tick anim_tick_time log log' af h
  rw [blend_factor_eq a anim_tick anim_tick_time hfirst htick] at haf
  refine ⟨af0, af1, _, rfl, ?_, ?_⟩
  · rw [haf]
    exact hmix _ _ _
  · rw [haf]

set_option maxRecDepth 20000 in
/-- C33 fails in the state `tick` reaches from `last_tick = 65535`: on a fresh object of
an animation with ticks 65535 to 65535 and two ticks per frame, `tick(1/30 s)` leaves the
tick at 0; there the remainder of `0 - 65535` by 2, stored in the `ushort`, is 65535, and
the frames at offsets 0 and 11 are blended with the factor 65535/2, where the formula of
the claim gives 1/2 or -1/2. -/
theorem blend_factor_after_tick_wrap :
    ∃ o0 o1 af af0 af1 log2 log3 log',
      (new_model_object glm_rational [sample_animation 65535 65535 2] sample_frame_data
        sample_model 0 1 1).result = .ok o0 ∧
      (tick glm_rational sample_frame_data o0 (1 / 30)).result = .ok o1 ∧
      o1.animation = sample_animation 65535 65535 2 ∧ o1.anim_tick = 0 ∧
      o1.anim_tick_time = 0 ∧
      smooth_anim_frame glm_rational sample_frame_data sample_model o1.animation
        o1.anim_tick o1.anim_tick_time [] = (.ok af, log') ∧
      parse_anim_frame glm_rational sample_frame_data sample_model 0 [] = (.ok af0, log2) ∧
      parse_anim_frame glm_rational sample_frame_data sample_model 11 log3 = (.ok af1, log') ∧
      af.translation = glm_rational.mix af0.translation af1.translation (65535 / 2) ∧
      af.rotation = List.zipWith (fun q0 q1 => glm_rational.slerp q0 q1 (65535 / 2))
        af0.rotation af1.rotation ∧
      ((((0 : Int) - 65535) % 2 : Int) + (0 : ℚ) * 30) / 2 = 1 / 2 ∧
      ((Int.tmod ((0 : Int) - 65535) 2 : Int) + (0 : ℚ) * 30) / 2 = -1 / 2 := by
  obtain ⟨o0, o1, h0, _, _, _, h1, ht1, htime1, ha1⟩ :=
    sample_tick (sample_animation 65535 65535 2) (1 / 30) 0 0 (by decide) (by decide) (by
      unfold advance_tick
      simp only [sample_object, sample_animation]
      norm_num [u16])
  obtain ⟨af, haf⟩ := exists_of_toBool
    (smooth_anim_frame glm_rational sample_frame_data sample_model
      (sample_animation 65535 65535 2) 0 0).result (by decide)
  obtain ⟨log', hlog⟩ := (result_ok_iff _ _).1 haf
  obtain ⟨_, p0, w, af0, af1, log1, log2, log3, hskip, hp0, hw, hp1, hblend⟩ :=
    smooth_anim_frame_ok _ _ _ _ _ _ _ _ _ hlog
  have hframe : (Int.tdiv (((0 : Nat) : Int) - (sample_animation 65535 65535 2).first_tick)
      (sample_animation 65535 65535 2).ticks_per_frame).toNat = 0 := by decide
  rw [hframe] at hskip
  obtain ⟨hp, hl1⟩ := pure_ok _ _ _ _ hskip
  subst hp hl1
  have d0 : sample_frame_data[(sample_animation 65535 65535 2).frame_offset]? = some 10 := by
    decide
  have hw10 : w = 10 := Option.some.inj (hw.symm.trans d0)
  subst hw10
  rw [if_neg (by decide)] at hp1
  have hb : blend_factor (sample_animation 65535 65535 2) 0 0 = 65535 / 2 := by
    have hu : u16 (Int.tmod (((0 : Nat) : Int) - (sample_animation 65535 65535 2).first_tick)
        (sample_animation 65535 65535 2).ticks_per_frame) = 65535 := by decide
    unfold blend_factor
    rw [hu]
    simp only [sample_animation]
    norm_num
  rw [hb] at hblend
  refine ⟨o0, o1, af, af0, af1, log2, log3, log', h0, h1, ha1, ht1, htime1, ?_, hp0, hp1,
    ?_, ?_, ?_, ?_⟩
  · rw [ha1, ht1, htime1]; exact hlog
  · rw [hblend]
  · rw [hblend]
  · norm_num
  · have : Int.tmod ((0 : Int) - 65535) 2 = -1 := by decide
    rw [this]
    norm_num

/-! ## The accumulated time and the blend factor -/

/-- The accumulated time stays in `[0, 1/30)` over the first statements of `tick`, for a
`dt` between 0 and 1/30 s. -/
theorem advance_tick_time_range (o : model_object) (dt : ℚ)
    (h0 : 0 ≤ o.anim_tick_time) (h1 : o.anim_tick_time < 1 / 30)
    (hdt0 : 0 ≤ dt) (hdt1 : dt ≤ 1 / 30) :
    0 ≤ (advance_tick o dt).anim_tick_time ∧ (advance_tick o dt).anim_tick_time < 1 / 30 := by
  by_cases hge : 1 / 30 ≤ o.anim_tick_time + dt
  · rw [advance_tick_ge o dt hge]
    show 0 ≤ o.anim_tick_time + dt - 1 / 30 ∧ o.anim_tick_time + dt - 1 / 30 < 1 / 30
    constructor <;> linarith
  · rw [advance_tick_lt o dt (not_le.1 hge)]
    show 0 ≤ o.anim_tick_time + dt ∧ o.anim_tick_time + dt < 1 / 30
    constructor <;> linarith

/-- The factor `alpha` lies in `[0, 1)` for a tick that is not below the first tick of the
animation and an accumulated time in `[0, 1/30)`. -/
theorem blend_factor_range (a : animation) (anim_tick : Nat) (anim_tick_time : ℚ)
    (htpf : 1 ≤ a.ticks_per_frame) (hfirst : a.first_tick ≤ anim_tick)
    (htick : anim_tick < 65536) (h0 : 0 ≤ anim_tick_time) (h1 : anim_tick_time < 1 / 30) :
    0 ≤ blend_factor a anim_tick anim_tick_time ∧ blend_factor a anim_tick anim_tick_time < 1 := by
  rw [blend_factor_eq a anim_tick anim_tick_time hfirst htick]
  have hpos : (0 : ℚ) < a.ticks_per_frame := by exact_mod_cast htpf
  have hmod : (anim_tick - a.first_tick) % a.ticks_per_frame + 1 ≤ a.ticks_per_frame :=
    Nat.mod_lt _ htpf
  have hmodq : (((anim_tick - a.first_tick) % a.ticks_per_frame : Nat) : ℚ) + 1 ≤
      a.ticks_per_frame := by exact_mod_cast hmod
  have hnn : (0 : ℚ) ≤ (((anim_tick - a.first_tick) % a.ticks_per_frame : Nat) : ℚ) :=
    Nat.cast_nonneg _
  constructor
  · apply div_nonneg _ hpos.le
    linarith
  · rw [div_lt_one hpos]
    linarith

/-- One call of `tick` with `dt` between 0 and 1/30 s, on an object whose animation has
`first_tick <= last_tick < 65535` and at least one tick per frame: the tick stays in the
range, the accumulated time in `[0, 1/30)` and the factor `alpha` in `[0, 1)`. -/
theorem tick_keeps_blend_range (g : glm_lib) (buf : List Nat) (o o' : model_object) (dt : ℚ)
    (h : (tick g buf o dt).result = .ok o')
    (hrange : o.animation.first_tick ≤ o.animation.last_tick)
    (hlast : o.animation.last_tick < 65535)
    (htpf : 1 ≤ o.animation.ticks_per_frame)
    (hin : o.animation.first_tick ≤ o.anim_tick ∧ o.anim_tick ≤ o.animation.last_tick)
    (h0 : 0 ≤ o.anim_tick_time) (h1 : o.anim_tick_time < 1 / 30)
    (hdt0 : 0 ≤ dt) (hdt1 : dt ≤ 1 / 30) :
    o'.animation = o.animation ∧
    (o'.animation.first_tick ≤ o'.anim_tick ∧ o'.anim_tick ≤ o'.animation.last_tick) ∧
    (0 ≤ o'.anim_tick_time ∧ o'.anim_tick_time < 1 / 30) ∧
    0 ≤ blend_factor o'.animation o'.anim_tick o'.anim_tick_time ∧
    blend_factor o'.animation o'.anim_tick o'.anim_tick_time < 1 := by
  obtain ⟨ha, hin'⟩ := tick_keeps_range g buf o o' dt h hrange hlast hin
  have htime : 0 ≤ o'.anim_tick_time ∧ o'.anim_tick_time < 1 / 30 := by
    have hf := tick_fields g buf o o' dt h
    rw [hf]
    exact advance_tick_time_range o dt h0 h1 hdt0 hdt1
  refine ⟨ha, hin', htime, ?_⟩
  exact blend_factor_range _ _ _ (by rw [ha]; exact htpf) hin'.1
    (by rw [ha] at hin'; omega) htime.1 htime.2

/-- The invariant of C40 where the `ushort` tick cannot wrap: from a state with the tick
in the range of an animation with `first_tick <= last_tick < 65535` and at least one tick
per frame, and the accumulated time in `[0, 1/30)`, every run of calls `tick(dt)` with
each `dt` between 0 and 1/30 s that returns ends in such a state, where the factor `alpha`
lies in `[0, 1)`. -/
theorem tick_sequence_keeps_blend_range (g : glm_lib) (buf : List Nat) (dts : List ℚ) :
    ∀ (o o' : model_object),
      tick_sequence g buf dts o = .ok o' →
      o.animation.first_tick ≤ o.animation.last_tick →
      o.animation.last_tick < 65535 →
      1 ≤ o.animation.ticks_per_frame →
      (o.animation.first_tick ≤ o.anim_tick ∧ o.anim_tick ≤ o.animation.last_tick) →
      (0 ≤ o.anim_tick_time ∧ o.anim_tick_time < 1 / 30) →
      (∀ dt ∈ dts, 0 ≤ dt ∧ dt ≤ 1 / 30) →
      (0 ≤ o'.anim_tick_time ∧ o'.anim_tick_time < 1 / 30) ∧
      0 ≤ blend_factor o'.animation o'.anim_tick o'.anim_tick_time ∧
      blend_factor o'.animation o'.anim_tick o'.anim_tick_time < 1 := by
  induction dts with
  | nil =>
    intro o o' h hrange hlast htpf hin htime _
    simp only [tick_sequence, Except.ok.injEq] at h
    subst h
    exact ⟨htime, blend_factor_range _ _ _ htpf hin.1 (by omega) htime.1 htime.2⟩
  | cons dt dts ih =>
    intro o o' h hrange hlast htpf hin htime hdts
    rw [tick_sequence] at h
    cases h1 : (tick g buf o dt).result with
    | error e => rw [h1] at h; cases h
    | ok o1 =>
      rw [h1] at h
      simp only [] at h
      obtain ⟨ha, hin1, htime1, _⟩ := tick_keeps_blend_range g buf o o1 dt h1 hrange hlast
        htpf hin htime.1 htime.2 (hdts dt (List.mem_cons_self _ _)).1
        (hdts dt (List.mem_cons_self _ _)).2
      exact ih o1 o' h (by rw [ha]; exact hrange) (by rw [ha]; exact hlast)
        (by rw [ha]; exact htpf) hin1 htime1
        (fun d hd => hdts d (List.mem_cons_of_mem _ hd))

/-- The invariant of C40 from a fresh object, where the `ushort` tick cannot wrap. -/
theorem fresh_object_blend_range (g : glm_lib) (animations : List animation)
    (buf : List Nat) (m : model) (room : Nat) (t : mat4) (l : ℚ) (dts : List ℚ)
    (o0 o : model_object)
    (hnew : (new_model_object g animations buf m room t l).result = .ok o0)
    (hrange : o0.animation.first_tick ≤ o0.animation.last_tick)
    (hlast : o0.animation.last_tick < 65535)
    (htpf : 1 ≤ o0.animation.ticks_per_frame)
    (hdts : ∀ dt ∈ dts, 0 ≤ dt ∧ dt ≤ 1 / 30)
    (hrun : tick_sequence g buf dts o0 = .ok o) :
    (0 ≤ o.anim_tick_time ∧ o.anim_tick_time < 1 / 30) ∧
    0 ≤ blend_factor o.animation o.anim_tick o.anim_tick_time ∧
    blend_factor o.animation o.anim_tick o.anim_tick_time < 1 := by
  unfold new_model_object at hnew
  cases ha : m.animation.bind (animations[·]?) with
  | none =>
    rw [ha] at hnew
    cases hnew
  | some a =>
    rw [ha] at hnew
    simp only [] at hnew
    obtain ⟨log, hlog⟩ := (result_ok_iff _ _).1 hnew
    have hf := update_node_transforms_fields _ _ _ _ _ _ hlog
    have hanim : o0.animation = a := by rw [hf]
    have htick : o0.anim_tick = a.first_tick := by rw [hf]
    have htime : o0.anim_tick_time = 0 := by rw [hf]
    exact tick_sequence_keeps_blend_range g buf dts o0 o hrun hrange hlast htpf
      (by rw [htick, ← hanim]; omega) (by rw [htime]; norm_num) hdts

set_option maxRecDepth 20000 in
/-- C40 fails in the state `tick` reaches from `last_tick = 65535`: on a fresh object of
an animation with ticks 65535 to 65535 and two ticks per frame, the one call
`tick(1/30 s)` leaves the tick at 0 and the accumulated time at 0, in `[0, 1/30)`, and the
factor `alpha` of the frame lookup of that state is 65535/2, not below 1. -/
theorem blend_factor_leaves_unit_range :
    ∃ o0 o1,
      (new_model_object glm_rational [sample_animation 65535 65535 2] sample_frame_data
        sample_model 0 1 1).result = .ok o0 ∧
      1 ≤ o0.animation.ticks_per_frame ∧
      tick_sequence glm_rational sample_frame_data [1 / 30] o0 = .ok o1 ∧
      (0 ≤ o1.anim_tick_time ∧ o1.anim_tick_time < 1 / 30) ∧
      (smooth_anim_frame glm_rational sample_frame_data o1.model o1.animation o1.anim_tick
        o1.anim_tick_time).result.toBool = true ∧
      blend_factor o1.animation o1.anim_tick o1.anim_tick_time = 65535 / 2 ∧
      ¬ blend_factor o1.animation o1.anim_tick o1.anim_tick_time < 1 := by
  obtain ⟨o0, o1, h0, ha0, _, _, h1, ht1, htime1, ha1⟩ :=
    sample_tick (sample_animation 65535 65535 2) (1 / 30) 0 0 (by decide) (by decide) (by
      unfold advance_tick
      simp only [sample_object, sample_animation]
      norm_num [u16])
  have hb : blend_factor (sample_animation 65535 65535 2) 0 0 = 65535 / 2 := by
    have hu : u16 (Int.tmod (((0 : Nat) : Int) - (sample_animation 65535 65535 2).first_tick)
        (sample_animation 65535 65535 2).ticks_per_frame) = 65535 := by decide
    unfold blend_factor
    rw [hu]
    simp only [sample_animation]
    norm_num
  obtain ⟨hm0, _⟩ := fresh_object_fields _ _ _ _ _ _ _ o0 (sample_animation 65535 65535 2)
    h0 rfl
  have hm1 : o1.model = sample_model := by
    rw [tick_fields _ _ _ _ _ h1]
    show (advance_tick o0 (1 / 30)).model = sample_model
    rw [← hm0]
    unfold advance_tick
    simp only []
    split
    · split <;> rfl
    · rfl
  refine ⟨o0, o1, h0, ?_, ?_, ?_, ?_, ?_, ?_⟩
  · rw [ha0]; decide
  · simp only [tick_sequence, h1]
  · rw [htime1]; norm_num
  · rw [hm1, ha1, ht1, htime1]; decide
  · rw [ha1, ht1, htime1]; exact hb
  · rw [ha1, ht1, htime1, hb]; norm_num

/-! ## The floor frame and its successor -/

theorem record_offset_shift (buf : List Nat) (start declared : Nat)
    (h : buf[start]? = some declared) (k : Nat) :
    record_offset buf start (k + 1) = record_offset buf (start + (declared + 1)) k := by
  induction k with
  | zero => simp only [record_offset, Option.some_bind, h, Option.map_some']
  | succ k ih =>
    rw [record_offset, ih]
    rfl

/-- The walk of `smooth_anim_frame` over `n` records ends at the offset of the record with
index `n`. -/
theorem skip_frames_record_offset (buf : List Nat) (n : Nat) :
    ∀ (start o : Nat) (log log' : List Nat),
      skip_frames buf n start log = (.ok o, log') → record_offset buf start n = some o := by
  induction n with
  | zero =>
    intro start o log log' h
    obtain ⟨ho, _⟩ := pure_ok _ _ _ _ h
    rw [← ho]
    rfl
  | succ n ih =>
    intro start o log log' h
    rw [skip_frames] at h
    obtain ⟨w, log1, hw, h⟩ := bind_ok _ _ _ _ _ h
    rw [record_offset_shift buf start w (frame_at_ok _ _ _ _ _ hw)]
    exact ih _ _ _ _ h

/-- C32 as amended: a call of `smooth_anim_frame` that returns has taken as floor frame the
record with index `f`, the quotient of `anim_tick - first_tick` by `ticks_per_frame`
rounded towards zero, or 0 if it is negative, counted from the frame offset of the
animation; as successor it has taken the record that follows it when `f` is below the
last frame index, and the record at the frame offset when `f` is the last frame index or
above it; the frame returned is the blend of the two. -/
theorem smooth_anim_frame_floor_and_successor (g : glm_lib) (buf : List Nat) (m : model)
    (a : animation) (anim_tick : Nat) (anim_tick_time : ℚ) (log log' : List Nat)
    (af : anim_frame)
    (h : smooth_anim_frame g buf m a anim_tick anim_tick_time log = (.ok af, log')) :
    ∃ (o0 declared : Nat) (af0 af1 : anim_frame) (alpha : ℚ) (log1 log2 log3 : List Nat),
      record_offset buf a.frame_offset
        (Int.tdiv ((anim_tick : Int) - a.first_tick) a.ticks_per_frame).toNat = some o0 ∧
      (a.first_tick ≤ anim_tick →
        (Int.tdiv ((anim_tick : Int) - a.first_tick) a.ticks_per_frame).toNat =
          (anim_tick - a.first_tick) / a.ticks_per_frame) ∧
      parse_anim_frame g buf m o0 log1 = (.ok af0, log2) ∧
      buf[o0]? = some declared ∧
      (Int.tdiv ((anim_tick : Int) - a.first_tick) a.ticks_per_frame <
          Int.tdiv ((a.last_tick : Int) - a.first_tick) a.ticks_per_frame →
        record_offset buf a.frame_offset
          ((Int.tdiv ((anim_tick : Int) - a.first_tick) a.ticks_per_frame).toNat + 1) =
            some (o0 + (declared + 1)) ∧
        parse_anim_frame g buf m (o0 + (declared + 1)) log3 = (.ok af1, log')) ∧
      (Int.tdiv ((a.last_tick : Int) - a.first_tick) a.ticks_per_frame ≤
          Int.tdiv ((anim_tick : Int) - a.first_tick) a.ticks_per_frame →
        parse_anim_frame g buf m a.frame_offset log3 = (.ok af1, log')) ∧
      af = ⟨g.mix af0.translation af1.translation alpha,
        List.zipWith (fun q0 q1 => g.slerp q0 q1 alpha) af0.rotation af1.rotation⟩ := by
  obtain ⟨_, o0, w, af0, af1, log1, log2, log3, hskip, hp0, hw, hp1, haf⟩ :=
    smooth_anim_frame_ok g buf m a anim_tick anim_tick_time log log' af h
  have hrec := skip_frames_record_offset buf _ _ _ _ _ hskip
  refine ⟨o0, w, af0, af1, _, log1, log2, log3, hrec, ?_, hp0, hw, ?_, ?_, haf⟩
  · intro hfirst
    have hsub : (anim_tick : Int) - a.first_tick = ((anim_tick - a.first_tick : Nat) : Int) := by
      omega
    rw [hsub, ← Int.ofNat_tdiv]
    rfl
  · intro hlt
    rw [if_neg (by omega)] at hp1
    refine ⟨?_, hp1⟩
    rw [record_offset, hrec]
    simp only [Option.some_bind, hw, Option.map_some']
  · intro hge
    rw [if_pos (by omega)] at hp1
    exact hp1

set_option maxRecDepth 20000 in
/-- C32 as amended, on the sample data at the start of tick 0 of an animation with ticks 0
to 2: the floor frame is the record at offset 0 and the successor the record at 11. -/
theorem smooth_anim_frame_floor_and_successor_witness :
    ∃ (af : anim_frame) (log' : List Nat),
      smooth_anim_frame glm_rational sample_frame_data sample_model (sample_animation 0 2 1)
        0 0 [] = (.ok af, log') ∧
      ∃ (o0 declared : Nat) (af0 af1 : anim_frame) (alpha : ℚ) (log1 log2 log3 : List Nat),
        record_offset sample_frame_data (sample_animation 0 2 1).frame_offset
          (Int.tdiv (((0 : Nat) : Int) - (sample_animation 0 2 1).first_tick)
            (sample_animation 0 2 1).ticks_per_frame).toNat = some o0 ∧
        ((sample_animation 0 2 1).first_tick ≤ 0 →
          (Int.tdiv (((0 : Nat) : Int) - (sample_animation 0 2 1).first_tick)
            (sample_animation 0 2 1).ticks_per_frame).toNat =
            (0 - (sample_animation 0 2 1).first_tick) /
              (sample_animation 0 2 1).ticks_per_frame) ∧
        parse_anim_frame glm_rational sample_frame_data sample_model o0 log1 = (.ok af0, log2) ∧
        sample_frame_data[o0]? = some declared ∧
        (Int.tdiv (((0 : Nat) : Int) - (sample_animation 0 2 1).first_tick)
            (sample_animation 0 2 1).ticks_per_frame <
            Int.tdiv (((sample_animation 0 2 1).last_tick : Int) -
              (sample_animation 0 2 1).first_tick) (sample_animation 0 2 1).ticks_per_frame →
          record_offset sample_frame_data (sample_animation 0 2 1).frame_offset
            ((Int.tdiv (((0 : Nat) : Int) - (sample_animation 0 2 1).first_tick)
              (sample_animation 0 2 1).ticks_per_frame).toNat + 1) =
              some (o0 + (declared + 1)) ∧
          parse_anim_frame glm_rational sample_frame_data sample_model (o0 + (declared + 1))
            log3 = (.ok af1, log')) ∧
        (Int.tdiv (((sample_animation 0 2 1).last_tick : Int) -
              (sample_animation 0 2 1).first_tick) (sample_animation 0 2 1).ticks_per_frame ≤
            Int.tdiv (((0 : Nat) : Int) - (sample_animation 0 2 1).first_tick)
              (sample_animation 0 2 1).ticks_per_frame →
          parse_anim_frame glm_rational sample_frame_data sample_model
            (sample_animation 0 2 1).frame_offset log3 = (.ok af1, log')) ∧
        af = ⟨glm_rational.mix af0.translation af1.translation alpha,
          List.zipWith (fun q0 q1 => glm_rational.slerp q0 q1 alpha) af0.rotation
            af1.rotation⟩ := by
  obtain ⟨af, haf⟩ := exists_of_toBool
    (smooth_anim_frame glm_rational sample_frame_data sample_model
      (sample_animation 0 2 1) 0 0).result (by decide)
  obtain ⟨log', hlog⟩ := (result_ok_iff _ _).1 haf
  exact ⟨af, log', hlog,
    smooth_anim_frame_floor_and_successor glm_rational sample_frame_data sample_model
      (sample_animation 0 2 1) 0 0 [] log' af hlog⟩

set_option maxRecDepth 20000 in
/-- C32 fails for an animation whose `first_tick` is above its `last_tick`: on a fresh
object of an animation with `first_tick = 5`, `last_tick = 2` and one tick per frame, the
floor frame has index 0, which is not the last frame index -3, and the successor taken is
the record at the frame offset, with translation (1, 2, 3), not the record that follows
the floor frame, at offset 11 with translation (4, 5, 6). -/
theorem successor_wraps_above_last_index :
    ∃ o0,
      (new_model_object glm_rational [sample_animation 5 2 1] sample_frame_data sample_model
        0 1 1).result = .ok o0 ∧
      o0.model = sample_model ∧ o0.animation = sample_animation 5 2 1 ∧
      o0.anim_tick = 5 ∧ o0.anim_tick_time = 0 ∧
      ((o0.anim_tick : Int) - o0.animation.first_tick) / o0.animation.ticks_per_frame = 0 ∧
      ((o0.animation.last_tick : Int) - o0.animation.first_tick) /
        o0.animation.ticks_per_frame = -3 ∧
      (smooth_anim_frame glm_rational sample_frame_data o0.model o0.animation o0.anim_tick
        o0.anim_tick_time).result =
        .ok ⟨glm_rational.mix ⟨1, 2, 3⟩ ⟨1, 2, 3⟩ 0,
          [glm_rational.slerp
            (AxisAngleToQuaternion glm_rational ⟨1, 0, 0⟩ (CONVERSION_FACTOR glm_rational * 16))
            (AxisAngleToQuaternion glm_rational ⟨1, 0, 0⟩ (CONVERSION_FACTOR glm_rational * 16))
            0]⟩ ∧
      record_offset sample_frame_data o0.animation.frame_offset 1 = some 11 ∧
      (parse_anim_frame glm_rational sample_frame_data sample_model 11).result =
        .ok ⟨⟨4, 5, 6⟩,
          [AxisAngleToQuaternion glm_rational ⟨0, 1, 0⟩ (CONVERSION_FACTOR glm_rational * 32)]⟩ := by
  obtain ⟨o0, ho0⟩ := exists_of_toBool
    (new_model_object glm_rational [sample_animation 5 2 1] sample_frame_data sample_model
      0 1 1).result (by decide)
  obtain ⟨hm, ha, ht, htime⟩ := fresh_object_fields _ _ _ _ _ _ _ o0 (sample_animation 5 2 1)
    ho0 rfl
  have h1 : (16400 &&& 49152 : Nat) = 16384 := by decide
  have h2 : (16400 &&& 1023 : Nat) = 16 := by decide
  have h3 : (32800 &&& 49152 : Nat) = 32768 := by decide
  have h4 : (32800 &&& 1023 : Nat) = 32 := by decide
  refine ⟨o0, ho0, hm, ha, ht, htime, ?_, ?_, ?_, ?_, ?_⟩
  · rw [ha, ht]; decide
  · rw [ha]; decide
  · rw [hm, ha, ht, htime]
    simp [frame_reader.result, smooth_anim_frame, skip_frames, parse_anim_frame,
      parse_anim_frame_locals, parse_rotations, sample_animation,
      sample_frame_data, sample_model, frame_at, vector_at, bind, frame_reader.bind, pure,
      throw, throwThe, MonadExceptOf.throw, i16, u16, h1, h2, h3, h4]
    norm_num
  · rw [ha]; decide
  · simp [frame_reader.result, parse_anim_frame,
      parse_anim_frame_locals, parse_rotations,
      sample_frame_data, sample_model, frame_at, vector_at, bind, frame_reader.bind, pure,
      throw, throwThe, MonadExceptOf.throw, i16, u16, h1, h2, h3, h4]
    norm_num

/-! ## Rooms: the file position behind a record -/

theorem file_bind_apply {α β : Type} (m : file_m α) (f : α → file_m β) (c : cursor) :
    (m >>= f) c = f (m c).1 (m c).2 := rfl

theorem file_pure_bind {α β : Type} (a : α) (f : α → file_m β) (c : cursor) :
    ((pure a : file_m α) >>= f) c = f a c := rfl

theorem le_value_lt (l : List Nat) : le_value l < 256 ^ l.length := by
  induction l with
  | nil => simp [le_value]
  | cons b bs ih =>
    simp only [le_value, List.length_cons, pow_succ]
    have := Nat.mod_lt b (by decide : 0 < 256)
    omega

theorem stored_u16_lt (fp : file) (p : Nat) : stored_u16 fp p < 65536 := by
  have h := le_value_lt [fp.byte p, fp.byte (p + 1)]
  norm_num at h
  exact h

theorem stored_u32_lt (fp : file) (p : Nat) : stored_u32 fp p < 4294967296 := by
  have h := le_value_lt [fp.byte p, fp.byte (p + 1), fp.byte (p + 2), fp.byte (p + 3)]
  norm_num at h
  exact h

theorem u16_i16_of_lt (n : Nat) (h : n < 65536) : u16 (i16 n) = n := by
  unfold u16 i16
  omega

theorem u32_i32_of_lt (n : Nat) (h : n < 4294967296) : u32 (i32 n) = n := by
  unfold u32 i32
  omega

/-- A read of `size` bytes that lie inside the file is complete: the value is the one
stored, the position moves by `size` and the end-of-file indicator is left as it is. -/
theorem fread_value_at (fp : file) (size p : Nat) (e : Bool) (h : p + size ≤ fp.size) :
    fread_value fp size ⟨p, e⟩ =
      (le_value ((List.range size).map fun i => fp.byte (p + i)), ⟨(p + size : Nat), e⟩) := by
  unfold fread_value
  have hk : min size (fp.size - p) = size := by omega
  simp only [Int.toNat_ofNat, hk, lt_self_iff_false, decide_False, Bool.or_false,
    Nat.cast_add]

theorem read16_at (fp : file) (p : Nat) (e : Bool) (h : p + 2 ≤ fp.size) :
    read16 fp ⟨p, e⟩ = (i16 (stored_u16 fp p), ⟨(p + 2 : Nat), e⟩) := by
  show ((i16 (fread_value fp 2 ⟨p, e⟩).1 : Int), (fread_value fp 2 ⟨p, e⟩).2) = _
  rw [fread_value_at fp 2 p e h]
  rfl

theorem read32_at (fp : file) (p : Nat) (e : Bool) (h : p + 4 ≤ fp.size) :
    read32 fp ⟨p, e⟩ = (i32 (stored_u32 fp p), ⟨(p + 4 : Nat), e⟩) := by
  show ((i32 (fread_value fp 4 ⟨p, e⟩).1 : Int), (fread_value fp 4 ⟨p, e⟩).2) = _
  rw [fread_value_at fp 4 p e h]
  rfl

theorem fseek_cur_at (off : Int) (n p : Nat) (e : Bool) (h : off = n) :
    fseek_cur off ⟨p, e⟩ = ((), ⟨(p + n : Nat), false⟩) := by
  subst h
  show ((), if (p : Int) + n < 0 then (⟨p, e⟩ : cursor) else ⟨(p : Int) + n, false⟩) = _
  rw [if_neg (by omega)]
  simp only [Nat.cast_add]

theorem fseek_set_at (off : Int) (n : Nat) (c : cursor) (h : off = n) :
    fseek_set off c = ((), ⟨n, false⟩) := by
  subst h
  show ((), if (n : Int) < 0 then c else ⟨(n : Int), false⟩) = _
  rw [if_neg (by omega)]

theorem ftell_at (c : cursor) : ftell c = (c.pos, c) := rfl

theorem bind_read16 {β : Type} (fp : file) (f : Int → file_m β) (p q : Nat) (e : Bool)
    (h : p + 2 ≤ fp.size) (hq : q = p + 2) :
    (read16 fp >>= f) ⟨p, e⟩ = f (i16 (stored_u16 fp p)) ⟨q, e⟩ := by
  rw [file_bind_apply, read16_at fp p e h, hq]

theorem bind_read32 {β : Type} (fp : file) (f : Int → file_m β) (p q : Nat) (e : Bool)
    (h : p + 4 ≤ fp.size) (hq : q = p + 4) :
    (read32 fp >>= f) ⟨p, e⟩ = f (i32 (stored_u32 fp p)) ⟨q, e⟩ := by
  rw [file_bind_apply, read32_at fp p e h, hq]

theorem bind_fseek_cur {β : Type} (f : Unit → file_m β) (off : Int) (n p q : Nat) (e : Bool)
    (h : off = n) (hq : q = p + n) :
    (fseek_cur off >>= f) ⟨p, e⟩ = f () ⟨q, false⟩ := by
  rw [file_bind_apply, fseek_cur_at off n p e h, hq]

theorem bind_fseek_set {β : Type} (f : Unit → file_m β) (off : Int) (n : Nat) (c : cursor)
    (h : off = n) :
    (fseek_set off >>= f) c = f () ⟨n, false⟩ := by
  rw [file_bind_apply, fseek_set_at off n c h]

/-- A loop of reads that each take `k` bytes takes `n * k` bytes, when they lie inside
the file. -/
theorem read_records_at {α : Type} (fp : file) (read : file_m α) (k : Nat)
    (hread : ∀ p e, p + k ≤ fp.size → (read ⟨p, e⟩).2 = ⟨(p + k : Nat), e⟩) :
    ∀ (n p : Nat) (e : Bool), p + n * k ≤ fp.size →
      (read_records read n ⟨p, e⟩).2 = ⟨(p + n * k : Nat), e⟩ := by
  intro n
  induction n with
  | zero =>
    intro p e _
    show (⟨p, e⟩ : cursor) = _
    simp only [Nat.zero_mul, Nat.add_zero]
  | succ n ih =>
    intro p e h
    show (read_records read n (read ⟨p, e⟩).2).2 = _
    have h1 : p + k + n * k ≤ fp.size := by
      rw [Nat.succ_mul] at h
      omega
    rw [hread p e (by omega), ih (p + k) e h1]
    congr 2
    rw [Nat.succ_mul]
    omega

theorem read_room_light_at (v : version) (fp : file) (p : Nat) (e : Bool)
    (h : p + room_light_bytes v ≤ fp.size) :
    (read_room_light v fp ⟨p, e⟩).2 = ⟨(p + room_light_bytes v : Nat), e⟩ := by
  unfold read_room_light
  by_cases hv : v = .version_tr2
  · simp only [room_light_bytes, if_pos hv] at h ⊢
    rw [bind_read32 fp _ p (p + 4) e (by omega) rfl,
      bind_read32 fp _ (p + 4) (p + 8) e (by omega) rfl,
      bind_read32 fp _ (p + 8) (p + 12) e (by omega) rfl,
      bind_read16 fp _ (p + 12) (p + 14) e (by omega) rfl,
      bind_read16 fp _ (p + 14) (p + 16) e (by omega) rfl,
      bind_read32 fp _ (p + 16) (p + 20) e (by omega) rfl,
      bind_read32 fp _ (p + 20) (p + 24) e (by omega) rfl]
    rfl
  · simp only [room_light_bytes, if_neg hv] at h ⊢
    rw [bind_read32 fp _ p (p + 4) e (by omega) rfl,
      bind_read32 fp _ (p + 4) (p + 8) e (by omega) rfl,
      bind_read32 fp _ (p + 8) (p + 12) e (by omega) rfl,
      bind_read16 fp _ (p + 12) (p + 14) e (by omega) rfl,
      file_pure_bind,
      bind_read32 fp _ (p + 14) (p + 18) e (by omega) rfl]
    rfl

theorem read_room_static_mesh_at (v : version) (fp : file) (p : Nat) (e : Bool)
    (h : p + room_static_mesh_bytes v ≤ fp.size) :
    (read_room_static_mesh v fp ⟨p, e⟩).2 = ⟨(p + room_static_mesh_bytes v : Nat), e⟩ := by
  unfold read_room_static_mesh
  by_cases hv : v = .version_tr2
  · simp only [room_static_mesh_bytes, if_pos hv] at h ⊢
    rw [bind_read32 fp _ p (p + 4) e (by omega) rfl,
      bind_read32 fp _ (p + 4) (p + 8) e (by omega) rfl,
      bind_read32 fp _ (p + 8) (p + 12) e (by omega) rfl,
      bind_read16 fp _ (p + 12) (p + 14) e (by omega) rfl]
    rw [bind_read16 fp _ (p + 14) (p + 16) e (by omega) rfl]
    rw [bind_read16 fp _ (p + 16) (p + 18) e (by omega) rfl, file_pure_bind,
      bind_read16 fp _ (p + 18) (p + 20) e (by omega) rfl]
    rfl
  · simp only [room_static_mesh_bytes, if_neg hv] at h ⊢
    rw [bind_read32 fp _ p (p + 4) e (by omega) rfl,
      bind_read32 fp _ (p + 4) (p + 8) e (by omega) rfl,
      bind_read32 fp _ (p + 8) (p + 12) e (by omega) rfl,
      bind_read16 fp _ (p + 12) (p + 14) e (by omega) rfl]
    rw [bind_read16 fp _ (p + 14) (p + 16) e (by omega) rfl]
    rw [file_pure_bind, bind_read16 fp _ (p + 16) (p + 18) e (by omega) rfl]
    rfl

theorem bind_ftell {β : Type} (f : Int → file_m β) (c : cursor) :
    (ftell >>= f) c = f c.pos c := rfl

theorem u32_double (words : Nat) : u32 ((words : Int) * 2) = 2 * words % 4294967296 := by
  unfold u32
  omega

theorem i32_sectors (z x : Nat) (h : 8 * z * x < 2147483648) :
    i32 ((z : Int) * x * 8) = ((8 * z * x : Nat) : Int) := by
  have hc : ((z : Int) * x * 8) = ((8 * z * x : Nat) : Int) := by
    push_cast
    ring
  rw [hc]
  unfold i32
  omega

theorem fseek_cur_to (off : Int) (n p q : Nat) (e : Bool) (h : off = n) (hq : q = p + n) :
    fseek_cur off ⟨p, e⟩ = ((), ⟨(q : Nat), false⟩) := by
  rw [fseek_cur_at off n p e h, hq]

theorem read_records_to {α : Type} (fp : file) (read : file_m α) (k : Nat)
    (hread : ∀ p e, p + k ≤ fp.size → (read ⟨p, e⟩).2 = ⟨(p + k : Nat), e⟩)
    (n p q : Nat) (e : Bool) (hq : q = p + k * n) (h : q ≤ fp.size) :
    (read_records read n ⟨p, e⟩).2 = ⟨(q : Nat), e⟩ := by
  have hq2 : q = p + n * k := by rw [hq, Nat.mul_comm]
  rw [read_records_at fp read k hread n p e (by omega), hq2]

theorem read_room_state (v : version) (fp : file) (start : Nat) (e : Bool)
    (words portals z x lights sms : Nat)
    (hwords : stored_u32 fp (start + 16) = words)
    (hportals : stored_u16 fp (start + 16 + 4 + 2 * words % 4294967296) = portals)
    (hz : stored_u16 fp (start + 16 + 4 + 2 * words % 4294967296 + 2 + 32 * portals) = z)
    (hx : stored_u16 fp (start + 16 + 4 + 2 * words % 4294967296 + 2 + 32 * portals + 2) = x)
    (hlights : stored_u16 fp (start + 16 + 4 + 2 * words % 4294967296 + 2 + 32 * portals + 4 +
      8 * z * x + room_lighting_bytes v) = lights)
    (hsms : stored_u16 fp (start + 16 + 4 + 2 * words % 4294967296 + 2 + 32 * portals + 4 +
      8 * z * x + room_lighting_bytes v + 2 + room_light_bytes v * lights) = sms)
    (hsec : 8 * z * x < 2147483648)
    (hfit : start + room_size v ⟨words, portals, z, x, lights, sms⟩ ≤ fp.size) :
    (read_room v fp ⟨start, e⟩).2 =
      ⟨(start + room_size v ⟨words, portals, z, x, lights, sms⟩ : Nat), false⟩ := by
  have hlight := read_records_to fp (read_room_light v fp) (room_light_bytes v)
    (read_room_light_at v fp)
  have hsm := read_records_to fp (read_room_static_mesh v fp) (room_static_mesh_bytes v)
    (read_room_static_mesh_at v fp)
  have hi32 := i32_sectors z x hsec
  simp only [room_size] at hfit ⊢
  generalize 8 * z * x = S at *
  generalize hW : 2 * words % 4294967296 = W at *
  generalize hL : room_light_bytes v * lights = L at *
  generalize hM : room_static_mesh_bytes v * sms = M at *
  have hset : ((start + 16 + 4 : Nat) : Int) + ((u32 ((words : Int) * 2) : Nat) : Int) =
      ((start + 16 + 4 + W : Nat) : Int) := by
    rw [u32_double, hW]
    exact (Nat.cast_add _ _).symm
  unfold read_room
  rw [bind_read32 fp _ start (start + 4) e (by omega) rfl,
    bind_read32 fp _ (start + 4) (start + 8) e (by omega) rfl,
    bind_read32 fp _ (start + 8) (start + 12) e (by omega) rfl,
    bind_read32 fp _ (start + 12) (start + 16) e (by omega) rfl,
    bind_read32 fp _ (start + 16) (start + 16 + 4) e (by omega) rfl,
    bind_ftell, u32_i32_of_lt _ (stored_u32_lt _ _), hwords]
  rw [file_bind_apply, file_bind_apply, file_bind_apply, file_bind_apply, file_bind_apply,
    file_bind_apply, file_bind_apply, file_bind_apply]
  rw [bind_fseek_set _ _ (start + 16 + 4 + W) _ hset]
  rw [bind_read16 fp _ (start + 16 + 4 + W) (start + 16 + 4 + W + 2) false (by omega) rfl,
    u16_i16_of_lt _ (stored_u16_lt _ _), hportals]
  rw [bind_fseek_cur _ _ (32 * portals) (start + 16 + 4 + W + 2)
    (start + 16 + 4 + W + 2 + 32 * portals) false (by push_cast; ring) rfl]
  rw [bind_read16 fp _ (start + 16 + 4 + W + 2 + 32 * portals)
      (start + 16 + 4 + W + 2 + 32 * portals + 2) false (by omega) rfl,
    u16_i16_of_lt _ (stored_u16_lt _ _), hz]
  rw [bind_read16 fp _ (start + 16 + 4 + W + 2 + 32 * portals + 2)
      (start + 16 + 4 + W + 2 + 32 * portals + 4) false (by omega) (by omega),
    u16_i16_of_lt _ (stored_u16_lt _ _), hx]
  rw [bind_fseek_cur _ _ S (start + 16 + 4 + W + 2 + 32 * portals + 4)
    (start + 16 + 4 + W + 2 + 32 * portals + 4 + S) false hi32 rfl]
  rw [bind_read16 fp _ (start + 16 + 4 + W + 2 + 32 * portals + 4 + S)
      (start + 16 + 4 + W + 2 + 32 * portals + 4 + S + 2) false (by omega) rfl]
  dsimp only
  by_cases hv : v = .version_tr2
  · simp only [room_lighting_bytes, if_pos hv] at hfit hlights hsms ⊢
    rw [bind_read16 fp _ (start + 16 + 4 + W + 2 + 32 * portals + 4 + S + 2)
        (start + 16 + 4 + W + 2 + 32 * portals + 4 + S + 4) false (by omega) (by omega),
      bind_read16 fp _ (start + 16 + 4 + W + 2 + 32 * portals + 4 + S + 4)
        (start + 16 + 4 + W + 2 + 32 * portals + 4 + S + 6) false (by omega) (by omega),
      file_pure_bind,
      bind_read16 fp _ (start + 16 + 4 + W + 2 + 32 * portals + 4 + S + 6)
        (start + 16 + 4 + W + 2 + 32 * portals + 4 + S + 6 + 2) false (by omega) rfl,
      u16_i16_of_lt _ (stored_u16_lt _ _), hlights,
      file_bind_apply,
      hlight lights (start + 16 + 4 + W + 2 + 32 * portals + 4 + S + 6 + 2)
        (start + 16 + 4 + W + 2 + 32 * portals + 4 + S + 6 + 2 + L) false (by rw [hL])
        (by omega),
      bind_read16 fp _ (start + 16 + 4 + W + 2 + 32 * portals + 4 + S + 6 + 2 + L)
        (start + 16 + 4 + W + 2 + 32 * portals + 4 + S + 6 + 2 + L + 2) false (by omega) rfl,
      u16_i16_of_lt _ (stored_u16_lt _ _), hsms,
      file_bind_apply,
      hsm sms (start + 16 + 4 + W + 2 + 32 * portals + 4 + S + 6 + 2 + L + 2)
        (start + 16 + 4 + W + 2 + 32 * portals + 4 + S + 6 + 2 + L + 2 + M) false
        (by rw [hM]) (by omega),
      bind_read16 fp _ (start + 16 + 4 + W + 2 + 32 * portals + 4 + S + 6 + 2 + L + 2 + M)
        (start + 16 + 4 + W + 2 + 32 * portals + 4 + S + 6 + 2 + L + 2 + M + 2) false
        (by omega) rfl,
      bind_read16 fp _ (start + 16 + 4 + W + 2 + 32 * portals + 4 + S + 6 + 2 + L + 2 + M + 2)
        (start + (16 + 4 + W + 2 + 32 * portals + 4 + S + 6 + 2 + L + 2 + M + 4)) false
        (by omega) (by omega)]
    rfl
  · simp only [room_lighting_bytes, if_neg hv] at hfit hlights hsms ⊢
    rw [file_pure_bind,
      bind_read16 fp _ (start + 16 + 4 + W + 2 + 32 * portals + 4 + S + 2)
        (start + 16 + 4 + W + 2 + 32 * portals + 4 + S + 2 + 2) false (by omega) rfl,
      u16_i16_of_lt _ (stored_u16_lt _ _), hlights,
      file_bind_apply,
      hlight lights (start + 16 + 4 + W + 2 + 32 * portals + 4 + S + 2 + 2)
        (start + 16 + 4 + W + 2 + 32 * portals + 4 + S + 2 + 2 + L) false (by rw [hL])
        (by omega),
      bind_read16 fp _ (start + 16 + 4 + W + 2 + 32 * portals + 4 + S + 2 + 2 + L)
        (start + 16 + 4 + W + 2 + 32 * portals + 4 + S + 2 + 2 + L + 2) false (by omega) rfl,
      u16_i16_of_lt _ (stored_u16_lt _ _), hsms,
      file_bind_apply,
      hsm sms (start + 16 + 4 + W + 2 + 32 * portals + 4 + S + 2 + 2 + L + 2)
        (start + 16 + 4 + W + 2 + 32 * portals + 4 + S + 2 + 2 + L + 2 + M) false
        (by rw [hM]) (by omega),
      bind_read16 fp _ (start + 16 + 4 + W + 2 + 32 * portals + 4 + S + 2 + 2 + L + 2 + M)
        (start + 16 + 4 + W + 2 + 32 * portals + 4 + S + 2 + 2 + L + 2 + M + 2) false
        (by omega) rfl,
      bind_read16 fp _ (start + 16 + 4 + W + 2 + 32 * portals + 4 + S + 2 + 2 + L + 2 + M + 2)
        (start + (16 + 4 + W + 2 + 32 * portals + 4 + S + 2 + 2 + L + 2 + M + 4)) false
        (by omega) (by omega)]
    rfl

theorem skip_tr1_room_state (fp : file) (start : Nat) (e : Bool)
    (words portals z x lights sms : Nat)
    (hwords : stored_u32 fp (start + 16) = words)
    (hportals : stored_u16 fp (start + 16 + 4 + 2 * words % 4294967296) = portals)
    (hz : stored_u16 fp (start + 16 + 4 + 2 * words % 4294967296 + 2 + 32 * portals) = z)
    (hx : stored_u16 fp (start + 16 + 4 + 2 * words % 4294967296 + 2 + 32 * portals + 2) = x)
    (hlights : stored_u16 fp (start + 16 + 4 + 2 * words % 4294967296 + 2 + 32 * portals + 4 +
      8 * z * x + room_lighting_bytes .version_tr1) = lights)
    (hsms : stored_u16 fp (start + 16 + 4 + 2 * words % 4294967296 + 2 + 32 * portals + 4 +
      8 * z * x + room_lighting_bytes .version_tr1 + 2 +
      room_light_bytes .version_tr1 * lights) = sms)
    (hsec : 8 * z * x < 2147483648)
    (hfit : start + room_size .version_tr1 ⟨words, portals, z, x, lights, sms⟩ ≤ fp.size) :
    (skip_tr1_room fp ⟨start, e⟩).2 =
      ⟨(start + room_size .version_tr1 ⟨words, portals, z, x, lights, sms⟩ : Nat), false⟩ := by
  have hi32 := i32_sectors z x hsec
  have h1 : room_lighting_bytes .version_tr1 = 2 := rfl
  have h2 : room_light_bytes .version_tr1 = 18 := rfl
  have h3 : room_static_mesh_bytes .version_tr1 = 18 := rfl
  simp only [room_size, h1, h2, h3] at hfit hlights hsms ⊢
  generalize 8 * z * x = S at *
  generalize hW : 2 * words % 4294967296 = W at *
  have hset : (((u32 (((u32 (i32 (stored_u32 fp (start + 16))) : Nat) : Int) * 2) : Nat) : Int)) =
      ((W : Nat) : Int) := by
    rw [u32_i32_of_lt _ (stored_u32_lt _ _), hwords, u32_double, hW]
  unfold skip_tr1_room
  rw [bind_fseek_cur _ (16 : Int) 16 start (start + 16) e rfl rfl,
    bind_read32 fp _ (start + 16) (start + 16 + 4) false (by omega) rfl,
    bind_fseek_cur _ _ W (start + 16 + 4) (start + 16 + 4 + W) false hset rfl,
    bind_read16 fp _ (start + 16 + 4 + W) (start + 16 + 4 + W + 2) false (by omega) rfl,
    u16_i16_of_lt _ (stored_u16_lt _ _), hportals,
    bind_fseek_cur _ _ (32 * portals) (start + 16 + 4 + W + 2)
      (start + 16 + 4 + W + 2 + 32 * portals) false (by push_cast; ring) rfl,
    bind_read16 fp _ (start + 16 + 4 + W + 2 + 32 * portals)
      (start + 16 + 4 + W + 2 + 32 * portals + 2) false (by omega) rfl,
    u16_i16_of_lt _ (stored_u16_lt _ _), hz,
    bind_read16 fp _ (start + 16 + 4 + W + 2 + 32 * portals + 2)
      (start + 16 + 4 + W + 2 + 32 * portals + 4) false (by omega) (by omega),
    u16_i16_of_lt _ (stored_u16_lt _ _), hx,
    bind_fseek_cur _ _ S (start + 16 + 4 + W + 2 + 32 * portals + 4)
      (start + 16 + 4 + W + 2 + 32 * portals + 4 + S) false hi32 rfl,
    bind_fseek_cur _ (2 : Int) 2 (start + 16 + 4 + W + 2 + 32 * portals + 4 + S)
      (start + 16 + 4 + W + 2 + 32 * portals + 4 + S + 2) false rfl rfl,
    bind_read16 fp _ (start + 16 + 4 + W + 2 + 32 * portals + 4 + S + 2)
      (start + 16 + 4 + W + 2 + 32 * portals + 4 + S + 2 + 2) false (by omega) rfl,
    u16_i16_of_lt _ (stored_u16_lt _ _), hlights,
    bind_fseek_cur _ _ (18 * lights) (start + 16 + 4 + W + 2 + 32 * portals + 4 + S + 2 + 2)
      (start + 16 + 4 + W + 2 + 32 * portals + 4 + S + 2 + 2 + 18 * lights) false
      (by push_cast; ring) rfl,
    bind_read16 fp _ (start + 16 + 4 + W + 2 + 32 * portals + 4 + S + 2 + 2 + 18 * lights)
      (start + 16 + 4 + W + 2 + 32 * portals + 4 + S + 2 + 2 + 18 * lights + 2) false
      (by omega) rfl,
    u16_i16_of_lt _ (stored_u16_lt _ _), hsms,
    bind_fseek_cur _ _ (18 * sms)
      (start + 16 + 4 + W + 2 + 32 * portals + 4 + S + 2 + 2 + 18 * lights + 2)
      (start + 16 + 4 + W + 2 + 32 * portals + 4 + S + 2 + 2 + 18 * lights + 2 + 18 * sms)
      false (by push_cast; ring) rfl,
    bind_fseek_cur _ (2 : Int) 2
      (start + 16 + 4 + W + 2 + 32 * portals + 4 + S + 2 + 2 + 18 * lights + 2 + 18 * sms)
      (start + 16 + 4 + W + 2 + 32 * portals + 4 + S + 2 + 2 + 18 * lights + 2 + 18 * sms + 2)
      false rfl rfl,
    fseek_cur_to (2 : Int) 2
      (start + 16 + 4 + W + 2 + 32 * portals + 4 + S + 2 + 2 + 18 * lights + 2 + 18 * sms + 2)
      (start + (16 + 4 + W + 2 + 32 * portals + 4 + S + 2 + 2 + 18 * lights + 2 + 18 * sms + 4))
      false rfl (by omega)]

theorem skip_tr2_room_state (fp : file) (start : Nat) (e : Bool)
    (words portals z x lights sms : Nat)
    (hwords : stored_u32 fp (start + 16) = words)
    (hportals : stored_u16 fp (start + 16 + 4 + 2 * words % 4294967296) = portals)
    (hz : stored_u16 fp (start + 16 + 4 + 2 * words % 4294967296 + 2 + 32 * portals) = z)
    (hx : stored_u16 fp (start + 16 + 4 + 2 * words % 4294967296 + 2 + 32 * portals + 2) = x)
    (hlights : stored_u16 fp (start + 16 + 4 + 2 * words % 4294967296 + 2 + 32 * portals + 4 +
      8 * z * x + room_lighting_bytes .version_tr2) = lights)
    (hsms : stored_u16 fp (start + 16 + 4 + 2 * words % 4294967296 + 2 + 32 * portals + 4 +
      8 * z * x + room_lighting_bytes .version_tr2 + 2 +
      room_light_bytes .version_tr2 * lights) = sms)
    (hsec : 8 * z * x < 2147483648)
    (hfit : start + room_size .version_tr2 ⟨words, portals, z, x, lights, sms⟩ ≤ fp.size) :
    (skip_tr2_room fp ⟨start, e⟩).2 =
      ⟨(start + room_size .version_tr2 ⟨words, portals, z, x, lights, sms⟩ : Nat), false⟩ := by
  have hi32 := i32_sectors z x hsec
  have h1 : room_lighting_bytes .version_tr2 = 6 := rfl
  have h2 : room_light_bytes .version_tr2 = 24 := rfl
  have h3 : room_static_mesh_bytes .version_tr2 = 20 := rfl
  simp only [room_size, h1, h2, h3] at hfit hlights hsms ⊢
  generalize 8 * z * x = S at *
  generalize hW : 2 * words % 4294967296 = W at *
  have hset : (((u32 (((u32 (i32 (stored_u32 fp (start + 16))) : Nat) : Int) * 2) : Nat) : Int)) =
      ((W : Nat) : Int) := by
    rw [u32_i32_of_lt _ (stored_u32_lt _ _), hwords, u32_double, hW]
  unfold skip_tr2_room
  rw [bind_fseek_cur _ (16 : Int) 16 start (start + 16) e rfl rfl,
    bind_read32 fp _ (start + 16) (start + 16 + 4) false (by omega) rfl,
    bind_fseek_cur _ _ W (start + 16 + 4) (start + 16 + 4 + W) false hset rfl,
    bind_read16 fp _ (start + 16 + 4 + W) (start + 16 + 4 + W + 2) false (by omega) rfl,
    u16_i16_of_lt _ (stored_u16_lt _ _), hportals,
    bind_fseek_cur _ _ (32 * portals) (start + 16 + 4 + W + 2)
      (start + 16 + 4 + W + 2 + 32 * portals) false (by push_cast; ring) rfl,
    bind_read16 fp _ (start + 16 + 4 + W + 2 + 32 * portals)
      (start + 16 + 4 + W + 2 + 32 * portals + 2) false (by omega) rfl,
    u16_i16_of_lt _ (stored_u16_lt _ _), hz,
    bind_read16 fp _ (start + 16 + 4 + W + 2 + 32 * portals + 2)
      (start + 16 + 4 + W + 2 + 32 * portals + 4) false (by omega) (by omega),
    u16_i16_of_lt _ (stored_u16_lt _ _), hx,
    bind_fseek_cur _ _ S (start + 16 + 4 + W + 2 + 32 * portals + 4)
      (start + 16 + 4 + W + 2 + 32 * portals + 4 + S) false hi32 rfl,
    bind_fseek_cur _ (2 : Int) 2 (start + 16 + 4 + W + 2 + 32 * portals + 4 + S)
      (start + 16 + 4 + W + 2 + 32 * portals + 4 + S + 2) false rfl rfl,
    bind_fseek_cur _ (2 : Int) 2 (start + 16 + 4 + W + 2 + 32 * portals + 4 + S + 2)
      (start + 16 + 4 + W + 2 + 32 * portals + 4 + S + 4) false rfl (by omega),
    bind_fseek_cur _ (2 : Int) 2 (start + 16 + 4 + W + 2 + 32 * portals + 4 + S + 4)
      (start + 16 + 4 + W + 2 + 32 * portals + 4 + S + 6) false rfl (by omega),
    bind_read16 fp _ (start + 16 + 4 + W + 2 + 32 * portals + 4 + S + 6)
      (start + 16 + 4 + W + 2 + 32 * portals + 4 + S + 6 + 2) false (by omega) rfl,
    u16_i16_of_lt _ (stored_u16_lt _ _), hlights,
    bind_fseek_cur _ _ (24 * lights) (start + 16 + 4 + W + 2 + 32 * portals + 4 + S + 6 + 2)
      (start + 16 + 4 + W + 2 + 32 * portals + 4 + S + 6 + 2 + 24 * lights) false
      (by push_cast; ring) rfl,
    bind_read16 fp _ (start + 16 + 4 + W + 2 + 32 * portals + 4 + S + 6 + 2 + 24 * lights)
      (start + 16 + 4 + W + 2 + 32 * portals + 4 + S + 6 + 2 + 24 * lights + 2) false
      (by omega) rfl,
    u16_i16_of_lt _ (stored_u16_lt _ _), hsms,
    bind_fseek_cur _ _ (20 * sms)
      (start + 16 + 4 + W + 2 + 32 * portals + 4 + S + 6 + 2 + 24 * lights + 2)
      (start + 16 + 4 + W + 2 + 32 * portals + 4 + S + 6 + 2 + 24 * lights + 2 + 20 * sms)
      false (by push_cast; ring) rfl,
    bind_fseek_cur _ (2 : Int) 2
      (start + 16 + 4 + W + 2 + 32 * portals + 4 + S + 6 + 2 + 24 * lights + 2 + 20 * sms)
      (start + 16 + 4 + W + 2 + 32 * portals + 4 + S + 6 + 2 + 24 * lights + 2 + 20 * sms + 2)
      false rfl rfl,
    fseek_cur_to (2 : Int) 2
      (start + 16 + 4 + W + 2 + 32 * portals + 4 + S + 6 + 2 + 24 * lights + 2 + 20 * sms + 2)
      (start + (16 + 4 + W + 2 + 32 * portals + 4 + S + 6 + 2 + 24 * lights + 2 + 20 * sms + 4))
      false rfl (by omega)]

/-- C35 as amended: for a room record that lies inside the file, so that no read outside
its room data fails, and whose sector product `8 * z_sectors * x_sectors` is below 2^31,
`read_room` leaves the file position where the room skip of the directory scan of the
same version leaves it, `room_size` bytes behind the start of the record; the room data
counts for the `uint32_t` product `2 * words`, that is for `2 * words` modulo 2^32. -/
theorem read_room_ends_where_skip_ends (v : version) (fp : file) (start : Nat) (e : Bool)
    (hfit : start + room_size v (room_counts_at v fp start) ≤ fp.size)
    (hsec : 8 * (room_counts_at v fp start).z_sectors *
      (room_counts_at v fp start).x_sectors < 2147483648) :
    (read_room v fp ⟨start, e⟩).2.pos =
      ((start + room_size v (room_counts_at v fp start) : Nat) : Int) ∧
    (v = .version_tr1 →
      (skip_tr1_room fp ⟨start, e⟩).2.pos =
        ((start + room_size v (room_counts_at v fp start) : Nat) : Int)) ∧
    (v = .version_tr2 →
      (skip_tr2_room fp ⟨start, e⟩).2.pos =
        ((start + room_size v (room_counts_at v fp start) : Nat) : Int)) := by
  refine ⟨?_, ?_, ?_⟩
  · rw [read_room_state v fp start e _ _ _ _ _ _ rfl rfl rfl rfl rfl rfl hsec hfit]
    rfl
  · intro hv
    subst hv
    rw [skip_tr1_room_state fp start e _ _ _ _ _ _ rfl rfl rfl rfl rfl rfl hsec hfit]
    rfl
  · intro hv
    subst hv
    rw [skip_tr2_room_state fp start e _ _ _ _ _ _ rfl rfl rfl rfl rfl rfl hsec hfit]
    rfl

set_option maxRecDepth 20000 in
/-- C35 as amended, on a file with one room record: read as V1 the record has 116 bytes,
read as V2 it has 84, and in both versions `read_room` and the room skip end behind it. -/
theorem read_room_ends_where_skip_ends_witness :
    (0 + room_size .version_tr1 (room_counts_at .version_tr1 room_file 0) ≤ room_file.size ∧
      room_size .version_tr1 (room_counts_at .version_tr1 room_file 0) = 116 ∧
      (read_room .version_tr1 room_file ⟨(0 : Nat), false⟩).2.pos =
        ((0 + room_size .version_tr1 (room_counts_at .version_tr1 room_file 0) : Nat) : Int) ∧
      (version.version_tr1 = .version_tr1 →
        (skip_tr1_room room_file ⟨(0 : Nat), false⟩).2.pos =
          ((0 + room_size .version_tr1 (room_counts_at .version_tr1 room_file 0) : Nat) : Int)) ∧
      (version.version_tr1 = .version_tr2 →
        (skip_tr2_room room_file ⟨(0 : Nat), false⟩).2.pos =
          ((0 + room_size .version_tr1 (room_counts_at .version_tr1 room_file 0) : Nat) :
            Int))) ∧
    (0 + room_size .version_tr2 (room_counts_at .version_tr2 room_file 0) ≤ room_file.size ∧
      room_size .version_tr2 (room_counts_at .version_tr2 room_file 0) = 84 ∧
      (read_room .version_tr2 room_file ⟨(0 : Nat), false⟩).2.pos =
        ((0 + room_size .version_tr2 (room_counts_at .version_tr2 room_file 0) : Nat) : Int) ∧
      (version.version_tr2 = .version_tr1 →
        (skip_tr1_room room_file ⟨(0 : Nat), false⟩).2.pos =
          ((0 + room_size .version_tr2 (room_counts_at .version_tr2 room_file 0) : Nat) : Int)) ∧
      (version.version_tr2 = .version_tr2 →
        (skip_tr2_room room_file ⟨(0 : Nat), false⟩).2.pos =
          ((0 + room_size .version_tr2 (room_counts_at .version_tr2 room_file 0) : Nat) :
            Int))) :=
  ⟨⟨by decide, by decide,
      read_room_ends_where_skip_ends .version_tr1 room_file 0 false (by decide) (by decide)⟩,
    ⟨by decide, by decide,
      read_room_ends_where_skip_ends .version_tr2 room_file 0 false (by decide) (by decide)⟩⟩

set_option maxRecDepth 20000 in
/-- C35 fails for a word count of 2^31 or more: in a file of 2^32 + 36 bytes whose room
record at offset 0 has 2^31 words of room data and no portals, sectors, lights or static
meshes, the record of the claim ends at 2^32 + 36, the size of the file, but the
`uint32_t` product `num_room_data_words * 2` is 0 and both `read_room` and the room skip
of the V1 scan end at offset 36. -/
theorem room_data_length_wraps :
    stored_u32 long_room_file 16 = 2147483648 ∧
    stored_u16 long_room_file (16 + 4 + 2 * 2147483648) = 0 ∧
    stored_u16 long_room_file (16 + 4 + 2 * 2147483648 + 2) = 0 ∧
    stored_u16 long_room_file (16 + 4 + 2 * 2147483648 + 2 + 2) = 0 ∧
    stored_u16 long_room_file (16 + 4 + 2 * 2147483648 + 2 + 4 + 2) = 0 ∧
    stored_u16 long_room_file (16 + 4 + 2 * 2147483648 + 2 + 4 + 2 + 2) = 0 ∧
    16 + 4 + 2 * 2147483648 + 2 + 32 * 0 + 4 + 8 * 0 * 0 + 2 + 2 + 18 * 0 + 2 + 18 * 0 + 4 =
      long_room_file.size ∧
    (read_room .version_tr1 long_room_file ⟨(0 : Nat), false⟩).2.pos = 36 ∧
    (skip_tr1_room long_room_file ⟨(0 : Nat), false⟩).2.pos = 36 := by
  refine ⟨by decide, by decide, by decide, by decide, by decide, by decide, by decide, ?_, ?_⟩
  · rw [read_room_state .version_tr1 long_room_file 0 false 2147483648 0 0 0 0 0
      (by decide) (by decide) (by decide) (by decide) (by decide) (by decide) (by decide)
      (by decide)]
    decide
  · rw [skip_tr1_room_state long_room_file 0 false 2147483648 0 0 0 0 0
      (by decide) (by decide) (by decide) (by decide) (by decide) (by decide) (by decide)
      (by decide)]
    decide

end tr
